import Mathlib

/-!
GridFluidSim3D: the triangle mesh store (`src/src/trianglemesh.cpp`)

A shallow embedding of the mesh container and of its structural operations.

Conventions of the embedding

* `std::vector<T>` is a `List T`; `push_back` appends at the end.
* `int` is `Int`.  Signed overflow is undefined behaviour in C++, so the
  arithmetic is the mathematical one; where the writers of the binary formats
  store a value of the type `size_t` in an `int`, the value is taken modulo
  `2^32` (`toInt32`).
* `vmath::vec3` carries rational coordinates, and the operations of `vmath`
  on them are exact.  The signed volumes of lines 1253-1275, which the code
  computes from the members of the vectors itself, are computed with the
  rounding of `float` and `double` (`roundFloat`, `roundDouble`).
* `v[i]` with a data dependent index is `vecGet v i`, and `v[i] = x` is
  `vecSet v i x`.  Both report `Fault.outOfRange` where the C++ program would
  index outside of the vector, a failing `assert` reports
  `Fault.assertion`, and an expression `new T[n]` with a negative `n`
  reports `Fault.allocation`.  A loop `for (i = 0; i < v.size(); i++)` that only reads
  `v[i]` is a recursion over the elements of `v`.
* A `while` loop is a recursion over a number of iterations that is computed
  from the state before the loop; the theorems show that it suffices.
* Code that lives outside of `trianglemesh.cpp` (the default constructor of
  `Triangle`, `vmath::normalize`, the spatial hash used to search for
  duplicate vertices, `Collision::lineIntersectsTriangle`) is a parameter of
  the operation that uses it.
* The values that `_randomFloat` returns are a parameter: `getCellsInsideMesh`
  takes the stream `jitter` of the vectors that the calls of
  `_isCellInsideMesh` draw, in the order of the calls.
-/

namespace GridFluidSim3D

/-! ## Data model -/

/-- The ways in which an operation can leave its defined behaviour.
`outOfFuel` is reported by the model of a `while` loop when the number of
iterations it is given does not suffice, and `allocation` where an expression
`new T[n]` throws because `n` is negative. -/
inductive Fault where
  | outOfRange
  | assertion
  | outOfFuel
  | allocation
  deriving DecidableEq, Repr

deriving instance DecidableEq for Except

/-- The type `vmath::vec3`; a coordinate is a rational number. -/
structure Vec3 where
  x : ℚ
  y : ℚ
  z : ℚ
  deriving DecidableEq

/-- The type `Triangle`: the array `int tri[3]` of vertex indices. -/
structure Triangle where
  t0 : Int
  t1 : Int
  t2 : Int
  deriving DecidableEq, Repr

/-- The data members of `TriangleMesh` that the mesh store reads and writes. -/
structure TriangleMesh where
  vertices : List Vec3
  normals : List Vec3
  triangles : List Triangle
  vertexcolors : List Vec3
  _vertexTriangles : List (List Int)
  _triangleAreas : List ℚ
  deriving DecidableEq

/-- The entry `t.tri[k]`. -/
def Triangle.tri (t : Triangle) (k : Fin 3) : Int :=
  match k with
  | 0 => t.t0
  | 1 => t.t1
  | 2 => t.t2

/-- The read `v[i]`. -/
def vecGet {α : Type} (v : List α) (i : Int) : Except Fault α :=
  if 0 ≤ i then
    match v[i.toNat]? with
    | some a => .ok a
    | none => .error .outOfRange
  else .error .outOfRange

/-- The write `v[i] = a`. -/
def vecSet {α : Type} (v : List α) (i : Int) (a : α) : Except Fault (List α) :=
  if 0 ≤ i ∧ i.toNat < v.length then .ok (v.set i.toNat a) else .error .outOfRange

/-! ## Vector arithmetic used by the mesh store -/

/-- The operator `+` of `vmath::vec3`. -/
def Vec3.add (a b : Vec3) : Vec3 := ⟨a.x + b.x, a.y + b.y, a.z + b.z⟩

/-- The operator `-` of `vmath::vec3`. -/
def Vec3.sub (a b : Vec3) : Vec3 := ⟨a.x - b.x, a.y - b.y, a.z - b.z⟩

/-- The operator `/` of `vmath::vec3` by a scalar. -/
def Vec3.div (a : Vec3) (s : ℚ) : Vec3 := ⟨a.x / s, a.y / s, a.z / s⟩

/-- The function `vmath::cross`. -/
def Vec3.cross (a b : Vec3) : Vec3 :=
  ⟨a.y * b.z - a.z * b.y, a.z * b.x - a.x * b.z, a.x * b.y - a.y * b.x⟩

/-- The default constructed `vmath::vec3`. -/
def Vec3.zero : Vec3 := ⟨0, 0, 0⟩

/-! ## `removeDuplicateTriangles` (lines 421-450) and `_trianglesEqual` (519-523) -/

/-- The comparator `triangleSort` (lines 421-432). -/
def triangleSort (a b : Triangle) : Bool :=
  if a.t0 = b.t0 then
    if a.t1 = b.t1 then
      decide (a.t2 < b.t2)
    else
      decide (a.t1 < b.t1)
  else
    decide (a.t0 < b.t0)

/-- The method `_trianglesEqual` (lines 519-523). -/
def _trianglesEqual (t1 t2 : Triangle) : Bool :=
  decide (t1.t0 = t2.t0) && decide (t1.t1 = t2.t1) && decide (t1.t2 = t2.t2)

/-- The call `std::sort(first, last, comp)`: the elements are put in an order
in which no element is `comp`-smaller than an earlier one.  The sort is an
insertion sort for the relation "not `comp b a`"; `stdSort_unique` shows that
for `triangleSort` every other sorting procedure returns the same list. -/
def stdSort {α : Type} (comp : α → α → Bool) (l : List α) : List α :=
  l.insertionSort (fun a b => comp b a = false)

/-- The loop of lines 438-446: `last` is the triangle seen before `t`, and a
triangle is kept when it differs from `last`. -/
def uniqueLoop : List Triangle → Triangle → List Triangle
  | [], _ => []
  | t :: ts, last =>
    if _trianglesEqual t last then uniqueLoop ts t else t :: uniqueLoop ts t

/-- The method `removeDuplicateTriangles` (lines 434-450).  `last` is the
value of the default constructed `Triangle last;` of line 438; the
constructor is declared outside of this file. -/
def removeDuplicateTriangles (last : Triangle) (m : TriangleMesh) : TriangleMesh :=
  let sorted := stdSort triangleSort m.triangles
  let uniqueTriangles := uniqueLoop sorted last
  { m with triangles := uniqueTriangles }

/-! ## `_updateVertexTriangles` (728-747) and `updateVertexNormals` (452-480) -/

/-- The statement `_vertexTriangles[idx].push_back(i)`. -/
def pushAt (vt : List (List Int)) (idx : Int) (i : Int) : Except Fault (List (List Int)) := do
  let l ← vecGet vt idx
  vecSet vt idx (l ++ [i])

/-- The loop of lines 740-745; `i` is the index of the first triangle of the list. -/
def vertexTrianglesLoop : List Triangle → Int → List (List Int) → Except Fault (List (List Int))
  | [], _, vt => .ok vt
  | t :: ts, i, vt => do
    let vt ← pushAt vt t.t0 i
    let vt ← pushAt vt t.t1 i
    let vt ← pushAt vt t.t2 i
    vertexTrianglesLoop ts (i + 1) vt

/-- The method `_updateVertexTriangles` (lines 728-747). -/
def _updateVertexTriangles (m : TriangleMesh) : Except Fault TriangleMesh := do
  let vt ← vertexTrianglesLoop m.triangles 0 (List.replicate m.vertices.length [])
  pure { m with _vertexTriangles := vt }

/-- The loop of lines 460-468: one face normal per triangle. -/
def faceNormalsLoop (normalize : Vec3 → Vec3) (vertices : List Vec3) :
    List Triangle → Except Fault (List Vec3)
  | [] => .ok []
  | t :: ts => do
    let p0 ← vecGet vertices t.t0
    let p1 ← vecGet vertices t.t1
    let p2 ← vecGet vertices t.t2
    let v1 := p1.sub p0
    let v2 := p2.sub p0
    let norm := normalize (v1.cross v2)
    let rest ← faceNormalsLoop normalize vertices ts
    pure (norm :: rest)

/-- The loop of lines 473-475: the sum of the face normals of the triangles
around one vertex. -/
def sumFaceNormals (facenormals : List Vec3) : List Int → Vec3 → Except Fault Vec3
  | [], n => .ok n
  | j :: js, n => do
    let f ← vecGet facenormals j
    sumFaceNormals facenormals js (n.add f)

/-- The loop of lines 471-479: one normal per entry of `_vertexTriangles`. -/
def vertexNormalsLoop (normalize : Vec3 → Vec3) (facenormals : List Vec3) :
    List (List Int) → Except Fault (List Vec3)
  | [] => .ok []
  | vt :: vts => do
    let n ← sumFaceNormals facenormals vt Vec3.zero
    let n := normalize (n.div (vt.length : ℚ))
    let rest ← vertexNormalsLoop normalize facenormals vts
    pure (n :: rest)

/-- The method `updateVertexNormals` (lines 452-480); `normalize` is
`vmath::normalize`. -/
def updateVertexNormals (normalize : Vec3 → Vec3) (m : TriangleMesh) :
    Except Fault TriangleMesh := do
  let m ← _updateVertexTriangles { m with normals := [] }
  let facenormals ← faceNormalsLoop normalize m.vertices m.triangles
  let normals ← vertexNormalsLoop normalize facenormals m._vertexTriangles
  pure { m with normals := normals }

/-! ## `removeExtraneousVertices` (lines 1277-1341) -/

/-- The loop of lines 1281-1286: the vertices of every triangle are marked as used. -/
def markUsedLoop : List Triangle → List Bool → Except Fault (List Bool)
  | [], unusedVertices => .ok unusedVertices
  | t :: ts, unusedVertices => do
    let u ← vecSet unusedVertices t.t0 false
    let u ← vecSet u t.t1 false
    let u ← vecSet u t.t2 false
    markUsedLoop ts u

/-- The loop of lines 1288-1293. -/
def countUnused : List Bool → Int
  | [] => 0
  | u :: us => if u then countUnused us + 1 else countUnused us

/-- The variables written by the loop of lines 1310-1321. -/
structure CompactState where
  newVertexList : List Vec3
  newVertexColorList : List Vec3
  indexTranslationTable : List Int
  vidx : Int
  deriving DecidableEq

/-- The loop of lines 1310-1321; the first argument holds the entries `i`,
`i + 1`, ... of `unusedVertices`. -/
def compactLoop (vertices vertexcolors : List Vec3) (hasVertexColors : Bool) :
    List Bool → Int → CompactState → Except Fault CompactState
  | [], _, s => .ok s
  | u :: us, i, s =>
    if !u then do
      let v ← vecGet vertices i
      let table ← vecSet s.indexTranslationTable i s.vidx
      let colors ←
        if hasVertexColors then do
          let c ← vecGet vertexcolors i
          pure (s.newVertexColorList ++ [c])
        else pure s.newVertexColorList
      compactLoop vertices vertexcolors hasVertexColors us (i + 1)
        { newVertexList := s.newVertexList ++ [v]
          newVertexColorList := colors
          indexTranslationTable := table
          vidx := s.vidx + 1 }
    else compactLoop vertices vertexcolors hasVertexColors us (i + 1) s

/-- The loop of lines 1330-1338: every triangle is rewritten through the index
translation table, and the assertion of line 1335 is checked. -/
def translateLoop (indexTranslationTable : List Int) : List Triangle → Except Fault (List Triangle)
  | [] => .ok []
  | t :: ts => do
    let a ← vecGet indexTranslationTable t.t0
    let b ← vecGet indexTranslationTable t.t1
    let c ← vecGet indexTranslationTable t.t2
    if a ≠ -1 ∧ b ≠ -1 ∧ c ≠ -1 then do
      let rest ← translateLoop indexTranslationTable ts
      pure (⟨a, b, c⟩ :: rest)
    else .error .assertion

/-- The method `removeExtraneousVertices` (lines 1277-1341). -/
def removeExtraneousVertices (normalize : Vec3 → Vec3) (m : TriangleMesh) :
    Except Fault TriangleMesh := do
  let unusedVertices ← markUsedLoop m.triangles (List.replicate m.vertices.length true)
  let unusedCount := countUnused unusedVertices
  if unusedCount = 0 then
    pure m
  else do
    let hasVertexColors := decide (m.vertices.length = m.vertexcolors.length)
    let s ← compactLoop m.vertices m.vertexcolors hasVertexColors unusedVertices 0
      { newVertexList := []
        newVertexColorList := []
        indexTranslationTable := List.replicate m.vertices.length (-1)
        vidx := 0 }
    let m1 : TriangleMesh :=
      { m with
        vertices := s.newVertexList
        vertexcolors := if hasVertexColors then s.newVertexColorList else m.vertexcolors }
    let tris ← translateLoop s.indexTranslationTable m1.triangles
    updateVertexNormals normalize { m1 with triangles := tris }

/-! ## `removeTriangles` (lines 1343-1358) -/

/-- The loop of lines 1345-1348. -/
def markInvalidLoop : List Int → List Bool → Except Fault (List Bool)
  | [], invalidTriangles => .ok invalidTriangles
  | tidx :: rest, invalidTriangles => do
    let inv ← vecSet invalidTriangles tidx true
    markInvalidLoop rest inv

/-- The loop of lines 1351-1355: `invalidTriangles` has one entry per triangle. -/
def keepValidLoop : List Triangle → List Bool → List Triangle
  | t :: ts, inv :: invs => if !inv then t :: keepValidLoop ts invs else keepValidLoop ts invs
  | _, _ => []

/-- The method `removeTriangles` (lines 1343-1358). -/
def removeTriangles (m : TriangleMesh) (removalTriangles : List Int) :
    Except Fault TriangleMesh := do
  let invalidTriangles ←
    markInvalidLoop removalTriangles (List.replicate m.triangles.length false)
  let newTriangleList := keepValidLoop m.triangles invalidTriangles
  pure { m with triangles := newTriangleList }

/-! ## `translate` (1466-1470) and `append` (1472-1493) -/

/-- The method `translate` (lines 1466-1470). -/
def translate (m : TriangleMesh) (trans : Vec3) : TriangleMesh :=
  { m with vertices := m.vertices.map (fun v => v.add trans) }

/-- The body of the loop of lines 1485-1492. -/
def offsetTriangle (indexOffset : Int) (t : Triangle) : Triangle :=
  ⟨t.t0 + indexOffset, t.t1 + indexOffset, t.t2 + indexOffset⟩

/-- The method `append` (lines 1472-1493). -/
def append (m mesh : TriangleMesh) : TriangleMesh :=
  let indexOffset : Int := m.vertices.length
  { m with
    vertices := m.vertices ++ mesh.vertices
    vertexcolors := m.vertexcolors ++ mesh.vertexcolors
    normals := m.normals ++ mesh.normals
    triangles := m.triangles ++ mesh.triangles.map (offsetTriangle indexOffset) }

/-! ## `join` (1500-1558) and `removeDuplicateVertices` (1691-1722) -/

/-- The loops of lines 1538-1540 and 1702-1704: `indexTable[second] = first`. -/
def indexTableLoop : List (Int × Int) → List Int → Except Fault (List Int)
  | [], indexTable => .ok indexTable
  | p :: ps, indexTable => do
    let tb ← vecSet indexTable p.2 p.1
    indexTableLoop ps tb

/-- The loops of lines 1543-1555 and 1707-1719: a triangle is rewritten
through the index table unless that would collapse it. -/
def remapLoop (indexTable : List Int) : List Triangle → Except Fault (List Triangle)
  | [] => .ok []
  | t :: ts => do
    let a ← vecGet indexTable t.t0
    let b ← vecGet indexTable t.t1
    let c ← vecGet indexTable t.t2
    let rest ← remapLoop indexTable ts
    if a = b ∨ b = c ∨ c = a then
      pure (t :: rest)
    else
      pure (⟨a, b, c⟩ :: rest)

/-- The identity table of lines 1532-1536 and 1696-1700. -/
def identityTable (n : Nat) : List Int :=
  (List.range n).map (fun (i : Nat) => (i : Int))

/-- The method `join(mesh, tolerance)` (lines 1500-1558).  `vertexPairs` is
the list that `_findDuplicateVertexPairs` fills in line 1530; that search uses
the bounding box and the spatial point grid, which live outside of this file. -/
def join (normalize : Vec3 → Vec3) (vertexPairs : List (Int × Int))
    (m mesh : TriangleMesh) : Except Fault TriangleMesh :=
  if mesh.vertices.length = 0 then
    pure m
  else if m.vertices.length = 0 then
    pure (append m mesh)
  else do
    let m1 := append m mesh
    let indexTable ← indexTableLoop vertexPairs (identityTable m1.vertices.length)
    let tris ← remapLoop indexTable m1.triangles
    removeExtraneousVertices normalize { m1 with triangles := tris }

/-- The method `removeDuplicateVertices` (lines 1691-1722).  `vertexPairs` is
the list that `_findDuplicateVertexPairs` fills in line 1694; the loop of line
1702 starts at the pair of index 1. -/
def removeDuplicateVertices (normalize : Vec3 → Vec3) (vertexPairs : List (Int × Int))
    (m : TriangleMesh) : Except Fault TriangleMesh := do
  let indexTable ← indexTableLoop (vertexPairs.drop 1) (identityTable m.vertices.length)
  let tris ← remapLoop indexTable m.triangles
  removeExtraneousVertices normalize { m with triangles := tris }

/-! ## Predicates of the specification -/

/-- The three entries of a triangle lie in `[0, n)`. -/
def Triangle.InRange (n : Nat) (t : Triangle) : Prop :=
  (0 ≤ t.t0 ∧ t.t0 < n) ∧ (0 ≤ t.t1 ∧ t.t1 < n) ∧ (0 ≤ t.t2 ∧ t.t2 < n)

instance (n : Nat) (t : Triangle) : Decidable (t.InRange n) := by
  unfold Triangle.InRange; infer_instance

/-- The three entries of a triangle are pairwise distinct. -/
def Triangle.Distinct (t : Triangle) : Prop :=
  t.t0 ≠ t.t1 ∧ t.t1 ≠ t.t2 ∧ t.t2 ≠ t.t0

instance (t : Triangle) : Decidable t.Distinct := by
  unfold Triangle.Distinct; infer_instance

/-- Every triangle index of the mesh lies in `[0, vertexCount)`. -/
def IndicesInRange (m : TriangleMesh) : Prop :=
  ∀ t ∈ m.triangles, t.InRange m.vertices.length

instance (m : TriangleMesh) : Decidable (IndicesInRange m) := by
  unfold IndicesInRange; infer_instance

/-- Invariant I1: every triangle has three distinct indices in `[0, vertexCount)`. -/
def I1 (m : TriangleMesh) : Prop :=
  ∀ t ∈ m.triangles, t.Distinct ∧ t.InRange m.vertices.length

instance (m : TriangleMesh) : Decidable (I1 m) := by
  unfold I1; infer_instance

/-- The parallel array invariant: the color array and the normal array are
each empty or as long as the vertex array. -/
def ParallelArrays (m : TriangleMesh) : Prop :=
  (m.vertexcolors.length = 0 ∨ m.vertexcolors.length = m.vertices.length) ∧
  (m.normals.length = 0 ∨ m.normals.length = m.vertices.length)

instance (m : TriangleMesh) : Decidable (ParallelArrays m) := by
  unfold ParallelArrays; infer_instance

/-- The lexicographic order on `(tri[0], tri[1], tri[2])`. -/
def Triangle.LexLt (a b : Triangle) : Prop :=
  a.t0 < b.t0 ∨ (a.t0 = b.t0 ∧ (a.t1 < b.t1 ∨ (a.t1 = b.t1 ∧ a.t2 < b.t2)))

instance (a b : Triangle) : Decidable (a.LexLt b) := by
  unfold Triangle.LexLt; infer_instance

/-- The vertex indices that the triangles refer to, in order of occurrence. -/
def referencedIndices : List Triangle → List Int
  | [] => []
  | t :: ts => t.t0 :: t.t1 :: t.t2 :: referencedIndices ts

/-- The entries of a list whose position is not in `R`; `i` is the position
of the first entry. -/
def dropPositions {α : Type} (R : List Int) : List α → Int → List α
  | [], _ => []
  | a :: as, i => if i ∈ R then dropPositions R as (i + 1) else a :: dropPositions R as (i + 1)

/-! ## Closed forms of the loops of `removeExtraneousVertices` -/

/-- The entries of a list whose flag in `unusedVertices` is `false`. -/
def keepUsed {α : Type} : List Bool → List α → List α
  | u :: us, v :: vs => if u then keepUsed us vs else v :: keepUsed us vs
  | _, _ => []

/-- The number of flags of `unusedVertices` that are `false`. -/
def usedCount : List Bool → Nat
  | [] => 0
  | u :: us => if u then usedCount us else usedCount us + 1

/-- The number of used vertices before the vertex `i`. -/
def rank (flags : List Bool) (i : Nat) : Nat := usedCount (flags.take i)

/-- The index translation table for the flags `unusedVertices`, when the first
used vertex gets the index `vidx`. -/
def buildTable : List Bool → Int → List Int
  | [], _ => []
  | u :: us, vidx => if u then -1 :: buildTable us vidx else vidx :: buildTable us (vidx + 1)

/-- The flags `unusedVertices` after the loop of lines 1281-1286. -/
def unusedFlags (m : TriangleMesh) : List Bool :=
  (List.range m.vertices.length).map
    (fun (j : Nat) => decide ((j : Int) ∉ referencedIndices m.triangles))

/-- A triangle rewritten through the ranks of its vertices. -/
def rankTriangle (flags : List Bool) (t : Triangle) : Triangle :=
  ⟨rank flags t.t0.toNat, rank flags t.t1.toNat, rank flags t.t2.toNat⟩

/-! ## Meshes used as instances -/

/-- A mesh with four vertices, one of them unused, and three triangles. -/
def exampleMeshA : TriangleMesh :=
  { vertices := [⟨0, 0, 0⟩, ⟨1, 0, 0⟩, ⟨0, 1, 0⟩, ⟨5, 5, 5⟩]
    normals := []
    triangles := [⟨0, 1, 3⟩, ⟨3, 1, 0⟩, ⟨1, 3, 0⟩]
    vertexcolors := []
    _vertexTriangles := []
    _triangleAreas := [] }

/-- A mesh with three vertices and one triangle. -/
def exampleMeshB : TriangleMesh :=
  { vertices := [⟨0, 0, 2⟩, ⟨1, 0, 2⟩, ⟨0, 1, 2⟩]
    normals := []
    triangles := [⟨0, 1, 2⟩]
    vertexcolors := []
    _vertexTriangles := []
    _triangleAreas := [] }

/-- A mesh with one color per vertex. -/
def exampleMeshColored : TriangleMesh :=
  { vertices := [⟨0, 0, 2⟩, ⟨1, 0, 2⟩, ⟨0, 1, 2⟩]
    normals := []
    triangles := [⟨0, 1, 2⟩]
    vertexcolors := [⟨1, 0, 0⟩, ⟨0, 1, 0⟩, ⟨0, 0, 1⟩]
    _vertexTriangles := []
    _triangleAreas := [] }

/-- A mesh with one color per vertex and an unused vertex. -/
def exampleMeshColoredSpare : TriangleMesh :=
  { vertices := [⟨0, 0, 2⟩, ⟨9, 9, 9⟩, ⟨1, 0, 2⟩, ⟨0, 1, 2⟩]
    normals := []
    triangles := [⟨0, 2, 3⟩, ⟨3, 2, 0⟩]
    vertexcolors := [⟨1, 0, 0⟩, ⟨1, 1, 1⟩, ⟨0, 1, 0⟩, ⟨0, 0, 1⟩]
    _vertexTriangles := []
    _triangleAreas := [] }

/-- A mesh whose two distinct triangles are not stored in lexicographic order. -/
def exampleMeshUnsorted : TriangleMesh :=
  { vertices := [⟨0, 0, 0⟩, ⟨1, 0, 0⟩, ⟨0, 1, 0⟩, ⟨0, 0, 1⟩]
    normals := []
    triangles := [⟨1, 2, 3⟩, ⟨0, 1, 2⟩]
    vertexcolors := []
    _vertexTriangles := []
    _triangleAreas := [] }

/-- A mesh with a repeated triangle, a rotation and a reversal of it. -/
def exampleMeshDuplicates : TriangleMesh :=
  { vertices := [⟨0, 0, 0⟩, ⟨1, 0, 0⟩, ⟨0, 1, 0⟩]
    normals := []
    triangles := [⟨1, 2, 0⟩, ⟨0, 1, 2⟩, ⟨2, 1, 0⟩, ⟨0, 1, 2⟩]
    vertexcolors := []
    _vertexTriangles := []
    _triangleAreas := [] }

/-- A mesh with a collapsed triangle and a proper one, stored in lexicographic order. -/
def exampleMeshCollapsed : TriangleMesh :=
  { vertices := [⟨0, 0, 0⟩, ⟨1, 0, 0⟩, ⟨0, 1, 0⟩]
    normals := []
    triangles := [⟨0, 0, 0⟩, ⟨0, 1, 2⟩]
    vertexcolors := []
    _vertexTriangles := []
    _triangleAreas := [] }

/-! ## Face neighbours (482-495) and the vertex triangle cache (1189-1195) -/

/-- The method `updateVertexTriangles` (lines 1189-1191). -/
def updateVertexTriangles (m : TriangleMesh) : Except Fault TriangleMesh :=
  _updateVertexTriangles m

/-- The method `clearVertexTriangles` (lines 1193-1195). -/
def clearVertexTriangles (m : TriangleMesh) : TriangleMesh :=
  { m with _vertexTriangles := [] }

/-- The method `getFaceNeighbours(Triangle t, std::vector<int> &n)` (lines
487-495): the loop runs over `i = 1` and `i = 2`. -/
def getFaceNeighboursOfTriangle (m : TriangleMesh) (t : Triangle) (n : List Int) :
    Except Fault (List Int) :=
  if m.vertices.length = m._vertexTriangles.length then do
    let vn ← vecGet m._vertexTriangles t.t1
    let n := n ++ vn
    let vn ← vecGet m._vertexTriangles t.t2
    pure (n ++ vn)
  else .error .assertion

/-- The method `getFaceNeighbours(unsigned int tidx, std::vector<int> &n)`
(lines 482-485). -/
def getFaceNeighbours (m : TriangleMesh) (tidx : Int) (n : List Int) :
    Except Fault (List Int) :=
  if 0 ≤ tidx ∧ tidx < m.triangles.length then do
    let t ← vecGet m.triangles tidx
    getFaceNeighboursOfTriangle m t n
  else .error .assertion

/-! ## Numbers of the types `float` and `double`

The members of a `vmath::vec3` are `float`s, and the volumes of lines
1253-1275 are computed in `float` and `double`.  A value of one of these
types is a rational number, or `none` for an infinity or a NaN; every
operation on a value that is not a number gives a value that is not a
number.  The formats are those of IEEE 754, `binary32` for `float` and
`binary64` for `double`, every operation rounds its exact result to the
nearest value of its type, and an expression on `float`s is evaluated in
`float`. -/

/-- The integer nearest to `n / d` for `d > 0`; when two integers are equally
near, the even one. -/
def roundHalfEven (n d : Nat) : Nat :=
  let q := n / d
  let r := n % d
  if 2 * r < d then q else if d < 2 * r then q + 1 else if q % 2 = 0 then q else q + 1

/-- The number of times that `n` can be halved before it is below `2`, for at
most `fuel` halvings: with `fuel = n` this is the `e` with `2^e <= n < 2^(e+1)`
of an `n > 0`. -/
def log2Loop : Nat → Nat → Nat
  | 0, _ => 0
  | fuel + 1, n => if n < 2 then 0 else log2Loop fuel (n / 2) + 1

/-- The exponent of `n / d` for `n, d > 0`: the integer `e` with
`2^e <= n / d < 2^(e + 1)`. -/
def floorLog2 (n d : Nat) : Int :=
  let e0 : Int := (log2Loop n n : Int) - (log2Loop d d : Int)
  if 0 ≤ e0 then (if d * 2 ^ e0.toNat ≤ n then e0 else e0 - 1)
  else (if d ≤ n * 2 ^ (-e0).toNat then e0 else e0 - 1)

/-- The value of the binary floating point format with `p` bits of precision
and the exponents `emin` to `emax` that is nearest to `q`, the one with the
even significand when two are equally near; below `2^emin` the values of the
format have the spacing `2^(emin - p + 1)`, and `none` stands for the
infinity that a `q` beyond the largest value of the format is rounded to. -/
def roundToFormat (p : Nat) (emin emax : Int) (q : ℚ) : Option ℚ :=
  let n := q.num.natAbs
  let d := q.den
  if n = 0 then some 0
  else
    let e := max (floorLog2 n d) emin
    let s : Int := e - ((p : Int) - 1)
    let m : Nat :=
      if 0 ≤ s then roundHalfEven n (d * 2 ^ s.toNat) else roundHalfEven (n * 2 ^ (-s).toNat) d
    let overflow : Bool :=
      if 0 ≤ s then decide (2 ^ (emax + 1).toNat ≤ m * 2 ^ s.toNat)
      else decide (2 ^ (emax + 1).toNat * 2 ^ (-s).toNat ≤ m)
    if overflow then none
    else
      let r : ℚ :=
        if 0 ≤ s then ((m * 2 ^ s.toNat : Nat) : ℚ) else (m : ℚ) / ((2 ^ (-s).toNat : Nat) : ℚ)
      some (if q.num < 0 then -r else r)

/-- The `float` nearest to `q`. -/
def roundFloat (q : ℚ) : Option ℚ := roundToFormat 24 (-126) 127 q

/-- The `double` nearest to `q`. -/
def roundDouble (q : ℚ) : Option ℚ := roundToFormat 53 (-1022) 1023 q

/-- The product `a * b` of two `float`s. -/
def mulFloat (a b : Option ℚ) : Option ℚ :=
  a.bind fun x => b.bind fun y => roundFloat (x * y)

/-- The sum `a + b` of two `double`s. -/
def addDouble (a b : Option ℚ) : Option ℚ :=
  a.bind fun x => b.bind fun y => roundDouble (x + y)

/-- The difference `a - b` of two `double`s. -/
def subDouble (a b : Option ℚ) : Option ℚ :=
  a.bind fun x => b.bind fun y => roundDouble (x - y)

/-- The product `a * b` of two `double`s. -/
def mulDouble (a b : Option ℚ) : Option ℚ :=
  a.bind fun x => b.bind fun y => roundDouble (x * y)

/-- The quotient `a / b` of two `double`s with `b` other than zero. -/
def divDouble (a b : Option ℚ) : Option ℚ :=
  a.bind fun x => b.bind fun y => roundDouble (x / y)

/-- The `double` `-a`. -/
def negDouble (a : Option ℚ) : Option ℚ := a.map fun x => -x

/-- The function `fabs` on a `double`. -/
def fabsDouble (a : Option ℚ) : Option ℚ := a.map fun x => |x|

/-! ## Polyhedra (lines 1208-1275) -/

/-- The loop of lines 1225-1232.  The vector `queue` is used as a stack; its
list has the element `queue.back()` at the head. -/
def visitNeighbours : List Int → List Int → List Bool → Except Fault (List Int × List Bool)
  | [], queue, visitedTriangles => .ok (queue, visitedTriangles)
  | n :: ns, queue, visitedTriangles => do
    let b ← vecGet visitedTriangles n
    if !b then do
      let v ← vecSet visitedTriangles n true
      visitNeighbours ns (n :: queue) v
    else visitNeighbours ns queue visitedTriangles

/-- The loop of lines 1219-1235, for at most `fuel` tests of `queue.empty()`. -/
def polyhedronLoop (m : TriangleMesh) :
    Nat → List Int → List Bool → List Int → Except Fault (List Bool × List Int)
  | 0, _, _, _ => .error .outOfFuel
  | _ + 1, [], visitedTriangles, polyhedron => .ok (visitedTriangles, polyhedron)
  | fuel + 1, t :: queue, visitedTriangles, polyhedron => do
    let neighbours ← getFaceNeighbours m t []
    let (queue, visitedTriangles) ← visitNeighbours neighbours queue visitedTriangles
    polyhedronLoop m fuel queue visitedTriangles (polyhedron ++ [t])

/-- The method `_getPolyhedronFromTriangle` (lines 1208-1236).  Every pass of
the loop takes one triangle from the queue and no triangle enters the queue
twice, so `visitedTriangles.size() + 1` tests of `queue.empty()` suffice. -/
def _getPolyhedronFromTriangle (m : TriangleMesh) (tidx : Int) (visitedTriangles : List Bool)
    (polyhedron : List Int) : Except Fault (List Bool × List Int) := do
  let b ← vecGet visitedTriangles tidx
  if b then .error .assertion
  else do
    let v ← vecSet visitedTriangles tidx true
    polyhedronLoop m (visitedTriangles.length + 1) [tidx] v polyhedron

/-- The loop of lines 1242-1248; the first argument counts the indices that
are left, `i` is the current index. -/
def polyhedraLoop (m : TriangleMesh) :
    Nat → Int → List Bool → List (List Int) → Except Fault (List (List Int))
  | 0, _, _, polyList => .ok polyList
  | k + 1, i, visitedTriangles, polyList => do
    let b ← vecGet visitedTriangles i
    if !b then do
      let (v, polyhedron) ← _getPolyhedronFromTriangle m i visitedTriangles []
      polyhedraLoop m k (i + 1) v (polyList ++ [polyhedron])
    else polyhedraLoop m k (i + 1) visitedTriangles polyList

/-- The method `_getPolyhedra` (lines 1238-1251). -/
def _getPolyhedra (m : TriangleMesh) (polyList : List (List Int)) :
    Except Fault (TriangleMesh × List (List Int)) := do
  let m ← updateVertexTriangles m
  let visitedTriangles := List.replicate m.triangles.length false
  let polyList ← polyhedraLoop m visitedTriangles.length 0 visitedTriangles polyList
  pure (clearVertexTriangles m, polyList)

/-- The method `_getSignedTriangleVolume` (lines 1253-1266).  The products of
lines 1258-1263 are products of `float`s, each stored in a `double`; the
sum and the product of line 1265 are computed in `double`, the sum from the
left to the right, and `1.0/6.0` is the quotient of two `double`s. -/
def _getSignedTriangleVolume (m : TriangleMesh) (tidx : Int) : Except Fault (Option ℚ) := do
  let t ← vecGet m.triangles tidx
  let p1 ← vecGet m.vertices t.t0
  let p2 ← vecGet m.vertices t.t1
  let p3 ← vecGet m.vertices t.t2
  let v321 := mulFloat (mulFloat (some p3.x) (some p2.y)) (some p1.z)
  let v231 := mulFloat (mulFloat (some p2.x) (some p3.y)) (some p1.z)
  let v312 := mulFloat (mulFloat (some p3.x) (some p1.y)) (some p2.z)
  let v132 := mulFloat (mulFloat (some p1.x) (some p3.y)) (some p2.z)
  let v213 := mulFloat (mulFloat (some p2.x) (some p1.y)) (some p3.z)
  let v123 := mulFloat (mulFloat (some p1.x) (some p2.y)) (some p3.z)
  pure (mulDouble (divDouble (some 1) (some 6))
    (addDouble (subDouble (subDouble (addDouble (addDouble (negDouble v321) v231) v312) v132)
      v213) v123))

/-- The loop of lines 1270-1272: the first argument counts the passes that are
left, `i` is the loop variable, which is also the argument of
`_getSignedTriangleVolume`, and `sum` is a `double`. -/
def polyhedronVolumeLoop (m : TriangleMesh) :
    Nat → Int → Option ℚ → Except Fault (Option ℚ)
  | 0, _, sum => .ok sum
  | k + 1, i, sum => do
    let v ← _getSignedTriangleVolume m i
    polyhedronVolumeLoop m k (i + 1) (addDouble sum v)

/-- The method `_getPolyhedronVolume` (lines 1268-1275). -/
def _getPolyhedronVolume (m : TriangleMesh) (polyhedron : List Int) :
    Except Fault (Option ℚ) := do
  let sum ← polyhedronVolumeLoop m polyhedron.length 0 (some 0)
  pure (fabsDouble sum)

/-! ## `removeMinimumTriangleCountPolyhedra` (lines 1385-1408) -/

/-- The loop of lines 1394-1400. -/
def collectSmallPolyhedra (count : Int) : List (List Int) → List Int → List Int
  | [], removalTriangles => removalTriangles
  | p :: ps, removalTriangles =>
    if (p.length : Int) ≤ count then collectSmallPolyhedra count ps (removalTriangles ++ p)
    else collectSmallPolyhedra count ps removalTriangles

/-- The method `removeMinimumTriangleCountPolyhedra` (lines 1385-1408). -/
def removeMinimumTriangleCountPolyhedra (normalize : Vec3 → Vec3) (m : TriangleMesh)
    (count : Int) : Except Fault TriangleMesh :=
  if count ≤ 0 then pure m
  else do
    let (m, polyList) ← _getPolyhedra m []
    let removalTriangles := collectSmallPolyhedra count polyList []
    if removalTriangles.length = 0 then pure m
    else do
      let m ← removeTriangles m removalTriangles
      removeExtraneousVertices normalize m

/-! ## `_isPolyhedronHole` (lines 1410-1443) and `getTriangleCenter` (907-915) -/

/-- The function `vmath::dot`. -/
def Vec3.dot (a b : Vec3) : ℚ := a.x * b.x + a.y * b.y + a.z * b.z

/-- The method `getTriangleCenter` (lines 907-915). -/
def getTriangleCenter (m : TriangleMesh) (index : Int) : Except Fault Vec3 :=
  if 0 ≤ index ∧ index < m.triangles.length then do
    let t ← vecGet m.triangles index
    let size : Int := m.vertices.length
    if t.t0 < size ∧ t.t1 < size ∧ t.t2 < size then do
      let a ← vecGet m.vertices t.t0
      let b ← vecGet m.vertices t.t1
      let c ← vecGet m.vertices t.t2
      pure (((a.add b).add c).div 3)
    else .error .assertion
  else .error .assertion

/-- The loop of lines 1423-1425. -/
def centroidLoop (m : TriangleMesh) : List Int → Vec3 → Except Fault Vec3
  | [], centroid => .ok centroid
  | i :: poly, centroid => do
    let c ← getTriangleCenter m i
    centroidLoop m poly (centroid.add c)

/-- The loop of lines 1431-1440; `getTriangleNormal` is
`Collision::getTriangleNormal`. -/
def holeSumLoop (getTriangleNormal : Vec3 → Vec3 → Vec3 → Vec3) (m : TriangleMesh)
    (centroid : Vec3) : List Int → ℚ → Except Fault ℚ
  | [], sum => .ok sum
  | i :: poly, sum => do
    let t ← vecGet m.triangles i
    let v0 ← vecGet m.vertices t.t0
    let v1 ← vecGet m.vertices t.t1
    let v2 ← vecGet m.vertices t.t2
    let normal := getTriangleNormal v0 v1 v2
    let p ← getTriangleCenter m i
    let vn := p.sub centroid
    let dot := vn.dot normal
    holeSumLoop getTriangleNormal m centroid poly (sum + dot)

/-- The method `_isPolyhedronHole` (lines 1410-1443). -/
def _isPolyhedronHole (getTriangleNormal : Vec3 → Vec3 → Vec3 → Vec3) (m : TriangleMesh)
    (poly : List Int) : Except Fault Bool :=
  if poly.length = 0 then pure false
  else if poly.length > 10000 then pure false
  else do
    let centroid ← centroidLoop m poly Vec3.zero
    let centroid := centroid.div (poly.length : ℚ)
    let sum ← holeSumLoop getTriangleNormal m centroid poly 0
    pure (decide (sum < 0))

/-! ## Predicates on the state of the polyhedron search -/

/-- The flags `visitedTriangles` are set for the triangles of the list `L`
and for no other index, and no triangle occurs twice in `L`. -/
def VisitedExactly (visitedTriangles : List Bool) (L : List Int) : Prop :=
  L.Nodup ∧ ∀ x : Int, vecGet visitedTriangles x = .ok true ↔ x ∈ L

/-- The face neighbours of every triangle index below `n` are computed
without fault and are triangle indices below `n`. -/
def NeighboursInRange (m : TriangleMesh) (n : Nat) : Prop :=
  ∀ t : Int, 0 ≤ t → t < n →
    ∃ ns, getFaceNeighbours m t [] = .ok ns ∧ ∀ x ∈ ns, 0 ≤ x ∧ x < (n : Int)

/-! ## Meshes used as instances of the polyhedron search -/

/-- A mesh with three triangles: the second shares only the first vertex of
the first, the third shares the third vertex of the first. -/
def exampleMeshFan : TriangleMesh :=
  { vertices := [⟨0, 0, 0⟩, ⟨1, 0, 0⟩, ⟨0, 1, 0⟩, ⟨-1, 0, 0⟩, ⟨0, -1, 0⟩, ⟨0, 2, 0⟩, ⟨1, 2, 0⟩]
    normals := []
    triangles := [⟨0, 1, 2⟩, ⟨0, 3, 4⟩, ⟨2, 5, 6⟩]
    vertexcolors := []
    _vertexTriangles := []
    _triangleAreas := [] }

/-- A mesh with five vertices and two triangles: the second triangle has the
first vertex of the first triangle as its second vertex. -/
def exampleMeshAsymmetric : TriangleMesh :=
  { vertices := [⟨0, 0, 0⟩, ⟨1, 0, 0⟩, ⟨0, 1, 0⟩, ⟨2, 0, 0⟩, ⟨1, -1, 0⟩]
    normals := []
    triangles := [⟨1, 3, 4⟩, ⟨0, 1, 2⟩]
    vertexcolors := []
    _vertexTriangles := []
    _triangleAreas := [] }

/-- The mesh `exampleMeshAsymmetric` with its two triangles stored in the
other order. -/
def exampleMeshAsymmetricSwapped : TriangleMesh :=
  { exampleMeshAsymmetric with triangles := [⟨0, 1, 2⟩, ⟨1, 3, 4⟩] }

/-- A mesh with two triangles that share no vertex. -/
def exampleMeshTwoTriangles : TriangleMesh :=
  { vertices := [⟨1, 0, 0⟩, ⟨0, 1, 0⟩, ⟨0, 0, 1⟩, ⟨2, 0, 0⟩, ⟨0, 2, 0⟩, ⟨0, 0, 2⟩]
    normals := []
    triangles := [⟨0, 1, 2⟩, ⟨3, 4, 5⟩]
    vertexcolors := []
    _vertexTriangles := []
    _triangleAreas := [] }

/-- The axis-aligned unit cube `[0, 1]^3`: eight vertices, two triangles on
every face, all wound so that the face normal points out of the cube. -/
def unitCubeMesh : TriangleMesh :=
  { vertices := [⟨0, 0, 0⟩, ⟨1, 0, 0⟩, ⟨0, 1, 0⟩, ⟨1, 1, 0⟩,
      ⟨0, 0, 1⟩, ⟨1, 0, 1⟩, ⟨0, 1, 1⟩, ⟨1, 1, 1⟩]
    normals := []
    triangles := [⟨0, 2, 1⟩, ⟨1, 2, 3⟩, ⟨4, 5, 6⟩, ⟨5, 7, 6⟩, ⟨0, 1, 4⟩, ⟨1, 5, 4⟩,
      ⟨2, 6, 3⟩, ⟨3, 6, 7⟩, ⟨0, 4, 2⟩, ⟨2, 4, 6⟩, ⟨1, 3, 5⟩, ⟨3, 7, 5⟩]
    vertexcolors := []
    _vertexTriangles := []
    _triangleAreas := [] }

/-! ## The triangles of the small polyhedra -/

/-- The triangle indices that belong to a polyhedron of at most `count`
triangles. -/
def smallPolyhedraTriangles (count : Int) (polyList : List (List Int)) : List Int :=
  (polyList.filter (fun p => decide ((p.length : Int) ≤ count))).flatten

/-! ## Grid cells, the arrays over them, and the grid members of the mesh -/

/-- Modelled from the spec: the type `GridIndex` of the grid headers, an
integer triple `(i, j, k)` that names a cell. -/
structure GridIndex where
  i : Int
  j : Int
  k : Int
  deriving DecidableEq, Repr

/-- Modelled from the spec: `Grid3d::isGridIndexInRange(g, imax, jmax, kmax)`
of the grid headers: every coordinate of the cell is at least `0` and below
the bound of its axis. -/
def isGridIndexInRange (g : GridIndex) (imax jmax kmax : Int) : Bool :=
  decide (0 ≤ g.i ∧ g.i < imax ∧ 0 ≤ g.j ∧ g.j < jmax ∧ 0 ≤ g.k ∧ g.k < kmax)

/-- Modelled from the spec: `Grid3d::getNeighbourGridIndices6` of the grid
headers: the six cells that share a face with the cell, the two along `i`
first, then the two along `j`, then the two along `k`. -/
def getNeighbourGridIndices6 (g : GridIndex) : List GridIndex :=
  [⟨g.i - 1, g.j, g.k⟩, ⟨g.i + 1, g.j, g.k⟩, ⟨g.i, g.j - 1, g.k⟩, ⟨g.i, g.j + 1, g.k⟩,
    ⟨g.i, g.j, g.k - 1⟩, ⟨g.i, g.j, g.k + 1⟩]

/-- Modelled from the spec: the container `Array3d<T>` of the array header, a
dense array indexed by integer triples; `data` holds the entries. -/
structure Array3d (α : Type) where
  width : Int
  height : Int
  depth : Int
  data : GridIndex → α

/-- Modelled from the spec: the constructor `Array3d<T>(i, j, k, fillValue)`. -/
def Array3d.fill {α : Type} (width height depth : Int) (a : α) : Array3d α :=
  { width := width, height := height, depth := depth, data := fun _ => a }

/-- Modelled from the spec: the read `A(g)` of an `Array3d`; a cell outside of
the array is a fault. -/
def Array3d.get {α : Type} (A : Array3d α) (g : GridIndex) : Except Fault α :=
  if isGridIndexInRange g A.width A.height A.depth then .ok (A.data g)
  else .error .outOfRange

/-- Modelled from the spec: the write `A.set(g, a)` of an `Array3d`; a cell
outside of the array is a fault. -/
def Array3d.set {α : Type} (A : Array3d α) (g : GridIndex) (a : α) : Except Fault (Array3d α) :=
  if isGridIndexInRange g A.width A.height A.depth then
    .ok { A with data := fun c => if c = g then a else A.data c }
  else .error .outOfRange

/-- Modelled from the spec: the container `GridIndexVector` of the grid
headers, a list of cells of a grid of the given size. -/
structure GridIndexVector where
  width : Int
  height : Int
  depth : Int
  indices : List GridIndex
  deriving DecidableEq

/-- The call `cells.push_back(i, j, k)` of a `GridIndexVector`. -/
def GridIndexVector.push_back (cells : GridIndexVector) (g : GridIndex) : GridIndexVector :=
  { cells with indices := cells.indices ++ [g] }

/-- The data members of `TriangleMesh` that the classification of the grid
cells reads and writes. -/
structure MeshGrid where
  _gridi : Int
  _gridj : Int
  _gridk : Int
  _dx : ℚ
  _triGrid : Array3d (List Int)

/-- The cells visited by the loops `for k`, `for j`, `for i` of lines 786-788,
800-802 and 1097-1099, in the order in which they are visited. -/
def gridScan (width height depth : Int) : List GridIndex :=
  (List.range depth.toNat).flatMap fun (k : Nat) =>
    (List.range height.toNat).flatMap fun (j : Nat) =>
      (List.range width.toNat).map fun (i : Nat) => (⟨i, j, k⟩ : GridIndex)

/-- The tests of the bounding box code that `_getTriangleGridCellOverlap`
calls; they live outside of this file.  `getGridCellOverlap t` holds the cells
that `Grid3d::getGridCellOverlap` reports for the bounding box of the triangle
`t`, and `isOverlappingTriangle g t` is the test of the box of the cell `g`
against `t`. -/
structure OverlapTests where
  getGridCellOverlap : Triangle → List GridIndex
  isOverlappingTriangle : GridIndex → Triangle → Bool

/-! ## The triangle grid (lines 749-810) -/

/-- The method `_getTriangleGridCellOverlap` (lines 749-761). -/
def _getTriangleGridCellOverlap (tests : OverlapTests) (t : Triangle)
    (cells : GridIndexVector) : GridIndexVector :=
  let testcells := tests.getGridCellOverlap t
  { cells with
    indices := cells.indices ++ testcells.filter (fun g => tests.isOverlappingTriangle g t) }

/-- The method `_destroyTriangleGrid` (lines 784-796). -/
def _destroyTriangleGrid (gs : MeshGrid) : MeshGrid :=
  { gs with _triGrid := Array3d.fill 0 0 0 [] }

/-- The loop of lines 776-780: the triangle `i` is entered into the list of
every cell of `cells`. -/
def enterTriangleLoop (i : Int) : List GridIndex → Array3d (List Int) →
    Except Fault (Array3d (List Int))
  | [], triGrid => .ok triGrid
  | g :: cells, triGrid => do
    let triVector ← triGrid.get g
    let triGrid ← triGrid.set g (triVector ++ [i])
    enterTriangleLoop i cells triGrid

/-- The loop of lines 771-781; `i` is the index of the first triangle of the list. -/
def triangleGridLoop (tests : OverlapTests) (width height depth : Int) :
    List Triangle → Int → Array3d (List Int) → Except Fault (Array3d (List Int))
  | [], _, triGrid => .ok triGrid
  | t :: ts, i, triGrid => do
    let cells := _getTriangleGridCellOverlap tests t ⟨width, height, depth, []⟩
    let triGrid ← enterTriangleLoop i cells.indices triGrid
    triangleGridLoop tests width height depth ts (i + 1) triGrid

/-- The method `_updateTriangleGrid` (lines 763-782). -/
def _updateTriangleGrid (tests : OverlapTests) (m : TriangleMesh) (gs : MeshGrid) :
    Except Fault MeshGrid := do
  let gs := _destroyTriangleGrid gs
  let triGrid ← triangleGridLoop tests gs._gridi gs._gridj gs._gridk m.triangles 0
    (Array3d.fill gs._gridi gs._gridj gs._gridk [])
  pure { gs with _triGrid := triGrid }

/-- The loops of lines 800-809 over the cells in the order of `gridScan`. -/
def surfaceCellsLoop (triGrid : Array3d (List Int)) :
    List GridIndex → GridIndexVector → Except Fault GridIndexVector
  | [], cells => .ok cells
  | g :: rest, cells => do
    let tris ← triGrid.get g
    if tris.length > 0 then surfaceCellsLoop triGrid rest (cells.push_back g)
    else surfaceCellsLoop triGrid rest cells

/-- The method `_getSurfaceCells` (lines 798-810). -/
def _getSurfaceCells (gs : MeshGrid) (cells : GridIndexVector) : Except Fault GridIndexVector :=
  surfaceCellsLoop gs._triGrid
    (gridScan gs._triGrid.width gs._triGrid.height gs._triGrid.depth) cells

/-! ## `_floodfill` (lines 812-840) -/

/-- The loop of lines 830-836 over the neighbours `ns[i]`.  The queue is a
`std::queue`; its list has the element `queue.front()` at the head. -/
def floodfillNeighbours (gs : MeshGrid) (cells : Array3d Bool) :
    List GridIndex → Array3d Bool → List GridIndex →
    Except Fault (Array3d Bool × List GridIndex)
  | [], isCellDone, queue => .ok (isCellDone, queue)
  | n :: ns, isCellDone, queue =>
    if isGridIndexInRange n gs._gridi gs._gridj gs._gridk then do
      let c ← cells.get n
      if !c then do
        let d ← isCellDone.get n
        if !d then do
          let isCellDone ← isCellDone.set n true
          floodfillNeighbours gs cells ns isCellDone (queue ++ [n])
        else floodfillNeighbours gs cells ns isCellDone queue
      else floodfillNeighbours gs cells ns isCellDone queue
    else floodfillNeighbours gs cells ns isCellDone queue

/-- The loop of lines 825-839, for at most `fuel` tests of `queue.empty()`. -/
def floodfillLoop (gs : MeshGrid) :
    Nat → List GridIndex → Array3d Bool → Array3d Bool → Except Fault (Array3d Bool)
  | 0, _, _, _ => .error .outOfFuel
  | _ + 1, [], _, cells => .ok cells
  | fuel + 1, gp :: queue, isCellDone, cells => do
    let ns := getNeighbourGridIndices6 gp
    let (isCellDone, queue) ← floodfillNeighbours gs cells ns isCellDone queue
    let cells ← cells.set gp true
    floodfillLoop gs fuel queue isCellDone cells

/-- The method `_floodfill` (lines 812-840).  Every pass of the loop takes one
cell from the queue and no cell enters the queue twice, so one test of
`queue.empty()` more than the grid has cells suffices. -/
def _floodfill (gs : MeshGrid) (g : GridIndex) (cells : Array3d Bool) :
    Except Fault (Array3d Bool) :=
  if isGridIndexInRange g gs._gridi gs._gridj gs._gridk then do
    let c ← cells.get g
    if c then pure cells
    else do
      let isCellDone := Array3d.fill gs._gridi gs._gridj gs._gridk false
      let queue := [g]
      let isCellDone ← isCellDone.set g true
      floodfillLoop gs (gs._gridi.toNat * gs._gridj.toNat * gs._gridk.toNat + 1)
        queue isCellDone cells
  else .error .assertion

/-! ## Predicates on the state of the flood fill -/

/-- The cell is reachable from `g` by a path of face neighbours that, after
`g`, runs through cells of the grid that are `false` in `cells`. -/
inductive FillReach (gs : MeshGrid) (cells : Array3d Bool) (g : GridIndex) : GridIndex → Prop
  | start : FillReach gs cells g g
  | step (a b : GridIndex) : FillReach gs cells g a → b ∈ getNeighbourGridIndices6 a →
      isGridIndexInRange b gs._gridi gs._gridj gs._gridk = true → cells.data b = false →
      FillReach gs cells g b

/-- The array has the size of the grid. -/
def Array3d.HasGridSize {α : Type} (A : Array3d α) (gs : MeshGrid) : Prop :=
  A.width = gs._gridi ∧ A.height = gs._gridj ∧ A.depth = gs._gridk

/-! ## Example grids -/

/-- A grid of three cells in a row along `i`, with cells of size `1`, before
the triangle grid is built. -/
def exampleRowGrid : MeshGrid :=
  { _gridi := 3, _gridj := 1, _gridk := 1, _dx := 1, _triGrid := Array3d.fill 0 0 0 [] }

/-- A mesh of one triangle that lies inside of the box of the cell `(1, 0, 0)`
of `exampleRowGrid`. -/
def exampleRowMesh : TriangleMesh :=
  { vertices := [⟨5 / 4, 1 / 4, 1 / 2⟩, ⟨7 / 4, 1 / 4, 1 / 2⟩, ⟨3 / 2, 3 / 4, 1 / 2⟩]
    normals := []
    triangles := [⟨0, 1, 2⟩]
    vertexcolors := []
    _vertexTriangles := []
    _triangleAreas := [] }

/-- The values of the overlap tests for `exampleRowMesh` on `exampleRowGrid`:
the bounding box of the triangle lies in the cell `(1, 0, 0)`, and the box of
that cell overlaps the triangle. -/
def exampleRowTests : OverlapTests :=
  { getGridCellOverlap := fun _ => [⟨1, 0, 0⟩]
    isOverlappingTriangle := fun _ _ => true }

/-- The grid with cells of size `1` that covers the bounding box of
`unitCubeMesh` exactly: the one cell `(0, 0, 0)`. -/
def unitCellGrid : MeshGrid :=
  { _gridi := 1, _gridj := 1, _gridk := 1, _dx := 1, _triGrid := Array3d.fill 0 0 0 [] }

/-- The values of the overlap tests for `unitCubeMesh` on `unitCellGrid`: the
bounding box of every triangle of the cube meets the one cell of the grid, and
the box of that cell, which is the cube, overlaps every triangle. -/
def unitCellTests : OverlapTests :=
  { getGridCellOverlap := fun _ => [⟨0, 0, 0⟩]
    isOverlappingTriangle := fun _ _ => true }

/-! ## The pair search of `join` (lines 1635-1689) -/

/-- The function `vmath::lengthsq`. -/
def Vec3.lengthsq (a : Vec3) : ℚ := a.x * a.x + a.y * a.y + a.z * a.z

/-- The loop of lines 1674-1681 over the references `query[idx]`, each given by
its `id`.  `i` is the counter of the loop of line 1658, `mindist` is `none`
for the value infinity of line 1672, and `closestRef` is the `id` of the
reference chosen so far. -/
def closestRefLoop (vertices : List Vec3) (i : Int) :
    List Int → Option ℚ → Int → Except Fault Int
  | [], _, closestRef => .ok closestRef
  | id :: query, mindist, closestRef => do
    let a ← vecGet vertices i
    let b ← vecGet vertices id
    let distsq := (a.sub b).lengthsq
    match mindist with
    | none => closestRefLoop vertices i query (some distsq) id
    | some d =>
      if distsq < d then closestRefLoop vertices i query (some distsq) id
      else closestRefLoop vertices i query mindist closestRef

/-- The loop of lines 1658-1688 over `verts1`, with its counter `i`.
`queryPointReferencesInsideSphere gridpoints v eps` holds the `id`s of the
references that the spatial point grid, which lives outside of this file,
returns for the points `gridpoints` inserted in line 1654; `defaultRef` is the
`id` of a default-constructed reference. -/
def crossPairsLoop (queryPointReferencesInsideSphere : List Vec3 → Vec3 → ℚ → List Int)
    (defaultRef : Int) (vertices : List Vec3) (verts2 : List Int) (gridpoints : List Vec3)
    (offset : Vec3) (eps : ℚ) :
    List Int → Int → List (Int × Int) → Except Fault (List (Int × Int))
  | [], _, vertexPairs => .ok vertexPairs
  | a :: verts1, i, vertexPairs => do
    let va ← vecGet vertices a
    let v1 := va.sub offset
    let query := queryPointReferencesInsideSphere gridpoints v1 eps
    if query.length = 0 then
      crossPairsLoop queryPointReferencesInsideSphere defaultRef vertices verts2 gridpoints
        offset eps verts1 (i + 1) vertexPairs
    else do
      let closestRef ←
        if query.length = 1 then vecGet query 0
        else closestRefLoop vertices i query none defaultRef
      let pair1 := a
      let pair2 ← vecGet verts2 closestRef
      crossPairsLoop queryPointReferencesInsideSphere defaultRef vertices verts2 gridpoints
        offset eps verts1 (i + 1) (vertexPairs ++ [(pair1, pair2)])

/-- The loop of lines 1649-1651: the points of `verts2`, relative to `offset`. -/
def gridpointsLoop (vertices : List Vec3) (offset : Vec3) :
    List Int → Except Fault (List Vec3)
  | [] => .ok []
  | b :: verts2 => do
    let vb ← vecGet vertices b
    let rest ← gridpointsLoop vertices offset verts2
    pure (vb.sub offset :: rest)

/-- The method `_findDuplicateVertexPairs(verts1, verts2, bbox, tolerance,
vertexPairs)` (lines 1635-1689).  `offset` is `bbox.position`; the size of the
box only sets the size of the spatial point grid. -/
def _findDuplicateVertexPairs
    (queryPointReferencesInsideSphere : List Vec3 → Vec3 → ℚ → List Int) (defaultRef : Int)
    (m : TriangleMesh) (verts1 verts2 : List Int) (offset : Vec3) (tolerance : ℚ)
    (vertexPairs : List (Int × Int)) : Except Fault (List (Int × Int)) := do
  let gridpoints ← gridpointsLoop m.vertices offset verts2
  let eps := tolerance
  crossPairsLoop queryPointReferencesInsideSphere defaultRef m.vertices verts2 gridpoints
    offset eps verts1 0 vertexPairs

/-- Modelled from the spec: the query of the spatial point grid, as the claim
on the pair search takes it: the `id`s, in increasing order, of the inserted
points that lie within the distance `r` of `v`. -/
def sphereQuery (gridpoints : List Vec3) (v : Vec3) (r : ℚ) : List Int :=
  ((List.range gridpoints.length).filter fun (j : Nat) =>
    match gridpoints[j]? with
    | some q => decide ((q.sub v).lengthsq ≤ r * r)
    | none => false).map fun (j : Nat) => (j : Int)

/-! ## Meshes used as instances of the welding -/

/-- A mesh whose vertices `0` and `1` have the same position, so that the self
merge pairs them as `(0, 1)`. -/
def exampleMeshDoubled : TriangleMesh :=
  { vertices := [⟨0, 0, 0⟩, ⟨0, 0, 0⟩, ⟨1, 0, 0⟩, ⟨0, 1, 0⟩]
    normals := []
    triangles := [⟨0, 2, 3⟩, ⟨1, 3, 2⟩]
    vertexcolors := []
    _vertexTriangles := []
    _triangleAreas := [] }

/-- The vertices of two meshes after `append`: the vertices `0` and `1` come
from the receiver, the vertices `2` and `3` from the argument.  Both of the
latter lie within the distance `1` of vertex `0`, vertex `3` nearer than
vertex `2`. -/
def exampleMeshJoined : TriangleMesh :=
  { vertices := [⟨0, 0, 0⟩, ⟨10, 0, 0⟩, ⟨1 / 2, 0, 0⟩, ⟨1 / 10, 0, 0⟩]
    normals := []
    triangles := []
    vertexcolors := []
    _vertexTriangles := []
    _triangleAreas := [] }

/-! ## Bytes in memory

The writers and the reader of the binary formats copy values into and out of
buffers of `char`.  A buffer is a list of bytes.  The sizes are those of the
machines the code is built for: `char` has one byte, `unsigned short` two,
`int`, `unsigned int` and `float` four, and the least significant byte of an
integer has the lowest address. -/

/-- The four bytes of an `int`, of an `unsigned int` or of a `float` in memory,
the byte at the lowest address first. -/
structure Bytes4 where
  b0 : Nat
  b1 : Nat
  b2 : Nat
  b3 : Nat
  deriving DecidableEq

/-- The bytes of a value of four bytes as a list. -/
def Bytes4.toList (w : Bytes4) : List Nat := [w.b0, w.b1, w.b2, w.b3]

/-- The bytes in memory of an `int` or an `unsigned int` with the value `v`:
the value modulo `2^32`, least significant byte first. -/
def intBytes (v : Int) : Bytes4 :=
  let n := (v % 4294967296).toNat
  ⟨n % 256, n / 256 % 256, n / 65536 % 256, n / 16777216 % 256⟩

/-- The bytes of the `float`s of a list, one after the other; `floatBytes`
gives the bytes of a `float` in memory. -/
def floatsBytes (floatBytes : ℚ → Bytes4) (fs : List ℚ) : List Nat :=
  fs.flatMap fun f => (floatBytes f).toList

/-- The call `memcpy(bin + offset, src, n)` for the `n` bytes `src`, and the
write `bin[offset] = b` for one byte; a write outside of the buffer is a
fault. -/
def memcpyAt (bin : List Nat) (offset : Int) (src : List Nat) : Except Fault (List Nat) :=
  if 0 ≤ offset ∧ offset + src.length ≤ bin.length then
    .ok (bin.take offset.toNat ++ src ++ bin.drop (offset.toNat + src.length))
  else .error .outOfRange

/-- The first `n` bytes of the array `src`, as the source of a `memcpy`; a read
outside of the array is a fault. -/
def readBytes (src : List Nat) (n : Int) : Except Fault (List Nat) :=
  if 0 ≤ n ∧ n ≤ src.length then .ok (src.take n.toNat) else .error .outOfRange

/-- The conversion of a value of the type `size_t` to `int`: the value modulo
`2^32`, taken in the range from `-2^31` to `2^31 - 1` of `int`. -/
def toInt32 (v : Int) : Int := (v + 2147483648) % 4294967296 - 2147483648

/-- The conversion of a value of the type `size_t` to `unsigned int`: the
value modulo `2^32`. -/
def toUInt32 (v : Nat) : Nat := v % 4294967296

/-- The expression `new char[n]` for an `int n`: a buffer of `n` bytes, the
byte at the offset `i` with the value `fill i`; for a negative `n` the
expression throws `std::bad_array_new_length`. -/
def newCharArray (n : Int) (fill : Nat → Nat) : Except Fault (List Nat) :=
  if n < 0 then .error .allocation else .ok ((List.range n.toNat).map fill)

/-! ## `getTriangleNormal` (854-862) and `writeMeshToSTL` (196-248) -/

/-- The method `getTriangleNormal(index)` (lines 854-862). -/
def getTriangleNormal (normalize : Vec3 → Vec3) (m : TriangleMesh) (index : Int) :
    Except Fault Vec3 :=
  if 0 ≤ index ∧ index < m.triangles.length then do
    let t ← vecGet m.triangles index
    let size : Int := m.vertices.length
    if t.t0 < size ∧ t.t1 < size ∧ t.t2 < size then do
      let n0 ← vecGet m.normals t.t0
      let n1 ← vecGet m.normals t.t1
      let n2 ← vecGet m.normals t.t2
      pure (normalize ((n0.add n1).add n2))
    else .error .assertion
  else .error .assertion

/-- The loop of lines 215-237; `i` is the index of the first triangle of the
list. -/
def stlTriangleLoop (floatBytes : ℚ → Bytes4) (normalize : Vec3 → Vec3) (m : TriangleMesh) :
    List Triangle → Int → Int → List Nat → Except Fault (List Nat)
  | [], _, _, bin => .ok bin
  | t :: ts, i, offset, bin => do
    let normal ← getTriangleNormal normalize m i
    let v1 ← vecGet m.vertices t.t0
    let v2 ← vecGet m.vertices t.t1
    let v3 ← vecGet m.vertices t.t2
    let tri := [normal.x, normal.y, normal.z, v1.x, v1.y, v1.z, v2.x, v2.y, v2.z,
      v3.x, v3.y, v3.z]
    let bin ← memcpyAt bin offset (floatsBytes floatBytes tri)
    stlTriangleLoop floatBytes normalize m ts (i + 1) (offset + (12 * 4 + 2)) bin

/-- The method `writeMeshToSTL` (lines 196-248); the result is the buffer that
line 244 writes to the file.  The size of line 199 is computed in `size_t`
and stored in the `int binsize`; the loop of lines 203-205 sets every byte of
the buffer to `0`. -/
def writeMeshToSTL (floatBytes : ℚ → Bytes4) (normalize : Vec3 → Vec3) (m : TriangleMesh) :
    Except Fault (List Nat) := do
  let binsize : Int := toInt32 (80 * 1 + 4 + m.triangles.length * (12 * 4 + 2))
  let bin ← newCharArray binsize (fun _ => 0)
  let offset : Int := 80
  let numTriangles : Int := toUInt32 m.triangles.length
  let bin ← memcpyAt bin offset (intBytes numTriangles).toList
  let offset := offset + 4
  stlTriangleLoop floatBytes normalize m m.triangles 0 offset bin

/-! ## `writeMeshToPLY` (250-405) and `_numDigitsInInteger` (407-419) -/

/-- The array `header1` of line 264. -/
def header1 : List Nat :=
  "ply\nformat binary_little_endian 1.0\nelement vertex ".toList.map Char.toNat

/-- The array `header2` of line 269. -/
def header2 : List Nat :=
  "\nproperty float x\nproperty float y\nproperty float z\nelement face ".toList.map
    Char.toNat

/-- The array `header2color` of line 274. -/
def header2color : List Nat :=
  ("\nproperty float x\nproperty float y\nproperty float z\n" ++
    "property uchar red\nproperty uchar green\nproperty uchar blue\n" ++
    "element face ").toList.map Char.toNat

/-- The array `header3` of line 282. -/
def header3 : List Nat :=
  "\nproperty list uchar int vertex_index\nend_header\n".toList.map Char.toNat

/-- The loop of lines 413-416, for at most `fuel` tests of `num != 0`; the
division of `int` rounds towards zero. -/
def numDigitsLoop : Nat → Int → Int → Except Fault Int
  | 0, _, _ => .error .outOfFuel
  | fuel + 1, num, count =>
    if num ≠ 0 then numDigitsLoop fuel (num.tdiv 10) (count + 1) else .ok count

/-- The method `_numDigitsInInteger` (lines 407-419).  Every pass of the loop
makes the absolute value of `num` smaller, so one test more than that value
suffices. -/
def _numDigitsInInteger (num : Int) : Except Fault Int :=
  if num = 0 then pure 1 else numDigitsLoop (num.natAbs + 1) num 0

/-- The characters that the call `snprintf(s, 10, "%u", n)` of the C library
stores in the array `s`: the decimal digits of `n`, nine of them at most, and
the terminating zero. -/
def snprintf10 (n : Nat) : List Nat :=
  ((Nat.toDigits 10 n).map Char.toNat).take 9 ++ [0]

/-- The conversion `(unsigned char)f` of lines 346-348, which drops the
fraction of `f`; for a value outside of the range of `unsigned char` the
conversion is not defined in C++, and the value is taken modulo `256` here. -/
def ucharOfFloat (f : ℚ) : Nat := (Rat.floor f).toNat % 256

/-- The loops of lines 335-363 for a mesh with colors: the three `float`s of
every vertex are followed by the three bytes of its color. -/
def colorVertexLoop (floatBytes : ℚ → Bytes4) :
    List Vec3 → List Vec3 → Int → List Nat → Except Fault (Int × List Nat)
  | [], _, offset, bin => .ok (offset, bin)
  | _ :: _, [], _, _ => .error .outOfRange
  | v :: vertices, c :: vertexcolors, offset, bin => do
    let bin ← memcpyAt bin offset (floatsBytes floatBytes [v.x, v.y, v.z])
    let offset := offset + 3 * 4
    let bin ← memcpyAt bin offset
      [ucharOfFloat (c.x / 1 * 255), ucharOfFloat (c.y / 1 * 255), ucharOfFloat (c.z / 1 * 255)]
    let offset := offset + 3 * 1
    colorVertexLoop floatBytes vertices vertexcolors offset bin

/-- The loop of lines 383-394. -/
def faceLoop : List Triangle → Int → List Nat → Except Fault (Int × List Nat)
  | [], offset, bin => .ok (offset, bin)
  | t :: ts, offset, bin => do
    let verts := (intBytes t.t0).toList ++ (intBytes t.t1).toList ++ (intBytes t.t2).toList
    let bin ← memcpyAt bin offset [3]
    let offset := offset + 1
    let bin ← memcpyAt bin offset verts
    let offset := offset + 3 * 4
    faceLoop ts offset bin

/-- The method `writeMeshToPLY` (lines 250-405); the result is the buffer that
line 401 writes to the file.  `uninit` gives the bytes of the buffer of line
312 before anything is stored in it.  The sizes of the vectors are values of
the type `size_t`: they are converted to `int` for `_numDigitsInInteger` and
to `unsigned int` for `snprintf`, and the size of lines 306-310 is computed in
`size_t` and stored in the `int binsize`. -/
def writeMeshToPLY (floatBytes : ℚ → Bytes4) (uninit : Nat → Nat) (m : TriangleMesh) :
    Except Fault (List Nat) := do
  let isColorEnabled : Bool := decide (m.vertices.length = m.vertexcolors.length)
  let vertdigits ← _numDigitsInInteger (toInt32 m.vertices.length)
  let facedigits ← _numDigitsInInteger (toInt32 m.triangles.length)
  let vertstring := snprintf10 (toUInt32 m.vertices.length)
  let facestring := snprintf10 (toUInt32 m.triangles.length)
  let offset : Int := 0
  let headersize : Int :=
    if isColorEnabled then 51 + vertdigits + 125 + facedigits + 49
    else 51 + vertdigits + 65 + facedigits + 49
  let binsize : Int :=
    if isColorEnabled then
      toInt32 (headersize + 3 * (4 * m.vertices.length + 1 * m.vertices.length) +
        (1 + 3 * 4) * m.triangles.length)
    else toInt32 (headersize + 3 * 4 * m.vertices.length + (1 + 3 * 4) * m.triangles.length)
  let bin ← newCharArray binsize uninit
  let bin ← memcpyAt bin offset header1
  let offset := offset + 51
  let src ← readBytes vertstring vertdigits
  let bin ← memcpyAt bin offset src
  let offset := offset + vertdigits * 1
  let (offset, bin) ←
    if isColorEnabled then do
      let bin ← memcpyAt bin offset header2color
      pure (offset + 125, bin)
    else do
      let bin ← memcpyAt bin offset header2
      pure (offset + 65, bin)
  let src ← readBytes facestring facedigits
  let bin ← memcpyAt bin offset src
  let offset := offset + facedigits * 1
  let bin ← memcpyAt bin offset header3
  let offset := offset + 49
  let (offset, bin) ←
    if isColorEnabled then colorVertexLoop floatBytes m.vertices m.vertexcolors offset bin
    else do
      let vertdata := m.vertices.flatMap fun v => [v.x, v.y, v.z]
      let bin ← memcpyAt bin offset (floatsBytes floatBytes vertdata)
      pure (offset + 3 * 4 * m.vertices.length, bin)
  let (_, bin) ← faceLoop m.triangles offset bin
  pure bin

/-! ## The records of the binary formats -/

/-- The fifty bytes of a triangle in the STL format: twelve `float`s and two
bytes `0`. -/
def stlRecord (floatBytes : ℚ → Bytes4) (normal v1 v2 v3 : Vec3) : List Nat :=
  floatsBytes floatBytes [normal.x, normal.y, normal.z, v1.x, v1.y, v1.z, v2.x, v2.y, v2.z,
    v3.x, v3.y, v3.z] ++ [0, 0]

/-- The twelve bytes of a vertex without color in the PLY format. -/
def vertexRecord (floatBytes : ℚ → Bytes4) (v : Vec3) : List Nat :=
  floatsBytes floatBytes [v.x, v.y, v.z]

/-- The fifteen bytes of a vertex with color in the PLY format. -/
def colorVertexRecord (floatBytes : ℚ → Bytes4) (vc : Vec3 × Vec3) : List Nat :=
  floatsBytes floatBytes [vc.1.x, vc.1.y, vc.1.z] ++
    [ucharOfFloat (vc.2.x / 1 * 255), ucharOfFloat (vc.2.y / 1 * 255),
      ucharOfFloat (vc.2.z / 1 * 255)]

/-- The thirteen bytes of a face in the PLY format. -/
def faceRecord (t : Triangle) : List Nat :=
  3 :: ((intBytes t.t0).toList ++ (intBytes t.t1).toList ++ (intBytes t.t2).toList)

/-- The decimal digits of `n` as characters. -/
def decimal (n : Nat) : List Nat := (Nat.toDigits 10 n).map Char.toNat

/-- The string `colorString` of line 606. -/
def colorString : List Nat :=
  "property uchar red\nproperty uchar green\nproperty uchar blue\n".toList.map Char.toNat

/-- The string `endHeaderString` of line 545. -/
def endHeaderString : List Nat := "end_header\n".toList.map Char.toNat

/-- The string `vertexString` of line 592. -/
def vertexString : List Nat := "element vertex ".toList.map Char.toNat

/-- The string `faceString` of line 599. -/
def faceString : List Nat := "element face ".toList.map Char.toNat

/-- The list `pat` occurs in the list `s` as a run of consecutive entries. -/
def Occurs (pat s : List Nat) : Prop := ∃ a b, s = a ++ pat ++ b

/-! ## Input file streams

The reader works on a `std::ifstream`.  Its model holds the bytes of the file,
the read position and the flag `failbit`, and follows the C++ standard: a
`read` that finds fewer characters than it is asked for stores those and sets
`failbit`, and while `failbit` is set `seekg` and `read` do nothing.  The
flag is only reset by `clear()`, which the reader never calls. -/

/-- A `std::ifstream` on an open file. -/
structure IfStream where
  bytes : List Nat
  pos : Nat
  failbit : Bool
  deriving DecidableEq

/-- The call `file->seekg(offset, std::ios_base::beg)`. -/
def IfStream.seekg (file : IfStream) (offset : Int) : IfStream :=
  if file.failbit then file
  else if 0 ≤ offset then { file with pos := offset.toNat }
  else { file with failbit := true }

/-- The call `file->read(s, n)`: the characters that it stores in `s`, and the
stream after it. -/
def IfStream.read (file : IfStream) (n : Int) : List Nat × IfStream :=
  if file.failbit then ([], file)
  else if n ≤ ((file.bytes.drop file.pos).length : Int) then
    ((file.bytes.drop file.pos).take n.toNat, { file with pos := file.pos + n.toNat })
  else (file.bytes.drop file.pos, { file with pos := file.bytes.length, failbit := true })

/-! ## Strings -/

/-- The string `s` starts with the characters of `pat`. -/
def startsWith : List Nat → List Nat → Bool
  | [], _ => true
  | _ :: _, [] => false
  | p :: pat, c :: s => decide (p = c) && startsWith pat s

/-- The search of `std::string::find`, with `i` the position of the first
character of the list. -/
def findLoop (pat : List Nat) : List Nat → Nat → Option Nat
  | [], i => if pat = [] then some i else none
  | c :: s, i => if startsWith pat (c :: s) then some i else findLoop pat s (i + 1)

/-- The call `s.find(pat)` of `std::string`: the position of the first
occurrence of `pat` in `s`, and `none` for `npos`. -/
def stringFind (s pat : List Nat) : Option Nat := findLoop pat s 0

/-- The test `isspace` of the C locale. -/
def isSpace (c : Nat) : Bool := decide (c = 32 ∨ (9 ≤ c ∧ c ≤ 13))

/-- The character is a decimal digit. -/
def isDigit (c : Nat) : Bool := decide (48 ≤ c ∧ c ≤ 57)

/-- The extraction `ss >> *n` of an `int` from a `std::istringstream` on the
string `s`: white space is skipped, a sign may follow, then the digits are
read up to the first character that is not a digit.  The extraction fails,
with the result `none`, when there is no digit or when the number does not fit
an `int`. -/
def parseInt (s : List Nat) : Option Int :=
  let s := s.dropWhile isSpace
  let signed : Bool × List Nat :=
    match s with
    | 45 :: r => (true, r)
    | 43 :: r => (false, r)
    | _ => (false, s)
  let ds := signed.2.takeWhile isDigit
  if ds = [] then none
  else
    let v : Nat := ds.foldl (fun acc d => 10 * acc + (d - 48)) 0
    let n : Int := if signed.1 then -(v : Int) else (v : Int)
    if -2147483648 ≤ n ∧ n ≤ 2147483647 then some n else none

/-! ## `loadPLY` (130-155) and its helpers (537-726) -/

/-- The method `clear` (lines 36-42). -/
def clear (m : TriangleMesh) : TriangleMesh :=
  { m with
    vertices := []
    normals := []
    triangles := []
    vertexcolors := []
    _vertexTriangles := [] }

/-- The method `_getPLYHeader` (lines 537-555): the stream after the call, and
the header, `none` for the result `false`.  `uninit` gives the characters of
the array `headerBufferChars` before the call of `read`, which stay where
the file is shorter than the array. -/
def _getPLYHeader (uninit : Nat → Nat) (file : IfStream) : IfStream × Option (List Nat) :=
  let file := file.seekg 0
  let maxHeaderSize : Int := 2048
  let r := file.read maxHeaderSize
  let headerBufferString := r.1 ++ ((List.range 2048).map uninit).drop r.1.length
  match stringFind headerBufferString endHeaderString with
  | none => (r.2, none)
  | some pos => (r.2, some (headerBufferString.take (pos + endHeaderString.length)))

/-- The loop of lines 568-574 on the characters from `startidx` on: the number
of characters before the first line feed. -/
def newlineLoop : List Nat → Nat → Option Nat
  | [], _ => none
  | c :: s, k => if c = 10 then some k else newlineLoop s (k + 1)

/-- The method `_getElementNumberInPlyHeader` (lines 557-589): the number `*n`,
and `none` for the result `false`. -/
def _getElementNumberInPlyHeader (header element : List Nat) : Option Int :=
  match stringFind header element with
  | none => none
  | some pos =>
    let startidx := pos + element.length
    match newlineLoop (header.drop startidx) 0 with
    | none => none
    | some k =>
      let numberString := (header.drop startidx).take k
      parseInt numberString

/-- The method `_getNumVerticesInPLYHeader` (lines 591-596). -/
def _getNumVerticesInPLYHeader (header : List Nat) : Option Int :=
  _getElementNumberInPlyHeader header vertexString

/-- The method `_getNumFacesInPLYHeader` (lines 598-603). -/
def _getNumFacesInPLYHeader (header : List Nat) : Option Int :=
  _getElementNumberInPlyHeader header faceString

/-- The method `_isVertexColorsEnabledInPLYHeader` (lines 605-609). -/
def _isVertexColorsEnabledInPLYHeader (header : List Nat) : Bool :=
  (stringFind header colorString).isSome

/-- The `int` whose bytes in memory are `w`. -/
def bytesInt (w : Bytes4) : Int :=
  let n : Int := (w.b0 : Int) + 256 * (w.b1 : Int) + 65536 * (w.b2 : Int) +
    16777216 * (w.b3 : Int)
  if n < 2147483648 then n else n - 4294967296

/-- The four bytes of `data` from the position `k` on. -/
def bytes4At (data : List Nat) (k : Nat) : Bytes4 :=
  ⟨data.getD k 0, data.getD (k + 1) 0, data.getD (k + 2) 0, data.getD (k + 3) 0⟩

/-- The `vec3` whose three `float`s have the bytes of `data` from the position
`k` on; `bytesFloat` gives the `float` with the given bytes in memory. -/
def vec3At (bytesFloat : Bytes4 → ℚ) (data : List Nat) (k : Nat) : Vec3 :=
  ⟨bytesFloat (bytes4At data k), bytesFloat (bytes4At data (k + 4)),
    bytesFloat (bytes4At data (k + 8))⟩

/-- The loop of lines 644-655 for `n` vertices, and the `assign` of line 657
for `vertexSize = 12`: the vertices of the records of `vertexSize` bytes in
`vertexData`. -/
def plyVertices (bytesFloat : Bytes4 → ℚ) (vertexSize : Nat) : Nat → List Nat → List Vec3
  | 0, _ => []
  | n + 1, vertexData =>
    vec3At bytesFloat vertexData 0 :: plyVertices bytesFloat vertexSize n
      (vertexData.drop vertexSize)

/-- The loop of lines 644-655 for `n` vertices: the colors of the records. -/
def plyColors : Nat → List Nat → List Vec3
  | 0, _ => []
  | n + 1, vertexData =>
    (⟨(vertexData.getD 12 0 : ℚ) / 255, (vertexData.getD 13 0 : ℚ) / 255,
      (vertexData.getD 14 0 : ℚ) / 255⟩ : Vec3) :: plyColors n (vertexData.drop 15)

/-- The method `_loadPLYVertexData` (lines 611-662): its result, the stream and
the mesh after the call.  A negative size of the array of line 633 is a
fault. -/
def _loadPLYVertexData (bytesFloat : Bytes4 → ℚ) (file : IfStream) (header : List Nat)
    (m : TriangleMesh) : Except Fault (Bool × IfStream × TriangleMesh) :=
  match _getNumVerticesInPLYHeader header with
  | none => pure (false, file, m)
  | some numVertices =>
    if numVertices = 0 then pure (true, file, m)
    else
      let isColorEnabled := _isVertexColorsEnabledInPLYHeader header
      let vertexSize : Int := if isColorEnabled then 3 * 4 + 3 * 1 else 3 * 4
      let vertexDataSize := numVertices * vertexSize
      let vertexDataOffset : Int := header.length
      let file := file.seekg vertexDataOffset
      if vertexDataSize < 0 then .error .outOfRange
      else
        let r := file.read vertexDataSize
        if r.2.failbit then pure (false, r.2, m)
        else if isColorEnabled then
          pure (true, r.2,
            { m with
              vertices := m.vertices ++ plyVertices bytesFloat 15 numVertices.toNat r.1
              vertexcolors := m.vertexcolors ++ plyColors numVertices.toNat r.1 })
        else
          pure (true, r.2,
            { m with vertices := plyVertices bytesFloat 12 numVertices.toNat r.1 })

/-- The loop of lines 704-721 for `n` faces, on the bytes of `faceData` from
`offset` on: its result and the triangle list after it. -/
def plyFaceLoop (numVertices : Int) : Nat → List Nat → List Triangle → Bool × List Triangle
  | 0, _, triangles => (true, triangles)
  | n + 1, faceData, triangles =>
    let faceverts := faceData.getD 0 0
    if faceverts ≠ 3 then (false, triangles)
    else
      let t : Triangle := ⟨bytesInt (bytes4At faceData 1), bytesInt (bytes4At faceData 5),
        bytesInt (bytes4At faceData 9)⟩
      if t.t0 < 0 ∨ t.t0 ≥ numVertices ∨ t.t1 < 0 ∨ t.t1 ≥ numVertices ∨
          t.t2 < 0 ∨ t.t2 ≥ numVertices then (false, triangles)
      else plyFaceLoop numVertices n (faceData.drop 13) (triangles ++ [t])

/-- The method `_loadPLYTriangleData` (lines 664-726): its result and the mesh
after the call.  A negative size of the array of line 696 is a fault. -/
def _loadPLYTriangleData (file : IfStream) (header : List Nat) (m : TriangleMesh) :
    Except Fault (Bool × TriangleMesh) :=
  match _getNumVerticesInPLYHeader header with
  | none => pure (false, m)
  | some numVertices =>
    let isColorEnabled := _isVertexColorsEnabledInPLYHeader header
    let vertexSize : Int := if isColorEnabled then 3 * 4 + 3 * 1 else 3 * 4
    let vertexDataSize := numVertices * vertexSize
    let vertexDataOffset : Int := header.length
    match _getNumFacesInPLYHeader header with
    | none => pure (false, m)
    | some numFaces =>
      if numFaces = 0 then pure (true, m)
      else
        let faceSize : Int := 1 + 3 * 4
        let faceDataSize := numFaces * faceSize
        let faceDataOffset := vertexDataOffset + vertexDataSize
        let file := file.seekg faceDataOffset
        if faceDataSize < 0 then .error .outOfRange
        else
          let r := file.read faceDataSize
          if r.2.failbit then pure (false, m)
          else
            let res := plyFaceLoop numVertices numFaces.toNat r.1 m.triangles
            pure (res.1, { m with triangles := res.2 })

/-- The method `loadPLY` (lines 130-155): its result and the mesh after the
call.  `file` holds the bytes of the file, and is `none` for a file that cannot
be opened. -/
def loadPLY (bytesFloat : Bytes4 → ℚ) (uninit : Nat → Nat) (file : Option (List Nat))
    (m : TriangleMesh) : Except Fault (Bool × TriangleMesh) :=
  let m := clear m
  match file with
  | none => pure (false, m)
  | some bytes =>
    let h := _getPLYHeader uninit ⟨bytes, 0, false⟩
    match h.2 with
    | none => pure (false, m)
    | some header => do
      let v ← _loadPLYVertexData bytesFloat h.1 header m
      if !v.1 then pure (false, v.2.2)
      else do
        let t ← _loadPLYTriangleData v.2.1 header v.2.2
        if !t.1 then pure (false, t.2)
        else pure (true, t.2)

/-! ## Files used as instances of the reader -/

/-- The header that `writeMeshToPLY` writes for a mesh of three vertices and
one triangle without colors. -/
def plyHeaderOneFace : List Nat := header1 ++ decimal 3 ++ header2 ++ decimal 1 ++ header3

/-- A file of 216 bytes: `plyHeaderOneFace`, three vertices with the bytes `0`,
and the face record of the triangle `(0, 1, 2)`. -/
def plyFileOneFace : List Nat :=
  plyHeaderOneFace ++
    (List.replicate 36 0 ++ ([3, 0, 0, 0, 0, 1, 0, 0, 0, 2, 0, 0, 0] ++ []))

/-- The file `plyFileOneFace` followed by 1832 bytes `0`, 2048 bytes in all. -/
def plyFileOneFacePadded : List Nat :=
  plyHeaderOneFace ++
    (List.replicate 36 0 ++ ([3, 0, 0, 0, 0, 1, 0, 0, 0, 2, 0, 0, 0] ++ List.replicate 1832 0))

/-- The header that `writeMeshToPLY` writes for a mesh of three vertices and
two triangles without colors. -/
def plyHeaderTwoFaces : List Nat := header1 ++ decimal 3 ++ header2 ++ decimal 2 ++ header3

/-- A file of 2229 bytes: `plyHeaderTwoFaces`, three vertices with the bytes
`0`, the face record of the triangle `(0, 1, 2)`, a face record with the
vertex count `4`, and 2000 bytes `0`. -/
def plyFileBadFace : List Nat :=
  plyHeaderTwoFaces ++
    (List.replicate 36 0 ++
      ([3, 0, 0, 0, 0, 1, 0, 0, 0, 2, 0, 0, 0, 4, 0, 0, 0, 0, 1, 0, 0, 0, 2, 0, 0, 0] ++
        List.replicate 2000 0))

/-! ## The ray test `_isCellInsideMesh` (lines 842-852 and 917-1059) -/

/-- The method `getTrianglePosition` (lines 842-852). -/
def getTrianglePosition (m : TriangleMesh) (index : Int) : Except Fault (Vec3 × Vec3 × Vec3) :=
  if 0 ≤ index ∧ index < m.triangles.length then do
    let t ← vecGet m.triangles index
    let size : Int := m.vertices.length
    if t.t0 < size ∧ t.t1 < size ∧ t.t2 < size then do
      let a ← vecGet m.vertices t.t0
      let b ← vecGet m.vertices t.t1
      let c ← vecGet m.vertices t.t2
      pure (a, b, c)
    else .error .assertion
  else .error .assertion

/-- The method `_isOnTriangleEdge` (lines 917-929); `10e-6` is `1/100000`. -/
def _isOnTriangleEdge (dx u v : ℚ) : Bool :=
  let eps := 1 / 100000 * dx
  if |u| < eps then true
  else if |v| < eps ∨ |u + v - 1| < eps then true
  else false

/-- The method `_isTriangleInVector` (lines 931-938). -/
def _isTriangleInVector (m : TriangleMesh) (index : Int) : List Int → Except Fault Bool
  | [] => .ok false
  | x :: tris => do
    let a ← vecGet m.triangles index
    let b ← vecGet m.triangles x
    if _trianglesEqual a b then pure true else _isTriangleInVector m index tris

/-- The loop of lines 959-976 over the triangles of a cell: the number of
intersections, the vector `tris` and the flag `*success` after it.
`lineIntersectsTriangle p dir a b c` is `none` when
`Collision::lineIntersectsTriangle`, which lives outside of this file, returns
`false`, and holds the parameters `u` and `v` otherwise. -/
def intersectingTrianglesLoop
    (lineIntersectsTriangle : Vec3 → Vec3 → Vec3 → Vec3 → Vec3 → Option (ℚ × ℚ))
    (m : TriangleMesh) (dx : ℚ) (p dir : Vec3) :
    List Int → List Int → Int → Except Fault (Int × List Int × Bool)
  | [], tris, numIntersections => .ok (numIntersections, tris, true)
  | idx :: indices, tris, numIntersections => do
    let tri ← getTrianglePosition m idx
    match lineIntersectsTriangle p dir tri.1 tri.2.1 tri.2.2 with
    | none =>
      intersectingTrianglesLoop lineIntersectsTriangle m dx p dir indices tris numIntersections
    | some uv =>
      if _isOnTriangleEdge dx uv.1 uv.2 then pure (0, tris, false)
      else do
        let found ← _isTriangleInVector m idx tris
        if !found then
          intersectingTrianglesLoop lineIntersectsTriangle m dx p dir indices (tris ++ [idx])
            (numIntersections + 1)
        else
          intersectingTrianglesLoop lineIntersectsTriangle m dx p dir indices tris
            numIntersections

/-- The method `_getIntersectingTrianglesInCell` (lines 940-980): the number it
returns, the vector `tris` and the flag `*success` after the call. -/
def _getIntersectingTrianglesInCell
    (lineIntersectsTriangle : Vec3 → Vec3 → Vec3 → Vec3 → Vec3 → Option (ℚ × ℚ))
    (m : TriangleMesh) (gs : MeshGrid) (g : GridIndex) (p dir : Vec3) (tris : List Int) :
    Except Fault (Int × List Int × Bool) := do
  let indices ← gs._triGrid.get g
  if indices.length = 0 then pure (0, tris, true)
  else intersectingTrianglesLoop lineIntersectsTriangle m gs._dx p dir indices tris 0

/-- The method `_isIntInVector` (lines 982-989). -/
def _isIntInVector (v : Int) : List Int → Bool
  | [] => false
  | x :: ints => if x = v then true else _isIntInVector v ints

/-- The loops of lines 1026-1032 and 1046-1052: the vector of the side,
`leftIntersections` or `rightIntersections`, and `allIntersections` after the
loop. -/
def collectIntersectionsLoop (m : TriangleMesh) :
    List Int → List Int → List Int → Except Fault (List Int × List Int)
  | [], side, allIntersections => .ok (side, allIntersections)
  | idx :: intersections, side, allIntersections =>
    if _isIntInVector idx allIntersections then
      collectIntersectionsLoop m intersections side allIntersections
    else do
      let found ← _isTriangleInVector m idx allIntersections
      if !found then
        collectIntersectionsLoop m intersections (side ++ [idx]) (allIntersections ++ [idx])
      else collectIntersectionsLoop m intersections side allIntersections

/-- The loops of lines 1018-1034, with `di = -1`, and of lines 1037-1054, with
`di = 1`, for at most `fuel` tests of the cell `n`: `none` when the method
returns `false` in the loop, and the vector of the side and
`allIntersections` after the loop otherwise. -/
def probeLoop (lineIntersectsTriangle : Vec3 → Vec3 → Vec3 → Vec3 → Vec3 → Option (ℚ × ℚ))
    (m : TriangleMesh) (gs : MeshGrid) (p dir : Vec3) (di : Int) :
    Nat → GridIndex → List Int → List Int → Except Fault (Option (List Int × List Int))
  | 0, _, _, _ => .error .outOfFuel
  | fuel + 1, n, side, allIntersections =>
    if isGridIndexInRange n gs._gridi gs._gridj gs._gridk then do
      let r ← _getIntersectingTrianglesInCell lineIntersectsTriangle m gs n p dir []
      if !r.2.2 then pure none
      else do
        let s ← collectIntersectionsLoop m r.2.1 side allIntersections
        probeLoop lineIntersectsTriangle m gs p dir di fuel ⟨n.i + di, n.j, n.k⟩ s.1 s.2
    else pure (some (side, allIntersections))

/-- Modelled from the spec: `Grid3d::GridIndexToPosition(g, dx)` of the grid
headers, the corner of the cell with the smallest coordinates. -/
def GridIndexToPosition (g : GridIndex) (dx : ℚ) : Vec3 :=
  ⟨(g.i : ℚ) * dx, (g.j : ℚ) * dx, (g.k : ℚ) * dx⟩

/-- The method `_isCellInsideMesh` (lines 991-1059).  `jitter` is the vector of
the three values of `_randomFloat` of lines 1005-1007.  Each loop moves one
cell along `i` in every pass and ends outside of the grid, so one test more
than the grid has cells along `i` suffices. -/
def _isCellInsideMesh
    (lineIntersectsTriangle : Vec3 → Vec3 → Vec3 → Vec3 → Vec3 → Option (ℚ × ℚ))
    (m : TriangleMesh) (gs : MeshGrid) (jitter : Vec3) (g : GridIndex) : Except Fault Bool :=
  if isGridIndexInRange g gs._gridi gs._gridj gs._gridk then do
    let tris ← gs._triGrid.get g
    if tris.length = 0 then do
      let half : Vec3 := ⟨1 / 2 * gs._dx, 1 / 2 * gs._dx, 1 / 2 * gs._dx⟩
      let p := ((GridIndexToPosition g gs._dx).add half).add jitter
      let dir : Vec3 := ⟨1, 0, 0⟩
      let fuel := gs._gridi.toNat + 1
      let left ← probeLoop lineIntersectsTriangle m gs p dir (-1) fuel ⟨g.i - 1, g.j, g.k⟩ [] []
      match left with
      | none => pure false
      | some l => do
        let right ← probeLoop lineIntersectsTriangle m gs p dir 1 fuel ⟨g.i + 1, g.j, g.k⟩
          [] l.2
        match right with
        | none => pure false
        | some r =>
          if l.1.length % 2 = r.1.length % 2 then pure (decide (l.1.length % 2 = 1))
          else .error .assertion
    else .error .assertion
  else .error .assertion

/-! ## Predicates and counts of the ray test -/

/-- The triangle with the index `idx`, and the zero triple for an index that
is not an index of the mesh. -/
def triangleAt (m : TriangleMesh) (idx : Int) : Triangle :=
  match vecGet m.triangles idx with
  | .ok t => t
  | .error _ => ⟨0, 0, 0⟩

/-- The result of the intersection test of the probe line with the triangle
of index `idx`. -/
def lineHit (lineIntersectsTriangle : Vec3 → Vec3 → Vec3 → Vec3 → Vec3 → Option (ℚ × ℚ))
    (m : TriangleMesh) (p dir : Vec3) (idx : Int) : Option (ℚ × ℚ) :=
  match getTrianglePosition m idx with
  | .ok tri => lineIntersectsTriangle p dir tri.1 tri.2.1 tri.2.2
  | .error _ => none

/-- The probe line of the cell `g`, as `_isCellInsideMesh` sets it up. -/
def probePoint (gs : MeshGrid) (jitter : Vec3) (g : GridIndex) : Vec3 :=
  ((GridIndexToPosition g gs._dx).add ⟨1 / 2 * gs._dx, 1 / 2 * gs._dx, 1 / 2 * gs._dx⟩).add
    jitter

/-- The `k` cells from `n` on in steps of `di` along `i`. -/
def lineCells (di : Int) : Nat → GridIndex → List GridIndex
  | 0, _ => []
  | k + 1, n => n :: lineCells di k ⟨n.i + di, n.j, n.k⟩

/-- The cells `(i, g.j, g.k)` with `0 <= i < g.i`, from `g` outwards. -/
def leftCells (g : GridIndex) : List GridIndex :=
  lineCells (-1) g.i.toNat ⟨g.i - 1, g.j, g.k⟩

/-- The cells `(i, g.j, g.k)` with `g.i < i < _gridi`, from `g` outwards. -/
def rightCells (gs : MeshGrid) (g : GridIndex) : List GridIndex :=
  lineCells 1 (gs._gridi - g.i - 1).toNat ⟨g.i + 1, g.j, g.k⟩

/-- The triangles, as index triples, that are registered in one of the cells
and that the probe line intersects, with repetitions. -/
def hitTriangles (lineIntersectsTriangle : Vec3 → Vec3 → Vec3 → Vec3 → Vec3 → Option (ℚ × ℚ))
    (m : TriangleMesh) (gs : MeshGrid) (p dir : Vec3) (cells : List GridIndex) :
    List Triangle :=
  cells.flatMap fun c =>
    ((gs._triGrid.data c).filter fun idx =>
      (lineHit lineIntersectsTriangle m p dir idx).isSome).map (triangleAt m)

/-- Some triangle that is registered in one of the cells is intersected by the
probe line with parameters that `_isOnTriangleEdge` accepts. -/
def EdgeHit (lineIntersectsTriangle : Vec3 → Vec3 → Vec3 → Vec3 → Vec3 → Option (ℚ × ℚ))
    (m : TriangleMesh) (gs : MeshGrid) (p dir : Vec3) (cells : List GridIndex) : Prop :=
  ∃ c ∈ cells, ∃ idx ∈ gs._triGrid.data c, ∃ uv,
    lineHit lineIntersectsTriangle m p dir idx = some uv ∧
      _isOnTriangleEdge gs._dx uv.1 uv.2 = true

/-- Every index that the triangle grid holds for a cell of the grid is an
index of a triangle of the mesh. -/
def TriGridValid (m : TriangleMesh) (gs : MeshGrid) : Prop :=
  ∀ c, isGridIndexInRange c gs._gridi gs._gridj gs._gridk = true →
    ∀ idx ∈ gs._triGrid.data c, 0 ≤ idx ∧ idx < (m.triangles.length : Int)

/-- The number of distinct triangles, as index triples, that the probe line of
the cell `g` hits in the cells `(i, g.j, g.k)` with `i < g.i`. -/
def leftCount (lineIntersectsTriangle : Vec3 → Vec3 → Vec3 → Vec3 → Vec3 → Option (ℚ × ℚ))
    (m : TriangleMesh) (gs : MeshGrid) (jitter : Vec3) (g : GridIndex) : Nat :=
  (hitTriangles lineIntersectsTriangle m gs (probePoint gs jitter g) ⟨1, 0, 0⟩
    (leftCells g)).toFinset.card

/-- The number of distinct triangles that the probe line of the cell `g` hits
in the cells `(i, g.j, g.k)` with `g.i < i` and does not hit in a cell with
`i < g.i`. -/
def rightCount (lineIntersectsTriangle : Vec3 → Vec3 → Vec3 → Vec3 → Vec3 → Option (ℚ × ℚ))
    (m : TriangleMesh) (gs : MeshGrid) (jitter : Vec3) (g : GridIndex) : Nat :=
  ((hitTriangles lineIntersectsTriangle m gs (probePoint gs jitter g) ⟨1, 0, 0⟩
      (rightCells gs g)).toFinset \
    (hitTriangles lineIntersectsTriangle m gs (probePoint gs jitter g) ⟨1, 0, 0⟩
      (leftCells g)).toFinset).card

/-! ## Example grids of the ray test -/

/-- Three cells in a row along `i` with cells of size `1`: triangle `0` is
registered in the cell `(0, 0, 0)` and triangle `1` in the cell `(2, 0, 0)`. -/
def exampleProbeGrid : MeshGrid :=
  { _gridi := 3, _gridj := 1, _gridk := 1, _dx := 1
    _triGrid :=
      { width := 3, height := 1, depth := 1
        data := fun c => if c = ⟨0, 0, 0⟩ then [0] else if c = ⟨2, 0, 0⟩ then [1] else [] } }

/-- Three cells in a row along `i` with cells of size `1`: triangle `0` is
registered in the cell `(0, 0, 0)`, and no triangle in the other cells. -/
def exampleProbeGridLeft : MeshGrid :=
  { _gridi := 3, _gridj := 1, _gridk := 1, _dx := 1
    _triGrid :=
      { width := 3, height := 1, depth := 1
        data := fun c => if c = ⟨0, 0, 0⟩ then [0] else [] } }

/-- An intersection test under which the probe line meets every triangle in
its interior, with the parameters `u = v = 1/3`. -/
def hitInside : Vec3 → Vec3 → Vec3 → Vec3 → Vec3 → Option (ℚ × ℚ) :=
  fun _ _ _ _ _ => some (1 / 3, 1 / 3)

/-- The loop of lines 1079-1081. -/
def markSurfaceLoop : List GridIndex → Array3d Bool → Except Fault (Array3d Bool)
  | [], insideCellGrid => .ok insideCellGrid
  | g :: rest, insideCellGrid => do
    let grid ← insideCellGrid.set g true
    markSurfaceLoop rest grid

/-- The loop of lines 1087-1094 over the neighbours of one surface cell.
`_isCellInsideMesh` is called for a neighbour that is a cell of the grid and
`false` in `insideCellGrid`; `calls` is the number of calls of
`_isCellInsideMesh` before the loop, and `jitter c` is the vector of the three
values of `_randomFloat` that the call with the number `c` draws.  The loop
ends with the first neighbour that is flood filled; the result is
`insideCellGrid` and the number of calls after the loop. -/
def probeNeighboursLoop
    (lineIntersectsTriangle : Vec3 → Vec3 → Vec3 → Vec3 → Vec3 → Option (ℚ × ℚ))
    (jitter : Nat → Vec3) (m : TriangleMesh) (gs : MeshGrid) :
    List GridIndex → Nat → Array3d Bool → Except Fault (Array3d Bool × Nat)
  | [], calls, insideCellGrid => .ok (insideCellGrid, calls)
  | n :: ns, calls, insideCellGrid =>
    if isGridIndexInRange n gs._gridi gs._gridj gs._gridk then do
      let b ← insideCellGrid.get n
      if !b then do
        let inside ← _isCellInsideMesh lineIntersectsTriangle m gs (jitter calls) n
        if inside then do
          let grid ← _floodfill gs n insideCellGrid
          pure (grid, calls + 1)
        else probeNeighboursLoop lineIntersectsTriangle jitter m gs ns (calls + 1) insideCellGrid
      else probeNeighboursLoop lineIntersectsTriangle jitter m gs ns calls insideCellGrid
    else probeNeighboursLoop lineIntersectsTriangle jitter m gs ns calls insideCellGrid

/-- The loop of lines 1085-1095 over the surface cells. -/
def probeSurfaceLoop
    (lineIntersectsTriangle : Vec3 → Vec3 → Vec3 → Vec3 → Vec3 → Option (ℚ × ℚ))
    (jitter : Nat → Vec3) (m : TriangleMesh) (gs : MeshGrid) :
    List GridIndex → Nat → Array3d Bool → Except Fault (Array3d Bool × Nat)
  | [], calls, insideCellGrid => .ok (insideCellGrid, calls)
  | s :: rest, calls, insideCellGrid => do
    let neighbours := getNeighbourGridIndices6 s
    let r ← probeNeighboursLoop lineIntersectsTriangle jitter m gs neighbours calls
      insideCellGrid
    probeSurfaceLoop lineIntersectsTriangle jitter m gs rest r.2 r.1

/-- The loops of lines 1097-1105 over the cells in the order of `gridScan`. -/
def collectInsideLoop (insideCellGrid : Array3d Bool) :
    List GridIndex → GridIndexVector → Except Fault GridIndexVector
  | [], cells => .ok cells
  | g :: rest, cells => do
    let b ← insideCellGrid.get g
    if b then collectInsideLoop insideCellGrid rest (cells.push_back g)
    else collectInsideLoop insideCellGrid rest cells

/-- The method `getCellsInsideMesh` (lines 1061-1108).  `jitter c` is the
vector of the three values of `_randomFloat` that the call of
`_isCellInsideMesh` with the number `c`, counted from `0`, draws. -/
def getCellsInsideMesh (tests : OverlapTests)
    (lineIntersectsTriangle : Vec3 → Vec3 → Vec3 → Vec3 → Vec3 → Option (ℚ × ℚ))
    (jitter : Nat → Vec3) (m : TriangleMesh) (gs : MeshGrid) (cells : GridIndexVector) :
    Except Fault (GridIndexVector × MeshGrid) :=
  if gs._gridi = 0 ∨ gs._gridj = 0 ∨ gs._gridk = 0 then pure (cells, gs)
  else if cells.width = gs._gridi ∧ cells.height = gs._gridj ∧ cells.depth = gs._gridk then do
    let gs ← _updateTriangleGrid tests m gs
    let surfaceCells ← _getSurfaceCells gs ⟨gs._gridi, gs._gridj, gs._gridk, []⟩
    let insideCellGrid := Array3d.fill gs._gridi gs._gridj gs._gridk false
    let insideCellGrid ← markSurfaceLoop surfaceCells.indices insideCellGrid
    let r ← probeSurfaceLoop lineIntersectsTriangle jitter m gs surfaceCells.indices 0
      insideCellGrid
    let cells ← collectInsideLoop r.1
      (gridScan gs._triGrid.width gs._triGrid.height gs._triGrid.depth) cells
    pure (cells, _destroyTriangleGrid gs)
  else .error .assertion

/-! ## Orders and instances of the last claims -/

/-- The cell `a` comes before the cell `b` in the scan `for k`, `for j`,
`for i` of lines 1097-1099. -/
def scanBefore (a b : GridIndex) : Prop :=
  a.k < b.k ∨ (a.k = b.k ∧ (a.j < b.j ∨ (a.j = b.j ∧ a.i < b.i)))

/-- A mesh with one triangle in the windings `(0, 1, 2)`, `(1, 2, 0)`,
`(2, 0, 1)`, the cyclic rotations, and `(1, 0, 2)`, `(0, 2, 1)`, `(2, 1, 0)`,
the windings with two indices swapped. -/
def exampleMeshWindings : TriangleMesh :=
  { vertices := [⟨1, 2, 3⟩, ⟨0, 1, 4⟩, ⟨2, 0, 1⟩]
    normals := []
    triangles := [⟨0, 1, 2⟩, ⟨1, 2, 0⟩, ⟨2, 0, 1⟩, ⟨1, 0, 2⟩, ⟨0, 2, 1⟩, ⟨2, 1, 0⟩]
    vertexcolors := []
    _vertexTriangles := []
    _triangleAreas := [] }

/-! ## The pair search of `removeDuplicateVertices` (lines 1574-1631) -/

/-- The comparator `sortVertexPairByFirstIndex` (lines 1574-1577). -/
def sortVertexPairByFirstIndex (a b : Int × Int) : Bool :=
  decide (a.1 < b.1)

/-- The loop of lines 1589-1628 over the vertices; the first argument counts
the vertices that are left, `i` is the loop variable.
`queryPointReferencesInsideSphere vertices i eps` holds the `id`s of the
references that the spatial point grid, which lives outside of this file,
returns for the reference `refs[i]` of the vertex `i` among the points
`vertices` inserted in line 1582; `defaultRef` is the `id` of a
default-constructed reference.  The loop of lines 1609-1616 is the loop
`closestRefLoop`. -/
def selfPairsLoop (queryPointReferencesInsideSphere : List Vec3 → Int → ℚ → List Int)
    (defaultRef : Int) (vertices : List Vec3) (eps : ℚ) :
    Nat → Int → List Bool → List (Int × Int) → Except Fault (List (Int × Int))
  | 0, _, _, vertexPairs => .ok vertexPairs
  | k + 1, i, isPaired, vertexPairs => do
    let paired ← vecGet isPaired i
    if paired then
      selfPairsLoop queryPointReferencesInsideSphere defaultRef vertices eps k (i + 1) isPaired
        vertexPairs
    else
      let query := queryPointReferencesInsideSphere vertices i eps
      if query.length = 0 then
        selfPairsLoop queryPointReferencesInsideSphere defaultRef vertices eps k (i + 1)
          isPaired vertexPairs
      else do
        let closestRef ←
          if query.length = 1 then vecGet query 0
          else closestRefLoop vertices i query none defaultRef
        let pair : Int × Int := if closestRef < i then (closestRef, i) else (i, closestRef)
        let vertexPairs := vertexPairs ++ [pair]
        let isPaired ← vecSet isPaired closestRef true
        selfPairsLoop queryPointReferencesInsideSphere defaultRef vertices eps k (i + 1)
          isPaired vertexPairs

/-- The method `_findDuplicateVertexPairs(i, j, k, dx, vertexPairs)` (lines
1579-1631), the pair search of `removeDuplicateVertices`.  The arguments `i`,
`j`, `k` and `dx` only set the size of the spatial point grid. -/
def _findDuplicateVertexPairsSelf
    (queryPointReferencesInsideSphere : List Vec3 → Int → ℚ → List Int) (defaultRef : Int)
    (m : TriangleMesh) (vertexPairs : List (Int × Int)) : Except Fault (List (Int × Int)) := do
  let isPaired := List.replicate m.vertices.length false
  let eps : ℚ := 1 / 100000
  let vertexPairs ← selfPairsLoop queryPointReferencesInsideSphere defaultRef m.vertices eps
    m.vertices.length 0 isPaired vertexPairs
  pure (stdSort sortVertexPairByFirstIndex vertexPairs)

/-- Modelled from the spec: the query of the spatial point grid for a stored
point, as the claim on the pair search takes it: the `id`s, in increasing
order, of the other stored points that lie within the distance `r` of the
point `i`. -/
def sphereQueryRef (gridpoints : List Vec3) (i : Int) (r : ℚ) : List Int :=
  match vecGet gridpoints i with
  | .ok v => (sphereQuery gridpoints v r).filter fun id => decide (id ≠ i)
  | .error _ => []

/-- A mesh with three coinciding vertices followed by a vertex apart. -/
def exampleMeshTripled : TriangleMesh :=
  { vertices := [⟨0, 0, 0⟩, ⟨0, 0, 0⟩, ⟨0, 0, 0⟩, ⟨1, 0, 0⟩]
    normals := []
    triangles := []
    vertexcolors := []
    _vertexTriangles := []
    _triangleAreas := [] }

/-! ## The header of a PLY file -/

/-- The first occurrence of `pat` in `s` starts at the position `k`: `pat`
stands at `k`, and `pat` does not occur in the characters before the last
character of that occurrence. -/
def FirstOccurrenceAt (pat s : List Nat) (k : Nat) : Prop :=
  s.take (k + pat.length) = s.take k ++ pat ∧ ¬ Occurs pat (s.take (k + pat.length - 1))

/-- The characters of the array `headerBufferChars` when it still holds the
header of `plyFileOneFace`, followed by zeros, from an earlier call. -/
def staleHeaderBuffer (i : Nat) : Nat := plyHeaderOneFace.getD i 0

/-! ## `loadOBJ` (lines 44-128)

The loop of `loadOBJ` reads the file with `fscanf`: a word, the line header,
and after the headers `v`, `vn` and `f` the values of the line.  The model
takes the file as the list of what the passes of the loop find in it. -/

/-- What one pass of the loop of lines 61-107 finds in the file: the header
`v` with the vertex that `fscanf` stores, the header `vn` with the normal,
the header `f` with the three values of `vertexIndex` when one of the formats
of lines 76, 82 and 88 matches and with `none` when none of them does, or
another word. -/
inductive ObjStatement where
  | v (vertex : Vec3)
  | vn (normal : Vec3)
  | f (vertexIndex : Option (Int × Int × Int))
  | other

/-- The product of a scalar and a `vmath::vec3`. -/
def Vec3.smul (s : ℚ) (a : Vec3) : Vec3 := ⟨s * a.x, s * a.y, s * a.z⟩

/-- The loop of lines 61-107: the vectors `temp_vertices`, `temp_normals` and
`temp_triangles` at the end of the file, and `none` when the method returns
`false` in line 96. -/
def objLoop (offset : Vec3) (scale : ℚ) :
    List ObjStatement → List Vec3 → List Vec3 → List Triangle →
      Option (List Vec3 × List Vec3 × List Triangle)
  | [], temp_vertices, temp_normals, temp_triangles =>
    some (temp_vertices, temp_normals, temp_triangles)
  | .v vertex :: file, temp_vertices, temp_normals, temp_triangles =>
    objLoop offset scale file (temp_vertices ++ [(Vec3.smul scale vertex).add offset])
      temp_normals temp_triangles
  | .vn normal :: file, temp_vertices, temp_normals, temp_triangles =>
    objLoop offset scale file temp_vertices (temp_normals ++ [normal]) temp_triangles
  | .f none :: _, _, _, _ => none
  | .f (some vertexIndex) :: file, temp_vertices, temp_normals, temp_triangles =>
    let t : Triangle := ⟨vertexIndex.1 - 1, vertexIndex.2.1 - 1, vertexIndex.2.2 - 1⟩
    objLoop offset scale file temp_vertices temp_normals (temp_triangles ++ [t])
  | .other :: file, temp_vertices, temp_normals, temp_triangles =>
    objLoop offset scale file temp_vertices temp_normals temp_triangles

/-- The method `loadOBJ` (lines 48-128): the value it returns and the mesh
after the call.  `file` is `none` when the file cannot be opened. -/
def loadOBJ (normalize : Vec3 → Vec3) (last : Triangle) (file : Option (List ObjStatement))
    (offset : Vec3) (scale : ℚ) (m : TriangleMesh) : Except Fault (Bool × TriangleMesh) :=
  let m := clear m
  match file with
  | none => pure (false, m)
  | some statements =>
    match objLoop offset scale statements [] [] [] with
    | none => pure (false, m)
    | some temp =>
      let m := { m with vertices := m.vertices ++ temp.1 }
      let m := { m with triangles := m.triangles ++ temp.2.2 }
      let m := removeDuplicateTriangles last m
      if m.normals.length = m.vertices.length then
        let m := { m with normals := [] }
        let m := { m with normals := m.normals ++ m.normals }
        pure (true, m)
      else do
        let m ← updateVertexNormals normalize m
        pure (true, m)

/-! ## The statements of an OBJ file -/

/-- The statement is a `vn` line. -/
def ObjStatement.isNormal : ObjStatement → Bool
  | .vn _ => true
  | _ => false

/-- The statements of the file that are not `vn` lines. -/
def withoutNormals (file : List ObjStatement) : List ObjStatement :=
  file.filter fun s => !s.isNormal

/-- The vertices of the `v` lines of the file, scaled and moved. -/
def objVertices (offset : Vec3) (scale : ℚ) : List ObjStatement → List Vec3
  | [] => []
  | .v vertex :: file => (Vec3.smul scale vertex).add offset :: objVertices offset scale file
  | _ :: file => objVertices offset scale file

/-- The normals of the `vn` lines of the file. -/
def objNormals : List ObjStatement → List Vec3
  | [] => []
  | .vn normal :: file => normal :: objNormals file
  | _ :: file => objNormals file

/-- The triangles of the `f` lines of the file. -/
def objTriangles : List ObjStatement → List Triangle
  | [] => []
  | .f (some vertexIndex) :: file =>
    ⟨vertexIndex.1 - 1, vertexIndex.2.1 - 1, vertexIndex.2.2 - 1⟩ :: objTriangles file
  | _ :: file => objTriangles file

/-- Every `f` line of the file is read in one of the three formats. -/
def facesRead : List ObjStatement → Bool
  | [] => true
  | .f none :: _ => false
  | _ :: file => facesRead file

/-- The mesh that `loadOBJ` holds after line 117: the vertices and triangles
of the file, the triangles sorted and without repetitions. -/
def objMesh (last : Triangle) (offset : Vec3) (scale : ℚ) (file : List ObjStatement)
    (m : TriangleMesh) : TriangleMesh :=
  removeDuplicateTriangles last
    { clear m with
      vertices := objVertices offset scale file
      triangles := objTriangles file }

/-- An OBJ file with three vertices, one normal for each of them, and one
face. -/
def exampleObjFile : List ObjStatement :=
  [.other, .v ⟨0, 0, 0⟩, .v ⟨1, 0, 0⟩, .v ⟨0, 1, 0⟩, .vn ⟨0, 0, 1⟩, .vn ⟨0, 0, 1⟩,
    .vn ⟨0, 0, 1⟩, .f (some (1, 2, 3))]

/-- The file `exampleObjFile` with other `vn` lines. -/
def exampleObjFileOtherNormals : List ObjStatement :=
  [.other, .v ⟨0, 0, 0⟩, .vn ⟨1, 0, 0⟩, .v ⟨1, 0, 0⟩, .v ⟨0, 1, 0⟩, .f (some (1, 2, 3))]

/-! ## The triangle areas (lines 504-517 and 1197-1206) -/

/-- The method `getTriangleArea` (lines 504-517); `length` is `vmath::length`. -/
def getTriangleArea (length : Vec3 → ℚ) (m : TriangleMesh) (tidx : Int) : Except Fault ℚ :=
  if 0 ≤ tidx ∧ tidx < m.triangles.length then
    if tidx < m._triangleAreas.length then vecGet m._triangleAreas tidx
    else do
      let t ← vecGet m.triangles tidx
      let p0 ← vecGet m.vertices t.t0
      let p1 ← vecGet m.vertices t.t1
      let p2 ← vecGet m.vertices t.t2
      let AB := p1.sub p0
      let AC := p2.sub p0
      pure (1 / 2 * length (AB.cross AC))
  else .error .assertion

/-- The loop of lines 1199-1201; the first argument counts the triangles that
are left, `i` is the loop variable. -/
def triangleAreasLoop (length : Vec3 → ℚ) : Nat → Int → TriangleMesh → Except Fault TriangleMesh
  | 0, _, m => .ok m
  | k + 1, i, m => do
    let area ← getTriangleArea length m i
    triangleAreasLoop length k (i + 1) { m with _triangleAreas := m._triangleAreas ++ [area] }

/-- The method `updateTriangleAreas` (lines 1197-1202). -/
def updateTriangleAreas (length : Vec3 → ℚ) (m : TriangleMesh) : Except Fault TriangleMesh :=
  triangleAreasLoop length m.triangles.length 0 { m with _triangleAreas := [] }

/-- The method `clearTriangleAreas` (lines 1204-1206). -/
def clearTriangleAreas (m : TriangleMesh) : TriangleMesh :=
  { m with _triangleAreas := [] }

/-! ## The caches and the lists of the mesh -/

/-- The area of the triangle `tidx` of the mesh as lines 511-516 compute it
from the lists of vertices and triangles. -/
def currentTriangleArea (length : Vec3 → ℚ) (m : TriangleMesh) (tidx : Int) : Except Fault ℚ :=
  getTriangleArea length (clearTriangleAreas m) tidx

/-- For every triangle of the mesh `getTriangleArea` returns the area of that
triangle. -/
def AreasCurrent (length : Vec3 → ℚ) (m : TriangleMesh) : Prop :=
  ∀ tidx : Int, 0 ≤ tidx → tidx < m.triangles.length →
    ∃ area, getTriangleArea length m tidx = .ok area ∧
      currentTriangleArea length m tidx = .ok area

/-- The area cache has one entry for every triangle, the area of that
triangle. -/
def AreasCached (length : Vec3 → ℚ) (m : TriangleMesh) : Prop :=
  m._triangleAreas.length = m.triangles.length ∧
  ∀ tidx : Int, 0 ≤ tidx → tidx < m.triangles.length →
    ∃ area, vecGet m._triangleAreas tidx = .ok area ∧
      currentTriangleArea length m tidx = .ok area

/-- The vertex triangle cache is what `_updateVertexTriangles` computes from
the lists of vertices and triangles. -/
def VertexTrianglesCurrent (m : TriangleMesh) : Prop :=
  _updateVertexTriangles m = .ok m

/-- A length that agrees with `vmath::length` on the vectors along an axis:
the sum of the absolute values of the coordinates. -/
def axisLength (v : Vec3) : ℚ := |v.x| + |v.y| + |v.z|

/-- A mesh with two triangles in the plane `z = 0`, of the areas `1/2` and
`2`. -/
def exampleMeshTwoAreas : TriangleMesh :=
  { vertices := [⟨0, 0, 0⟩, ⟨1, 0, 0⟩, ⟨0, 1, 0⟩, ⟨2, 0, 0⟩, ⟨0, 2, 0⟩]
    normals := []
    triangles := [⟨0, 1, 2⟩, ⟨0, 3, 4⟩]
    vertexcolors := []
    _vertexTriangles := []
    _triangleAreas := [] }

/-- The mesh `exampleMeshTwoAreas` after `updateVertexTriangles` and
`updateTriangleAreas`. -/
def exampleMeshTwoAreasCached : TriangleMesh :=
  { exampleMeshTwoAreas with
    _vertexTriangles := [[0, 1], [0], [0], [1], [1]]
    _triangleAreas := [1 / 2, 2] }

/-- The mesh `exampleMeshTwoAreasCached` after `removeTriangles` for the
triangle `0`. -/
def exampleMeshTwoAreasRemoved : TriangleMesh :=
  { exampleMeshTwoAreasCached with triangles := [⟨0, 3, 4⟩] }

/-! ## The graph of the polyhedron search -/

/-- The three vertex indices of a triangle. -/
def Triangle.corners (t : Triangle) : List Int := [t.t0, t.t1, t.t2]

/-- The two triangles have at least two vertex indices in common. -/
def SharesEdge (s t : Triangle) : Prop :=
  ∃ a b : Int, a ≠ b ∧ a ∈ s.corners ∧ b ∈ s.corners ∧ a ∈ t.corners ∧ b ∈ t.corners

/-- The triangle `y` is among the face neighbours that `getFaceNeighbours`
reports for the triangle `x`. -/
def FaceNeighbour (m : TriangleMesh) (x y : Int) : Prop :=
  ∃ ns, getFaceNeighbours m x [] = .ok ns ∧ y ∈ ns

/-- The triangle is reached from the triangle `s` by steps to face
neighbours, over triangles that are not in `D`. -/
inductive ReachAvoiding (m : TriangleMesh) (D : List Int) (s : Int) : Int → Prop
  | start : s ∉ D → ReachAvoiding m D s s
  | step {x y : Int} : ReachAvoiding m D s x → FaceNeighbour m x y → y ∉ D →
      ReachAvoiding m D s y

/-- The positions `i`, `i + 1`, ..., `i + k - 1` that are not in `R`, in
increasing order: the old indices of the triangles that `removeTriangles`
keeps. -/
def keptPositions (R : List Int) : Nat → Int → List Int
  | 0, _ => []
  | k + 1, i => if i ∈ R then keptPositions R k (i + 1) else i :: keptPositions R k (i + 1)

/-- A mesh of two triangles with the common edge `(0, 1)`, followed by a
triangle apart. -/
def exampleMeshEdge : TriangleMesh :=
  { vertices := [⟨0, 0, 0⟩, ⟨1, 0, 0⟩, ⟨0, 1, 0⟩, ⟨0, -1, 0⟩, ⟨5, 0, 0⟩, ⟨6, 0, 0⟩, ⟨5, 1, 0⟩]
    normals := []
    triangles := [⟨0, 1, 2⟩, ⟨0, 3, 1⟩, ⟨4, 5, 6⟩]
    vertexcolors := []
    _vertexTriangles := []
    _triangleAreas := [] }

/-! ## The signed volume in `float` and `double` -/

/-- The value that lines 1258-1265 compute from the positions `p1`, `p2` and
`p3` of the corners of a triangle. -/
def signedVolumeOf (p1 p2 p3 : Vec3) : Option ℚ :=
  mulDouble (divDouble (some 1) (some 6))
    (addDouble
      (subDouble
        (subDouble
          (addDouble
            (addDouble (negDouble (mulFloat (mulFloat (some p3.x) (some p2.y)) (some p1.z)))
              (mulFloat (mulFloat (some p2.x) (some p3.y)) (some p1.z)))
            (mulFloat (mulFloat (some p3.x) (some p1.y)) (some p2.z)))
          (mulFloat (mulFloat (some p1.x) (some p3.y)) (some p2.z)))
        (mulFloat (mulFloat (some p2.x) (some p1.y)) (some p3.z)))
      (mulFloat (mulFloat (some p1.x) (some p2.y)) (some p3.z)))

/-- The two multiplications of the product `a * b * c` of three `float`s do
not round. -/
def ExactProduct (a b c : ℚ) : Prop :=
  roundFloat (a * b) = some (a * b) ∧ roundFloat (a * b * c) = some (a * b * c)

/-- For the positions `p1`, `p2` and `p3` none of the twelve multiplications
of lines 1258-1263 and none of the five additions and subtractions of line
1265 rounds: every product and every partial sum is a value of its type. -/
def ExactVolumeTerms (p1 p2 p3 : Vec3) : Prop :=
  ExactProduct p3.x p2.y p1.z ∧ ExactProduct p2.x p3.y p1.z ∧ ExactProduct p3.x p1.y p2.z ∧
  ExactProduct p1.x p3.y p2.z ∧ ExactProduct p2.x p1.y p3.z ∧ ExactProduct p1.x p2.y p3.z ∧
  roundDouble (-(p3.x * p2.y * p1.z) + p2.x * p3.y * p1.z) =
    some (-(p3.x * p2.y * p1.z) + p2.x * p3.y * p1.z) ∧
  roundDouble (-(p3.x * p2.y * p1.z) + p2.x * p3.y * p1.z + p3.x * p1.y * p2.z) =
    some (-(p3.x * p2.y * p1.z) + p2.x * p3.y * p1.z + p3.x * p1.y * p2.z) ∧
  roundDouble (-(p3.x * p2.y * p1.z) + p2.x * p3.y * p1.z + p3.x * p1.y * p2.z -
      p1.x * p3.y * p2.z) =
    some (-(p3.x * p2.y * p1.z) + p2.x * p3.y * p1.z + p3.x * p1.y * p2.z -
      p1.x * p3.y * p2.z) ∧
  roundDouble (-(p3.x * p2.y * p1.z) + p2.x * p3.y * p1.z + p3.x * p1.y * p2.z -
      p1.x * p3.y * p2.z - p2.x * p1.y * p3.z) =
    some (-(p3.x * p2.y * p1.z) + p2.x * p3.y * p1.z + p3.x * p1.y * p2.z -
      p1.x * p3.y * p2.z - p2.x * p1.y * p3.z) ∧
  roundDouble (-(p3.x * p2.y * p1.z) + p2.x * p3.y * p1.z + p3.x * p1.y * p2.z -
      p1.x * p3.y * p2.z - p2.x * p1.y * p3.z + p1.x * p2.y * p3.z) =
    some (-(p3.x * p2.y * p1.z) + p2.x * p3.y * p1.z + p3.x * p1.y * p2.z -
      p1.x * p3.y * p2.z - p2.x * p1.y * p3.z + p1.x * p2.y * p3.z)

/-- The `double` nearest to `1/6`, the value of `1.0/6.0`. -/
def oneSixth : ℚ := 6004799503160661 / 36028797018963968

/-- A mesh of one triangle, stored with its three cyclic rotations and with
its corners swapped; one coordinate of the vertex `0` is `2^60`. -/
def exampleMeshFarVertex : TriangleMesh :=
  { vertices := [⟨1, 0, 1152921504606846976⟩, ⟨1, 1, 0⟩, ⟨1, 1, 1⟩]
    normals := []
    triangles := [⟨0, 1, 2⟩, ⟨1, 2, 0⟩, ⟨2, 0, 1⟩, ⟨1, 0, 2⟩, ⟨0, 2, 1⟩, ⟨2, 1, 0⟩]
    vertexcolors := []
    _vertexTriangles := []
    _triangleAreas := [] }

/-- A mesh of one triangle near the point `(1000, 1000, 1000)`. -/
def exampleMeshShifted : TriangleMesh :=
  { vertices := [⟨1000, 1000, 1000⟩, ⟨1001, 1000, 1000⟩, ⟨1000, 1001, 1000⟩]
    normals := []
    triangles := [⟨0, 1, 2⟩]
    vertexcolors := []
    _vertexTriangles := []
    _triangleAreas := [] }

/-! ## Meshes beyond the range of `int` -/

/-- A mesh of three vertices with normals in which the triangle `(0, 1, 2)` is
stored `42949672` times: the STL file of the mesh has `2^31 + 36` bytes. -/
def exampleMeshManyTriangles : TriangleMesh :=
  { vertices := [⟨0, 0, 0⟩, ⟨1, 0, 0⟩, ⟨0, 1, 0⟩]
    normals := [⟨0, 0, 1⟩, ⟨0, 0, 1⟩, ⟨0, 0, 1⟩]
    triangles := List.replicate 42949672 ⟨0, 1, 2⟩
    vertexcolors := []
    _vertexTriangles := []
    _triangleAreas := [] }

/-- A mesh of `200000000` vertices without colors and without triangles: the
PLY file of the mesh has `2400000175` bytes. -/
def exampleMeshManyVertices : TriangleMesh :=
  { vertices := List.replicate 200000000 ⟨0, 0, 0⟩
    normals := []
    triangles := []
    vertexcolors := []
    _vertexTriangles := []
    _triangleAreas := [] }

/-! ## The cells that `getCellsInsideMesh` marks -/

/-- The array `insideCellGrid` after the loop of lines 1079-1081: `true` at
the surface cells, the cells of the grid whose triangle list is not empty,
and `false` elsewhere. -/
def surfaceGrid (gs : MeshGrid) : Array3d Bool :=
  { width := gs._gridi, height := gs._gridj, depth := gs._gridk
    data := fun c =>
      isGridIndexInRange c gs._gridi gs._gridj gs._gridk &&
        decide (0 < (gs._triGrid.data c).length) }

/-- The cell `x` is reached by the flood fill from a cell `n` that is a
neighbour of a surface cell, a cell of the grid and not a surface cell, and
for which `inside` holds: a path of face neighbours leads from `n` to `x`
through cells of the grid that are not surface cells. -/
def FilledFrom (gs : MeshGrid) (inside : GridIndex → Prop) (x : GridIndex) : Prop :=
  ∃ s n, (surfaceGrid gs).data s = true ∧ n ∈ getNeighbourGridIndices6 s ∧
    isGridIndexInRange n gs._gridi gs._gridj gs._gridk = true ∧
    (surfaceGrid gs).data n = false ∧ inside n ∧ FillReach gs (surfaceGrid gs) n x

/-- Every cell of the grid that is `true` in `cells` and `false` in `base`
has only neighbours that are `true` in `cells` or outside of the grid. -/
def FillClosed (gs : MeshGrid) (base cells : Array3d Bool) : Prop :=
  ∀ x, isGridIndexInRange x gs._gridi gs._gridj gs._gridk = true → cells.data x = true →
    base.data x = false →
    ∀ y ∈ getNeighbourGridIndices6 x,
      isGridIndexInRange y gs._gridi gs._gridj gs._gridk = true → cells.data y = true

/-- The intersection test of a line along `i` depends on the start point of
the line only through its coordinates `y` and `z`: two start points with the
same `y` and `z` give the same line. -/
def LineAlongI
    (lineIntersectsTriangle : Vec3 → Vec3 → Vec3 → Vec3 → Vec3 → Option (ℚ × ℚ)) : Prop :=
  ∀ p q a b c : Vec3, p.y = q.y → p.z = q.z →
    lineIntersectsTriangle p ⟨1, 0, 0⟩ a b c = lineIntersectsTriangle q ⟨1, 0, 0⟩ a b c

/-- The ray test is the fixed predicate `inside` on the cells: every call of
`_isCellInsideMesh` on a cell of the grid without a triangle returns the value
of `inside` at the cell, whatever the number of the call and its jitter. -/
def RayTestIs
    (lineIntersectsTriangle : Vec3 → Vec3 → Vec3 → Vec3 → Vec3 → Option (ℚ × ℚ))
    (jitter : Nat → Vec3) (m : TriangleMesh) (gs : MeshGrid) (inside : GridIndex → Bool) :
    Prop :=
  ∀ (c : Nat) (n : GridIndex), isGridIndexInRange n gs._gridi gs._gridj gs._gridk = true →
    gs._triGrid.data n = [] →
    _isCellInsideMesh lineIntersectsTriangle m gs (jitter c) n = .ok (inside n)

/-- No call of `_isCellInsideMesh` on a cell of the grid without a triangle
fails the assertion of line 1056 or another assertion. -/
def RayTestReturns
    (lineIntersectsTriangle : Vec3 → Vec3 → Vec3 → Vec3 → Vec3 → Option (ℚ × ℚ))
    (jitter : Nat → Vec3) (m : TriangleMesh) (gs : MeshGrid) : Prop :=
  ∀ (c : Nat) (n : GridIndex), isGridIndexInRange n gs._gridi gs._gridj gs._gridk = true →
    gs._triGrid.data n = [] →
    ∃ b, _isCellInsideMesh lineIntersectsTriangle m gs (jitter c) n = .ok b

/-- A grid of `5 x 2 x 2` cells of size `1`, before the triangle grid is
built. -/
def exampleWallGrid : MeshGrid :=
  { _gridi := 5, _gridj := 2, _gridk := 2, _dx := 1, _triGrid := Array3d.fill 0 0 0 [] }

/-- The values of the overlap tests for `exampleMeshTwoTriangles` on
`exampleWallGrid` when its two triangles are taken for two walls across the
grid: the first triangle is reported for the four cells with `i = 1`, the
second for the four cells with `i = 3`. -/
def exampleWallTests : OverlapTests :=
  { getGridCellOverlap := fun t =>
      if t = ⟨0, 1, 2⟩ then [⟨1, 0, 0⟩, ⟨1, 1, 0⟩, ⟨1, 0, 1⟩, ⟨1, 1, 1⟩]
      else [⟨3, 0, 0⟩, ⟨3, 1, 0⟩, ⟨3, 0, 1⟩, ⟨3, 1, 1⟩]
    isOverlappingTriangle := fun _ _ => true }

/-- The grid `exampleWallGrid` with the triangle grid that
`_updateTriangleGrid` builds for `exampleMeshTwoTriangles` and the tests
`exampleWallTests`: the list `[0]` in the four cells with `i = 1`, the list
`[1]` in the four cells with `i = 3`, and the empty list elsewhere. -/
def exampleWallGridBuilt : MeshGrid :=
  match _updateTriangleGrid exampleWallTests exampleMeshTwoTriangles exampleWallGrid with
  | .ok gs => gs
  | .error _ => exampleWallGrid

/-- The jitter of every call of `_isCellInsideMesh` in the examples. -/
def exampleJitter : Nat → Vec3 := fun _ => ⟨0, 0, 0⟩

/-- The cells of `exampleWallGrid` between the two walls. -/
def betweenWalls (c : GridIndex) : Bool := decide (c.i = 2)

/-! ## The vector accesses -/

@[simp] theorem ok_bind {ε α β : Type} (a : α) (f : α → Except ε β) :
    (Except.ok a >>= f) = f a := rfl

@[simp] theorem error_bind {ε α β : Type} (e : ε) (f : α → Except ε β) :
    ((Except.error e : Except ε α) >>= f) = Except.error e := rfl

@[simp] theorem pure_eq_ok {ε α : Type} (a : α) : (pure a : Except ε α) = Except.ok a := rfl

theorem vecGet_ok {α : Type} (v : List α) (i : Int) (h0 : 0 ≤ i) (h1 : i < v.length) :
    ∃ a, vecGet v i = .ok a ∧ v[i.toNat]? = some a := by
  have hlt : i.toNat < v.length := (Int.toNat_lt h0).2 h1
  refine ⟨v[i.toNat], ?_, List.getElem?_eq_getElem hlt⟩
  simp [vecGet, h0, List.getElem?_eq_getElem hlt]

theorem vecGet_eq_ok_iff {α : Type} (v : List α) (i : Int) (a : α) :
    vecGet v i = .ok a ↔ 0 ≤ i ∧ v[i.toNat]? = some a := by
  unfold vecGet
  by_cases h0 : 0 ≤ i
  · cases hv : v[i.toNat]? with
    | none => simp [h0]
    | some b => simp [h0]
  · simp [h0]

theorem vecGet_natCast {α : Type} (v : List α) (n : Nat) (a : α) (h : v[n]? = some a) :
    vecGet v (n : Int) = .ok a := by
  rw [vecGet_eq_ok_iff]; simpa using h

theorem vecSet_ok {α : Type} (v : List α) (i : Int) (a : α) (h0 : 0 ≤ i) (h1 : i < v.length) :
    vecSet v i a = .ok (v.set i.toNat a) := by
  have hlt : i.toNat < v.length := (Int.toNat_lt h0).2 h1
  simp [vecSet, h0, hlt]

/-! ## `append` -/

theorem vecGet_append_offset {α : Type} (A B : List α) (i : Int) (p : α)
    (h : vecGet B i = .ok p) : vecGet (A ++ B) (i + A.length) = .ok p := by
  rw [vecGet_eq_ok_iff] at h ⊢
  obtain ⟨h0, hp⟩ := h
  refine ⟨by omega, ?_⟩
  have e : (i + (A.length : Int)).toNat = A.length + i.toNat := by omega
  rw [e, List.getElem?_append_right (by omega)]
  simpa using hp

theorem append_inRange (A B : TriangleMesh) (hA : IndicesInRange A) (hB : IndicesInRange B) :
    IndicesInRange (append A B) := by
  intro t ht
  simp only [append, List.mem_append, List.mem_map] at ht
  simp only [append, List.length_append, Triangle.InRange, Nat.cast_add]
  rcases ht with ht | ⟨s, hs, rfl⟩
  · have := hA t ht
    simp only [Triangle.InRange] at this
    omega
  · have := hB s hs
    simp only [Triangle.InRange] at this
    simp only [offsetTriangle]
    omega

theorem append_I1 (A B : TriangleMesh) (hA : I1 A) (hB : I1 B) : I1 (append A B) := by
  intro t ht
  refine ⟨?_, append_inRange A B (fun t ht => (hA t ht).2) (fun t ht => (hB t ht).2) t ht⟩
  simp only [append, List.mem_append, List.mem_map] at ht
  rcases ht with ht | ⟨s, hs, rfl⟩
  · exact (hA t ht).1
  · have := (hB s hs).1
    simp only [Triangle.Distinct] at this
    simp only [offsetTriangle, Triangle.Distinct]
    omega

/-- C1: after `A.append(B)` the vertex list is the vertices of `A` followed by
those of `B`, the triangle list is the triangles of `A` followed by the
triangles of `B` with every index increased by the old vertex count of `A`,
and every corner of an appended triangle resolves to the position it had in `B`. -/
theorem append_spec (A B : TriangleMesh) :
    (append A B).vertices = A.vertices ++ B.vertices ∧
    (append A B).triangles =
      A.triangles ++ B.triangles.map (fun t =>
        (⟨t.t0 + A.vertices.length, t.t1 + A.vertices.length, t.t2 + A.vertices.length⟩ :
          Triangle)) ∧
    (∀ t ∈ B.triangles, ∀ k : Fin 3, ∀ p : Vec3,
      vecGet B.vertices (t.tri k) = .ok p →
      vecGet (append A B).vertices
        ((⟨t.t0 + A.vertices.length, t.t1 + A.vertices.length, t.t2 + A.vertices.length⟩ :
          Triangle).tri k) = .ok p) := by
  refine ⟨rfl, rfl, ?_⟩
  intro t _ k p hp
  have key : ∀ i : Int, vecGet B.vertices i = .ok p →
      vecGet (append A B).vertices (i + A.vertices.length) = .ok p :=
    fun i hi => vecGet_append_offset A.vertices B.vertices i p hi
  fin_cases k
  · exact key _ hp
  · exact key _ hp
  · exact key _ hp

/-- An instance of the theorem on `append`: `exampleMeshA` and `exampleMeshB`. -/
theorem append_spec_witness :
    (append exampleMeshA exampleMeshB).vertices = exampleMeshA.vertices ++ exampleMeshB.vertices ∧
    (append exampleMeshA exampleMeshB).triangles =
      exampleMeshA.triangles ++ exampleMeshB.triangles.map (fun t =>
        (⟨t.t0 + exampleMeshA.vertices.length, t.t1 + exampleMeshA.vertices.length,
          t.t2 + exampleMeshA.vertices.length⟩ : Triangle)) ∧
    vecGet (append exampleMeshA exampleMeshB).vertices 5 = .ok ⟨1, 0, 2⟩ :=
  ⟨(append_spec exampleMeshA exampleMeshB).1, (append_spec exampleMeshA exampleMeshB).2.1,
    (append_spec exampleMeshA exampleMeshB).2.2 ⟨0, 1, 2⟩ (by decide) 1 ⟨1, 0, 2⟩ (by decide)⟩

/-- C10, as stated, fails: a receiver without colors and an argument with one
color per vertex both satisfy the parallel array invariant, and the receiver
does not satisfy it after `append`. -/
theorem append_parallelArrays_counterexample :
    ParallelArrays exampleMeshA ∧ ParallelArrays exampleMeshColored ∧
    ¬ ParallelArrays (append exampleMeshA exampleMeshColored) := by
  decide

/-- C10, amended: for meshes that satisfy the parallel array invariant, the
receiver satisfies it after `append` exactly when, for the colors and for the
normals, both meshes have the array empty or both have it as long as their
vertex array. -/
theorem append_parallelArrays_iff (A B : TriangleMesh)
    (hA : ParallelArrays A) (hB : ParallelArrays B) :
    ParallelArrays (append A B) ↔
      ((A.vertexcolors.length = 0 ∧ B.vertexcolors.length = 0) ∨
        (A.vertexcolors.length = A.vertices.length ∧
          B.vertexcolors.length = B.vertices.length)) ∧
      ((A.normals.length = 0 ∧ B.normals.length = 0) ∨
        (A.normals.length = A.vertices.length ∧ B.normals.length = B.vertices.length)) := by
  simp only [ParallelArrays, append, List.length_append] at *
  omega

/-- An instance of the amended invariant theorem: two meshes without colors. -/
theorem append_parallelArrays_iff_witness :
    ParallelArrays (append exampleMeshA exampleMeshB) ↔
      ((exampleMeshA.vertexcolors.length = 0 ∧ exampleMeshB.vertexcolors.length = 0) ∨
        (exampleMeshA.vertexcolors.length = exampleMeshA.vertices.length ∧
          exampleMeshB.vertexcolors.length = exampleMeshB.vertices.length)) ∧
      ((exampleMeshA.normals.length = 0 ∧ exampleMeshB.normals.length = 0) ∨
        (exampleMeshA.normals.length = exampleMeshA.vertices.length ∧
          exampleMeshB.normals.length = exampleMeshB.vertices.length)) :=
  append_parallelArrays_iff exampleMeshA exampleMeshB (by decide) (by decide)

/-! ## `removeTriangles` -/

theorem markInvalidLoop_spec (R : List Int) : ∀ inv : List Bool,
    (∀ r ∈ R, 0 ≤ r ∧ r < inv.length) →
    ∃ inv', markInvalidLoop R inv = .ok inv' ∧ inv'.length = inv.length ∧
      ∀ j : Nat, inv'[j]? = (inv[j]?).map (fun b => decide ((j : Int) ∈ R) || b) := by
  induction R with
  | nil =>
    intro inv _
    refine ⟨inv, rfl, rfl, fun j => ?_⟩
    cases inv[j]? <;> simp
  | cons r R ih =>
    intro inv h
    obtain ⟨h0, h1⟩ := h r (List.mem_cons_self _ _)
    have hset := vecSet_ok inv r true h0 h1
    obtain ⟨inv', hrun, hlen, hget⟩ := ih (inv.set r.toNat true) (by
      intro r' hr'
      simpa using h r' (List.mem_cons_of_mem _ hr'))
    refine ⟨inv', ?_, by simpa using hlen, fun j => ?_⟩
    · simp only [markInvalidLoop, hset, ok_bind]
      exact hrun
    · rw [hget j, List.getElem?_set]
      have hlt : r.toNat < inv.length := (Int.toNat_lt h0).2 h1
      by_cases hj : r.toNat = j
      · have hjr : (j : Int) = r := by omega
        subst hj
        simp [hlt, hjr, List.getElem?_eq_getElem hlt]
      · have hjr : ¬ (j : Int) = r := by omega
        simp only [hj, if_false, List.mem_cons, hjr, false_or]

theorem keepValidLoop_eq (R : List Int) : ∀ (ts : List Triangle) (invs : List Bool) (i : Int),
    invs.length = ts.length →
    (∀ j : Nat, j < invs.length → invs[j]? = some (decide (i + j ∈ R))) →
    keepValidLoop ts invs = dropPositions R ts i := by
  intro ts
  induction ts with
  | nil =>
    intro invs i _ _
    cases invs <;> rfl
  | cons t ts ih =>
    intro invs i hlen hget
    cases invs with
    | nil => simp at hlen
    | cons b invs =>
      have hb : b = decide (i ∈ R) := by
        have := hget 0 (by simp)
        simpa using this
      have hrec : keepValidLoop ts invs = dropPositions R ts (i + 1) := by
        apply ih
        · simpa using hlen
        · intro j hj
          have := hget (j + 1) (by simpa using hj)
          have e : i + ((j + 1 : Nat) : Int) = i + 1 + (j : Int) := by push_cast; ring
          rw [e] at this
          simpa using this
      by_cases hi : i ∈ R
      · simp [keepValidLoop, dropPositions, hb, hi, hrec]
      · simp [keepValidLoop, dropPositions, hb, hi, hrec]

theorem dropPositions_sublist {α : Type} (R : List Int) : ∀ (l : List α) (i : Int),
    (dropPositions R l i).Sublist l := by
  intro l
  induction l with
  | nil => intro i; simp [dropPositions]
  | cons a l ih =>
    intro i
    by_cases hi : i ∈ R
    · simp only [dropPositions, hi, if_true]
      exact (ih (i + 1)).trans (List.sublist_cons_self a l)
    · simp only [dropPositions, hi, if_false]
      exact (ih (i + 1)).cons₂ a

theorem removeTriangles_eq (m : TriangleMesh) (R : List Int)
    (hR : ∀ r ∈ R, 0 ≤ r ∧ r < m.triangles.length) :
    removeTriangles m R = .ok { m with triangles := dropPositions R m.triangles 0 } := by
  obtain ⟨inv', hrun, hlen, hget⟩ :=
    markInvalidLoop_spec R (List.replicate m.triangles.length false) (by simpa using hR)
  have hkeep : keepValidLoop m.triangles inv' = dropPositions R m.triangles 0 := by
    apply keepValidLoop_eq
    · simpa using hlen
    · intro j hj
      have hj' : j < m.triangles.length := by simpa [hlen] using hj
      rw [hget j, List.getElem?_replicate]
      simp [hj']
  simp only [removeTriangles, hrun, ok_bind, hkeep, pure_eq_ok]

/-- C2: for a list `R` of triangle indices in `[0, triangleCount)`, with or
without duplicates, `removeTriangles(R)` returns, and it leaves the triangle
list equal to the old list without the positions that occur in `R`, the
survivors in their old relative order, and the vertex list unchanged. -/
theorem removeTriangles_spec (m : TriangleMesh) (R : List Int)
    (hR : ∀ r ∈ R, 0 ≤ r ∧ r < m.triangles.length) :
    ∃ m', removeTriangles m R = .ok m' ∧
      m'.triangles = dropPositions R m.triangles 0 ∧
      m'.triangles.Sublist m.triangles ∧
      m'.vertices = m.vertices := by
  refine ⟨_, removeTriangles_eq m R hR, rfl, ?_, rfl⟩
  exact dropPositions_sublist R m.triangles 0

/-- An instance of the theorem on `removeTriangles`: a removal list with a duplicate. -/
theorem removeTriangles_spec_witness :
    ∃ m', removeTriangles exampleMeshA [1, 1] = .ok m' ∧
      m'.triangles = dropPositions [1, 1] exampleMeshA.triangles 0 ∧
      m'.triangles.Sublist exampleMeshA.triangles ∧
      m'.vertices = exampleMeshA.vertices :=
  removeTriangles_spec exampleMeshA [1, 1] (by decide)

/-! ## `removeExtraneousVertices`: the marking loop -/

theorem mem_referencedIndices (ts : List Triangle) (i : Int) :
    i ∈ referencedIndices ts ↔ ∃ t ∈ ts, i = t.t0 ∨ i = t.t1 ∨ i = t.t2 := by
  induction ts with
  | nil => simp [referencedIndices]
  | cons t ts ih =>
    simp only [referencedIndices, List.mem_cons, ih]
    constructor
    · rintro (h | h | h | ⟨s, hs, h⟩)
      · exact ⟨t, Or.inl rfl, Or.inl h⟩
      · exact ⟨t, Or.inl rfl, Or.inr (Or.inl h)⟩
      · exact ⟨t, Or.inl rfl, Or.inr (Or.inr h)⟩
      · exact ⟨s, Or.inr hs, h⟩
    · rintro ⟨s, hs | hs, h⟩
      · subst hs
        rcases h with h | h | h
        · exact Or.inl h
        · exact Or.inr (Or.inl h)
        · exact Or.inr (Or.inr (Or.inl h))
      · exact Or.inr (Or.inr (Or.inr ⟨s, hs, h⟩))

theorem getElem?_set_false (u : List Bool) (i : Int) (h0 : 0 ≤ i) (j : Nat) :
    (u.set i.toNat false)[j]? = (u[j]?).map (fun b => b && decide ((j : Int) ≠ i)) := by
  rw [List.getElem?_set]
  by_cases hj : i.toNat = j
  · have hji : (j : Int) = i := by omega
    subst hj
    by_cases hlt : i.toNat < u.length
    · simp [hlt, hji, List.getElem?_eq_getElem hlt]
    · simp [hlt, List.getElem?_eq_none (Nat.le_of_not_lt hlt)]
  · have hji : (j : Int) ≠ i := by omega
    cases u[j]? <;> simp [hj, hji]

theorem markUsedLoop_spec (ts : List Triangle) : ∀ u : List Bool,
    (∀ t ∈ ts, t.InRange u.length) →
    ∃ u', markUsedLoop ts u = .ok u' ∧ u'.length = u.length ∧
      ∀ j : Nat, u'[j]? = (u[j]?).map (fun b => b && decide ((j : Int) ∉ referencedIndices ts)) := by
  induction ts with
  | nil =>
    intro u _
    refine ⟨u, rfl, rfl, fun j => ?_⟩
    cases u[j]? <;> simp [referencedIndices]
  | cons t ts ih =>
    intro u h
    obtain ⟨⟨a0, a1⟩, ⟨b0, b1⟩, ⟨c0, c1⟩⟩ := h t (List.mem_cons_self _ _)
    have h1 := vecSet_ok u t.t0 false a0 a1
    have h2 := vecSet_ok (u.set t.t0.toNat false) t.t1 false b0 (by simpa using b1)
    have h3 := vecSet_ok ((u.set t.t0.toNat false).set t.t1.toNat false) t.t2 false c0
      (by simpa using c1)
    obtain ⟨u', hrun, hlen, hget⟩ :=
      ih (((u.set t.t0.toNat false).set t.t1.toNat false).set t.t2.toNat false) (by
        intro s hs
        simpa using h s (List.mem_cons_of_mem _ hs))
    refine ⟨u', ?_, by simpa using hlen, fun j => ?_⟩
    · simp only [markUsedLoop, h1, h2, h3, ok_bind]
      exact hrun
    · rw [hget j, getElem?_set_false _ _ c0, getElem?_set_false _ _ b0,
        getElem?_set_false _ _ a0]
      cases u[j]? with
      | none => rfl
      | some b =>
        simp only [Option.map_some', referencedIndices, List.mem_cons, not_or]
        congr 1
        by_cases e0 : (j : Int) = t.t0 <;> by_cases e1 : (j : Int) = t.t1 <;>
          by_cases e2 : (j : Int) = t.t2 <;>
          by_cases e3 : (j : Int) ∈ referencedIndices ts <;> simp [e0, e1, e2, e3]

theorem markUsedLoop_eq (m : TriangleMesh) (h : IndicesInRange m) :
    markUsedLoop m.triangles (List.replicate m.vertices.length true) = .ok (unusedFlags m) := by
  obtain ⟨u', hrun, hlen, hget⟩ :=
    markUsedLoop_spec m.triangles (List.replicate m.vertices.length true) (by simpa using h)
  rw [hrun]
  congr 1
  apply List.ext_getElem?
  intro j
  rw [hget j, unusedFlags, List.getElem?_map, List.getElem?_replicate]
  by_cases hj : j < m.vertices.length
  · simp [hj, List.getElem?_range hj]
  · simp [hj, List.getElem?_eq_none (l := List.range m.vertices.length) (by simpa using hj)]

theorem unusedFlags_length (m : TriangleMesh) : (unusedFlags m).length = m.vertices.length := by
  simp [unusedFlags]

theorem unusedFlags_getElem? (m : TriangleMesh) (j : Nat) (hj : j < m.vertices.length) :
    (unusedFlags m)[j]? = some (decide ((j : Int) ∉ referencedIndices m.triangles)) := by
  simp [unusedFlags, List.getElem?_map, List.getElem?_range hj]

/-! ## `removeExtraneousVertices`: the compaction loop -/

theorem vecGet_split {α : Type} (pre : List α) (v : α) (vs : List α) :
    vecGet (pre ++ v :: vs) (pre.length : Int) = .ok v := by
  apply vecGet_natCast
  rw [List.getElem?_append_right (le_refl _)]
  simp

theorem vecSet_split {α : Type} (pre : List α) (v w : α) (vs : List α) :
    vecSet (pre ++ v :: vs) (pre.length : Int) w = .ok (pre ++ w :: vs) := by
  rw [vecSet_ok _ _ _ (by omega) (by simp)]
  simp

theorem compactLoop_spec (vertices vertexcolors : List Vec3) (hvc : Bool) :
    ∀ (flags : List Bool) (pre vs cpre cs : List Vec3) (done : List Int) (s : CompactState),
    vertices = pre ++ vs → vs.length = flags.length →
    (hvc = true → vertexcolors = cpre ++ cs ∧ cpre.length = pre.length ∧
      cs.length = flags.length) →
    s.indexTranslationTable = done ++ List.replicate flags.length (-1) →
    done.length = pre.length →
    compactLoop vertices vertexcolors hvc flags (pre.length : Int) s =
      .ok { newVertexList := s.newVertexList ++ keepUsed flags vs
            newVertexColorList :=
              if hvc then s.newVertexColorList ++ keepUsed flags cs else s.newVertexColorList
            indexTranslationTable := done ++ buildTable flags s.vidx
            vidx := s.vidx + usedCount flags } := by
  intro flags
  induction flags with
  | nil =>
    intro pre vs cpre cs done s _ hvs _ ht _
    cases vs with
    | cons v vs => simp at hvs
    | nil =>
      cases s
      simp only [List.replicate, List.length_nil, List.append_nil] at ht
      cases hvc <;> simp_all [compactLoop, keepUsed, buildTable, usedCount]
  | cons u us ih =>
    intro pre vs cpre cs done s hv hvs hc ht hd
    cases vs with
    | nil => simp at hvs
    | cons v vs =>
      have hlen : (((pre ++ [v]).length : Nat) : Int) = (pre.length : Int) + 1 := by simp
      cases u with
      | true =>
        have hrec := ih (pre ++ [v]) vs
          (if hvc then cpre ++ cs.take 1 else cpre) (if hvc then cs.drop 1 else cs)
          (done ++ [-1]) s (by simp [hv]) (by simpa using hvs)
          (by
            intro h
            obtain ⟨e1, e2, e3⟩ := hc h
            cases cs with
            | nil => simp at e3
            | cons c cs => simp_all)
          (by simp [ht, List.replicate_succ]) (by simp [hd])
        rw [hlen] at hrec
        simp only [compactLoop, Bool.not_true, Bool.false_eq_true, if_false]
        rw [hrec]
        cases hvc with
        | false => simp [keepUsed, buildTable, usedCount]
        | true =>
          obtain ⟨e1, e2, e3⟩ := hc rfl
          cases cs with
          | nil => simp at e3
          | cons c cs => simp [keepUsed, buildTable, usedCount]
      | false =>
        have hget : vecGet vertices (pre.length : Int) = .ok v := by
          rw [hv]; exact vecGet_split pre v vs
        have hset : vecSet s.indexTranslationTable (pre.length : Int) s.vidx =
            .ok (done ++ s.vidx :: List.replicate us.length (-1)) := by
          rw [ht, ← hd, List.length_cons, List.replicate_succ]
          exact vecSet_split done (-1) s.vidx _
        cases hvc with
        | false =>
          have hrec := ih (pre ++ [v]) vs cpre cs (done ++ [s.vidx])
            { newVertexList := s.newVertexList ++ [v]
              newVertexColorList := s.newVertexColorList
              indexTranslationTable := done ++ s.vidx :: List.replicate us.length (-1)
              vidx := s.vidx + 1 }
            (by simp [hv]) (by simpa using hvs) (by simp) (by simp) (by simp [hd])
          rw [hlen] at hrec
          simp only [compactLoop, Bool.not_false, if_true, hget, hset, ok_bind,
            Bool.false_eq_true, if_false, pure_eq_ok]
          rw [hrec]
          simp [keepUsed, buildTable, usedCount]
          omega
        | true =>
          obtain ⟨e1, e2, e3⟩ := hc rfl
          cases cs with
          | nil => simp at e3
          | cons c cs =>
            have hgetc : vecGet vertexcolors (pre.length : Int) = .ok c := by
              rw [e1, ← e2]; exact vecGet_split cpre c cs
            have hrec := ih (pre ++ [v]) vs (cpre ++ [c]) cs (done ++ [s.vidx])
              { newVertexList := s.newVertexList ++ [v]
                newVertexColorList := s.newVertexColorList ++ [c]
                indexTranslationTable := done ++ s.vidx :: List.replicate us.length (-1)
                vidx := s.vidx + 1 }
              (by simp [hv]) (by simpa using hvs)
              (by intro _; refine ⟨by simp [e1], by simp [e2], by simpa using e3⟩)
              (by simp) (by simp [hd])
            rw [hlen] at hrec
            simp only [compactLoop, Bool.not_false, if_true, hget, hset, hgetc, ok_bind,
              pure_eq_ok]
            rw [hrec]
            simp [keepUsed, buildTable, usedCount]
            omega

/-! ## `removeExtraneousVertices`: ranks of the used vertices -/

@[simp] theorem rank_zero (flags : List Bool) : rank flags 0 = 0 := by
  simp [rank, usedCount]

@[simp] theorem rank_cons_succ (u : Bool) (us : List Bool) (j : Nat) :
    rank (u :: us) (j + 1) = (if u then 0 else 1) + rank us j := by
  cases u <;> simp [rank, usedCount, Nat.add_comm]

theorem buildTable_length : ∀ (flags : List Bool) (v : Int),
    (buildTable flags v).length = flags.length := by
  intro flags
  induction flags with
  | nil => intro v; rfl
  | cons u us ih => intro v; cases u <;> simp [buildTable, ih]

theorem buildTable_getElem? : ∀ (flags : List Bool) (v : Int) (j : Nat),
    flags[j]? = some false → (buildTable flags v)[j]? = some (v + rank flags j) := by
  intro flags
  induction flags with
  | nil => intro v j h; simp at h
  | cons u us ih =>
    intro v j h
    cases j with
    | zero =>
      simp only [List.getElem?_cons_zero, Option.some.injEq] at h
      subst h
      simp [buildTable]
    | succ j =>
      simp only [List.getElem?_cons_succ] at h
      cases u with
      | true => simp [buildTable, ih v j h]
      | false =>
        simp only [buildTable, Bool.false_eq_true, if_false, List.getElem?_cons_succ,
          ih (v + 1) j h, rank_cons_succ, Option.some.injEq]
        push_cast
        ring

theorem keepUsed_length {α : Type} : ∀ (flags : List Bool) (vs : List α),
    vs.length = flags.length → (keepUsed flags vs).length = usedCount flags := by
  intro flags
  induction flags with
  | nil => intro vs _; cases vs <;> rfl
  | cons u us ih =>
    intro vs h
    cases vs with
    | nil => simp at h
    | cons v vs =>
      have := ih vs (by simpa using h)
      cases u <;> simp [keepUsed, usedCount, this]

theorem keepUsed_sublist {α : Type} : ∀ (flags : List Bool) (vs : List α),
    (keepUsed flags vs).Sublist vs := by
  intro flags
  induction flags with
  | nil => intro vs; cases vs <;> simp [keepUsed]
  | cons u us ih =>
    intro vs
    cases vs with
    | nil => simp [keepUsed]
    | cons v vs =>
      cases u with
      | true =>
        simp only [keepUsed, if_true]
        exact (ih vs).trans (List.sublist_cons_self v vs)
      | false =>
        simp only [keepUsed, Bool.false_eq_true, if_false]
        exact (ih vs).cons₂ v

theorem keepUsed_rank {α : Type} : ∀ (flags : List Bool) (vs : List α) (j : Nat),
    vs.length = flags.length → flags[j]? = some false →
    (keepUsed flags vs)[rank flags j]? = vs[j]? := by
  intro flags
  induction flags with
  | nil => intro vs j _ h; simp at h
  | cons u us ih =>
    intro vs j hlen h
    cases vs with
    | nil => simp at hlen
    | cons v vs =>
      cases j with
      | zero =>
        simp only [List.getElem?_cons_zero, Option.some.injEq] at h
        subst h
        simp [keepUsed]
      | succ j =>
        simp only [List.getElem?_cons_succ] at h
        have := ih vs j (by simpa using hlen) h
        cases u with
        | true => simpa [keepUsed] using this
        | false =>
          simp only [keepUsed, Bool.false_eq_true, if_false, rank_cons_succ,
            List.getElem?_cons_succ]
          rw [Nat.add_comm, List.getElem?_cons_succ]
          exact this

theorem rank_lt_usedCount : ∀ (flags : List Bool) (j : Nat),
    flags[j]? = some false → rank flags j < usedCount flags := by
  intro flags
  induction flags with
  | nil => intro j h; simp at h
  | cons u us ih =>
    intro j h
    cases j with
    | zero =>
      simp only [List.getElem?_cons_zero, Option.some.injEq] at h
      subst h
      simp [usedCount]
    | succ j =>
      simp only [List.getElem?_cons_succ] at h
      have := ih j h
      cases u <;> simp [usedCount] <;> omega

theorem rank_lt_rank : ∀ (flags : List Bool) (i j : Nat),
    i < j → flags[i]? = some false → rank flags i < rank flags j := by
  intro flags
  induction flags with
  | nil => intro i j _ h; simp at h
  | cons u us ih =>
    intro i j hij h
    cases j with
    | zero => omega
    | succ j =>
      cases i with
      | zero =>
        simp only [List.getElem?_cons_zero, Option.some.injEq] at h
        subst h
        simp
      | succ i =>
        simp only [List.getElem?_cons_succ] at h
        have := ih i j (by omega) h
        simp only [rank_cons_succ]
        omega

theorem rank_surjective : ∀ (flags : List Bool) (k : Nat),
    k < usedCount flags → ∃ j, flags[j]? = some false ∧ rank flags j = k := by
  intro flags
  induction flags with
  | nil => intro k h; simp [usedCount] at h
  | cons u us ih =>
    intro k h
    cases u with
    | true =>
      obtain ⟨j, hj, hr⟩ := ih k (by simpa [usedCount] using h)
      exact ⟨j + 1, by simpa using hj, by simp [hr]⟩
    | false =>
      cases k with
      | zero => exact ⟨0, by simp, by simp⟩
      | succ k =>
        obtain ⟨j, hj, hr⟩ := ih k (by simp [usedCount] at h; omega)
        exact ⟨j + 1, by simpa using hj, by simp [hr]; omega⟩

theorem countUnused_nonneg : ∀ flags : List Bool, 0 ≤ countUnused flags := by
  intro flags
  induction flags with
  | nil => simp [countUnused]
  | cons u us ih => cases u <;> simp [countUnused] <;> omega

theorem countUnused_eq_zero : ∀ flags : List Bool,
    countUnused flags = 0 → ∀ j, j < flags.length → flags[j]? = some false := by
  intro flags
  induction flags with
  | nil => intro _ j hj; simp at hj
  | cons u us ih =>
    intro h j hj
    have hnn := countUnused_nonneg us
    cases u with
    | true => simp [countUnused] at h; omega
    | false =>
      simp only [countUnused, Bool.false_eq_true, if_false] at h
      cases j with
      | zero => simp
      | succ j => simpa using ih h j (by simpa using hj)

theorem countUnused_of_all : ∀ flags : List Bool,
    (∀ j, j < flags.length → flags[j]? = some false) → countUnused flags = 0 := by
  intro flags
  induction flags with
  | nil => intro _; rfl
  | cons u us ih =>
    intro h
    have h0 := h 0 (by simp)
    simp only [List.getElem?_cons_zero, Option.some.injEq] at h0
    subst h0
    simp only [countUnused, Bool.false_eq_true, if_false]
    exact ih (fun j hj => by simpa using h (j + 1) (by simpa using hj))

theorem keepUsed_all {α : Type} : ∀ (flags : List Bool) (vs : List α),
    vs.length = flags.length → (∀ j, j < flags.length → flags[j]? = some false) →
    keepUsed flags vs = vs := by
  intro flags
  induction flags with
  | nil => intro vs h _; cases vs with
    | nil => rfl
    | cons v vs => simp at h
  | cons u us ih =>
    intro vs hlen h
    cases vs with
    | nil => simp at hlen
    | cons v vs =>
      have h0 := h 0 (by simp)
      simp only [List.getElem?_cons_zero, Option.some.injEq] at h0
      subst h0
      simp only [keepUsed, Bool.false_eq_true, if_false]
      rw [ih vs (by simpa using hlen) (fun j hj => by simpa using h (j + 1) (by simpa using hj))]

theorem rank_all : ∀ (flags : List Bool),
    (∀ j, j < flags.length → flags[j]? = some false) →
    ∀ j, j ≤ flags.length → rank flags j = j := by
  intro flags
  induction flags with
  | nil => intro _ j hj; simp at hj; subst hj; simp
  | cons u us ih =>
    intro h j hj
    have h0 := h 0 (by simp)
    simp only [List.getElem?_cons_zero, Option.some.injEq] at h0
    subst h0
    cases j with
    | zero => simp
    | succ j =>
      have := ih (fun j hj => by simpa using h (j + 1) (by simpa using hj)) j
        (by simpa using hj)
      simp [this]; omega

/-! ## `removeExtraneousVertices`: the rewriting loop -/

theorem vecGet_buildTable (flags : List Bool) (i : Int) (h0 : 0 ≤ i)
    (h : flags[i.toNat]? = some false) :
    vecGet (buildTable flags 0) i = .ok (rank flags i.toNat : Int) := by
  rw [vecGet_eq_ok_iff]
  refine ⟨h0, ?_⟩
  rw [buildTable_getElem? flags 0 i.toNat h]
  simp

theorem translateLoop_spec (flags : List Bool) : ∀ ts : List Triangle,
    (∀ t ∈ ts, (0 ≤ t.t0 ∧ flags[t.t0.toNat]? = some false) ∧
      (0 ≤ t.t1 ∧ flags[t.t1.toNat]? = some false) ∧
      (0 ≤ t.t2 ∧ flags[t.t2.toNat]? = some false)) →
    translateLoop (buildTable flags 0) ts = .ok (ts.map (rankTriangle flags)) := by
  intro ts
  induction ts with
  | nil => intro _; rfl
  | cons t ts ih =>
    intro h
    obtain ⟨⟨a0, a1⟩, ⟨b0, b1⟩, ⟨c0, c1⟩⟩ := h t (List.mem_cons_self _ _)
    have hrec := ih (fun s hs => h s (List.mem_cons_of_mem _ hs))
    have na : ((rank flags t.t0.toNat : Nat) : Int) ≠ -1 := by omega
    have nb : ((rank flags t.t1.toNat : Nat) : Int) ≠ -1 := by omega
    have nc : ((rank flags t.t2.toNat : Nat) : Int) ≠ -1 := by omega
    simp only [translateLoop, vecGet_buildTable flags _ a0 a1, vecGet_buildTable flags _ b0 b1,
      vecGet_buildTable flags _ c0 c1, ok_bind, hrec, pure_eq_ok, List.map_cons, rankTriangle]
    rw [if_pos ⟨na, nb, nc⟩]

theorem unusedFlags_of_mem (m : TriangleMesh) (i : Int) (h0 : 0 ≤ i)
    (h1 : i < m.vertices.length) (hi : i ∈ referencedIndices m.triangles) :
    (unusedFlags m)[i.toNat]? = some false := by
  have hlt : i.toNat < m.vertices.length := (Int.toNat_lt h0).2 h1
  rw [unusedFlags_getElem? m i.toNat hlt, Int.toNat_of_nonneg h0]
  simp [hi]

theorem corners_used (m : TriangleMesh) (h : IndicesInRange m) :
    ∀ t ∈ m.triangles, (0 ≤ t.t0 ∧ (unusedFlags m)[t.t0.toNat]? = some false) ∧
      (0 ≤ t.t1 ∧ (unusedFlags m)[t.t1.toNat]? = some false) ∧
      (0 ≤ t.t2 ∧ (unusedFlags m)[t.t2.toNat]? = some false) := by
  intro t ht
  obtain ⟨⟨a0, a1⟩, ⟨b0, b1⟩, ⟨c0, c1⟩⟩ := h t ht
  refine ⟨⟨a0, unusedFlags_of_mem m _ a0 a1 ?_⟩, ⟨b0, unusedFlags_of_mem m _ b0 b1 ?_⟩,
    ⟨c0, unusedFlags_of_mem m _ c0 c1 ?_⟩⟩
  · exact (mem_referencedIndices _ _).2 ⟨t, ht, Or.inl rfl⟩
  · exact (mem_referencedIndices _ _).2 ⟨t, ht, Or.inr (Or.inl rfl)⟩
  · exact (mem_referencedIndices _ _).2 ⟨t, ht, Or.inr (Or.inr rfl)⟩

theorem rankTriangle_inRange (m : TriangleMesh) (h : IndicesInRange m) :
    ∀ t ∈ m.triangles, (rankTriangle (unusedFlags m) t).InRange (usedCount (unusedFlags m)) := by
  intro t ht
  obtain ⟨⟨_, a1⟩, ⟨_, b1⟩, ⟨_, c1⟩⟩ := corners_used m h t ht
  have ha := rank_lt_usedCount _ _ a1
  have hb := rank_lt_usedCount _ _ b1
  have hc := rank_lt_usedCount _ _ c1
  simp only [Triangle.InRange, rankTriangle]
  omega

/-! ## `updateVertexNormals` returns -/

/-- Every entry of every list of `vt` lies in `[0, b)`. -/
theorem pushAt_spec (vt : List (List Int)) (idx i b : Int) (h0 : 0 ≤ idx) (h1 : idx < vt.length)
    (hi : 0 ≤ i ∧ i < b) (hvt : ∀ l ∈ vt, ∀ x ∈ l, 0 ≤ x ∧ x < b) :
    ∃ vt', pushAt vt idx i = .ok vt' ∧ vt'.length = vt.length ∧
      ∀ l ∈ vt', ∀ x ∈ l, 0 ≤ x ∧ x < b := by
  obtain ⟨l, hl, hl'⟩ := vecGet_ok vt idx h0 h1
  refine ⟨vt.set idx.toNat (l ++ [i]), ?_, by simp, ?_⟩
  · simp only [pushAt, hl, ok_bind]
    exact vecSet_ok vt idx _ h0 h1
  · intro l' hmemset x hx
    rcases List.mem_or_eq_of_mem_set hmemset with hmem | heq
    · exact hvt l' hmem x hx
    · subst heq
      rcases List.mem_append.1 hx with hx | hx
      · exact hvt l (List.mem_iff_getElem?.2 ⟨_, hl'⟩) x hx
      · simp only [List.mem_singleton] at hx
        subst hx
        exact hi

theorem vertexTrianglesLoop_spec : ∀ (ts : List Triangle) (i : Int) (vt : List (List Int)),
    (∀ t ∈ ts, t.InRange vt.length) → 0 ≤ i →
    (∀ l ∈ vt, ∀ x ∈ l, 0 ≤ x ∧ x < i + ts.length) →
    ∃ vt', vertexTrianglesLoop ts i vt = .ok vt' ∧ vt'.length = vt.length ∧
      ∀ l ∈ vt', ∀ x ∈ l, 0 ≤ x ∧ x < i + ts.length := by
  intro ts
  induction ts with
  | nil => intro i vt _ _ hvt; exact ⟨vt, rfl, rfl, hvt⟩
  | cons t ts ih =>
    intro i vt h hi hvt
    obtain ⟨⟨a0, a1⟩, ⟨b0, b1⟩, ⟨c0, c1⟩⟩ := h t (List.mem_cons_self _ _)
    have hb : 0 ≤ i ∧ i < i + ((t :: ts).length : Int) := by
      simp only [List.length_cons, Nat.cast_add, Nat.cast_one]; omega
    obtain ⟨vt1, r1, l1, p1⟩ := pushAt_spec vt t.t0 i _ a0 a1 hb hvt
    obtain ⟨vt2, r2, l2, p2⟩ := pushAt_spec vt1 t.t1 i _ b0 (by rw [l1]; exact b1) hb p1
    obtain ⟨vt3, r3, l3, p3⟩ := pushAt_spec vt2 t.t2 i _ c0 (by rw [l2, l1]; exact c1) hb p2
    have e : i + ((t :: ts).length : Int) = i + 1 + (ts.length : Int) := by
      simp only [List.length_cons, Nat.cast_add, Nat.cast_one]; ring
    obtain ⟨vt', r, l, p⟩ := ih (i + 1) vt3
      (by
        intro s hs
        rw [l3, l2, l1]
        exact h s (List.mem_cons_of_mem _ hs))
      (by omega) (by rw [← e]; exact p3)
    refine ⟨vt', ?_, by rw [l, l3, l2, l1], by rw [e]; exact p⟩
    simp only [vertexTrianglesLoop, r1, r2, r3, ok_bind]
    exact r

theorem faceNormalsLoop_spec (normalize : Vec3 → Vec3) (vertices : List Vec3) :
    ∀ ts : List Triangle, (∀ t ∈ ts, t.InRange vertices.length) →
    ∃ fn, faceNormalsLoop normalize vertices ts = .ok fn ∧ fn.length = ts.length := by
  intro ts
  induction ts with
  | nil => intro _; exact ⟨[], rfl, rfl⟩
  | cons t ts ih =>
    intro h
    obtain ⟨⟨a0, a1⟩, ⟨b0, b1⟩, ⟨c0, c1⟩⟩ := h t (List.mem_cons_self _ _)
    obtain ⟨p0, hp0, _⟩ := vecGet_ok vertices t.t0 a0 a1
    obtain ⟨p1, hp1, _⟩ := vecGet_ok vertices t.t1 b0 b1
    obtain ⟨p2, hp2, _⟩ := vecGet_ok vertices t.t2 c0 c1
    obtain ⟨fn, hfn, hlen⟩ := ih (fun s hs => h s (List.mem_cons_of_mem _ hs))
    refine ⟨normalize ((p1.sub p0).cross (p2.sub p0)) :: fn, ?_, by simp [hlen]⟩
    simp only [faceNormalsLoop, hp0, hp1, hp2, hfn, ok_bind, pure_eq_ok]

theorem sumFaceNormals_spec (facenormals : List Vec3) : ∀ (js : List Int) (n : Vec3),
    (∀ x ∈ js, 0 ≤ x ∧ x < facenormals.length) →
    ∃ n', sumFaceNormals facenormals js n = .ok n' := by
  intro js
  induction js with
  | nil => intro n _; exact ⟨n, rfl⟩
  | cons j js ih =>
    intro n h
    obtain ⟨j0, j1⟩ := h j (List.mem_cons_self _ _)
    obtain ⟨f, hf, _⟩ := vecGet_ok facenormals j j0 j1
    obtain ⟨n', hn'⟩ := ih (n.add f) (fun x hx => h x (List.mem_cons_of_mem _ hx))
    exact ⟨n', by simp only [sumFaceNormals, hf, ok_bind, hn']⟩

theorem vertexNormalsLoop_spec (normalize : Vec3 → Vec3) (facenormals : List Vec3) :
    ∀ vts : List (List Int), (∀ l ∈ vts, ∀ x ∈ l, 0 ≤ x ∧ x < facenormals.length) →
    ∃ ns, vertexNormalsLoop normalize facenormals vts = .ok ns ∧ ns.length = vts.length := by
  intro vts
  induction vts with
  | nil => intro _; exact ⟨[], rfl, rfl⟩
  | cons vt vts ih =>
    intro h
    obtain ⟨n, hn⟩ := sumFaceNormals_spec facenormals vt Vec3.zero
      (h vt (List.mem_cons_self _ _))
    obtain ⟨ns, hns, hlen⟩ := ih (fun l hl => h l (List.mem_cons_of_mem _ hl))
    refine ⟨normalize (n.div (vt.length : ℚ)) :: ns, ?_, by simp [hlen]⟩
    simp only [vertexNormalsLoop, hn, hns, ok_bind, pure_eq_ok]

theorem updateVertexNormals_spec (normalize : Vec3 → Vec3) (m : TriangleMesh)
    (h : IndicesInRange m) :
    ∃ m', updateVertexNormals normalize m = .ok m' ∧ m'.vertices = m.vertices ∧
      m'.triangles = m.triangles ∧ m'.vertexcolors = m.vertexcolors ∧
      m'.normals.length = m.vertices.length := by
  obtain ⟨vt, hvt, hlen, hb⟩ := vertexTrianglesLoop_spec m.triangles 0
    (List.replicate m.vertices.length []) (by simpa using h) (le_refl _)
    (by
      intro l hl x hx
      rw [List.eq_of_mem_replicate hl] at hx
      simp at hx)
  obtain ⟨fn, hfn, hfl⟩ := faceNormalsLoop_spec normalize m.vertices m.triangles h
  obtain ⟨ns, hns, hnl⟩ := vertexNormalsLoop_spec normalize fn vt (by
    intro l hl x hx
    have := hb l hl x hx
    rw [hfl]
    omega)
  refine ⟨{ m with normals := ns, _vertexTriangles := vt }, ?_, rfl, rfl, rfl, ?_⟩
  · simp only [updateVertexNormals, _updateVertexTriangles, hvt, ok_bind, pure_eq_ok, hfn, hns]
  · simp only [hnl, hlen, List.length_replicate]

/-! ## `removeExtraneousVertices`: the whole method -/

theorem rankTriangle_all (flags : List Bool) (n : Nat) (hn : flags.length = n)
    (hall : ∀ j, j < flags.length → flags[j]? = some false) (t : Triangle)
    (ht : t.InRange n) : rankTriangle flags t = t := by
  obtain ⟨⟨a0, a1⟩, ⟨b0, b1⟩, ⟨c0, c1⟩⟩ := ht
  have ra := rank_all flags hall t.t0.toNat (by omega)
  have rb := rank_all flags hall t.t1.toNat (by omega)
  have rc := rank_all flags hall t.t2.toNat (by omega)
  cases t
  simp only [rankTriangle, ra, rb, rc, Triangle.mk.injEq] at *
  omega

theorem removeExtraneousVertices_core (normalize : Vec3 → Vec3) (m : TriangleMesh)
    (h : IndicesInRange m) :
    ∃ m', removeExtraneousVertices normalize m = .ok m' ∧
      m'.vertices = keepUsed (unusedFlags m) m.vertices ∧
      m'.vertexcolors =
        (if m.vertices.length = m.vertexcolors.length
          then keepUsed (unusedFlags m) m.vertexcolors else m.vertexcolors) ∧
      m'.triangles = m.triangles.map (rankTriangle (unusedFlags m)) ∧
      (countUnused (unusedFlags m) = 0 → m' = m) := by
  have hfl := unusedFlags_length m
  by_cases hc : countUnused (unusedFlags m) = 0
  · have hall := countUnused_eq_zero _ hc
    refine ⟨m, ?_, ?_, ?_, ?_, fun _ => rfl⟩
    · simp only [removeExtraneousVertices, markUsedLoop_eq m h, ok_bind, hc, if_true, pure_eq_ok]
    · exact (keepUsed_all _ _ hfl.symm hall).symm
    · by_cases hl : m.vertices.length = m.vertexcolors.length
      · rw [if_pos hl]
        exact (keepUsed_all _ _ (by omega) hall).symm
      · rw [if_neg hl]
    · symm
      calc m.triangles.map (rankTriangle (unusedFlags m))
          = m.triangles.map id :=
            List.map_congr_left (fun t ht => rankTriangle_all _ _ hfl hall t (h t ht))
        _ = m.triangles := List.map_id _
  · have hcompact := compactLoop_spec m.vertices m.vertexcolors
      (decide (m.vertices.length = m.vertexcolors.length)) (unusedFlags m) [] m.vertices []
      m.vertexcolors []
      { newVertexList := []
        newVertexColorList := []
        indexTranslationTable := List.replicate m.vertices.length (-1)
        vidx := 0 }
      rfl hfl.symm
      (by
        intro hd
        have := of_decide_eq_true hd
        exact ⟨rfl, rfl, by omega⟩)
      (by simp [hfl]) rfl
    simp only [List.length_nil, Nat.cast_zero, List.nil_append, zero_add] at hcompact
    have htr := translateLoop_spec (unusedFlags m) m.triangles (corners_used m h)
    have hklen : (keepUsed (unusedFlags m) m.vertices).length = usedCount (unusedFlags m) :=
      keepUsed_length _ _ hfl.symm
    obtain ⟨m', hm', hv, ht, hcol, _⟩ := updateVertexNormals_spec normalize
      { m with
        vertices := keepUsed (unusedFlags m) m.vertices
        vertexcolors :=
          if decide (m.vertices.length = m.vertexcolors.length) = true
            then (if decide (m.vertices.length = m.vertexcolors.length) = true
              then keepUsed (unusedFlags m) m.vertexcolors else [])
            else m.vertexcolors
        triangles := m.triangles.map (rankTriangle (unusedFlags m)) }
      (by
        intro t ht
        simp only [List.mem_map] at ht
        obtain ⟨s, hs, rfl⟩ := ht
        simp only [hklen]
        exact rankTriangle_inRange m h s hs)
    refine ⟨m', ?_, hv, ?_, ht, fun h0 => absurd h0 hc⟩
    · simp only [removeExtraneousVertices, markUsedLoop_eq m h, ok_bind, hc, if_false,
        hcompact, htr]
      exact hm'
    · rw [hcol]
      by_cases hl : m.vertices.length = m.vertexcolors.length <;> simp [hl]

/-! ## `removeExtraneousVertices`: consequences -/

theorem rankTriangle_tri (flags : List Bool) (t : Triangle) (k : Fin 3) :
    (rankTriangle flags t).tri k = (rank flags (t.tri k).toNat : Int) := by
  fin_cases k <;> rfl

theorem corner_used (m : TriangleMesh) (h : IndicesInRange m) (t : Triangle)
    (ht : t ∈ m.triangles) (k : Fin 3) :
    0 ≤ t.tri k ∧ t.tri k < m.vertices.length ∧
      (unusedFlags m)[(t.tri k).toNat]? = some false := by
  obtain ⟨⟨a0, a1⟩, ⟨b0, b1⟩, ⟨c0, c1⟩⟩ := corners_used m h t ht
  obtain ⟨⟨_, a2⟩, ⟨_, b2⟩, ⟨_, c2⟩⟩ := h t ht
  fin_cases k
  · exact ⟨a0, a2, a1⟩
  · exact ⟨b0, b2, b1⟩
  · exact ⟨c0, c2, c1⟩

theorem mem_referencedIndices_tri (ts : List Triangle) (i : Int) :
    i ∈ referencedIndices ts ↔ ∃ t ∈ ts, ∃ k : Fin 3, t.tri k = i := by
  rw [mem_referencedIndices]
  constructor
  · rintro ⟨t, ht, h | h | h⟩
    · exact ⟨t, ht, 0, h.symm⟩
    · exact ⟨t, ht, 1, h.symm⟩
    · exact ⟨t, ht, 2, h.symm⟩
  · rintro ⟨t, ht, k, hk⟩
    refine ⟨t, ht, ?_⟩
    fin_cases k
    · exact Or.inl hk.symm
    · exact Or.inr (Or.inl hk.symm)
    · exact Or.inr (Or.inr hk.symm)

theorem vecGet_keepUsed {α : Type} (flags : List Bool) (vs : List α) (i : Int)
    (hlen : vs.length = flags.length) (h0 : 0 ≤ i) (h1 : i < vs.length)
    (hu : flags[i.toNat]? = some false) :
    ∃ p, vecGet vs i = .ok p ∧ vecGet (keepUsed flags vs) (rank flags i.toNat : Int) = .ok p := by
  obtain ⟨p, hp, hp'⟩ := vecGet_ok vs i h0 h1
  refine ⟨p, hp, ?_⟩
  apply vecGet_natCast
  rw [keepUsed_rank flags vs i.toNat hlen hu]
  exact hp'

theorem unusedFlags_false_iff (m : TriangleMesh) (j : Nat) :
    (unusedFlags m)[j]? = some false ↔
      j < m.vertices.length ∧ (j : Int) ∈ referencedIndices m.triangles := by
  by_cases hj : j < m.vertices.length
  · rw [unusedFlags_getElem? m j hj]
    simp [hj]
  · rw [List.getElem?_eq_none (by rw [unusedFlags_length]; omega)]
    simp [hj]

theorem usedCount_map {α : Type} (f : α → Bool) : ∀ l : List α,
    usedCount (l.map f) = (l.filter (fun a => !(f a))).length := by
  intro l
  induction l with
  | nil => rfl
  | cons a l ih =>
    cases hfa : f a <;> simp [usedCount, List.filter_cons, hfa, ih]

theorem usedCount_unusedFlags (m : TriangleMesh) (h : IndicesInRange m) :
    usedCount (unusedFlags m) = (referencedIndices m.triangles).dedup.length := by
  rw [unusedFlags, usedCount_map, ← List.length_map _ (fun (j : Nat) => (j : Int))]
  apply List.Perm.length_eq
  rw [List.perm_ext_iff_of_nodup]
  · intro x
    simp only [List.mem_map, List.mem_filter, List.mem_range, Bool.not_eq_true',
      decide_eq_false_iff_not, not_not, List.mem_dedup]
    constructor
    · rintro ⟨j, ⟨_, hj⟩, rfl⟩
      exact hj
    · intro hx
      obtain ⟨t, ht, k, hk⟩ := (mem_referencedIndices_tri _ _).1 hx
      obtain ⟨h0, h1, _⟩ := corner_used m h t ht k
      rw [hk] at h0 h1
      exact ⟨x.toNat, ⟨by omega, by rw [Int.toNat_of_nonneg h0]; exact hx⟩,
        Int.toNat_of_nonneg h0⟩
  · exact ((List.nodup_range _).filter _).map (fun a b hab => by exact_mod_cast hab)
  · exact List.nodup_dedup _

/-- What `removeExtraneousVertices` guarantees about its result. -/
theorem removeExtraneousVertices_post (normalize : Vec3 → Vec3) (m : TriangleMesh)
    (h : IndicesInRange m) :
    ∃ m', removeExtraneousVertices normalize m = .ok m' ∧
      m'.vertices = keepUsed (unusedFlags m) m.vertices ∧
      m'.vertexcolors =
        (if m.vertices.length = m.vertexcolors.length
          then keepUsed (unusedFlags m) m.vertexcolors else m.vertexcolors) ∧
      m'.triangles = m.triangles.map (rankTriangle (unusedFlags m)) ∧
      m'.vertices.length = usedCount (unusedFlags m) ∧
      IndicesInRange m' ∧
      (∀ j : Nat, j < m'.vertices.length → (j : Int) ∈ referencedIndices m'.triangles) ∧
      countUnused (unusedFlags m') = 0 ∧
      removeExtraneousVertices normalize m' = .ok m' := by
  obtain ⟨m', hm', hv, hc, ht, _⟩ := removeExtraneousVertices_core normalize m h
  have hlen : m'.vertices.length = usedCount (unusedFlags m) := by
    rw [hv]; exact keepUsed_length _ _ (unusedFlags_length m).symm
  have hin : IndicesInRange m' := by
    intro t htm
    rw [ht, List.mem_map] at htm
    obtain ⟨s, hs, rfl⟩ := htm
    rw [hlen]
    exact rankTriangle_inRange m h s hs
  have hused : ∀ j : Nat, j < m'.vertices.length →
      (j : Int) ∈ referencedIndices m'.triangles := by
    intro j hj
    rw [hlen] at hj
    obtain ⟨i, hi, hr⟩ := rank_surjective _ j hj
    obtain ⟨_, hi2⟩ := (unusedFlags_false_iff m i).1 hi
    obtain ⟨t, htm, k, hk⟩ := (mem_referencedIndices_tri _ _).1 hi2
    rw [mem_referencedIndices_tri]
    refine ⟨rankTriangle (unusedFlags m) t, ?_, k, ?_⟩
    · rw [ht]; exact List.mem_map_of_mem _ htm
    · rw [rankTriangle_tri, hk]
      simp [hr]
  have hzero : countUnused (unusedFlags m') = 0 := by
    apply countUnused_of_all
    intro j hj
    rw [unusedFlags_length] at hj
    exact (unusedFlags_false_iff m' j).2 ⟨hj, hused j hj⟩
  refine ⟨m', hm', hv, hc, ht, hlen, hin, hused, hzero, ?_⟩
  obtain ⟨m'', hm'', _, _, _, hsame⟩ := removeExtraneousVertices_core normalize m' hin
  rw [hm'', hsame hzero]

/-- C3: on a mesh whose triangle indices are in `[0, vertexCount)`,
`removeExtraneousVertices` returns; it keeps the number and the order of the
triangles, every corner of every triangle resolves in the new vertex list to
the position that it resolved to in the old one (and to the same color when
the color array is as long as the vertex array), and the surviving vertices
keep their relative order. -/
theorem removeExtraneousVertices_resolves (normalize : Vec3 → Vec3) (m : TriangleMesh)
    (h : IndicesInRange m) :
    ∃ m', removeExtraneousVertices normalize m = .ok m' ∧
      m'.triangles.length = m.triangles.length ∧
      List.Forall₂ (fun t t' => ∀ k : Fin 3,
          (∃ p, vecGet m.vertices (t.tri k) = .ok p ∧
            vecGet m'.vertices (t'.tri k) = .ok p) ∧
          (m.vertexcolors.length = m.vertices.length →
            ∃ c, vecGet m.vertexcolors (t.tri k) = .ok c ∧
              vecGet m'.vertexcolors (t'.tri k) = .ok c))
        m.triangles m'.triangles ∧
      m'.vertices.Sublist m.vertices := by
  obtain ⟨m', hm', hv, hc, ht, _⟩ := removeExtraneousVertices_post normalize m h
  refine ⟨m', hm', by rw [ht, List.length_map], ?_, by rw [hv]; exact keepUsed_sublist _ _⟩
  rw [ht, List.forall₂_map_right_iff, List.forall₂_same]
  intro t htm k
  obtain ⟨h0, h1, hu⟩ := corner_used m h t htm k
  have hfl := unusedFlags_length m
  rw [rankTriangle_tri, hv]
  refine ⟨vecGet_keepUsed _ _ _ hfl.symm h0 h1 hu, ?_⟩
  intro hcl
  rw [hc, if_pos hcl.symm]
  exact vecGet_keepUsed _ _ _ (by omega) h0 (by omega) hu

/-- An instance of the resolution theorem: a colored mesh with an unused vertex. -/
theorem removeExtraneousVertices_resolves_witness :
    ∃ m', removeExtraneousVertices id exampleMeshColoredSpare = .ok m' ∧
      m'.triangles.length = exampleMeshColoredSpare.triangles.length ∧
      List.Forall₂ (fun t t' => ∀ k : Fin 3,
          (∃ p, vecGet exampleMeshColoredSpare.vertices (t.tri k) = .ok p ∧
            vecGet m'.vertices (t'.tri k) = .ok p) ∧
          (exampleMeshColoredSpare.vertexcolors.length =
              exampleMeshColoredSpare.vertices.length →
            ∃ c, vecGet exampleMeshColoredSpare.vertexcolors (t.tri k) = .ok c ∧
              vecGet m'.vertexcolors (t'.tri k) = .ok c))
        exampleMeshColoredSpare.triangles m'.triangles ∧
      m'.vertices.Sublist exampleMeshColoredSpare.vertices :=
  removeExtraneousVertices_resolves id exampleMeshColoredSpare (by decide)

/-- C4: on a mesh whose triangle indices are in range, after
`removeExtraneousVertices` every vertex index in `[0, vertexCount)` occurs in
a triangle, and the new vertex count is the number of distinct vertex indices
that the triangles referred to before the call; a mesh without triangles ends
with zero vertices. -/
theorem removeExtraneousVertices_all_used (normalize : Vec3 → Vec3) (m : TriangleMesh)
    (h : IndicesInRange m) :
    ∃ m', removeExtraneousVertices normalize m = .ok m' ∧
      (∀ j : Nat, j < m'.vertices.length → ∃ t ∈ m'.triangles, ∃ k : Fin 3, t.tri k = j) ∧
      m'.vertices.length = (referencedIndices m.triangles).dedup.length ∧
      (m.triangles = [] → m'.vertices = []) := by
  obtain ⟨m', hm', _, _, _, hlen, _, hused, _⟩ := removeExtraneousVertices_post normalize m h
  have hcount : m'.vertices.length = (referencedIndices m.triangles).dedup.length := by
    rw [hlen, usedCount_unusedFlags m h]
  refine ⟨m', hm', fun j hj => (mem_referencedIndices_tri _ _).1 (hused j hj), hcount, ?_⟩
  intro hnil
  rw [hnil] at hcount
  exact List.length_eq_zero.1 (by simpa [referencedIndices] using hcount)

/-- An instance of the vertex count theorem: four vertices, one of them unused. -/
theorem removeExtraneousVertices_all_used_witness :
    ∃ m', removeExtraneousVertices id exampleMeshA = .ok m' ∧
      (∀ j : Nat, j < m'.vertices.length → ∃ t ∈ m'.triangles, ∃ k : Fin 3, t.tri k = j) ∧
      m'.vertices.length = (referencedIndices exampleMeshA.triangles).dedup.length ∧
      (exampleMeshA.triangles = [] → m'.vertices = []) :=
  removeExtraneousVertices_all_used id exampleMeshA (by decide)

/-- C5: on a mesh whose triangle indices are in `[0, vertexCount)` the
assertion of `removeExtraneousVertices` does not fail: the method returns, and
every index of every triangle has been mapped by the index translation table
to a value in `[0, newVertexCount)`. -/
theorem removeExtraneousVertices_assertion_holds (normalize : Vec3 → Vec3) (m : TriangleMesh)
    (h : IndicesInRange m) :
    removeExtraneousVertices normalize m ≠ .error .assertion ∧
    ∃ m', removeExtraneousVertices normalize m = .ok m' ∧
      ∀ t ∈ m'.triangles, ∀ k : Fin 3, 0 ≤ t.tri k ∧ t.tri k < m'.vertices.length := by
  obtain ⟨m', hm', _, _, _, _, hin, _⟩ := removeExtraneousVertices_post normalize m h
  have hne : removeExtraneousVertices normalize m ≠ .error .assertion := by
    rw [hm']
    intro hcontra
    cases hcontra
  refine ⟨hne, m', hm', ?_⟩
  intro t ht k
  obtain ⟨a, b, c⟩ := hin t ht
  fin_cases k
  · exact a
  · exact b
  · exact c

/-- An instance of the assertion theorem: a mesh with an unused vertex. -/
theorem removeExtraneousVertices_assertion_holds_witness :
    removeExtraneousVertices id exampleMeshA ≠ .error .assertion ∧
    ∃ m', removeExtraneousVertices id exampleMeshA = .ok m' ∧
      ∀ t ∈ m'.triangles, ∀ k : Fin 3, 0 ≤ t.tri k ∧ t.tri k < m'.vertices.length :=
  removeExtraneousVertices_assertion_holds id exampleMeshA (by decide)

/-- C6: on a mesh whose triangle indices are in range, a second application of
`removeExtraneousVertices` finds no unused vertex, takes the early return and
gives back the result of the first application unchanged: the same vertex
list, color list and triangle list. -/
theorem removeExtraneousVertices_idempotent (normalize : Vec3 → Vec3) (m : TriangleMesh)
    (h : IndicesInRange m) :
    ∃ m' m'', removeExtraneousVertices normalize m = .ok m' ∧
      removeExtraneousVertices normalize m' = .ok m'' ∧
      (∃ unusedVertices,
        markUsedLoop m'.triangles (List.replicate m'.vertices.length true) =
          .ok unusedVertices ∧ countUnused unusedVertices = 0) ∧
      m''.vertices = m'.vertices ∧ m''.vertexcolors = m'.vertexcolors ∧
      m''.triangles = m'.triangles ∧ m'' = m' := by
  obtain ⟨m', hm', _, _, _, _, hin, _, hzero, hagain⟩ :=
    removeExtraneousVertices_post normalize m h
  exact ⟨m', m', hm', hagain, ⟨_, markUsedLoop_eq m' hin, hzero⟩, rfl, rfl, rfl, rfl⟩

/-- An instance of the idempotence theorem: a mesh with an unused vertex. -/
theorem removeExtraneousVertices_idempotent_witness :
    ∃ m' m'', removeExtraneousVertices id exampleMeshA = .ok m' ∧
      removeExtraneousVertices id m' = .ok m'' ∧
      (∃ unusedVertices,
        markUsedLoop m'.triangles (List.replicate m'.vertices.length true) =
          .ok unusedVertices ∧ countUnused unusedVertices = 0) ∧
      m''.vertices = m'.vertices ∧ m''.vertexcolors = m'.vertexcolors ∧
      m''.triangles = m'.triangles ∧ m'' = m' :=
  removeExtraneousVertices_idempotent id exampleMeshA (by decide)

/-! ## `removeDuplicateTriangles` -/

theorem triangleSort_iff (a b : Triangle) : triangleSort a b = true ↔ a.LexLt b := by
  unfold triangleSort Triangle.LexLt
  by_cases h0 : a.t0 = b.t0
  · by_cases h1 : a.t1 = b.t1
    · simp [h0, h1]
    · simp [h0, h1]
  · simp only [h0, if_false, decide_eq_true_eq, false_and, or_false]

theorem triangleSort_eq_false_iff (a b : Triangle) : triangleSort a b = false ↔ ¬ a.LexLt b := by
  rw [← triangleSort_iff]; simp

theorem lexLt_irrefl (a : Triangle) : ¬ a.LexLt a := by
  simp [Triangle.LexLt]

theorem lexLt_trans {a b c : Triangle} (h1 : a.LexLt b) (h2 : b.LexLt c) : a.LexLt c := by
  unfold Triangle.LexLt at *
  omega

theorem lexLt_trichotomy (a b : Triangle) : a.LexLt b ∨ a = b ∨ b.LexLt a := by
  cases a
  cases b
  simp only [Triangle.LexLt, Triangle.mk.injEq]
  omega

theorem lexLt_of_not_of_ne {a b : Triangle} (h : ¬ b.LexLt a) (hne : a ≠ b) : a.LexLt b := by
  rcases lexLt_trichotomy a b with h1 | h1 | h1
  · exact h1
  · exact absurd h1 hne
  · exact absurd h1 h

theorem lexLt_of_le_of_lt {a b c : Triangle} (h1 : ¬ b.LexLt a) (h2 : b.LexLt c) :
    a.LexLt c := by
  rcases lexLt_trichotomy a b with h | h | h
  · exact lexLt_trans h h2
  · rw [h]; exact h2
  · exact absurd h h1

theorem _trianglesEqual_iff (a b : Triangle) : _trianglesEqual a b = true ↔ a = b := by
  cases a
  cases b
  simp [_trianglesEqual, and_assoc]

theorem stdSort_perm (l : List Triangle) : (stdSort triangleSort l).Perm l :=
  List.perm_insertionSort _ l

theorem stdSort_sorted (l : List Triangle) :
    List.Pairwise (fun a b => ¬ b.LexLt a) (stdSort triangleSort l) := by
  haveI : IsTotal Triangle (fun a b => triangleSort b a = false) :=
    ⟨fun a b => by
      simp only [triangleSort_eq_false_iff]
      rcases lexLt_trichotomy a b with h | h | h
      · exact Or.inl (fun h' => lexLt_irrefl a (lexLt_trans h h'))
      · subst h; exact Or.inl (lexLt_irrefl a)
      · exact Or.inr (fun h' => lexLt_irrefl a (lexLt_trans h' h))⟩
  haveI : IsTrans Triangle (fun a b => triangleSort b a = false) :=
    ⟨fun a b c hab hbc => by
      simp only [triangleSort_eq_false_iff] at *
      intro hca
      exact hab (lexLt_of_le_of_lt hbc hca)⟩
  have := List.sorted_insertionSort (fun a b => triangleSort b a = false) l
  exact List.Pairwise.imp (fun {a b} hab => (triangleSort_eq_false_iff b a).1 hab) this

/-- Every procedure that sorts with the comparator `triangleSort` returns the
list that `stdSort` returns. -/
theorem stdSort_unique (l l' : List Triangle) (hp : l'.Perm l)
    (hs : List.Pairwise (fun a b => triangleSort b a = false) l') :
    l' = stdSort triangleSort l := by
  have hs' : List.Pairwise (fun a b => ¬ b.LexLt a) l' :=
    List.Pairwise.imp (fun {a b} hab => (triangleSort_eq_false_iff b a).1 hab) hs
  refine List.Perm.eq_of_sorted ?_ hs' (stdSort_sorted l) (hp.trans (stdSort_perm l).symm)
  intro a b _ _ hab hba
  rcases lexLt_trichotomy a b with h | h | h
  · exact absurd h hba
  · exact h
  · exact absurd h hab

theorem stdSort_of_sorted (l : List Triangle) (h : List.Pairwise Triangle.LexLt l) :
    stdSort triangleSort l = l := by
  apply List.Sorted.insertionSort_eq
  exact List.Pairwise.imp
    (fun {a b} hab => (triangleSort_eq_false_iff b a).2
      (fun hba => lexLt_irrefl a (lexLt_trans hab hba))) h

theorem uniqueLoop_subset : ∀ (l : List Triangle) (last t : Triangle),
    t ∈ uniqueLoop l last → t ∈ l := by
  intro l
  induction l with
  | nil => intro last t h; simp [uniqueLoop] at h
  | cons x xs ih =>
    intro last t h
    cases hx : _trianglesEqual x last with
    | true =>
      simp only [uniqueLoop, hx, if_true] at h
      exact List.mem_cons_of_mem _ (ih x t h)
    | false =>
      simp only [uniqueLoop, hx, Bool.false_eq_true, if_false, List.mem_cons] at h
      rcases h with h | h
      · rw [h]; exact List.mem_cons_self _ _
      · exact List.mem_cons_of_mem _ (ih x t h)

theorem mem_uniqueLoop_or : ∀ (l : List Triangle) (last t : Triangle),
    t ∈ l → t ∈ uniqueLoop l last ∨ t = last := by
  intro l
  induction l with
  | nil => intro last t h; simp at h
  | cons x xs ih =>
    intro last t h
    cases hx : _trianglesEqual x last with
    | true =>
      have hxl : x = last := (_trianglesEqual_iff x last).1 hx
      simp only [uniqueLoop, hx, if_true]
      rcases List.mem_cons.1 h with h | h
      · exact Or.inr (h.trans hxl)
      · rcases ih x t h with h' | h'
        · exact Or.inl h'
        · exact Or.inr (h'.trans hxl)
    | false =>
      simp only [uniqueLoop, hx, Bool.false_eq_true, if_false, List.mem_cons]
      rcases List.mem_cons.1 h with h | h
      · exact Or.inl (Or.inl h)
      · rcases ih x t h with h' | h'
        · exact Or.inl (Or.inr h')
        · exact Or.inl (Or.inl h')

theorem uniqueLoop_gt_last : ∀ (l : List Triangle) (last : Triangle),
    List.Pairwise (fun a b => ¬ b.LexLt a) l → (∀ y ∈ l, ¬ y.LexLt last) →
    ∀ t ∈ uniqueLoop l last, last.LexLt t := by
  intro l
  induction l with
  | nil => intro last _ _ t h; simp [uniqueLoop] at h
  | cons x xs ih =>
    intro last hs hle t h
    obtain ⟨hx, hxs⟩ := List.pairwise_cons.1 hs
    cases hxe : _trianglesEqual x last with
    | true =>
      have hxl : x = last := (_trianglesEqual_iff x last).1 hxe
      simp only [uniqueLoop, hxe, if_true] at h
      subst hxl
      exact ih x hxs hx t h
    | false =>
      have hne : last ≠ x := by
        intro e
        have := (_trianglesEqual_iff x last).2 e.symm
        rw [hxe] at this
        cases this
      have hlx : last.LexLt x := lexLt_of_not_of_ne (hle x (List.mem_cons_self _ _)) hne
      simp only [uniqueLoop, hxe, Bool.false_eq_true, if_false, List.mem_cons] at h
      rcases h with h | h
      · rw [h]; exact hlx
      · exact lexLt_trans hlx (ih x hxs hx t h)

theorem uniqueLoop_strict : ∀ (l : List Triangle) (last : Triangle),
    List.Pairwise (fun a b => ¬ b.LexLt a) l →
    List.Pairwise Triangle.LexLt (uniqueLoop l last) := by
  intro l
  induction l with
  | nil => intro last _; simp [uniqueLoop]
  | cons x xs ih =>
    intro last hs
    obtain ⟨hx, hxs⟩ := List.pairwise_cons.1 hs
    cases hxe : _trianglesEqual x last with
    | true =>
      simp only [uniqueLoop, hxe, if_true]
      exact ih x hxs
    | false =>
      simp only [uniqueLoop, hxe, Bool.false_eq_true, if_false]
      exact List.pairwise_cons.2 ⟨uniqueLoop_gt_last xs x hxs hx, ih x hxs⟩

theorem uniqueLoop_of_strict : ∀ (l : List Triangle) (last : Triangle),
    List.Pairwise Triangle.LexLt l → last ∉ l → uniqueLoop l last = l := by
  intro l
  induction l with
  | nil => intro last _ _; rfl
  | cons x xs ih =>
    intro last hs hlast
    obtain ⟨hx, hxs⟩ := List.pairwise_cons.1 hs
    cases hxe : _trianglesEqual x last with
    | true =>
      have e := (_trianglesEqual_iff x last).1 hxe
      exact absurd (e ▸ List.mem_cons_self _ _) hlast
    | false =>
      simp only [uniqueLoop, hxe, Bool.false_eq_true, if_false]
      rw [ih x hxs (fun hmem => lexLt_irrefl x (hx x hmem))]

theorem lexLt_pairwise_nodup (l : List Triangle) (h : List.Pairwise Triangle.LexLt l) :
    l.Nodup := by
  show List.Pairwise (fun a b => a ≠ b) l
  refine List.Pairwise.imp ?_ h
  intro a b hab e
  subst e
  exact lexLt_irrefl a hab

/-- C8: when every triangle has three distinct indices, and the default
constructed `Triangle` does not, the list after `removeDuplicateTriangles` is
strictly increasing in the lexicographic order, it contains an ordered triple
exactly when the input contained it, and every triple of the input occurs in
it once; two triples that differ by a rotation or a reversal are different
triples, so both are kept. -/
theorem removeDuplicateTriangles_spec (last : Triangle) (m : TriangleMesh)
    (hlast : ¬ last.Distinct) (h : ∀ t ∈ m.triangles, t.Distinct) :
    List.Pairwise Triangle.LexLt (removeDuplicateTriangles last m).triangles ∧
    (∀ t, t ∈ (removeDuplicateTriangles last m).triangles ↔ t ∈ m.triangles) ∧
    (∀ t ∈ m.triangles, (removeDuplicateTriangles last m).triangles.count t = 1) := by
  have hstrict : List.Pairwise Triangle.LexLt (removeDuplicateTriangles last m).triangles :=
    uniqueLoop_strict _ last (stdSort_sorted m.triangles)
  have hmem : ∀ t, t ∈ (removeDuplicateTriangles last m).triangles ↔ t ∈ m.triangles := by
    intro t
    constructor
    · intro ht
      exact (stdSort_perm m.triangles).mem_iff.1 (uniqueLoop_subset _ last t ht)
    · intro ht
      rcases mem_uniqueLoop_or _ last t ((stdSort_perm m.triangles).mem_iff.2 ht) with h' | h'
      · exact h'
      · exact absurd (h' ▸ h t ht) hlast
  exact ⟨hstrict, hmem, fun t ht =>
    List.count_eq_one_of_mem (lexLt_pairwise_nodup _ hstrict) ((hmem t).2 ht)⟩

/-- An instance of the deduplication theorem: a mesh that stores a triangle
twice, together with a rotation and a reversal of it. -/
theorem removeDuplicateTriangles_spec_witness :
    (List.Pairwise Triangle.LexLt
        (removeDuplicateTriangles ⟨0, 0, 0⟩ exampleMeshDuplicates).triangles ∧
      (∀ t, t ∈ (removeDuplicateTriangles ⟨0, 0, 0⟩ exampleMeshDuplicates).triangles ↔
        t ∈ exampleMeshDuplicates.triangles) ∧
      (∀ t ∈ exampleMeshDuplicates.triangles,
        (removeDuplicateTriangles ⟨0, 0, 0⟩ exampleMeshDuplicates).triangles.count t = 1)) ∧
    (removeDuplicateTriangles ⟨0, 0, 0⟩ exampleMeshDuplicates).triangles =
      [⟨0, 1, 2⟩, ⟨1, 2, 0⟩, ⟨2, 1, 0⟩] :=
  ⟨removeDuplicateTriangles_spec ⟨0, 0, 0⟩ exampleMeshDuplicates (by decide) (by decide),
    by decide⟩

/-- C7, as stated, fails: the two triangles of `exampleMeshUnsorted` are
different, and whatever the default constructed `Triangle` is, the list after
`removeDuplicateTriangles` is not the list before, because the method sorts.
With the zero triple as default constructed `Triangle`, a list that starts
with the zero triple loses it. -/
theorem removeDuplicateTriangles_noop_counterexample :
    (exampleMeshUnsorted.triangles.Nodup ∧
      ∀ last : Triangle,
        (removeDuplicateTriangles last exampleMeshUnsorted).triangles ≠
          exampleMeshUnsorted.triangles) ∧
    (exampleMeshCollapsed.triangles.Nodup ∧
      (removeDuplicateTriangles ⟨0, 0, 0⟩ exampleMeshCollapsed).triangles ≠
        exampleMeshCollapsed.triangles) := by
  refine ⟨⟨by decide, ?_⟩, by decide, by decide⟩
  intro last
  have hs : stdSort triangleSort exampleMeshUnsorted.triangles = [⟨0, 1, 2⟩, ⟨1, 2, 3⟩] := by
    decide
  simp only [removeDuplicateTriangles, hs]
  cases hx : _trianglesEqual ⟨0, 1, 2⟩ last with
  | true =>
    simp only [uniqueLoop, hx, if_true]
    intro hcontra
    have hl := congrArg List.length hcontra
    by_cases hy : _trianglesEqual ⟨1, 2, 3⟩ ⟨0, 1, 2⟩ = true
    · exact absurd hy (by decide)
    · simp [hy, exampleMeshUnsorted] at hl
  | false =>
    simp only [uniqueLoop, hx, Bool.false_eq_true, if_false]
    intro hcontra
    have hh := congrArg List.head? hcontra
    simp [exampleMeshUnsorted] at hh

/-- C7, amended: when the triangle list contains no two equal ordered triples
and does not contain the default constructed `Triangle`, then
`removeDuplicateTriangles` removes nothing: the list afterwards is a
permutation of the list before, in strictly increasing lexicographic order;
it is the list before exactly when that list was already strictly increasing. -/
theorem removeDuplicateTriangles_nodup (last : Triangle) (m : TriangleMesh)
    (hnd : m.triangles.Nodup) (hlast : last ∉ m.triangles) :
    (removeDuplicateTriangles last m).triangles.Perm m.triangles ∧
    List.Pairwise Triangle.LexLt (removeDuplicateTriangles last m).triangles ∧
    ((removeDuplicateTriangles last m).triangles = m.triangles ↔
      List.Pairwise Triangle.LexLt m.triangles) := by
  have hp := stdSort_perm m.triangles
  have hstrict : List.Pairwise Triangle.LexLt (stdSort triangleSort m.triangles) := by
    have hnd' : (stdSort triangleSort m.triangles).Nodup := hp.nodup_iff.2 hnd
    refine List.Pairwise.imp ?_ ((stdSort_sorted m.triangles).and hnd')
    intro a b hab
    exact lexLt_of_not_of_ne hab.1 hab.2
  have heq : (removeDuplicateTriangles last m).triangles = stdSort triangleSort m.triangles :=
    uniqueLoop_of_strict _ last hstrict (fun hmem => hlast (hp.mem_iff.1 hmem))
  refine ⟨heq ▸ hp, heq ▸ hstrict, ?_⟩
  constructor
  · intro e
    rw [← e, heq]
    exact hstrict
  · intro hs
    rw [heq]
    exact stdSort_of_sorted _ hs

/-- An instance of the amended theorem: a mesh whose triangles are stored out
of order. -/
theorem removeDuplicateTriangles_nodup_witness :
    (removeDuplicateTriangles ⟨0, 0, 0⟩ exampleMeshUnsorted).triangles.Perm
      exampleMeshUnsorted.triangles ∧
    List.Pairwise Triangle.LexLt
      (removeDuplicateTriangles ⟨0, 0, 0⟩ exampleMeshUnsorted).triangles ∧
    ((removeDuplicateTriangles ⟨0, 0, 0⟩ exampleMeshUnsorted).triangles =
        exampleMeshUnsorted.triangles ↔
      List.Pairwise Triangle.LexLt exampleMeshUnsorted.triangles) :=
  removeDuplicateTriangles_nodup ⟨0, 0, 0⟩ exampleMeshUnsorted (by decide) (by decide)

/-! ## Invariant I1 -/

theorem rank_injective (flags : List Bool) (i j : Nat) (hi : flags[i]? = some false)
    (hj : flags[j]? = some false) (h : rank flags i = rank flags j) : i = j := by
  rcases Nat.lt_trichotomy i j with hlt | heq | hgt
  · have := rank_lt_rank flags i j hlt hi
    omega
  · exact heq
  · have := rank_lt_rank flags j i hgt hj
    omega

theorem removeExtraneousVertices_I1 (normalize : Vec3 → Vec3) (m : TriangleMesh) (h : I1 m) :
    ∃ m', removeExtraneousVertices normalize m = .ok m' ∧ I1 m' := by
  have hin : IndicesInRange m := fun t ht => (h t ht).2
  obtain ⟨m', hm', _, _, ht, _, hin', _, _⟩ := removeExtraneousVertices_post normalize m hin
  refine ⟨m', hm', fun t htm => ⟨?_, hin' t htm⟩⟩
  rw [ht, List.mem_map] at htm
  obtain ⟨s, hs, rfl⟩ := htm
  obtain ⟨⟨a0, a1⟩, ⟨b0, b1⟩, ⟨c0, c1⟩⟩ := corners_used m hin s hs
  obtain ⟨d0, d1, d2⟩ := (h s hs).1
  have key : ∀ x y : Int, 0 ≤ x → 0 ≤ y → (unusedFlags m)[x.toNat]? = some false →
      (unusedFlags m)[y.toNat]? = some false → x ≠ y →
      ((rank (unusedFlags m) x.toNat : Nat) : Int) ≠ (rank (unusedFlags m) y.toNat : Nat) := by
    intro x y hx hy ux uy hxy e
    have := rank_injective _ _ _ ux uy (by exact_mod_cast e)
    omega
  exact ⟨key _ _ a0 b0 a1 b1 d0, key _ _ b0 c0 b1 c1 d1, key _ _ c0 a0 c1 a1 d2⟩

theorem removeTriangles_I1 (m : TriangleMesh) (R : List Int) (h : I1 m)
    (hR : ∀ r ∈ R, 0 ≤ r ∧ r < m.triangles.length) :
    ∃ m', removeTriangles m R = .ok m' ∧ I1 m' :=
  ⟨_, removeTriangles_eq m R hR,
    fun t ht => h t ((dropPositions_sublist R m.triangles 0).subset ht)⟩

theorem removeDuplicateTriangles_I1 (last : Triangle) (m : TriangleMesh) (h : I1 m) :
    I1 (removeDuplicateTriangles last m) :=
  fun t ht => h t ((stdSort_perm m.triangles).mem_iff.1 (uniqueLoop_subset _ last t ht))

theorem translate_I1 (m : TriangleMesh) (trans : Vec3) (h : I1 m) : I1 (translate m trans) := by
  intro t ht
  have := h t ht
  simpa [translate] using this

theorem identityTable_spec (n : Nat) :
    (identityTable n).length = n ∧ ∀ x ∈ identityTable n, 0 ≤ x ∧ x < (n : Int) := by
  refine ⟨by simp [identityTable], ?_⟩
  intro x hx
  simp only [identityTable, List.mem_map, List.mem_range] at hx
  obtain ⟨i, hi, rfl⟩ := hx
  omega

theorem indexTableLoop_spec (n : Nat) : ∀ (pairs : List (Int × Int)) (tb : List Int),
    tb.length = n → (∀ x ∈ tb, 0 ≤ x ∧ x < (n : Int)) →
    (∀ p ∈ pairs, (0 ≤ p.1 ∧ p.1 < (n : Int)) ∧ (0 ≤ p.2 ∧ p.2 < (n : Int))) →
    ∃ tb', indexTableLoop pairs tb = .ok tb' ∧ tb'.length = n ∧
      ∀ x ∈ tb', 0 ≤ x ∧ x < (n : Int) := by
  intro pairs
  induction pairs with
  | nil => intro tb hl hx _; exact ⟨tb, rfl, hl, hx⟩
  | cons p ps ih =>
    intro tb hl hx hp
    obtain ⟨hp1, hp20, hp21⟩ := hp p (List.mem_cons_self _ _)
    have hset := vecSet_ok tb p.2 p.1 hp20 (by rw [hl]; exact hp21)
    obtain ⟨tb', hrun, hl', hx'⟩ := ih (tb.set p.2.toNat p.1) (by simpa using hl)
      (by
        intro x hxm
        rcases List.mem_or_eq_of_mem_set hxm with h1 | h1
        · exact hx x h1
        · rw [h1]; exact hp1)
      (fun q hq => hp q (List.mem_cons_of_mem _ hq))
    refine ⟨tb', ?_, hl', hx'⟩
    simp only [indexTableLoop, hset, ok_bind]
    exact hrun

theorem remapLoop_spec (n : Nat) (tb : List Int) (hl : tb.length = n)
    (hx : ∀ x ∈ tb, 0 ≤ x ∧ x < (n : Int)) : ∀ ts : List Triangle,
    (∀ t ∈ ts, t.Distinct ∧ t.InRange n) →
    ∃ ts', remapLoop tb ts = .ok ts' ∧ ∀ t ∈ ts', t.Distinct ∧ t.InRange n := by
  intro ts
  induction ts with
  | nil => intro _; exact ⟨[], rfl, fun t ht => by simp at ht⟩
  | cons t ts ih =>
    intro h
    obtain ⟨hd, ⟨a0, a1⟩, ⟨b0, b1⟩, ⟨c0, c1⟩⟩ := h t (List.mem_cons_self _ _)
    obtain ⟨a, ha, ha'⟩ := vecGet_ok tb t.t0 a0 (by rw [hl]; exact a1)
    obtain ⟨b, hb, hb'⟩ := vecGet_ok tb t.t1 b0 (by rw [hl]; exact b1)
    obtain ⟨c, hc, hc'⟩ := vecGet_ok tb t.t2 c0 (by rw [hl]; exact c1)
    have ra := hx a (List.mem_iff_getElem?.2 ⟨_, ha'⟩)
    have rb := hx b (List.mem_iff_getElem?.2 ⟨_, hb'⟩)
    have rc := hx c (List.mem_iff_getElem?.2 ⟨_, hc'⟩)
    obtain ⟨ts', hrun, hts'⟩ := ih (fun s hs => h s (List.mem_cons_of_mem _ hs))
    by_cases hcol : a = b ∨ b = c ∨ c = a
    · refine ⟨t :: ts', ?_, ?_⟩
      · simp only [remapLoop, ha, hb, hc, hrun, ok_bind, hcol, if_true, pure_eq_ok]
      · intro s hs
        rcases List.mem_cons.1 hs with hs | hs
        · rw [hs]; exact h t (List.mem_cons_self _ _)
        · exact hts' s hs
    · refine ⟨⟨a, b, c⟩ :: ts', ?_, ?_⟩
      · simp only [remapLoop, ha, hb, hc, hrun, ok_bind, hcol, if_false, pure_eq_ok]
      · intro s hs
        rcases List.mem_cons.1 hs with hs | hs
        · rw [hs]
          simp only [not_or] at hcol
          exact ⟨⟨hcol.1, hcol.2.1, hcol.2.2⟩, ra, rb, rc⟩
        · exact hts' s hs

theorem removeDuplicateVertices_I1 (normalize : Vec3 → Vec3) (vertexPairs : List (Int × Int))
    (m : TriangleMesh) (h : I1 m)
    (hp : ∀ p ∈ vertexPairs, (0 ≤ p.1 ∧ p.1 < (m.vertices.length : Int)) ∧
      (0 ≤ p.2 ∧ p.2 < (m.vertices.length : Int))) :
    ∃ m', removeDuplicateVertices normalize vertexPairs m = .ok m' ∧ I1 m' := by
  obtain ⟨il, ix⟩ := identityTable_spec m.vertices.length
  obtain ⟨tb, htb, hl, hx⟩ := indexTableLoop_spec m.vertices.length (vertexPairs.drop 1)
    (identityTable m.vertices.length) il ix (fun p hpm => hp p (List.mem_of_mem_drop hpm))
  obtain ⟨ts', hts', hI⟩ := remapLoop_spec m.vertices.length tb hl hx m.triangles h
  obtain ⟨m', hm', hI'⟩ := removeExtraneousVertices_I1 normalize { m with triangles := ts' } hI
  refine ⟨m', ?_, hI'⟩
  simp only [removeDuplicateVertices, htb, hts', ok_bind]
  exact hm'

theorem join_I1 (normalize : Vec3 → Vec3) (vertexPairs : List (Int × Int))
    (m mesh : TriangleMesh) (h : I1 m) (h' : I1 mesh)
    (hp : ∀ p ∈ vertexPairs,
      (0 ≤ p.1 ∧ p.1 < ((m.vertices.length + mesh.vertices.length : Nat) : Int)) ∧
      (0 ≤ p.2 ∧ p.2 < ((m.vertices.length + mesh.vertices.length : Nat) : Int))) :
    ∃ m', join normalize vertexPairs m mesh = .ok m' ∧ I1 m' := by
  by_cases h1 : mesh.vertices.length = 0
  · exact ⟨m, by simp only [join, h1, if_true, pure_eq_ok], h⟩
  · by_cases h2 : m.vertices.length = 0
    · exact ⟨append m mesh, by simp only [join, h1, h2, if_true, if_false, pure_eq_ok],
        append_I1 m mesh h h'⟩
    · have hA := append_I1 m mesh h h'
      have hlen : (append m mesh).vertices.length = m.vertices.length + mesh.vertices.length := by
        simp [append]
      obtain ⟨il, ix⟩ := identityTable_spec (append m mesh).vertices.length
      obtain ⟨tb, htb, hl, hx⟩ := indexTableLoop_spec (append m mesh).vertices.length
        vertexPairs (identityTable (append m mesh).vertices.length) il ix
        (by rw [hlen]; exact hp)
      obtain ⟨ts', hts', hI⟩ := remapLoop_spec (append m mesh).vertices.length tb hl hx
        (append m mesh).triangles hA
      obtain ⟨m', hm', hI'⟩ := removeExtraneousVertices_I1 normalize
        { append m mesh with triangles := ts' } hI
      refine ⟨m', ?_, hI'⟩
      simp only [join, h1, h2, if_false, htb, hts', ok_bind]
      exact hm'

/-- C9: invariant I1 (every triangle has three pairwise distinct indices in
`[0, vertexCount)`) is preserved by `append`, `removeTriangles`,
`removeDuplicateTriangles`, `removeExtraneousVertices`, `translate`, `join` and
`removeDuplicateVertices`, the last two for every list of matched vertex pairs
with indices in range; the methods that index a vector return. -/
theorem I1_preserved (normalize : Vec3 → Vec3) :
    (∀ A B : TriangleMesh, I1 A → I1 B → I1 (append A B)) ∧
    (∀ (m : TriangleMesh) (R : List Int), I1 m →
      (∀ r ∈ R, 0 ≤ r ∧ r < m.triangles.length) →
      ∃ m', removeTriangles m R = .ok m' ∧ I1 m') ∧
    (∀ (last : Triangle) (m : TriangleMesh), I1 m → I1 (removeDuplicateTriangles last m)) ∧
    (∀ m : TriangleMesh, I1 m → ∃ m', removeExtraneousVertices normalize m = .ok m' ∧ I1 m') ∧
    (∀ (m : TriangleMesh) (trans : Vec3), I1 m → I1 (translate m trans)) ∧
    (∀ (vertexPairs : List (Int × Int)) (A B : TriangleMesh), I1 A → I1 B →
      (∀ p ∈ vertexPairs,
        (0 ≤ p.1 ∧ p.1 < ((A.vertices.length + B.vertices.length : Nat) : Int)) ∧
        (0 ≤ p.2 ∧ p.2 < ((A.vertices.length + B.vertices.length : Nat) : Int))) →
      ∃ m', join normalize vertexPairs A B = .ok m' ∧ I1 m') ∧
    (∀ (vertexPairs : List (Int × Int)) (m : TriangleMesh), I1 m →
      (∀ p ∈ vertexPairs, (0 ≤ p.1 ∧ p.1 < (m.vertices.length : Int)) ∧
        (0 ≤ p.2 ∧ p.2 < (m.vertices.length : Int))) →
      ∃ m', removeDuplicateVertices normalize vertexPairs m = .ok m' ∧ I1 m') :=
  ⟨append_I1,
    fun m R h hR => removeTriangles_I1 m R h hR,
    removeDuplicateTriangles_I1,
    removeExtraneousVertices_I1 normalize,
    translate_I1,
    fun vertexPairs A B hA hB hp => join_I1 normalize vertexPairs A B hA hB hp,
    fun vertexPairs m h hp => removeDuplicateVertices_I1 normalize vertexPairs m h hp⟩

/-- An instance of the preservation theorem on the example meshes. -/
theorem I1_preserved_witness :
    I1 (append exampleMeshA exampleMeshB) ∧
    (∃ m', removeTriangles exampleMeshA [1, 1] = .ok m' ∧ I1 m') ∧
    I1 (removeDuplicateTriangles ⟨0, 0, 0⟩ exampleMeshDuplicates) ∧
    (∃ m', removeExtraneousVertices id exampleMeshA = .ok m' ∧ I1 m') ∧
    I1 (translate exampleMeshA ⟨1, 2, 3⟩) ∧
    (∃ m', join id [(1, 5), (3, 4)] exampleMeshA exampleMeshB = .ok m' ∧ I1 m') ∧
    (∃ m', removeDuplicateVertices id [(0, 1), (0, 3)] exampleMeshA = .ok m' ∧ I1 m') :=
  ⟨(I1_preserved id).1 exampleMeshA exampleMeshB (by decide) (by decide),
    (I1_preserved id).2.1 exampleMeshA [1, 1] (by decide) (by decide),
    (I1_preserved id).2.2.1 ⟨0, 0, 0⟩ exampleMeshDuplicates (by decide),
    (I1_preserved id).2.2.2.1 exampleMeshA (by decide),
    (I1_preserved id).2.2.2.2.1 exampleMeshA ⟨1, 2, 3⟩ (by decide),
    (I1_preserved id).2.2.2.2.2.1 [(1, 5), (3, 4)] exampleMeshA exampleMeshB (by decide)
      (by decide) (by decide),
    (I1_preserved id).2.2.2.2.2.2 [(0, 1), (0, 3)] exampleMeshA (by decide) (by decide)⟩

/-! ## The vertex triangle cache and the face neighbours -/

theorem pushAt_mem (vt : List (List Int)) (idx i : Int) (h0 : 0 ≤ idx) (h1 : idx < vt.length) :
    ∃ vt', pushAt vt idx i = .ok vt' ∧ vt'.length = vt.length ∧
      ∀ (v : Nat) (l : List Int), vt[v]? = some l →
        ∃ l', vt'[v]? = some l' ∧ ∀ x, x ∈ l' ↔ x ∈ l ∨ (x = i ∧ (v : Int) = idx) := by
  obtain ⟨l0, hl0, hl0'⟩ := vecGet_ok vt idx h0 h1
  have hlt : idx.toNat < vt.length := (Int.toNat_lt h0).2 h1
  refine ⟨vt.set idx.toNat (l0 ++ [i]), ?_, by simp, ?_⟩
  · simp only [pushAt, hl0, ok_bind]
    exact vecSet_ok vt idx _ h0 h1
  · intro v l hv
    rw [List.getElem?_set]
    by_cases hvi : idx.toNat = v
    · have hvidx : (v : Int) = idx := by omega
      subst hvi
      rw [hl0'] at hv
      cases hv
      refine ⟨l0 ++ [i], by simp [hlt], fun x => ?_⟩
      simp [hvidx]
    · have hvidx : ¬ (v : Int) = idx := by omega
      refine ⟨l, by simp [hvi, hv], fun x => ?_⟩
      simp [hvidx]

theorem vertexTrianglesLoop_mem : ∀ (ts : List Triangle) (i : Int) (vt : List (List Int)),
    (∀ t ∈ ts, t.InRange vt.length) →
    ∃ vt', vertexTrianglesLoop ts i vt = .ok vt' ∧ vt'.length = vt.length ∧
      ∀ (v : Nat) (l : List Int), vt[v]? = some l →
        ∃ l', vt'[v]? = some l' ∧ ∀ x, x ∈ l' ↔ x ∈ l ∨
          ∃ (j : Nat) (tr : Triangle), ts[j]? = some tr ∧ x = i + j ∧
            ((v : Int) = tr.t0 ∨ (v : Int) = tr.t1 ∨ (v : Int) = tr.t2) := by
  intro ts
  induction ts with
  | nil =>
    intro i vt _
    refine ⟨vt, rfl, rfl, fun v l hv => ⟨l, hv, fun x => ?_⟩⟩
    simp
  | cons t ts ih =>
    intro i vt h
    obtain ⟨⟨a0, a1⟩, ⟨b0, b1⟩, ⟨c0, c1⟩⟩ := h t (List.mem_cons_self _ _)
    obtain ⟨vt1, r1, l1, p1⟩ := pushAt_mem vt t.t0 i a0 a1
    obtain ⟨vt2, r2, l2, p2⟩ := pushAt_mem vt1 t.t1 i b0 (by rw [l1]; exact b1)
    obtain ⟨vt3, r3, l3, p3⟩ := pushAt_mem vt2 t.t2 i c0 (by rw [l2, l1]; exact c1)
    obtain ⟨vt', r, l, p⟩ := ih (i + 1) vt3 (by
      intro s hs
      rw [l3, l2, l1]
      exact h s (List.mem_cons_of_mem _ hs))
    refine ⟨vt', ?_, by rw [l, l3, l2, l1], ?_⟩
    · simp only [vertexTrianglesLoop, r1, r2, r3, ok_bind]
      exact r
    · intro v lv hv
      obtain ⟨la, ha, ea⟩ := p1 v lv hv
      obtain ⟨lb, hb, eb⟩ := p2 v la ha
      obtain ⟨lc, hc, ec⟩ := p3 v lb hb
      obtain ⟨l', hl', e'⟩ := p v lc hc
      refine ⟨l', hl', fun x => ?_⟩
      rw [e' x, ec x, eb x, ea x]
      constructor
      · rintro ((((hx | ⟨hx, hv0⟩) | ⟨hx, hv1⟩) | ⟨hx, hv2⟩) | ⟨j, tr, hj, hx, hc'⟩)
        · exact Or.inl hx
        · exact Or.inr ⟨0, t, by simp, by simp [hx], Or.inl hv0⟩
        · exact Or.inr ⟨0, t, by simp, by simp [hx], Or.inr (Or.inl hv1)⟩
        · exact Or.inr ⟨0, t, by simp, by simp [hx], Or.inr (Or.inr hv2)⟩
        · exact Or.inr ⟨j + 1, tr, by simpa using hj, by rw [hx]; push_cast; ring, hc'⟩
      · rintro (hx | ⟨j, tr, hj, hx, hc'⟩)
        · exact Or.inl (Or.inl (Or.inl (Or.inl hx)))
        · cases j with
          | zero =>
            simp only [List.getElem?_cons_zero, Option.some.injEq] at hj
            subst hj
            have hxi : x = i := by simpa using hx
            rcases hc' with hc' | hc' | hc'
            · exact Or.inl (Or.inl (Or.inl (Or.inr ⟨hxi, hc'⟩)))
            · exact Or.inl (Or.inl (Or.inr ⟨hxi, hc'⟩))
            · exact Or.inl (Or.inr ⟨hxi, hc'⟩)
          | succ j =>
            refine Or.inr ⟨j, tr, by simpa using hj, ?_, hc'⟩
            rw [hx]; push_cast; ring

/-- The triangle of index `n` exists and has the vertex index `v` among its
three indices. -/
theorem updateVertexTriangles_spec (m : TriangleMesh) (h : IndicesInRange m) :
    ∃ vt, updateVertexTriangles m = .ok { m with _vertexTriangles := vt } ∧
      vt.length = m.vertices.length ∧
      ∀ v : Int, 0 ≤ v → v < m.vertices.length →
        ∃ l, vecGet vt v = .ok l ∧ ∀ x : Int, x ∈ l ↔
          ∃ tr, vecGet m.triangles x = .ok tr ∧ (v = tr.t0 ∨ v = tr.t1 ∨ v = tr.t2) := by
  obtain ⟨vt, hvt, hlen, hmem⟩ := vertexTrianglesLoop_mem m.triangles 0
    (List.replicate m.vertices.length []) (by simpa using h)
  refine ⟨vt, ?_, by simpa using hlen, ?_⟩
  · simp only [updateVertexTriangles, _updateVertexTriangles, hvt, ok_bind, pure_eq_ok]
  · intro v h0 h1
    have hlt : v.toNat < m.vertices.length := (Int.toNat_lt h0).2 h1
    obtain ⟨l, hl, el⟩ := hmem v.toNat [] (by simp [List.getElem?_replicate, hlt])
    refine ⟨l, (vecGet_eq_ok_iff _ _ _).2 ⟨h0, hl⟩, fun x => ?_⟩
    rw [el x, Int.toNat_of_nonneg h0]
    simp only [List.not_mem_nil, false_or, zero_add]
    constructor
    · rintro ⟨j, tr, hj, hx, hc⟩
      exact ⟨tr, by rw [hx]; exact vecGet_natCast _ _ _ hj, hc⟩
    · rintro ⟨tr, hx, hc⟩
      obtain ⟨x0, hx'⟩ := (vecGet_eq_ok_iff _ _ _).1 hx
      exact ⟨x.toNat, tr, hx', (Int.toNat_of_nonneg x0).symm, hc⟩

theorem vecGet_ok_range {α : Type} (v : List α) (i : Int) (a : α) (h : vecGet v i = .ok a) :
    0 ≤ i ∧ i < v.length := by
  obtain ⟨h0, h1⟩ := (vecGet_eq_ok_iff _ _ _).1 h
  refine ⟨h0, ?_⟩
  have : i.toNat < v.length := by
    by_contra hc
    rw [List.getElem?_eq_none (Nat.le_of_not_lt hc)] at h1
    cases h1
  omega

theorem vecGet_mem {α : Type} (v : List α) (i : Int) (a : α) (h : vecGet v i = .ok a) :
    a ∈ v :=
  List.mem_iff_getElem?.2 ⟨_, ((vecGet_eq_ok_iff _ _ _).1 h).2⟩

/-- The neighbours that `getFaceNeighbours` reports once the cache is filled. -/
theorem getFaceNeighbours_mem (m : TriangleMesh) (h : IndicesInRange m) (vt : List (List Int))
    (hvt : updateVertexTriangles m = .ok { m with _vertexTriangles := vt })
    (t : Int) (tri : Triangle) (ht : vecGet m.triangles t = .ok tri) :
    ∃ ns, getFaceNeighbours { m with _vertexTriangles := vt } t [] = .ok ns ∧
      ∀ n : Int, n ∈ ns ↔ ∃ trn, vecGet m.triangles n = .ok trn ∧
        ((tri.t1 = trn.t0 ∨ tri.t1 = trn.t1 ∨ tri.t1 = trn.t2) ∨
          (tri.t2 = trn.t0 ∨ tri.t2 = trn.t1 ∨ tri.t2 = trn.t2)) := by
  obtain ⟨vt', hvt', hlen, hmem⟩ := updateVertexTriangles_spec m h
  have e : vt' = vt := by
    rw [hvt] at hvt'
    have := Except.ok.inj hvt'
    exact (congrArg TriangleMesh._vertexTriangles this).symm
  subst e
  obtain ⟨t0, t1⟩ := vecGet_ok_range _ _ _ ht
  obtain ⟨_, ⟨b0, b1⟩, ⟨c0, c1⟩⟩ := h tri (vecGet_mem _ _ _ ht)
  obtain ⟨l1, hl1, e1⟩ := hmem tri.t1 b0 b1
  obtain ⟨l2, hl2, e2⟩ := hmem tri.t2 c0 c1
  refine ⟨l1 ++ l2, ?_, fun n => ?_⟩
  · simp only [getFaceNeighbours, t0, t1, and_self, if_true, ht, ok_bind,
      getFaceNeighboursOfTriangle, hlen, hl1, hl2, List.nil_append, pure_eq_ok]
  · rw [List.mem_append, e1 n, e2 n]
    constructor
    · rintro (⟨tr, hn, hc⟩ | ⟨tr, hn, hc⟩)
      · exact ⟨tr, hn, Or.inl hc⟩
      · exact ⟨tr, hn, Or.inr hc⟩
    · rintro ⟨tr, hn, hc | hc⟩
      · exact Or.inl ⟨tr, hn, hc⟩
      · exact Or.inr ⟨tr, hn, hc⟩

/-! ## The polyhedron search -/

theorem vecGet_bool_cases (v : List Bool) (x : Int) (h0 : 0 ≤ x) (h1 : x < v.length) :
    vecGet v x = .ok true ∨ vecGet v x = .ok false := by
  obtain ⟨b, hb, _⟩ := vecGet_ok v x h0 h1
  cases b
  · exact Or.inr hb
  · exact Or.inl hb

theorem VisitedExactly.perm {v : List Bool} {L L' : List Int} (h : VisitedExactly v L)
    (hp : L.Perm L') : VisitedExactly v L' :=
  ⟨hp.nodup_iff.1 h.1, fun x => (h.2 x).trans hp.mem_iff⟩

theorem VisitedExactly.inRange {v : List Bool} {L : List Int} (h : VisitedExactly v L)
    (x : Int) (hx : x ∈ L) : 0 ≤ x ∧ x < v.length :=
  vecGet_ok_range _ _ _ ((h.2 x).2 hx)

theorem VisitedExactly.length_le {v : List Bool} {L : List Int} (h : VisitedExactly v L) :
    L.length ≤ v.length := by
  have hsub : L ⊆ (List.range v.length).map (fun (j : Nat) => (j : Int)) := by
    intro x hx
    obtain ⟨h0, h1⟩ := h.inRange x hx
    exact List.mem_map.2 ⟨x.toNat, List.mem_range.2 (by omega), Int.toNat_of_nonneg h0⟩
  have := (h.1.subperm hsub).length_le
  simpa using this

theorem VisitedExactly.set {v : List Bool} {L : List Int} (h : VisitedExactly v L) (x : Int)
    (hx : vecGet v x = .ok false) :
    vecSet v x true = .ok (v.set x.toNat true) ∧ VisitedExactly (v.set x.toNat true) (x :: L) := by
  obtain ⟨h0, h1⟩ := vecGet_ok_range _ _ _ hx
  have hxL : x ∉ L := by
    intro hmem
    have := (h.2 x).2 hmem
    rw [hx] at this
    cases this
  refine ⟨vecSet_ok v x true h0 h1, List.nodup_cons.2 ⟨hxL, h.1⟩, fun y => ?_⟩
  rw [List.mem_cons, ← h.2 y, vecGet_eq_ok_iff, vecGet_eq_ok_iff, List.getElem?_set]
  have hlt : x.toNat < v.length := (Int.toNat_lt h0).2 h1
  constructor
  · rintro ⟨y0, hy⟩
    by_cases e : x.toNat = y.toNat
    · exact Or.inl (by omega)
    · rw [if_neg e] at hy
      exact Or.inr ⟨y0, hy⟩
  · rintro (e | ⟨y0, hy⟩)
    · subst e
      exact ⟨h0, by simp [hlt]⟩
    · refine ⟨y0, ?_⟩
      by_cases e : x.toNat = y.toNat
      · rw [if_pos e, if_pos hlt]
      · rw [if_neg e]; exact hy

theorem visitNeighbours_spec (n : Nat) : ∀ (ns queue : List Int) (v : List Bool) (L : List Int),
    v.length = n → VisitedExactly v L → (∀ x ∈ ns, 0 ≤ x ∧ x < (n : Int)) →
    ∃ (added : List Int) (v' : List Bool),
      visitNeighbours ns queue v = .ok (added ++ queue, v') ∧ v'.length = n ∧
      VisitedExactly v' (added ++ L) ∧ (∀ x ∈ ns, x ∈ added ++ L) := by
  intro ns
  induction ns with
  | nil =>
    intro queue v L hl hv _
    exact ⟨[], v, rfl, hl, hv, fun x hx => by simp at hx⟩
  | cons a ns ih =>
    intro queue v L hl hv hns
    obtain ⟨a0, a1⟩ := hns a (List.mem_cons_self _ _)
    have hns' : ∀ x ∈ ns, 0 ≤ x ∧ x < (n : Int) := fun x hx => hns x (List.mem_cons_of_mem _ hx)
    rcases vecGet_bool_cases v a a0 (by rw [hl]; exact a1) with hb | hb
    · obtain ⟨added, v', hrun, hl', hv', hmem⟩ := ih queue v L hl hv hns'
      refine ⟨added, v', ?_, hl', hv', ?_⟩
      · simp only [visitNeighbours, hb, ok_bind, Bool.not_true, Bool.false_eq_true, if_false]
        exact hrun
      · intro x hx
        rcases List.mem_cons.1 hx with e | hx
        · rw [e]
          exact List.mem_append_right _ ((hv.2 a).1 hb)
        · exact hmem x hx
    · obtain ⟨hset, hv1⟩ := hv.set a hb
      obtain ⟨added, v', hrun, hl', hv', hmem⟩ :=
        ih (a :: queue) (v.set a.toNat true) (a :: L) (by simpa using hl) hv1 hns'
      refine ⟨added ++ [a], v', ?_, hl', ?_, ?_⟩
      · simp only [visitNeighbours, hb, ok_bind, Bool.not_false, if_true, hset]
        rw [hrun]
        simp
      · simpa using hv'
      · intro x hx
        rcases List.mem_cons.1 hx with e | hx
        · rw [e]; simp
        · simpa using hmem x hx

theorem polyhedronLoop_spec (m : TriangleMesh) (n : Nat) (hN : NeighboursInRange m n) :
    ∀ (fuel : Nat) (queue : List Int) (v : List Bool) (polyhedron D : List Int),
    v.length = n → VisitedExactly v (queue ++ D) → n + 1 ≤ fuel + D.length →
    ∃ (v' : List Bool) (new : List Int),
      polyhedronLoop m fuel queue v polyhedron = .ok (v', polyhedron ++ new) ∧ v'.length = n ∧
      VisitedExactly v' (new ++ D) ∧ (∀ x ∈ queue, x ∈ new) := by
  intro fuel
  induction fuel with
  | zero =>
    intro queue v polyhedron D hl hv hf
    have := hv.length_le
    simp only [List.length_append] at this
    cases queue with
    | nil =>
      have hD : D.length ≤ n := by simpa [hl] using this
      omega
    | cons t q => simp only [List.length_cons] at this; omega
  | succ fuel ih =>
    intro queue v polyhedron D hl hv hf
    cases queue with
    | nil =>
      exact ⟨v, [], by simp [polyhedronLoop], hl, by simpa using hv, fun x hx => by simp at hx⟩
    | cons t q =>
      obtain ⟨t0, t1⟩ := hv.inRange t (by simp)
      obtain ⟨ns, hns, hnsr⟩ := hN t t0 (by rw [← hl]; exact t1)
      obtain ⟨added, v1, hrun, hl1, hv1, hmem⟩ :=
        visitNeighbours_spec n ns q v ((t :: q) ++ D) hl hv hnsr
      have hperm : (added ++ ((t :: q) ++ D)).Perm ((added ++ q) ++ (t :: D)) := by
        have h1 : (added ++ ((t :: q) ++ D)) = added ++ (t :: (q ++ D)) := by simp
        have h2 : ((added ++ q) ++ (t :: D)) = added ++ (q ++ t :: D) := by simp
        rw [h1, h2]
        exact List.Perm.append_left _ List.perm_middle.symm
      have hv2 := hv1.perm hperm
      have hlen := hv2.length_le
      obtain ⟨v', new, hrec, hl', hv', hq⟩ :=
        ih (added ++ q) v1 (polyhedron ++ [t]) (t :: D) hl1 hv2
          (by simp only [List.length_cons]; omega)
      refine ⟨v', t :: new, ?_, hl', hv'.perm List.perm_middle, ?_⟩
      · simp only [polyhedronLoop, hns, ok_bind, hrun]
        rw [hrec]
        simp
      · intro x hx
        rcases List.mem_cons.1 hx with e | hx
        · rw [e]; exact List.mem_cons_self _ _
        · exact List.mem_cons_of_mem _ (hq x (List.mem_append_right _ hx))

theorem getPolyhedronFromTriangle_spec (m : TriangleMesh) (n : Nat)
    (hN : NeighboursInRange m n) (tidx : Int) (v : List Bool) (polyhedron D : List Int)
    (hl : v.length = n) (hv : VisitedExactly v D) (ht : vecGet v tidx = .ok false) :
    ∃ (v' : List Bool) (new : List Int),
      _getPolyhedronFromTriangle m tidx v polyhedron = .ok (v', polyhedron ++ new) ∧
      v'.length = n ∧ VisitedExactly v' (new ++ D) ∧ tidx ∈ new := by
  obtain ⟨hset, hv1⟩ := hv.set tidx ht
  obtain ⟨v', new, hrun, hl', hv', hq⟩ :=
    polyhedronLoop_spec m n hN (v.length + 1) [tidx] (v.set tidx.toNat true) polyhedron D
      (by simpa using hl) (by simpa using hv1) (by omega)
  refine ⟨v', new, ?_, hl', hv', hq tidx (by simp)⟩
  simp only [_getPolyhedronFromTriangle, ht, ok_bind, Bool.false_eq_true, if_false, hset]
  exact hrun

theorem polyhedraLoop_spec (m : TriangleMesh) (n : Nat) (hN : NeighboursInRange m n) :
    ∀ (k : Nat) (i : Int) (v : List Bool) (polyList : List (List Int)) (D : List Int),
    v.length = n → VisitedExactly v D → 0 ≤ i → i + k = n →
    (∀ x : Int, 0 ≤ x → x < i → x ∈ D) →
    ∃ (news : List (List Int)) (D' : List Int),
      polyhedraLoop m k i v polyList = .ok (polyList ++ news) ∧
      (∀ p ∈ news, p ≠ []) ∧ D'.Nodup ∧ D'.Perm (news.flatten ++ D) ∧
      (∀ x : Int, x ∈ D' ↔ 0 ≤ x ∧ x < (n : Int)) := by
  intro k
  induction k with
  | zero =>
    intro i v polyList D hl hv _ hik hD
    refine ⟨[], D, by simp [polyhedraLoop], fun p hp => by simp at hp, hv.1, by simp,
      fun x => ⟨fun hx => ?_, fun hx => hD x hx.1 (by omega)⟩⟩
    have := hv.inRange x hx
    omega
  | succ k ih =>
    intro i v polyList D hl hv hi hik hD
    have hin : i < v.length := by rw [hl]; push_cast at hik; omega
    rcases vecGet_bool_cases v i hi hin with hb | hb
    · obtain ⟨news, D', hrun, hne, hnd, hperm, hall⟩ :=
        ih (i + 1) v polyList D hl hv (by omega) (by push_cast at hik ⊢; omega)
          (fun x x0 x1 => by
            by_cases e : x = i
            · rw [e]; exact (hv.2 i).1 hb
            · exact hD x x0 (by omega))
      refine ⟨news, D', ?_, hne, hnd, hperm, hall⟩
      simp only [polyhedraLoop, hb, ok_bind, Bool.not_true, Bool.false_eq_true, if_false]
      exact hrun
    · obtain ⟨v1, new, hrun1, hl1, hv1, hmem⟩ :=
        getPolyhedronFromTriangle_spec m n hN i v [] D hl hv hb
      obtain ⟨news, D', hrun, hne, hnd, hperm, hall⟩ :=
        ih (i + 1) v1 (polyList ++ [new]) (new ++ D) hl1 hv1 (by omega)
          (by push_cast at hik ⊢; omega)
          (fun x x0 x1 => by
            by_cases e : x = i
            · rw [e]; exact List.mem_append_left _ hmem
            · exact List.mem_append_right _ (hD x x0 (by omega)))
      refine ⟨new :: news, D', ?_, ?_, hnd, ?_, hall⟩
      · simp only [polyhedraLoop, hb, ok_bind, Bool.not_false, if_true, hrun1, List.nil_append]
        rw [hrun]
        simp
      · intro p hp
        rcases List.mem_cons.1 hp with e | hp
        · rw [e]; exact List.ne_nil_of_mem hmem
        · exact hne p hp
      · refine hperm.trans ?_
        simp only [List.flatten_cons, List.append_assoc]
        exact List.perm_append_comm_assoc _ _ _

/-! ## Lists of lists without repetition -/

theorem nodup_of_nodup_flatten {α : Type} : ∀ (L : List (List α)), L.flatten.Nodup →
    ∀ p ∈ L, p.Nodup := by
  intro L
  induction L with
  | nil => intro _ p hp; simp at hp
  | cons q L ih =>
    intro h p hp
    simp only [List.flatten_cons, List.nodup_append] at h
    rcases List.mem_cons.1 hp with e | hp
    · rw [e]; exact h.1
    · exact ih h.2.1 p hp

theorem filter_mem_length_of_nodup_flatten {α : Type} [DecidableEq α] :
    ∀ (L : List (List α)) (x : α), L.flatten.Nodup → x ∈ L.flatten →
    (L.filter (fun p => decide (x ∈ p))).length = 1 := by
  intro L
  induction L with
  | nil => intro x _ hx; simp at hx
  | cons q L ih =>
    intro x h hx
    simp only [List.flatten_cons, List.nodup_append] at h
    simp only [List.flatten_cons, List.mem_append] at hx
    by_cases hq : x ∈ q
    · have hnot : x ∉ L.flatten := fun hL => h.2.2 hq hL
      have hnone : L.filter (fun p => decide (x ∈ p)) = [] := by
        rw [List.filter_eq_nil_iff]
        intro p hp
        simp only [decide_eq_true_eq]
        exact fun hxp => hnot (List.mem_flatten.2 ⟨p, hp, hxp⟩)
      simp [List.filter_cons, hq, hnone]
    · rcases hx with hx | hx
      · exact absurd hx hq
      · simp [List.filter_cons, hq, ih x h.2.1 hx]

/-- C11: after `updateVertexTriangles` on a mesh whose triangle indices are in
range, `getFaceNeighbours(t)` returns for every triangle index `t`, and its
list contains the triangle index `n` exactly when triangle `n` has `tri[1]` or
`tri[2]` of triangle `t` among its three indices; the list contains `t`, and a
triangle that has neither of the two indices, even if it shares `tri[0]`, is
not in the list. -/
theorem getFaceNeighbours_spec (m : TriangleMesh) (h : IndicesInRange m) :
    ∃ m', updateVertexTriangles m = .ok m' ∧ m'.triangles = m.triangles ∧
      ∀ (t : Int) (tri : Triangle), vecGet m'.triangles t = .ok tri →
        ∃ ns, getFaceNeighbours m' t [] = .ok ns ∧
          (∀ n : Int, n ∈ ns ↔ ∃ trn, vecGet m'.triangles n = .ok trn ∧
            ∃ k : Fin 3, trn.tri k = tri.tri 1 ∨ trn.tri k = tri.tri 2) ∧
          t ∈ ns ∧
          (∀ (n : Int) (trn : Triangle), vecGet m'.triangles n = .ok trn →
            (∀ k : Fin 3, trn.tri k ≠ tri.tri 1 ∧ trn.tri k ≠ tri.tri 2) → n ∉ ns) := by
  obtain ⟨vt, hvt, _, _⟩ := updateVertexTriangles_spec m h
  refine ⟨_, hvt, rfl, ?_⟩
  intro t tri ht
  obtain ⟨ns, hns, hmem⟩ := getFaceNeighbours_mem m h vt hvt t tri ht
  have hiff : ∀ n : Int, n ∈ ns ↔ ∃ trn, vecGet m.triangles n = .ok trn ∧
      ∃ k : Fin 3, trn.tri k = tri.tri 1 ∨ trn.tri k = tri.tri 2 := by
    intro n
    rw [hmem n]
    constructor
    · rintro ⟨trn, hn, (hc | hc | hc) | (hc | hc | hc)⟩
      · exact ⟨trn, hn, 0, Or.inl hc.symm⟩
      · exact ⟨trn, hn, 1, Or.inl hc.symm⟩
      · exact ⟨trn, hn, 2, Or.inl hc.symm⟩
      · exact ⟨trn, hn, 0, Or.inr hc.symm⟩
      · exact ⟨trn, hn, 1, Or.inr hc.symm⟩
      · exact ⟨trn, hn, 2, Or.inr hc.symm⟩
    · rintro ⟨trn, hn, k, hc⟩
      refine ⟨trn, hn, ?_⟩
      fin_cases k
      · rcases hc with hc | hc
        · exact Or.inl (Or.inl hc.symm)
        · exact Or.inr (Or.inl hc.symm)
      · rcases hc with hc | hc
        · exact Or.inl (Or.inr (Or.inl hc.symm))
        · exact Or.inr (Or.inr (Or.inl hc.symm))
      · rcases hc with hc | hc
        · exact Or.inl (Or.inr (Or.inr hc.symm))
        · exact Or.inr (Or.inr (Or.inr hc.symm))
  refine ⟨ns, hns, hiff, (hiff t).2 ⟨tri, ht, 1, Or.inl rfl⟩, ?_⟩
  intro n trn hn hk hmemn
  obtain ⟨trn', hn', k, hc⟩ := (hiff n).1 hmemn
  have e : trn' = trn := by
    have hn2 : vecGet m.triangles n = .ok trn := hn
    rw [hn2] at hn'
    exact (Except.ok.inj hn').symm
  subst e
  rcases hc with hc | hc
  · exact (hk k).1 hc
  · exact (hk k).2 hc

/-- An instance of the face neighbour theorem: in `exampleMeshFan` the second
triangle shares only the first vertex of the first triangle. -/
theorem getFaceNeighbours_spec_witness :
    (∃ m', updateVertexTriangles exampleMeshFan = .ok m' ∧
      m'.triangles = exampleMeshFan.triangles ∧
      ∀ (t : Int) (tri : Triangle), vecGet m'.triangles t = .ok tri →
        ∃ ns, getFaceNeighbours m' t [] = .ok ns ∧
          (∀ n : Int, n ∈ ns ↔ ∃ trn, vecGet m'.triangles n = .ok trn ∧
            ∃ k : Fin 3, trn.tri k = tri.tri 1 ∨ trn.tri k = tri.tri 2) ∧
          t ∈ ns ∧
          (∀ (n : Int) (trn : Triangle), vecGet m'.triangles n = .ok trn →
            (∀ k : Fin 3, trn.tri k ≠ tri.tri 1 ∧ trn.tri k ≠ tri.tri 2) → n ∉ ns)) ∧
    (updateVertexTriangles exampleMeshFan >>= fun m' => getFaceNeighbours m' 0 []) =
      .ok [0, 0, 2] :=
  ⟨getFaceNeighbours_spec exampleMeshFan (by decide), by decide⟩

/-! ## `_getPolyhedra` returns a partition -/

theorem neighboursInRange_of_update (m : TriangleMesh) (h : IndicesInRange m)
    (vt : List (List Int)) (hvt : updateVertexTriangles m = .ok { m with _vertexTriangles := vt }) :
    NeighboursInRange { m with _vertexTriangles := vt } m.triangles.length := by
  intro t t0 t1
  obtain ⟨tri, htri, _⟩ := vecGet_ok m.triangles t t0 t1
  obtain ⟨ns, hns, hmem⟩ := getFaceNeighbours_mem m h vt hvt t tri htri
  refine ⟨ns, hns, fun x hx => ?_⟩
  obtain ⟨trn, hx', _⟩ := (hmem x).1 hx
  exact vecGet_ok_range _ _ _ hx'

theorem visitedExactly_replicate (n : Nat) : VisitedExactly (List.replicate n false) [] := by
  refine ⟨List.nodup_nil, fun x => ?_⟩
  simp only [List.not_mem_nil, iff_false]
  intro hx
  have := vecGet_mem _ _ _ hx
  rw [List.mem_replicate] at this
  exact absurd this.2 (by decide)

/-- What `_getPolyhedra` returns on a mesh whose triangle indices are in range. -/
theorem getPolyhedra_post (m : TriangleMesh) (h : IndicesInRange m) :
    ∃ (vt : List (List Int)) (polyList : List (List Int)),
      updateVertexTriangles m = .ok { m with _vertexTriangles := vt } ∧
      polyhedraLoop { m with _vertexTriangles := vt } m.triangles.length 0
        (List.replicate m.triangles.length false) [] = .ok polyList ∧
      _getPolyhedra m [] = .ok ({ m with _vertexTriangles := [] }, polyList) ∧
      polyList.flatten.Nodup ∧
      (∀ x : Int, x ∈ polyList.flatten ↔ 0 ≤ x ∧ x < (m.triangles.length : Int)) ∧
      (∀ p ∈ polyList, p ≠ []) := by
  obtain ⟨vt, hvt, _, _⟩ := updateVertexTriangles_spec m h
  have hN := neighboursInRange_of_update m h vt hvt
  obtain ⟨news, D', hrun, hne, hnd, hperm, hall⟩ :=
    polyhedraLoop_spec { m with _vertexTriangles := vt } m.triangles.length hN
      m.triangles.length 0 (List.replicate m.triangles.length false) [] []
      (by simp) (visitedExactly_replicate _) (le_refl _) (by simp)
      (fun x x0 x1 => by omega)
  simp only [List.nil_append, List.append_nil] at hrun hperm
  refine ⟨vt, news, hvt, hrun, ?_, hperm.nodup_iff.1 hnd, fun x => ?_, hne⟩
  · simp only [_getPolyhedra, hvt, ok_bind, List.length_replicate, hrun, pure_eq_ok]
    rfl
  · rw [← hperm.mem_iff]
    exact hall x

/-- C12: on a mesh whose triangle indices are in range `_getPolyhedra`
returns, and the lists it returns partition the triangle indices: no index
occurs twice in the lists taken together, an index occurs in them exactly
when it lies in `[0, triangleCount)`, and no list is empty. -/
theorem getPolyhedra_partition (m : TriangleMesh) (h : IndicesInRange m) :
    ∃ (m' : TriangleMesh) (polyList : List (List Int)),
      _getPolyhedra m [] = .ok (m', polyList) ∧
      polyList.flatten.Nodup ∧
      (∀ x : Int, x ∈ polyList.flatten ↔ 0 ≤ x ∧ x < (m.triangles.length : Int)) ∧
      (∀ x : Int, 0 ≤ x → x < (m.triangles.length : Int) →
        (polyList.filter (fun p => decide (x ∈ p))).length = 1 ∧
        ∀ p ∈ polyList, x ∈ p → p.count x = 1) ∧
      (∀ p ∈ polyList, p ≠ []) := by
  obtain ⟨vt, polyList, _, _, hrun, hnd, hmem, hne⟩ := getPolyhedra_post m h
  refine ⟨_, polyList, hrun, hnd, hmem, ?_, hne⟩
  intro x x0 x1
  have hx : x ∈ polyList.flatten := (hmem x).2 ⟨x0, x1⟩
  exact ⟨filter_mem_length_of_nodup_flatten polyList x hnd hx,
    fun p hp hxp => List.count_eq_one_of_mem (nodup_of_nodup_flatten polyList hnd p hp) hxp⟩

/-- An instance of the partition theorem: the three triangles of `exampleMeshFan`. -/
theorem getPolyhedra_partition_witness :
    ∃ (m' : TriangleMesh) (polyList : List (List Int)),
      _getPolyhedra exampleMeshFan [] = .ok (m', polyList) ∧
      polyList.flatten.Nodup ∧
      (∀ x : Int, x ∈ polyList.flatten ↔
        0 ≤ x ∧ x < (exampleMeshFan.triangles.length : Int)) ∧
      (∀ x : Int, 0 ≤ x → x < (exampleMeshFan.triangles.length : Int) →
        (polyList.filter (fun p => decide (x ∈ p))).length = 1 ∧
        ∀ p ∈ polyList, x ∈ p → p.count x = 1) ∧
      (∀ p ∈ polyList, p ≠ []) :=
  getPolyhedra_partition exampleMeshFan (by decide)

/-! ## Polyhedra of the example meshes -/

/-- C13 at `exampleMeshAsymmetric`, a mesh that satisfies I1: triangle `0` is
among the face neighbours of triangle `1`, and `_getPolyhedra` puts the two
triangles into two polyhedra; with the two triangles stored in the other
order it puts them into one. -/
theorem getPolyhedra_splits_face_neighbours :
    I1 exampleMeshAsymmetric ∧
    (updateVertexTriangles exampleMeshAsymmetric >>= fun m' => getFaceNeighbours m' 1 []) =
      .ok [0, 1, 1] ∧
    _getPolyhedra exampleMeshAsymmetric [] = .ok (exampleMeshAsymmetric, [[0], [1]]) ∧
    _getPolyhedra exampleMeshAsymmetricSwapped [] =
      .ok (exampleMeshAsymmetricSwapped, [[0, 1]]) := by
  decide

theorem divDouble_one_six : divDouble (some 1) (some 6) = some oneSixth := by
  decide!

theorem signedVolume_eq (m : TriangleMesh) (i : Int) (t : Triangle) (p1 p2 p3 : Vec3)
    (ht : vecGet m.triangles i = .ok t) (h1 : vecGet m.vertices t.t0 = .ok p1)
    (h2 : vecGet m.vertices t.t1 = .ok p2) (h3 : vecGet m.vertices t.t2 = .ok p3) :
    _getSignedTriangleVolume m i = .ok (signedVolumeOf p1 p2 p3) := by
  simp only [_getSignedTriangleVolume, ht, h1, h2, h3, ok_bind, pure_eq_ok, signedVolumeOf]

theorem volumeLoop_succ (m : TriangleMesh) (k : Nat) (i : Int) (sum v : Option ℚ)
    (h : _getSignedTriangleVolume m i = .ok v) :
    polyhedronVolumeLoop m (k + 1) i sum =
      polyhedronVolumeLoop m k (i + 1) (addDouble sum v) := by
  simp only [polyhedronVolumeLoop, h, ok_bind]

/-- C14 at `exampleMeshTwoTriangles`: `_getPolyhedra` returns the polyhedra
`[0]` and `[1]`; for the polyhedron `[1]` the method `_getPolyhedronVolume`
returns the `double` nearest to `1/6`, the volume of triangle `0`, and the
signed volume of triangle `1`, the only triangle of the polyhedron, is the
`double` nearest to `4/3`.  In general the result depends on the polyhedron
only through its size. -/
theorem getPolyhedronVolume_uses_loop_counter :
    _getPolyhedra exampleMeshTwoTriangles [] = .ok (exampleMeshTwoTriangles, [[0], [1]]) ∧
    _getPolyhedronVolume exampleMeshTwoTriangles [1] =
      .ok (some (6004799503160661 / 36028797018963968)) ∧
    _getSignedTriangleVolume exampleMeshTwoTriangles 0 =
      .ok (some (6004799503160661 / 36028797018963968)) ∧
    _getSignedTriangleVolume exampleMeshTwoTriangles 1 =
      .ok (some (6004799503160661 / 4503599627370496)) ∧
    roundDouble (1 / 6) = some (6004799503160661 / 36028797018963968) ∧
    roundDouble (4 / 3) = some (6004799503160661 / 4503599627370496) ∧
    (∀ (m : TriangleMesh) (P Q : List Int), P.length = Q.length →
      _getPolyhedronVolume m P = _getPolyhedronVolume m Q) := by
  refine ⟨by decide, by decide!, by decide!, by decide!, by decide!, by decide!, ?_⟩
  intro m P Q hPQ
  simp only [_getPolyhedronVolume, hPQ]

theorem polyhedronLoop_congr (m1 m2 : TriangleMesh)
    (h : ∀ t n, getFaceNeighbours m1 t n = getFaceNeighbours m2 t n) :
    ∀ (fuel : Nat) (queue : List Int) (v : List Bool) (polyhedron : List Int),
    polyhedronLoop m1 fuel queue v polyhedron = polyhedronLoop m2 fuel queue v polyhedron := by
  intro fuel
  induction fuel with
  | zero => intro queue v polyhedron; rfl
  | succ fuel ih =>
    intro queue v polyhedron
    cases queue with
    | nil => rfl
    | cons t q => simp only [polyhedronLoop, h, ih]

theorem polyhedraLoop_congr (m1 m2 : TriangleMesh)
    (h : ∀ t n, getFaceNeighbours m1 t n = getFaceNeighbours m2 t n) :
    ∀ (k : Nat) (i : Int) (v : List Bool) (polyList : List (List Int)),
    polyhedraLoop m1 k i v polyList = polyhedraLoop m2 k i v polyList := by
  intro k
  induction k with
  | zero => intro i v polyList; rfl
  | succ k ih =>
    intro i v polyList
    simp only [polyhedraLoop, _getPolyhedronFromTriangle, polyhedronLoop_congr m1 m2 h, ih]

/-- The polyhedra do not depend on the positions of the vertices. -/
theorem getPolyhedra_translate (m m' : TriangleMesh) (d : Vec3) (polyList : List (List Int))
    (h : _getPolyhedra m [] = .ok (m', polyList)) :
    _getPolyhedra (translate m d) [] = .ok (translate m' d, polyList) := by
  simp only [_getPolyhedra, updateVertexTriangles, _updateVertexTriangles] at h ⊢
  have hlen : (translate m d).vertices.length = m.vertices.length := by simp [translate]
  have htri : (translate m d).triangles = m.triangles := rfl
  rw [hlen, htri]
  cases hvt : vertexTrianglesLoop m.triangles 0 (List.replicate m.vertices.length []) with
  | error e =>
    rw [hvt] at h
    cases h
  | ok vt =>
    rw [hvt] at h
    simp only [ok_bind, pure_eq_ok, List.length_replicate] at h ⊢
    have hcongr := polyhedraLoop_congr
      ⟨(translate m d).vertices, (translate m d).normals, m.triangles,
        (translate m d).vertexcolors, vt, (translate m d)._triangleAreas⟩
      ⟨m.vertices, m.normals, m.triangles, m.vertexcolors, vt, m._triangleAreas⟩
      (by
        intro t n
        simp only [getFaceNeighbours, getFaceNeighboursOfTriangle, translate, List.length_map])
    rw [hcongr]
    cases hpl : polyhedraLoop
        ⟨m.vertices, m.normals, m.triangles, m.vertexcolors, vt, m._triangleAreas⟩
        m.triangles.length 0 (List.replicate m.triangles.length false) [] with
    | error e =>
      rw [hpl] at h
      cases h
    | ok pl =>
      rw [hpl] at h
      simp only [ok_bind] at h ⊢
      have h1 := congrArg Prod.fst (Except.ok.inj h)
      have h2 := congrArg Prod.snd (Except.ok.inj h)
      simp only at h1 h2
      rw [← h1, ← h2]
      rfl

theorem unitCube_polyhedra (d : Vec3) :
    _getPolyhedra (translate unitCubeMesh d) [] =
      .ok (translate unitCubeMesh d, [[0, 10, 3, 2, 11, 7, 5, 4, 9, 8, 6, 1]]) :=
  getPolyhedra_translate unitCubeMesh unitCubeMesh d _ (by decide)

theorem unitCube_translated (d : Vec3) :
    ∃ P : List Int,
      _getPolyhedra (translate unitCubeMesh d) [] = .ok (translate unitCubeMesh d, [P]) ∧
      (∀ x : Int, x ∈ P ↔ 0 ≤ x ∧ x < 12) ∧ P.length = 12 := by
  refine ⟨[0, 10, 3, 2, 11, 7, 5, 4, 9, 8, 6, 1], unitCube_polyhedra d, ?_, rfl⟩
  intro x
  simp only [List.mem_cons, List.mem_singleton, List.not_mem_nil, or_false]
  omega

theorem unitCube_volume_origin :
    _getPolyhedronVolume unitCubeMesh [0, 10, 3, 2, 11, 7, 5, 4, 9, 8, 6, 1] =
      .ok (some (1 - 1 / 9007199254740992)) := by
  decide!

theorem unitCube_volume_shifted_one :
    _getPolyhedronVolume (translate unitCubeMesh ⟨1, 1, 1⟩)
      [0, 10, 3, 2, 11, 7, 5, 4, 9, 8, 6, 1] = .ok (some 1) := by
  decide!

theorem unitCube_volume_shifted_thousand :
    _getPolyhedronVolume (translate unitCubeMesh ⟨1000, 1000, 1000⟩)
      [0, 10, 3, 2, 11, 7, 5, 4, 9, 8, 6, 1] = .ok (some (64 - 1 / 17592186044416)) := by
  decide!

theorem unitCube_volume_shifted_far :
    _getPolyhedronVolume (translate unitCubeMesh ⟨100000, 100000, 100000⟩)
      [0, 10, 3, 2, 11, 7, 5, 4, 9, 8, 6, 1] = .ok (some 0) := by
  decide!

theorem translate_unitCube_zero : translate unitCubeMesh ⟨0, 0, 0⟩ = unitCubeMesh := by
  simp [translate, unitCubeMesh, Vec3.add]

/-- C15, the claim as it stands fails: for the unit cube `_getPolyhedra`
returns one polyhedron, and `_getPolyhedronVolume` of it is `1 - 2^-53`, not
`1`; for the cube translated by `(1000, 1000, 1000)` it is `64 - 2^-44`, and
for the cube translated by `(100000, 100000, 100000)` it is `0`. -/
theorem unitCube_volume_is_rounded :
    _getPolyhedra unitCubeMesh [] =
      .ok (unitCubeMesh, [[0, 10, 3, 2, 11, 7, 5, 4, 9, 8, 6, 1]]) ∧
    _getPolyhedronVolume unitCubeMesh [0, 10, 3, 2, 11, 7, 5, 4, 9, 8, 6, 1] =
      .ok (some (1 - 1 / 9007199254740992)) ∧
    _getPolyhedronVolume unitCubeMesh [0, 10, 3, 2, 11, 7, 5, 4, 9, 8, 6, 1] ≠ .ok (some 1) ∧
    _getPolyhedra (translate unitCubeMesh ⟨1000, 1000, 1000⟩) [] =
      .ok (translate unitCubeMesh ⟨1000, 1000, 1000⟩,
        [[0, 10, 3, 2, 11, 7, 5, 4, 9, 8, 6, 1]]) ∧
    _getPolyhedronVolume (translate unitCubeMesh ⟨1000, 1000, 1000⟩)
      [0, 10, 3, 2, 11, 7, 5, 4, 9, 8, 6, 1] = .ok (some (64 - 1 / 17592186044416)) ∧
    _getPolyhedronVolume (translate unitCubeMesh ⟨1000, 1000, 1000⟩)
      [0, 10, 3, 2, 11, 7, 5, 4, 9, 8, 6, 1] ≠ .ok (some 1) ∧
    _getPolyhedra (translate unitCubeMesh ⟨100000, 100000, 100000⟩) [] =
      .ok (translate unitCubeMesh ⟨100000, 100000, 100000⟩,
        [[0, 10, 3, 2, 11, 7, 5, 4, 9, 8, 6, 1]]) ∧
    _getPolyhedronVolume (translate unitCubeMesh ⟨100000, 100000, 100000⟩)
      [0, 10, 3, 2, 11, 7, 5, 4, 9, 8, 6, 1] = .ok (some 0) := by
  have h0 := unitCube_polyhedra ⟨0, 0, 0⟩
  rw [translate_unitCube_zero] at h0
  refine ⟨h0, unitCube_volume_origin, ?_, unitCube_polyhedra _,
    unitCube_volume_shifted_thousand, ?_, unitCube_polyhedra _, unitCube_volume_shifted_far⟩
  · rw [unitCube_volume_origin]
    decide!
  · rw [unitCube_volume_shifted_thousand]
    decide!

/-- C15, amended: for the axis-aligned unit cube mesh (8 vertices, 12
triangles, I1) `_getPolyhedra` returns one polyhedron, which holds the twelve
triangle indices, also for the cube translated by any vector `d`.
`_getPolyhedronVolume` of the polyhedron, computed in `float` and `double`, is
`1 - 2^-53` for the cube at the origin, which differs from `1` by less than
`10^-6`; for a translated cube the result depends on the translation: it is
`1` for the translation `(1, 1, 1)` and `64 - 2^-44` for the translation
`(1000, 1000, 1000)`. -/
theorem unitCube_single_polyhedron_volume :
    (unitCubeMesh.vertices.length = 8 ∧ unitCubeMesh.triangles.length = 12 ∧ I1 unitCubeMesh) ∧
    (∃ (P : List Int) (v : ℚ), _getPolyhedra unitCubeMesh [] = .ok (unitCubeMesh, [P]) ∧
      (∀ x : Int, x ∈ P ↔ 0 ≤ x ∧ x < 12) ∧ P.length = 12 ∧
      _getPolyhedronVolume unitCubeMesh P = .ok (some v) ∧
      v = 1 - 1 / 2 ^ 53 ∧ |v - 1| < 1 / 10 ^ 6) ∧
    (∀ d : Vec3, ∃ P : List Int,
      _getPolyhedra (translate unitCubeMesh d) [] = .ok (translate unitCubeMesh d, [P]) ∧
      (∀ x : Int, x ∈ P ↔ 0 ≤ x ∧ x < 12) ∧ P.length = 12) ∧
    (∃ P : List Int,
      _getPolyhedra (translate unitCubeMesh ⟨1, 1, 1⟩) [] =
        .ok (translate unitCubeMesh ⟨1, 1, 1⟩, [P]) ∧
      _getPolyhedronVolume (translate unitCubeMesh ⟨1, 1, 1⟩) P = .ok (some 1)) ∧
    (∃ P : List Int,
      _getPolyhedra (translate unitCubeMesh ⟨1000, 1000, 1000⟩) [] =
        .ok (translate unitCubeMesh ⟨1000, 1000, 1000⟩, [P]) ∧
      _getPolyhedronVolume (translate unitCubeMesh ⟨1000, 1000, 1000⟩) P =
        .ok (some (64 - 1 / 2 ^ 44))) := by
  refine ⟨⟨rfl, rfl, by decide⟩, ?_, unitCube_translated, ?_, ?_⟩
  · obtain ⟨P, hP, hmem, hlen⟩ := unitCube_translated ⟨0, 0, 0⟩
    rw [translate_unitCube_zero] at hP
    have h0 := unitCube_polyhedra ⟨0, 0, 0⟩
    rw [translate_unitCube_zero, hP] at h0
    have e : P = [0, 10, 3, 2, 11, 7, 5, 4, 9, 8, 6, 1] := by
      have := congrArg Prod.snd (Except.ok.inj h0)
      simpa using this
    refine ⟨P, 1 - 1 / 9007199254740992, hP, hmem, hlen, ?_, by norm_num, ?_⟩
    · rw [e]
      exact unitCube_volume_origin
    · rw [abs_lt]
      constructor <;> norm_num
  · exact ⟨_, unitCube_polyhedra _, unitCube_volume_shifted_one⟩
  · refine ⟨_, unitCube_polyhedra _, ?_⟩
    rw [unitCube_volume_shifted_thousand]
    norm_num

/-! ## `_isPolyhedronHole` -/

/-- C16 for a component of more than 10000 triangles: `_isPolyhedronHole`
returns `false` for it, whatever the sum over its triangles is. -/
theorem isPolyhedronHole_large_component (getTriangleNormal : Vec3 → Vec3 → Vec3 → Vec3)
    (m : TriangleMesh) (poly : List Int) (h : 10000 < poly.length) :
    _isPolyhedronHole getTriangleNormal m poly = .ok false := by
  have h0 : ¬ poly.length = 0 := by omega
  simp only [_isPolyhedronHole, h0, if_false, gt_iff_lt, h, if_true, pure_eq_ok]

/-- An instance of the theorem on large components: a list of 10001 indices. -/
theorem isPolyhedronHole_large_component_witness :
    10000 < (List.replicate 10001 (0 : Int)).length ∧
    _isPolyhedronHole (fun a b c => (b.sub a).cross (c.sub a)) exampleMeshA
      (List.replicate 10001 0) = .ok false :=
  ⟨by rw [List.length_replicate]; decide,
    isPolyhedronHole_large_component _ exampleMeshA (List.replicate 10001 0)
      (by rw [List.length_replicate]; decide)⟩

/-! ## `removeMinimumTriangleCountPolyhedra` -/

theorem collectSmallPolyhedra_eq (count : Int) : ∀ (polyList : List (List Int)) (acc : List Int),
    collectSmallPolyhedra count polyList acc = acc ++ smallPolyhedraTriangles count polyList := by
  intro polyList
  induction polyList with
  | nil => intro acc; simp [collectSmallPolyhedra, smallPolyhedraTriangles]
  | cons p ps ih =>
    intro acc
    by_cases hp : (p.length : Int) ≤ count
    · simp only [collectSmallPolyhedra, hp, if_true, ih]
      simp [smallPolyhedraTriangles, List.filter_cons, hp]
    · simp only [collectSmallPolyhedra, hp, if_false, ih]
      simp [smallPolyhedraTriangles, List.filter_cons, hp]

theorem mem_smallPolyhedraTriangles (count : Int) (polyList : List (List Int)) (i : Int) :
    i ∈ smallPolyhedraTriangles count polyList ↔
      ∃ P ∈ polyList, (P.length : Int) ≤ count ∧ i ∈ P := by
  simp only [smallPolyhedraTriangles, List.mem_flatten, List.mem_filter, decide_eq_true_eq]
  constructor
  · rintro ⟨P, ⟨hP, hc⟩, hi⟩
    exact ⟨P, hP, hc, hi⟩
  · rintro ⟨P, hP, hc, hi⟩
    exact ⟨P, ⟨hP, hc⟩, hi⟩

theorem dropPositions_nil {α : Type} : ∀ (l : List α) (i : Int), dropPositions [] l i = l := by
  intro l
  induction l with
  | nil => intro i; rfl
  | cons a l ih => intro i; simp [dropPositions, ih]

/-- The corners of the rewritten triangles resolve to the old positions, and
every vertex that is left is a corner of a triangle. -/
theorem removeExtraneousVertices_positions (normalize : Vec3 → Vec3) (m : TriangleMesh)
    (h : IndicesInRange m) :
    ∃ m', removeExtraneousVertices normalize m = .ok m' ∧
      List.Forall₂ (fun t t' => ∀ k : Fin 3,
          ∃ p, vecGet m.vertices (t.tri k) = .ok p ∧ vecGet m'.vertices (t'.tri k) = .ok p)
        m.triangles m'.triangles ∧
      (∀ j : Nat, j < m'.vertices.length → ∃ t ∈ m'.triangles, ∃ k : Fin 3, t.tri k = j) := by
  obtain ⟨m', hm', hv, _, ht, _, _, hused, _⟩ := removeExtraneousVertices_post normalize m h
  refine ⟨m', hm', ?_, fun j hj => (mem_referencedIndices_tri _ _).1 (hused j hj)⟩
  rw [ht, List.forall₂_map_right_iff, List.forall₂_same]
  intro t htm k
  obtain ⟨h0, h1, hu⟩ := corner_used m h t htm k
  rw [rankTriangle_tri, hv]
  exact vecGet_keepUsed _ _ _ (unusedFlags_length m).symm h0 h1 hu

/-- C17: for `count <= 0` the method `removeMinimumTriangleCountPolyhedra`
leaves the mesh unchanged.  On a mesh that satisfies I1 and for `count > 0`
it returns; the triangles it keeps are the triangles whose index does not
belong to a polyhedron of `_getPolyhedra` with at most `count` triangles, in
their old order and with corners that resolve to the old positions; and when
a triangle was deleted every vertex that is left is a corner of a triangle. -/
theorem removeMinimumTriangleCountPolyhedra_spec (normalize : Vec3 → Vec3) (m : TriangleMesh) :
    (∀ count : Int, count ≤ 0 →
      removeMinimumTriangleCountPolyhedra normalize m count = .ok m) ∧
    (I1 m → ∀ count : Int, 0 < count →
      ∃ (m1 : TriangleMesh) (polyList : List (List Int)) (m' : TriangleMesh),
        _getPolyhedra m [] = .ok (m1, polyList) ∧
        removeMinimumTriangleCountPolyhedra normalize m count = .ok m' ∧
        (∀ i : Int, i ∈ smallPolyhedraTriangles count polyList ↔
          ∃ P ∈ polyList, (P.length : Int) ≤ count ∧ i ∈ P) ∧
        List.Forall₂ (fun t t' => ∀ k : Fin 3,
            ∃ p, vecGet m.vertices (t.tri k) = .ok p ∧ vecGet m'.vertices (t'.tri k) = .ok p)
          (dropPositions (smallPolyhedraTriangles count polyList) m.triangles 0) m'.triangles ∧
        (smallPolyhedraTriangles count polyList ≠ [] →
          ∀ j : Nat, j < m'.vertices.length → ∃ t ∈ m'.triangles, ∃ k : Fin 3, t.tri k = j)) := by
  constructor
  · intro count hc
    simp only [removeMinimumTriangleCountPolyhedra, hc, if_true, pure_eq_ok]
  · intro hI count hc
    have hin : IndicesInRange m := fun t ht => (hI t ht).2
    obtain ⟨vt, polyList, _, _, hrun, _, hmem, _⟩ := getPolyhedra_post m hin
    have hnc : ¬ count ≤ 0 := by omega
    have hR := collectSmallPolyhedra_eq count polyList []
    simp only [List.nil_append] at hR
    by_cases hnil : smallPolyhedraTriangles count polyList = []
    · refine ⟨_, polyList, { m with _vertexTriangles := [] }, hrun, ?_,
        mem_smallPolyhedraTriangles count polyList, ?_, fun hne => absurd hnil hne⟩
      · simp only [removeMinimumTriangleCountPolyhedra, hnc, if_false, hrun, ok_bind, hR, hnil,
          List.length_nil, if_true, pure_eq_ok]
      · rw [hnil, dropPositions_nil]
        show List.Forall₂ _ m.triangles m.triangles
        rw [List.forall₂_same]
        intro t ht k
        obtain ⟨h0, h1, _⟩ := corner_used m hin t ht k
        obtain ⟨p, hp, _⟩ := vecGet_ok m.vertices (t.tri k) h0 h1
        exact ⟨p, hp, hp⟩
    · have hRin : ∀ r ∈ smallPolyhedraTriangles count polyList,
          0 ≤ r ∧ r < (({ m with _vertexTriangles := [] } : TriangleMesh).triangles.length : Int) := by
        intro r hr
        obtain ⟨P, hP, _, hrP⟩ := (mem_smallPolyhedraTriangles count polyList r).1 hr
        exact (hmem r).1 (List.mem_flatten.2 ⟨P, hP, hrP⟩)
      have hrem := removeTriangles_eq { m with _vertexTriangles := [] }
        (smallPolyhedraTriangles count polyList) hRin
      have hin2 : IndicesInRange
          { ({ m with _vertexTriangles := [] } : TriangleMesh) with
            triangles := dropPositions (smallPolyhedraTriangles count polyList)
              ({ m with _vertexTriangles := [] } : TriangleMesh).triangles 0 } := by
        intro t ht
        exact hin t ((dropPositions_sublist _ _ _).subset ht)
      obtain ⟨m', hm', hf, hused⟩ := removeExtraneousVertices_positions normalize _ hin2
      refine ⟨_, polyList, m', hrun, ?_, mem_smallPolyhedraTriangles count polyList, hf,
        fun _ => hused⟩
      have hlen : ¬ (smallPolyhedraTriangles count polyList).length = 0 := by
        intro h0
        exact hnil (List.length_eq_zero.1 h0)
      simp only [removeMinimumTriangleCountPolyhedra, hnc, if_false, hrun, ok_bind, hR, hlen,
        hrem]
      exact hm'

/-- An instance of the theorem on small polyhedra: `exampleMeshFan` with `count = 1`. -/
theorem removeMinimumTriangleCountPolyhedra_spec_witness :
    (∀ count : Int, count ≤ 0 →
      removeMinimumTriangleCountPolyhedra id exampleMeshFan count = .ok exampleMeshFan) ∧
    (∃ (m1 : TriangleMesh) (polyList : List (List Int)) (m' : TriangleMesh),
        _getPolyhedra exampleMeshFan [] = .ok (m1, polyList) ∧
        removeMinimumTriangleCountPolyhedra id exampleMeshFan 1 = .ok m' ∧
        (∀ i : Int, i ∈ smallPolyhedraTriangles 1 polyList ↔
          ∃ P ∈ polyList, (P.length : Int) ≤ 1 ∧ i ∈ P) ∧
        List.Forall₂ (fun t t' => ∀ k : Fin 3,
            ∃ p, vecGet exampleMeshFan.vertices (t.tri k) = .ok p ∧
              vecGet m'.vertices (t'.tri k) = .ok p)
          (dropPositions (smallPolyhedraTriangles 1 polyList) exampleMeshFan.triangles 0)
          m'.triangles ∧
        (smallPolyhedraTriangles 1 polyList ≠ [] →
          ∀ j : Nat, j < m'.vertices.length → ∃ t ∈ m'.triangles, ∃ k : Fin 3, t.tri k = j)) :=
  ⟨(removeMinimumTriangleCountPolyhedra_spec id exampleMeshFan).1,
    (removeMinimumTriangleCountPolyhedra_spec id exampleMeshFan).2 (by decide) 1 (by decide)⟩

/-! ## Cells of the grid -/

theorem isGridIndexInRange_iff (g : GridIndex) (w h d : Int) :
    isGridIndexInRange g w h d = true ↔
      0 ≤ g.i ∧ g.i < w ∧ 0 ≤ g.j ∧ g.j < h ∧ 0 ≤ g.k ∧ g.k < d := by
  simp [isGridIndexInRange]

theorem mem_gridScan (c : GridIndex) (w h d : Int) :
    c ∈ gridScan w h d ↔ isGridIndexInRange c w h d = true := by
  rw [isGridIndexInRange_iff]
  simp only [gridScan, List.mem_flatMap, List.mem_map, List.mem_range]
  constructor
  · rintro ⟨k, hk, j, hj, i, hi, rfl⟩
    simp only
    omega
  · rintro ⟨i0, i1, j0, j1, k0, k1⟩
    refine ⟨c.k.toNat, by omega, c.j.toNat, by omega, c.i.toNat, by omega, ?_⟩
    cases c
    simp only [GridIndex.mk.injEq] at *
    omega

theorem length_flatMap_const {α β : Type} (l : List α) (f : α → List β) (n : Nat)
    (h : ∀ a ∈ l, (f a).length = n) : (l.flatMap f).length = l.length * n := by
  induction l with
  | nil => simp
  | cons a l ih =>
    simp only [List.flatMap_cons, List.length_append, List.length_cons]
    rw [ih (fun b hb => h b (List.mem_cons_of_mem _ hb)), h a (List.mem_cons_self _ _)]
    ring

theorem gridScan_length (w h d : Int) :
    (gridScan w h d).length = w.toNat * h.toNat * d.toNat := by
  unfold gridScan
  rw [length_flatMap_const _ _ (h.toNat * w.toNat)]
  · simp only [List.length_range]; ring
  · intro k _
    rw [length_flatMap_const _ _ w.toNat]
    · simp only [List.length_range]
    · intro j _
      simp only [List.length_map, List.length_range]

theorem nodup_inRange_length_le (L : List GridIndex) (w h d : Int) (hnd : L.Nodup)
    (hin : ∀ c ∈ L, isGridIndexInRange c w h d = true) :
    L.length ≤ w.toNat * h.toNat * d.toNat := by
  rw [← gridScan_length]
  exact (hnd.subperm (fun c hc => (mem_gridScan c w h d).2 (hin c hc))).length_le

/-! ## Reads and writes of an `Array3d` -/

theorem Array3d.get_ok {α : Type} (A : Array3d α) (g : GridIndex)
    (h : isGridIndexInRange g A.width A.height A.depth = true) : A.get g = .ok (A.data g) := by
  simp only [Array3d.get, h, if_true]

theorem Array3d.set_ok {α : Type} (A : Array3d α) (g : GridIndex) (a : α)
    (h : isGridIndexInRange g A.width A.height A.depth = true) :
    A.set g a = .ok { A with data := fun c => if c = g then a else A.data c } := by
  simp only [Array3d.set, h, if_true]

theorem Array3d.HasGridSize.cellInArray {α : Type} {A : Array3d α} {gs : MeshGrid} (hA : A.HasGridSize gs)
    (g : GridIndex) (h : isGridIndexInRange g gs._gridi gs._gridj gs._gridk = true) :
    isGridIndexInRange g A.width A.height A.depth = true := by
  rw [hA.1, hA.2.1, hA.2.2]; exact h

/-! ## `_floodfill` -/

theorem floodfillNeighbours_spec (gs : MeshGrid) (cur : Array3d Bool)
    (hcur : cur.HasGridSize gs) :
    ∀ (ns : List GridIndex) (done : Array3d Bool) (q L : List GridIndex),
    done.HasGridSize gs → L.Nodup → (∀ c, done.data c = true ↔ c ∈ L) →
    ∃ (added : List GridIndex) (done' : Array3d Bool),
      floodfillNeighbours gs cur ns done q = .ok (done', q ++ added) ∧
      done'.HasGridSize gs ∧ (L ++ added).Nodup ∧
      (∀ c, done'.data c = true ↔ c ∈ L ++ added) ∧
      (∀ c ∈ added, c ∈ ns ∧ isGridIndexInRange c gs._gridi gs._gridj gs._gridk = true ∧
        cur.data c = false) ∧
      (∀ n ∈ ns, isGridIndexInRange n gs._gridi gs._gridj gs._gridk = true →
        cur.data n = false → n ∈ L ++ added) := by
  intro ns
  induction ns with
  | nil =>
    intro done q L hd hnd hmem
    exact ⟨[], done, by simp [floodfillNeighbours], hd, by simpa using hnd,
      by simpa using hmem, fun c hc => by simp at hc, fun n hn => by simp at hn⟩
  | cons n ns ih =>
    intro done q L hd hnd hmem
    by_cases hin : isGridIndexInRange n gs._gridi gs._gridj gs._gridk = true
    · have hgc := cur.get_ok n (hcur.cellInArray n hin)
      have hgd := done.get_ok n (hd.cellInArray n hin)
      cases hc : cur.data n with
      | true =>
        obtain ⟨added, done', hrun, hd', hnd', hmem', hadd, hall⟩ := ih done q L hd hnd hmem
        refine ⟨added, done', ?_, hd', hnd', hmem',
          fun c hc' => ⟨List.mem_cons_of_mem _ (hadd c hc').1, (hadd c hc').2⟩, ?_⟩
        · simp only [floodfillNeighbours, hin, if_true, hgc, ok_bind, hc, Bool.not_true,
            Bool.false_eq_true, if_false]
          exact hrun
        · intro n' hn' hin' hc'
          rcases List.mem_cons.1 hn' with e | hn'
          · rw [e, hc] at hc'; cases hc'
          · exact hall n' hn' hin' hc'
      | false =>
        cases hdn : done.data n with
        | true =>
          obtain ⟨added, done', hrun, hd', hnd', hmem', hadd, hall⟩ := ih done q L hd hnd hmem
          refine ⟨added, done', ?_, hd', hnd', hmem',
            fun c hc' => ⟨List.mem_cons_of_mem _ (hadd c hc').1, (hadd c hc').2⟩, ?_⟩
          · simp only [floodfillNeighbours, hin, if_true, hgc, ok_bind, hc, Bool.not_false,
              hgd, hdn, Bool.not_true, Bool.false_eq_true, if_false]
            exact hrun
          · intro n' hn' hin' hc'
            rcases List.mem_cons.1 hn' with e | hn'
            · rw [e]; exact List.mem_append_left _ ((hmem n).1 hdn)
            · exact hall n' hn' hin' hc'
        | false =>
          have hnL : n ∉ L := by
            intro h
            have := (hmem n).2 h
            rw [hdn] at this
            cases this
          have hset := done.set_ok n true (hd.cellInArray n hin)
          obtain ⟨added, done', hrun, hd', hnd', hmem', hadd, hall⟩ :=
            ih { done with data := fun c => if c = n then true else done.data c } (q ++ [n])
              (L ++ [n]) hd
              (List.nodup_append.2 ⟨hnd, List.nodup_singleton n, fun c hc1 hc2 => by
                rw [List.mem_singleton] at hc2
                exact hnL (hc2 ▸ hc1)⟩)
              (fun c => by
                simp only [List.mem_append, List.mem_singleton]
                by_cases e : c = n
                · simp [e]
                · simp [e, hmem c])
          refine ⟨n :: added, done', ?_, hd', by simpa using hnd', by simpa using hmem', ?_, ?_⟩
          · simp only [floodfillNeighbours, hin, if_true, hgc, ok_bind, hc, Bool.not_false,
              hgd, hdn, hset]
            rw [hrun]
            simp
          · intro c hc'
            rcases List.mem_cons.1 hc' with e | hc'
            · rw [e]; exact ⟨List.mem_cons_self _ _, hin, hc⟩
            · exact ⟨List.mem_cons_of_mem _ (hadd c hc').1, (hadd c hc').2⟩
          · intro n' hn' hin' hc'
            rcases List.mem_cons.1 hn' with e | hn'
            · rw [e]; simp
            · simpa using hall n' hn' hin' hc'
    · obtain ⟨added, done', hrun, hd', hnd', hmem', hadd, hall⟩ := ih done q L hd hnd hmem
      refine ⟨added, done', ?_, hd', hnd', hmem',
        fun c hc' => ⟨List.mem_cons_of_mem _ (hadd c hc').1, (hadd c hc').2⟩, ?_⟩
      · simp only [floodfillNeighbours, hin, if_false]
        exact hrun
      · intro n' hn' hin' hc'
        rcases List.mem_cons.1 hn' with e | hn'
        · rw [e] at hin'; exact absurd hin' hin
        · exact hall n' hn' hin' hc'

theorem floodfillLoop_spec (gs : MeshGrid) (cells0 : Array3d Bool) (g : GridIndex) :
    ∀ (fuel : Nat) (q : List GridIndex) (done cur : Array3d Bool) (P : List GridIndex),
    done.HasGridSize gs → cur.HasGridSize gs → (q ++ P).Nodup →
    (∀ c, done.data c = true ↔ c ∈ q ++ P) →
    (∀ c ∈ q ++ P, isGridIndexInRange c gs._gridi gs._gridj gs._gridk = true ∧
      cells0.data c = false ∧ FillReach gs cells0 g c) →
    (∀ c, cur.data c = true ↔ cells0.data c = true ∨ c ∈ P) →
    (∀ p ∈ P, ∀ b ∈ getNeighbourGridIndices6 p,
      isGridIndexInRange b gs._gridi gs._gridj gs._gridk = true → cells0.data b = false →
      b ∈ q ++ P) →
    g ∈ q ++ P →
    gs._gridi.toNat * gs._gridj.toNat * gs._gridk.toNat + 1 ≤ fuel + P.length →
    ∃ final, floodfillLoop gs fuel q done cur = .ok final ∧ final.HasGridSize gs ∧
      ∀ c, final.data c = true ↔ cells0.data c = true ∨ FillReach gs cells0 g c := by
  intro fuel
  induction fuel with
  | zero =>
    intro q done cur P _ _ hnd _ hin _ _ _ hf
    have := nodup_inRange_length_le (q ++ P) gs._gridi gs._gridj gs._gridk hnd
      (fun c hc => (hin c hc).1)
    simp only [List.length_append] at this
    omega
  | succ fuel ih =>
    intro q done cur P hd hcur hnd hdone hin hcells hclosed hg hf
    cases q with
    | nil =>
      simp only [List.nil_append] at hnd hdone hin hclosed hg
      refine ⟨cur, by simp [floodfillLoop], hcur, fun c => ?_⟩
      rw [hcells c]
      constructor
      · rintro (h | h)
        · exact Or.inl h
        · exact Or.inr (hin c h).2.2
      · rintro (h | h)
        · exact Or.inl h
        · right
          induction h with
          | start => exact hg
          | step a b _ hb hbin hbc iha => exact hclosed a iha b hb hbin hbc
    | cons gp q0 =>
      obtain ⟨hgpin, hgp0, hgpr⟩ := hin gp (by simp)
      obtain ⟨added, done', hrun, hd', hnd', hmem', hadd, hall⟩ :=
        floodfillNeighbours_spec gs cur hcur (getNeighbourGridIndices6 gp) done q0
          ((gp :: q0) ++ P) hd hnd hdone
      have hset := cur.set_ok gp true (hcur.cellInArray gp hgpin)
      have hperm : (((gp :: q0) ++ P) ++ added).Perm ((q0 ++ added) ++ (gp :: P)) := by
        have h1 : (((gp :: q0) ++ P) ++ added) = gp :: (q0 ++ (P ++ added)) := by simp
        have h2 : ((q0 ++ added) ++ (gp :: P)) = q0 ++ (added ++ gp :: P) := by simp
        rw [h1, h2]
        refine (List.Perm.cons gp (List.Perm.append_left q0 List.perm_append_comm)).trans ?_
        refine List.perm_middle.symm.trans ?_
        exact List.Perm.append_left q0 List.perm_middle.symm
      have hnotP : ∀ c, cur.data c = false → cells0.data c = false ∧ c ∉ P := by
        intro c hc
        constructor
        · cases h : cells0.data c with
          | false => rfl
          | true =>
            have := (hcells c).2 (Or.inl h)
            rw [hc] at this
            cases this
        · intro hP
          have := (hcells c).2 (Or.inr hP)
          rw [hc] at this
          cases this
      have hlen := nodup_inRange_length_le ((q0 ++ added) ++ (gp :: P)) gs._gridi gs._gridj
        gs._gridk (hperm.nodup_iff.1 hnd') (by
          intro c hc
          rcases List.mem_append.1 (hperm.mem_iff.2 hc) with h | h
          · exact (hin c h).1
          · exact (hadd c h).2.1)
      obtain ⟨final, hfin, hfd, hfc⟩ :=
        ih (q0 ++ added) done' { cur with data := fun c => if c = gp then true else cur.data c }
          (gp :: P) hd' hcur (hperm.nodup_iff.1 hnd')
          (fun c => (hmem' c).trans hperm.mem_iff)
          (by
            intro c hc
            rcases List.mem_append.1 (hperm.mem_iff.2 hc) with h | h
            · exact hin c h
            · obtain ⟨hcn, hcin, hcc⟩ := hadd c h
              exact ⟨hcin, (hnotP c hcc).1, FillReach.step gp c hgpr hcn hcin (hnotP c hcc).1⟩)
          (by
            intro c
            simp only [List.mem_cons]
            by_cases e : c = gp
            · simp [e]
            · simp [e, hcells c])
          (by
            intro p hp b hb hbin hbc
            rcases List.mem_cons.1 hp with e | hp
            · subst e
              cases hcb : cur.data b with
              | false => exact hperm.mem_iff.1 (hall b hb hbin hcb)
              | true =>
                rcases (hcells b).1 hcb with h | h
                · rw [hbc] at h; cases h
                · exact List.mem_append_right _ (List.mem_cons_of_mem _ h)
            · exact hperm.mem_iff.1 (List.mem_append_left _ (hclosed p hp b hb hbin hbc)))
          (hperm.mem_iff.1 (List.mem_append_left _ hg))
          (by
            simp only [List.length_cons]
            omega)
      refine ⟨final, ?_, hfd, hfc⟩
      simp only [floodfillLoop, hrun, ok_bind, hset]
      exact hfin

/-- What `_floodfill` returns for a start cell of the grid and an array of
the size of the grid. -/
theorem floodfill_post (gs : MeshGrid) (cells : Array3d Bool) (g : GridIndex)
    (hdim : cells.HasGridSize gs)
    (hg : isGridIndexInRange g gs._gridi gs._gridj gs._gridk = true) :
    (cells.data g = true → _floodfill gs g cells = .ok cells) ∧
    (cells.data g = false →
      ∃ cells', _floodfill gs g cells = .ok cells' ∧ cells'.HasGridSize gs ∧
        ∀ c, cells'.data c = true ↔ cells.data c = true ∨ FillReach gs cells g c) := by
  have hget := cells.get_ok g (hdim.cellInArray g hg)
  constructor
  · intro hc
    simp only [_floodfill, hg, if_true, hget, ok_bind, hc, pure_eq_ok]
  · intro hc
    have hfill : (Array3d.fill gs._gridi gs._gridj gs._gridk false).HasGridSize gs :=
      ⟨rfl, rfl, rfl⟩
    have hset := (Array3d.fill gs._gridi gs._gridj gs._gridk false).set_ok g true
      (hfill.cellInArray g hg)
    obtain ⟨final, hfin, hfd, hfc⟩ :=
      floodfillLoop_spec gs cells g (gs._gridi.toNat * gs._gridj.toNat * gs._gridk.toNat + 1)
        [g] { Array3d.fill gs._gridi gs._gridj gs._gridk false with
          data := fun c => if c = g then true
            else (Array3d.fill gs._gridi gs._gridj gs._gridk false).data c }
        cells [] hfill hdim (by simp)
        (fun c => by simp [Array3d.fill])
        (fun c hc' => by
          simp only [List.append_nil, List.mem_singleton] at hc'
          subst hc'
          exact ⟨hg, hc, FillReach.start⟩)
        (fun c => by simp)
        (fun p hp => by simp at hp)
        (by simp) (by simp)
    refine ⟨final, ?_, hfd, hfc⟩
    simp only [_floodfill, hg, if_true, hget, ok_bind, hc, Bool.false_eq_true, if_false, hset]
    exact hfin

/-! ## The triangle grid and the scans of `getCellsInsideMesh` -/

theorem enterTriangleLoop_spec (gs : MeshGrid) (i : Int) :
    ∀ (cells : List GridIndex) (triGrid : Array3d (List Int)),
    triGrid.HasGridSize gs →
    (∀ g ∈ cells, isGridIndexInRange g gs._gridi gs._gridj gs._gridk = true) →
    ∃ triGrid', enterTriangleLoop i cells triGrid = .ok triGrid' ∧ triGrid'.HasGridSize gs ∧
      (∀ c, (triGrid.data c).length ≤ (triGrid'.data c).length) ∧
      (∀ g ∈ cells, 0 < (triGrid'.data g).length) := by
  intro cells
  induction cells with
  | nil =>
    intro triGrid hd _
    exact ⟨triGrid, rfl, hd, fun c => le_refl _, fun g hg => by simp at hg⟩
  | cons g cells ih =>
    intro triGrid hd hin
    have hg := hd.cellInArray g (hin g (List.mem_cons_self _ _))
    obtain ⟨tg', hrun, hd', hmono, hpos⟩ :=
      ih { triGrid with data := fun c => if c = g then triGrid.data g ++ [i] else triGrid.data c }
        hd (fun c hc => hin c (List.mem_cons_of_mem _ hc))
    have hstep : ∀ c, (triGrid.data c).length ≤ (tg'.data c).length := by
      intro c
      refine le_trans ?_ (hmono c)
      by_cases e : c = g
      · simp [e]
      · simp [e]
    refine ⟨tg', ?_, hd', hstep, ?_⟩
    · simp only [enterTriangleLoop, triGrid.get_ok g hg, ok_bind, triGrid.set_ok g _ hg]
      exact hrun
    · intro c hc
      rcases List.mem_cons.1 hc with e | hc
      · have := hmono g
        simp only [if_true, List.length_append, List.length_singleton] at this
        rw [e]
        omega
      · exact hpos c hc

theorem triangleGridLoop_spec (tests : OverlapTests) (gs : MeshGrid) :
    ∀ (ts : List Triangle) (i : Int) (triGrid : Array3d (List Int)),
    triGrid.HasGridSize gs →
    (∀ t ∈ ts, ∀ g ∈ tests.getGridCellOverlap t, tests.isOverlappingTriangle g t = true →
      isGridIndexInRange g gs._gridi gs._gridj gs._gridk = true) →
    ∃ triGrid', triangleGridLoop tests gs._gridi gs._gridj gs._gridk ts i triGrid = .ok triGrid' ∧
      triGrid'.HasGridSize gs ∧
      (∀ c, (triGrid.data c).length ≤ (triGrid'.data c).length) ∧
      (∀ t ∈ ts, ∀ g ∈ tests.getGridCellOverlap t, tests.isOverlappingTriangle g t = true →
        0 < (triGrid'.data g).length) := by
  intro ts
  induction ts with
  | nil =>
    intro i triGrid hd _
    exact ⟨triGrid, rfl, hd, fun c => le_refl _, fun t ht => by simp at ht⟩
  | cons t ts ih =>
    intro i triGrid hd hin
    have hcells : ∀ g ∈ (_getTriangleGridCellOverlap tests t
        ⟨gs._gridi, gs._gridj, gs._gridk, []⟩).indices,
        isGridIndexInRange g gs._gridi gs._gridj gs._gridk = true := by
      intro g hg
      simp only [_getTriangleGridCellOverlap, List.nil_append, List.mem_filter] at hg
      exact hin t (List.mem_cons_self _ _) g hg.1 hg.2
    obtain ⟨tg1, hrun1, hd1, hmono1, hpos1⟩ := enterTriangleLoop_spec gs i _ triGrid hd hcells
    obtain ⟨tg', hrun, hd', hmono, hpos⟩ :=
      ih (i + 1) tg1 hd1 (fun s hs => hin s (List.mem_cons_of_mem _ hs))
    refine ⟨tg', ?_, hd', fun c => le_trans (hmono1 c) (hmono c), ?_⟩
    · simp only [triangleGridLoop, hrun1, ok_bind]
      exact hrun
    · intro s hs g hg hov
      rcases List.mem_cons.1 hs with e | hs
      · subst e
        have : g ∈ (_getTriangleGridCellOverlap tests s
            ⟨gs._gridi, gs._gridj, gs._gridk, []⟩).indices := by
          simp only [_getTriangleGridCellOverlap, List.nil_append, List.mem_filter]
          exact ⟨hg, hov⟩
        exact lt_of_lt_of_le (hpos1 g this) (hmono g)
      · exact hpos s hs g hg hov

theorem updateTriangleGrid_spec (tests : OverlapTests) (m : TriangleMesh) (gs : MeshGrid)
    (hin : ∀ t ∈ m.triangles, ∀ g ∈ tests.getGridCellOverlap t,
      tests.isOverlappingTriangle g t = true →
      isGridIndexInRange g gs._gridi gs._gridj gs._gridk = true) :
    ∃ triGrid, _updateTriangleGrid tests m gs = .ok { gs with _triGrid := triGrid } ∧
      triGrid.HasGridSize gs ∧
      (∀ t ∈ m.triangles, ∀ g ∈ tests.getGridCellOverlap t,
        tests.isOverlappingTriangle g t = true → 0 < (triGrid.data g).length) := by
  obtain ⟨tg, hrun, hd, _, hpos⟩ := triangleGridLoop_spec tests gs m.triangles 0
    (Array3d.fill gs._gridi gs._gridj gs._gridk []) ⟨rfl, rfl, rfl⟩ hin
  refine ⟨tg, ?_, hd, hpos⟩
  simp only [_updateTriangleGrid, _destroyTriangleGrid]
  rw [hrun]
  rfl

theorem surfaceCellsLoop_spec (triGrid : Array3d (List Int)) :
    ∀ (scan : List GridIndex) (cells : GridIndexVector),
    (∀ g ∈ scan, isGridIndexInRange g triGrid.width triGrid.height triGrid.depth = true) →
    surfaceCellsLoop triGrid scan cells =
      .ok { cells with
        indices := cells.indices ++ scan.filter (fun g => decide (0 < (triGrid.data g).length)) } := by
  intro scan
  induction scan with
  | nil => intro cells _; simp [surfaceCellsLoop]
  | cons g scan ih =>
    intro cells hin
    have hg := triGrid.get_ok g (hin g (List.mem_cons_self _ _))
    have hrest := fun c => ih c (fun x hx => hin x (List.mem_cons_of_mem _ hx))
    by_cases hpos : 0 < (triGrid.data g).length
    · simp only [surfaceCellsLoop, hg, ok_bind, gt_iff_lt, hpos, if_true, hrest,
        GridIndexVector.push_back, List.filter_cons, decide_True, List.append_assoc,
        List.singleton_append]
    · simp only [surfaceCellsLoop, hg, ok_bind, gt_iff_lt, hpos, if_false, hrest,
        List.filter_cons, decide_False, Bool.false_eq_true]

theorem markSurfaceLoop_spec (gs : MeshGrid) :
    ∀ (surface : List GridIndex) (grid : Array3d Bool),
    grid.HasGridSize gs →
    (∀ g ∈ surface, isGridIndexInRange g gs._gridi gs._gridj gs._gridk = true) →
    ∃ grid', markSurfaceLoop surface grid = .ok grid' ∧ grid'.HasGridSize gs ∧
      ∀ c, grid'.data c = true ↔ grid.data c = true ∨ c ∈ surface := by
  intro surface
  induction surface with
  | nil =>
    intro grid hd _
    exact ⟨grid, rfl, hd, fun c => by simp⟩
  | cons g surface ih =>
    intro grid hd hin
    have hg := hd.cellInArray g (hin g (List.mem_cons_self _ _))
    obtain ⟨grid', hrun, hd', hmem⟩ :=
      ih { grid with data := fun c => if c = g then true else grid.data c } hd
        (fun c hc => hin c (List.mem_cons_of_mem _ hc))
    refine ⟨grid', ?_, hd', fun c => ?_⟩
    · simp only [markSurfaceLoop, grid.set_ok g true hg, ok_bind]
      exact hrun
    · rw [hmem c]
      by_cases e : c = g
      · simp [e]
      · simp [e]

theorem collectInsideLoop_spec (grid : Array3d Bool) :
    ∀ (scan : List GridIndex) (cells : GridIndexVector),
    (∀ g ∈ scan, isGridIndexInRange g grid.width grid.height grid.depth = true) →
    collectInsideLoop grid scan cells =
      .ok { cells with indices := cells.indices ++ scan.filter (fun g => grid.data g) } := by
  intro scan
  induction scan with
  | nil => intro cells _; simp [collectInsideLoop]
  | cons g scan ih =>
    intro cells hin
    have hg := grid.get_ok g (hin g (List.mem_cons_self _ _))
    have hrest := fun c => ih c (fun x hx => hin x (List.mem_cons_of_mem _ hx))
    cases hb : grid.data g with
    | true =>
      simp only [collectInsideLoop, hg, ok_bind, hb, if_true, hrest, GridIndexVector.push_back,
        List.filter_cons, List.append_assoc, List.singleton_append]
    | false =>
      simp only [collectInsideLoop, hg, ok_bind, hb, Bool.false_eq_true, if_false, hrest,
        List.filter_cons]

/-! ## The claim on `_floodfill` -/

/-- C18: for a start cell `g` of the grid and an array of the size of the grid,
`_floodfill` returns.  No cell that was `true` becomes `false`.  When `g` was
`false`, the cells that are `true` afterwards are the cells that were `true`
before and the cells that a path of face neighbours reaches from `g` through
cells of the grid that were `false` before; when `g` was `true`, the array is
returned as it was. -/
theorem floodfill_spec (gs : MeshGrid) (cells : Array3d Bool) (g : GridIndex)
    (hdim : cells.HasGridSize gs)
    (hg : isGridIndexInRange g gs._gridi gs._gridj gs._gridk = true) :
    ∃ cells', _floodfill gs g cells = .ok cells' ∧ cells'.HasGridSize gs ∧
      (∀ c, cells.data c = true → cells'.data c = true) ∧
      (cells.data g = false →
        ∀ c, cells'.data c = true ↔ cells.data c = true ∨ FillReach gs cells g c) ∧
      (cells.data g = true → cells' = cells) := by
  obtain ⟨h1, h2⟩ := floodfill_post gs cells g hdim hg
  cases hc : cells.data g with
  | true =>
    refine ⟨cells, h1 hc, hdim, fun c h => h, fun h => ?_, fun _ => rfl⟩
    cases h
  | false =>
    obtain ⟨cells', hrun, hsize, hiff⟩ := h2 hc
    refine ⟨cells', hrun, hsize, fun c h => (hiff c).2 (Or.inl h), fun _ => hiff, fun h => ?_⟩
    cases h

/-- The theorem `floodfill_spec` on the row of three cells whose middle cell is
`true`, from the first cell. -/
theorem floodfill_spec_witness :
    isGridIndexInRange ⟨0, 0, 0⟩ exampleRowGrid._gridi exampleRowGrid._gridj
      exampleRowGrid._gridk = true ∧
    ∃ cells', _floodfill exampleRowGrid ⟨0, 0, 0⟩
        ⟨3, 1, 1, fun c => decide (c = ⟨1, 0, 0⟩)⟩ = .ok cells' ∧
      cells'.HasGridSize exampleRowGrid ∧
      (∀ c, (decide (c = (⟨1, 0, 0⟩ : GridIndex))) = true → cells'.data c = true) ∧
      ((decide ((⟨0, 0, 0⟩ : GridIndex) = ⟨1, 0, 0⟩)) = false →
        ∀ c, cells'.data c = true ↔ (decide (c = (⟨1, 0, 0⟩ : GridIndex))) = true ∨
          FillReach exampleRowGrid ⟨3, 1, 1, fun c => decide (c = ⟨1, 0, 0⟩)⟩ ⟨0, 0, 0⟩ c) ∧
      ((decide ((⟨0, 0, 0⟩ : GridIndex) = ⟨1, 0, 0⟩)) = true →
        cells' = ⟨3, 1, 1, fun c => decide (c = ⟨1, 0, 0⟩)⟩) :=
  ⟨by decide,
    floodfill_spec exampleRowGrid ⟨3, 1, 1, fun c => decide (c = ⟨1, 0, 0⟩)⟩ ⟨0, 0, 0⟩
      ⟨rfl, rfl, rfl⟩ (by decide)⟩

/-! ## The remap step of the welding -/

/-- C28: for a list of triangles whose indices are positions of the index
table, the remap loop of `join` and of `removeDuplicateVertices` returns; a
triangle whose three table entries are pairwise distinct is replaced by these
entries, and every other triangle keeps its indices.  When every triangle had
three distinct indices before, every triangle has three distinct indices
afterwards, and so has every triangle of the mesh that `join` and
`removeDuplicateVertices` return for meshes that satisfy I1 and pairs of
vertex indices of the mesh. -/
theorem remapLoop_keeps_or_remaps (normalize : Vec3 → Vec3) :
    (∀ (indexTable : List Int) (ts : List Triangle),
      (∀ t ∈ ts, t.InRange indexTable.length) →
      ∃ ts', remapLoop indexTable ts = .ok ts' ∧
        List.Forall₂ (fun t t' => ∃ a b c,
            vecGet indexTable t.t0 = .ok a ∧ vecGet indexTable t.t1 = .ok b ∧
            vecGet indexTable t.t2 = .ok c ∧
            ((a ≠ b ∧ b ≠ c ∧ c ≠ a) → t' = ⟨a, b, c⟩) ∧
            (¬ (a ≠ b ∧ b ≠ c ∧ c ≠ a) → t' = t)) ts ts' ∧
        ((∀ t ∈ ts, t.Distinct) → ∀ t' ∈ ts', t'.Distinct)) ∧
    (∀ (vertexPairs : List (Int × Int)) (m mesh : TriangleMesh), I1 m → I1 mesh →
      (∀ p ∈ vertexPairs,
        (0 ≤ p.1 ∧ p.1 < ((m.vertices.length + mesh.vertices.length : Nat) : Int)) ∧
        (0 ≤ p.2 ∧ p.2 < ((m.vertices.length + mesh.vertices.length : Nat) : Int))) →
      ∃ m', join normalize vertexPairs m mesh = .ok m' ∧ ∀ t ∈ m'.triangles, t.Distinct) ∧
    (∀ (vertexPairs : List (Int × Int)) (m : TriangleMesh), I1 m →
      (∀ p ∈ vertexPairs, (0 ≤ p.1 ∧ p.1 < (m.vertices.length : Int)) ∧
        (0 ≤ p.2 ∧ p.2 < (m.vertices.length : Int))) →
      ∃ m', removeDuplicateVertices normalize vertexPairs m = .ok m' ∧
        ∀ t ∈ m'.triangles, t.Distinct) := by
  refine ⟨?_, ?_, ?_⟩
  · intro tb ts
    induction ts with
    | nil =>
      intro _
      exact ⟨[], rfl, List.Forall₂.nil, fun _ t ht => by simp at ht⟩
    | cons t ts ih =>
      intro h
      obtain ⟨⟨a0, a1⟩, ⟨b0, b1⟩, ⟨c0, c1⟩⟩ := h t (List.mem_cons_self _ _)
      obtain ⟨a, ha, _⟩ := vecGet_ok tb t.t0 a0 a1
      obtain ⟨b, hb, _⟩ := vecGet_ok tb t.t1 b0 b1
      obtain ⟨c, hc, _⟩ := vecGet_ok tb t.t2 c0 c1
      obtain ⟨ts', hts', hrel, hdist⟩ := ih (fun s hs => h s (List.mem_cons_of_mem _ hs))
      by_cases hcol : a = b ∨ b = c ∨ c = a
      · refine ⟨t :: ts', ?_, List.Forall₂.cons ⟨a, b, c, ha, hb, hc, ?_, fun _ => rfl⟩ hrel, ?_⟩
        · simp only [remapLoop, ha, hb, hc, hts', ok_bind, hcol, if_true, pure_eq_ok]
        · intro hne
          rcases hcol with h1 | h1 | h1
          · exact absurd h1 hne.1
          · exact absurd h1 hne.2.1
          · exact absurd h1 hne.2.2
        · intro hd s hs
          rcases List.mem_cons.1 hs with rfl | hs
          · exact hd s (List.mem_cons_self _ _)
          · exact hdist (fun s hs => hd s (List.mem_cons_of_mem _ hs)) s hs
      · have hne : a ≠ b ∧ b ≠ c ∧ c ≠ a := by
          refine ⟨fun h1 => hcol (Or.inl h1), fun h1 => hcol (Or.inr (Or.inl h1)),
            fun h1 => hcol (Or.inr (Or.inr h1))⟩
        refine ⟨⟨a, b, c⟩ :: ts', ?_,
          List.Forall₂.cons ⟨a, b, c, ha, hb, hc, fun _ => rfl, fun h1 => absurd hne h1⟩ hrel, ?_⟩
        · simp only [remapLoop, ha, hb, hc, hts', ok_bind, hcol, if_false, pure_eq_ok]
        · intro hd s hs
          rcases List.mem_cons.1 hs with rfl | hs
          · exact hne
          · exact hdist (fun s hs => hd s (List.mem_cons_of_mem _ hs)) s hs
  · intro vertexPairs m mesh h h' hp
    obtain ⟨m', hm', hI⟩ := join_I1 normalize vertexPairs m mesh h h' hp
    exact ⟨m', hm', fun t ht => (hI t ht).1⟩
  · intro vertexPairs m h hp
    obtain ⟨m', hm', hI⟩ := removeDuplicateVertices_I1 normalize vertexPairs m h hp
    exact ⟨m', hm', fun t ht => (hI t ht).1⟩

/-- The remap loop on the table `[0, 0, 2, 3]`: the triangle `(1, 3, 2)` is
replaced by `(0, 3, 2)`, and the triangle `(0, 1, 2)`, which would collapse,
keeps its indices. -/
theorem remapLoop_keeps_or_remaps_witness :
    (∀ t ∈ [(⟨1, 3, 2⟩ : Triangle), ⟨0, 1, 2⟩], t.InRange [(0 : Int), 0, 2, 3].length) ∧
    remapLoop [0, 0, 2, 3] [⟨1, 3, 2⟩, ⟨0, 1, 2⟩] = .ok [⟨0, 3, 2⟩, ⟨0, 1, 2⟩] ∧
    ∃ ts', remapLoop [0, 0, 2, 3] [⟨1, 3, 2⟩, ⟨0, 1, 2⟩] = .ok ts' ∧
      List.Forall₂ (fun t t' => ∃ a b c,
          vecGet [(0 : Int), 0, 2, 3] t.t0 = .ok a ∧ vecGet [(0 : Int), 0, 2, 3] t.t1 = .ok b ∧
          vecGet [(0 : Int), 0, 2, 3] t.t2 = .ok c ∧
          ((a ≠ b ∧ b ≠ c ∧ c ≠ a) → t' = ⟨a, b, c⟩) ∧
          (¬ (a ≠ b ∧ b ≠ c ∧ c ≠ a) → t' = t)) [⟨1, 3, 2⟩, ⟨0, 1, 2⟩] ts' ∧
      ((∀ t ∈ [(⟨1, 3, 2⟩ : Triangle), ⟨0, 1, 2⟩], t.Distinct) → ∀ t' ∈ ts', t'.Distinct) :=
  ⟨by decide, by decide,
    (remapLoop_keeps_or_remaps (fun v => v)).1 [0, 0, 2, 3] [⟨1, 3, 2⟩, ⟨0, 1, 2⟩] (by decide)⟩

/-- C29 at `exampleMeshDoubled` with the one pair `(0, 1)`: the index table of
`removeDuplicateVertices` is the identity, where the loop of `join` maps
vertex `1` to vertex `0`; the method returns the mesh as it was, with the
triangle `(1, 3, 2)` and the four vertices, where the table of `join` gives
the triangle `(0, 3, 2)`.  In general the result does not depend on the first
pair of the list. -/
theorem removeDuplicateVertices_skips_first_pair :
    indexTableLoop ([((0 : Int), (1 : Int))].drop 1) (identityTable 4) = .ok [0, 1, 2, 3] ∧
    indexTableLoop [((0 : Int), (1 : Int))] (identityTable 4) = .ok [0, 0, 2, 3] ∧
    remapLoop [0, 0, 2, 3] exampleMeshDoubled.triangles = .ok [⟨0, 2, 3⟩, ⟨0, 3, 2⟩] ∧
    removeDuplicateVertices (fun v => v) [(0, 1)] exampleMeshDoubled = .ok exampleMeshDoubled ∧
    (∀ (normalize : Vec3 → Vec3) (p q : Int × Int) (vertexPairs : List (Int × Int))
      (m : TriangleMesh),
      removeDuplicateVertices normalize (p :: vertexPairs) m =
        removeDuplicateVertices normalize (q :: vertexPairs) m) := by
  refine ⟨by decide, by decide, by decide, by decide, ?_⟩
  intro normalize p q vertexPairs m
  rfl

/-! ## The pair search of `join` -/

theorem sub_zero_vec (a : Vec3) : a.sub ⟨0, 0, 0⟩ = a := by
  cases a
  simp [Vec3.sub]

/-- C30 at `exampleMeshJoined` with `verts1 = [0, 1]`, `verts2 = [2, 3]` and the
tolerance `1`: the query for vertex `0` returns both vertices of `verts2`,
vertex `2` at the squared distance `1/4` and vertex `3` at the squared
distance `1/100`, and the method pairs vertex `0` with vertex `2`.  The loop
of lines 1674-1681 measures from `vertices[i]` to `vertices[id]`, here from
vertex `0` to the vertices `0` and `1`. -/
theorem findDuplicateVertexPairs_not_nearest :
    gridpointsLoop exampleMeshJoined.vertices ⟨0, 0, 0⟩ [2, 3] =
      .ok [⟨1 / 2, 0, 0⟩, ⟨1 / 10, 0, 0⟩] ∧
    sphereQuery [⟨1 / 2, 0, 0⟩, ⟨1 / 10, 0, 0⟩] ⟨0, 0, 0⟩ 1 = [0, 1] ∧
    ((⟨0, 0, 0⟩ : Vec3).sub ⟨1 / 2, 0, 0⟩).lengthsq = 1 / 4 ∧
    ((⟨0, 0, 0⟩ : Vec3).sub ⟨1 / 10, 0, 0⟩).lengthsq = 1 / 100 ∧
    closestRefLoop exampleMeshJoined.vertices 0 [0, 1] none 0 = .ok 0 ∧
    _findDuplicateVertexPairs sphereQuery 0 exampleMeshJoined [0, 1] [2, 3] ⟨0, 0, 0⟩ 1 [] =
      .ok [(0, 2)] := by
  have hg : gridpointsLoop exampleMeshJoined.vertices ⟨0, 0, 0⟩ [2, 3] =
      .ok [⟨1 / 2, 0, 0⟩, ⟨1 / 10, 0, 0⟩] := by
    have h2 : vecGet exampleMeshJoined.vertices 2 = .ok ⟨1 / 2, 0, 0⟩ := rfl
    have h3 : vecGet exampleMeshJoined.vertices 3 = .ok ⟨1 / 10, 0, 0⟩ := rfl
    simp only [gridpointsLoop, h2, h3, ok_bind, pure_eq_ok, sub_zero_vec]
  have hq0 : sphereQuery [⟨1 / 2, 0, 0⟩, ⟨1 / 10, 0, 0⟩] ⟨0, 0, 0⟩ 1 = [0, 1] := by
    simp [sphereQuery, List.range_succ, List.filter_cons, Vec3.sub, Vec3.lengthsq]
    norm_num
  have hq1 : sphereQuery [⟨1 / 2, 0, 0⟩, ⟨1 / 10, 0, 0⟩] ⟨10, 0, 0⟩ 1 = [] := by
    simp [sphereQuery, List.range_succ, List.filter_cons, Vec3.sub, Vec3.lengthsq]
    norm_num
  have hc : closestRefLoop exampleMeshJoined.vertices 0 [0, 1] none 0 = .ok 0 := by
    have h0 : vecGet exampleMeshJoined.vertices 0 = .ok ⟨0, 0, 0⟩ := rfl
    have h1 : vecGet exampleMeshJoined.vertices 1 = .ok ⟨10, 0, 0⟩ := rfl
    simp only [closestRefLoop, h0, h1, ok_bind, Vec3.sub, Vec3.lengthsq]
    norm_num
  refine ⟨hg, hq0, ?_, ?_, hc, ?_⟩
  · simp [Vec3.sub, Vec3.lengthsq]; norm_num
  · simp [Vec3.sub, Vec3.lengthsq]; norm_num
  · have h0 : vecGet exampleMeshJoined.vertices 0 = .ok ⟨0, 0, 0⟩ := rfl
    have h1 : vecGet exampleMeshJoined.vertices 1 = .ok ⟨10, 0, 0⟩ := rfl
    have hv : vecGet [(2 : Int), 3] 0 = .ok 2 := rfl
    simp only [_findDuplicateVertexPairs, hg, ok_bind, crossPairsLoop, h0, h1, sub_zero_vec,
      hq0, hq1, List.length_cons, List.length_nil, hc, hv, List.nil_append]
    simp

/-! ## Copies into a buffer -/

theorem memcpyAt_append (pre rest src : List Nat) (h : src.length ≤ rest.length) :
    memcpyAt (pre ++ rest) (pre.length : Int) src = .ok (pre ++ src ++ rest.drop src.length) := by
  have h1 : (pre.length : Int) + (src.length : Int) ≤ ((pre ++ rest).length : Int) := by
    rw [List.length_append]
    push_cast
    omega
  have h0 : (0 : Int) ≤ (pre.length : Int) := Int.natCast_nonneg _
  simp only [memcpyAt, h0, h1, and_self, if_true, Int.toNat_ofNat]
  congr 1
  rw [List.take_left' rfl]
  congr 1
  rw [List.drop_append_eq_append_drop]
  have : pre.length + src.length - pre.length = src.length := by omega
  rw [this, List.drop_of_length_le (by omega : pre.length ≤ pre.length + src.length)]
  rfl

theorem memcpyAt_append_of_eq (pre rest src : List Nat) (offset : Int)
    (ho : offset = (pre.length : Int)) (h : src.length ≤ rest.length) :
    memcpyAt (pre ++ rest) offset src = .ok ((pre ++ src) ++ rest.drop src.length) := by
  subst ho
  exact memcpyAt_append pre rest src h

theorem floatsBytes_length (floatBytes : ℚ → Bytes4) (fs : List ℚ) :
    (floatsBytes floatBytes fs).length = 4 * fs.length := by
  induction fs with
  | nil => rfl
  | cons f fs ih =>
    have : floatsBytes floatBytes (f :: fs) =
        (floatBytes f).toList ++ floatsBytes floatBytes fs := by
      simp [floatsBytes]
    rw [this, List.length_append, ih]
    simp [Bytes4.toList]
    omega

theorem intBytes_natCast (n : Nat) :
    (intBytes (n : Int)).toList =
      [n % 256, n / 256 % 256, n / 65536 % 256, n / 16777216 % 256] := by
  have h : ((n : Int) % 4294967296).toNat = n % 4294967296 := by omega
  simp only [intBytes, Bytes4.toList, h]
  refine List.cons_eq_cons.2 ⟨by omega, List.cons_eq_cons.2 ⟨by omega,
    List.cons_eq_cons.2 ⟨by omega, List.cons_eq_cons.2 ⟨by omega, rfl⟩⟩⟩⟩

/-! ## `writeMeshToSTL` -/

theorem getTriangleNormal_ok (normalize : Vec3 → Vec3) (m : TriangleMesh)
    (hn : m.normals.length = m.vertices.length) (i : Nat) (t : Triangle)
    (ht : m.triangles[i]? = some t) (hr : t.InRange m.vertices.length) :
    ∃ n0 n1 n2, vecGet m.normals t.t0 = .ok n0 ∧ vecGet m.normals t.t1 = .ok n1 ∧
      vecGet m.normals t.t2 = .ok n2 ∧
      getTriangleNormal normalize m i = .ok (normalize ((n0.add n1).add n2)) := by
  obtain ⟨⟨a0, a1⟩, ⟨b0, b1⟩, ⟨c0, c1⟩⟩ := hr
  obtain ⟨n0, h0, _⟩ := vecGet_ok m.normals t.t0 a0 (by rw [hn]; exact a1)
  obtain ⟨n1, h1, _⟩ := vecGet_ok m.normals t.t1 b0 (by rw [hn]; exact b1)
  obtain ⟨n2, h2, _⟩ := vecGet_ok m.normals t.t2 c0 (by rw [hn]; exact c1)
  refine ⟨n0, n1, n2, h0, h1, h2, ?_⟩
  have hi : i < m.triangles.length := by
    rcases Nat.lt_or_ge i m.triangles.length with h | h
    · exact h
    · rw [List.getElem?_eq_none h] at ht
      cases ht
  have hget : vecGet m.triangles (i : Int) = .ok t := vecGet_natCast _ _ _ ht
  have hcond : (0 : Int) ≤ (i : Int) ∧ (i : Int) < (m.triangles.length : Int) :=
    ⟨Int.natCast_nonneg _, by exact_mod_cast hi⟩
  have hsize : t.t0 < (m.vertices.length : Int) ∧ t.t1 < (m.vertices.length : Int) ∧
      t.t2 < (m.vertices.length : Int) := ⟨a1, b1, c1⟩
  simp only [getTriangleNormal, hcond, and_self, if_true, hget, ok_bind, hsize, h0, h1, h2,
    pure_eq_ok]

theorem toInt32_eq (v : Int) (h0 : 0 ≤ v) (h1 : v < 2147483648) : toInt32 v = v := by
  unfold toInt32
  omega

theorem toUInt32_eq (v : Nat) (h1 : v < 4294967296) : toUInt32 v = v := by
  unfold toUInt32
  omega

theorem newCharArray_ok (n : Int) (fill : Nat → Nat) (h0 : 0 ≤ n) :
    newCharArray n fill = .ok ((List.range n.toNat).map fill) := by
  unfold newCharArray
  rw [if_neg (by omega)]

theorem range_map_zero (n : Nat) : (List.range n).map (fun _ => (0 : Nat)) = List.replicate n 0 := by
  apply List.ext_getElem
  · simp
  · intro i h1 h2
    simp

theorem stlRecord_length (floatBytes : ℚ → Bytes4) (normal v1 v2 v3 : Vec3) :
    (stlRecord floatBytes normal v1 v2 v3).length = 50 := by
  simp [stlRecord, floatsBytes_length]

theorem stlTriangleLoop_spec (floatBytes : ℚ → Bytes4) (normalize : Vec3 → Vec3)
    (m : TriangleMesh) (hn : m.normals.length = m.vertices.length) (hr : IndicesInRange m) :
    ∀ (ts : List Triangle) (i : Nat) (pre : List Nat), m.triangles.drop i = ts →
    ∃ body, stlTriangleLoop floatBytes normalize m ts (i : Int) (pre.length : Int)
        (pre ++ List.replicate (50 * ts.length) 0) = .ok (pre ++ body) ∧
      body.length = 50 * ts.length ∧
      ∀ (j : Nat) (t : Triangle), ts[j]? = some t →
        ∃ normal v1 v2 v3, getTriangleNormal normalize m ((i + j : Nat) : Int) = .ok normal ∧
          vecGet m.vertices t.t0 = .ok v1 ∧ vecGet m.vertices t.t1 = .ok v2 ∧
          vecGet m.vertices t.t2 = .ok v3 ∧
          (body.drop (50 * j)).take 50 = stlRecord floatBytes normal v1 v2 v3 := by
  intro ts
  induction ts with
  | nil =>
    intro i pre _
    refine ⟨[], ?_, rfl, ?_⟩
    · simp [stlTriangleLoop]
    · intro j t hj
      simp at hj
  | cons t ts ih =>
    intro i pre hdrop
    have hti : m.triangles[i]? = some t := by
      have := congrArg (fun l => l[0]?) hdrop
      simpa using this
    have htm : t ∈ m.triangles := List.mem_iff_getElem?.2 ⟨i, hti⟩
    have hrt := hr t htm
    obtain ⟨n0, n1, n2, _, _, _, hnormal⟩ := getTriangleNormal_ok normalize m hn i t hti hrt
    obtain ⟨⟨a0, a1⟩, ⟨b0, b1⟩, ⟨c0, c1⟩⟩ := hrt
    obtain ⟨v1, hv1, _⟩ := vecGet_ok m.vertices t.t0 a0 a1
    obtain ⟨v2, hv2, _⟩ := vecGet_ok m.vertices t.t1 b0 b1
    obtain ⟨v3, hv3, _⟩ := vecGet_ok m.vertices t.t2 c0 c1
    have hdrop' : m.triangles.drop (i + 1) = ts := by
      have := congrArg (fun l => l.drop 1) hdrop
      simpa [List.drop_drop, Nat.add_comm] using this
    obtain ⟨body, hrun, hlen, hrec⟩ := ih (i + 1)
      (pre ++ stlRecord floatBytes (normalize ((n0.add n1).add n2)) v1 v2 v3) hdrop'
    have hcopy := memcpyAt_append pre (List.replicate (50 * (t :: ts).length) 0)
      (floatsBytes floatBytes [(normalize ((n0.add n1).add n2)).x,
        (normalize ((n0.add n1).add n2)).y, (normalize ((n0.add n1).add n2)).z,
        v1.x, v1.y, v1.z, v2.x, v2.y, v2.z, v3.x, v3.y, v3.z])
      (by simp [floatsBytes_length]; omega)
    have hrest : (List.replicate (50 * (t :: ts).length) 0).drop
        (floatsBytes floatBytes [(normalize ((n0.add n1).add n2)).x,
          (normalize ((n0.add n1).add n2)).y, (normalize ((n0.add n1).add n2)).z,
          v1.x, v1.y, v1.z, v2.x, v2.y, v2.z, v3.x, v3.y, v3.z]).length =
        [0, 0] ++ List.replicate (50 * ts.length) 0 := by
      rw [floatsBytes_length, List.drop_replicate]
      have : 50 * (t :: ts).length - 4 * 12 = 2 + 50 * ts.length := by
        simp only [List.length_cons]; omega
      simp only [List.length_cons, List.length_nil] at this ⊢
      rw [this, List.replicate_add]
      rfl
    refine ⟨stlRecord floatBytes (normalize ((n0.add n1).add n2)) v1 v2 v3 ++ body, ?_, ?_, ?_⟩
    · simp only [stlTriangleLoop, hnormal, hv1, hv2, hv3, ok_bind, hcopy, hrest]
      have e1 : ((i : Int) + 1) = ((i + 1 : Nat) : Int) := by push_cast; rfl
      have e2 : ((pre.length : Int) + (12 * 4 + 2)) =
          ((pre ++ stlRecord floatBytes (normalize ((n0.add n1).add n2)) v1 v2 v3).length : Int) := by
        rw [List.length_append, stlRecord_length]
        push_cast
        rfl
      rw [e1, e2]
      have e3 : pre ++ floatsBytes floatBytes [(normalize ((n0.add n1).add n2)).x,
          (normalize ((n0.add n1).add n2)).y, (normalize ((n0.add n1).add n2)).z,
          v1.x, v1.y, v1.z, v2.x, v2.y, v2.z, v3.x, v3.y, v3.z] ++
          ([0, 0] ++ List.replicate (50 * ts.length) 0) =
          (pre ++ stlRecord floatBytes (normalize ((n0.add n1).add n2)) v1 v2 v3) ++
            List.replicate (50 * ts.length) 0 := by
        simp only [stlRecord, List.append_assoc]
      rw [e3, hrun, List.append_assoc]
    · rw [List.length_append, stlRecord_length, hlen, List.length_cons]
      omega
    · intro j s hj
      cases j with
      | zero =>
        simp only [List.getElem?_cons_zero, Option.some.injEq] at hj
        subst hj
        refine ⟨_, v1, v2, v3, hnormal, hv1, hv2, hv3, ?_⟩
        simp only [Nat.mul_zero, List.drop_zero]
        rw [List.take_left' (stlRecord_length _ _ _ _ _)]
      | succ j =>
        simp only [List.getElem?_cons_succ] at hj
        obtain ⟨normal, w1, w2, w3, h1, h2, h3, h4, h5⟩ := hrec j s hj
        have e : i + 1 + j = i + (j + 1) := by omega
        rw [e] at h1
        refine ⟨normal, w1, w2, w3, h1, h2, h3, h4, ?_⟩
        have e5 : 50 * (j + 1) =
            (stlRecord floatBytes (normalize ((n0.add n1).add n2)) v1 v2 v3).length + 50 * j := by
          rw [stlRecord_length]; omega
        rw [e5, List.drop_append]
        exact h5

theorem manyTriangles_length : exampleMeshManyTriangles.triangles.length = 42949672 := by
  show (List.replicate 42949672 (⟨0, 1, 2⟩ : Triangle)).length = 42949672
  exact List.length_replicate _ _

theorem manyTriangles_I1 : I1 exampleMeshManyTriangles := by
  intro t ht
  have e : t = ⟨0, 1, 2⟩ := List.eq_of_mem_replicate ht
  subst e
  refine ⟨by decide, ?_⟩
  show Triangle.InRange 3 _
  decide

/-- C23, the claim as it stands fails: `exampleMeshManyTriangles` satisfies I1
and has one normal for every vertex; with its `42949672` triangles the size
`84 + 50 * F` is `2^31 + 36`, the `int binsize` of line 199 is negative, and
`writeMeshToSTL` ends in the exception of `new char[binsize]` and writes no
buffer. -/
theorem writeMeshToSTL_size_overflow :
    I1 exampleMeshManyTriangles ∧
    exampleMeshManyTriangles.normals.length = 3 ∧
    exampleMeshManyTriangles.vertices.length = 3 ∧
    exampleMeshManyTriangles.triangles.length = 42949672 ∧
    toInt32 (80 * 1 + 4 + (42949672 : Int) * (12 * 4 + 2)) = -2147483612 ∧
    writeMeshToSTL (fun _ => ⟨0, 0, 0, 0⟩) (fun v => v) exampleMeshManyTriangles =
      .error .allocation := by
  refine ⟨manyTriangles_I1, rfl, rfl, manyTriangles_length, by decide, ?_⟩
  unfold writeMeshToSTL
  rw [manyTriangles_length]
  rfl

/-- C23, amended: for a mesh with `F` triangles and `84 + 50 * F < 2^31`, so
that the size of the file is a value of `int`, that satisfies I1 and has one
normal for every vertex, `writeMeshToSTL` returns a buffer of `84 + 50 * F`
bytes: the
bytes `0` to `79` are zero, the bytes `80` to `83` are the bytes of `F` from
the least significant to the most significant, and the fifty bytes at the
offset `84 + 50 * i` are the twelve `float`s of triangle `i`, the result of
`getTriangleNormal(i)` and then the positions of `tri[0]`, `tri[1]` and
`tri[2]`, followed by two bytes `0`.  For `F = 1` the buffer has the length
`134` and the bytes `1, 0, 0, 0` at the offset `80`. -/
theorem writeMeshToSTL_layout (floatBytes : ℚ → Bytes4) (normalize : Vec3 → Vec3)
    (m : TriangleMesh) (hI : I1 m) (hn : m.normals.length = m.vertices.length)
    (hF : 84 + 50 * m.triangles.length < 2 ^ 31) :
    ∃ buf, writeMeshToSTL floatBytes normalize m = .ok buf ∧
      buf.length = 84 + 50 * m.triangles.length ∧
      (∀ k, k < 80 → buf[k]? = some 0) ∧
      (buf.drop 80).take 4 =
        [m.triangles.length % 256, m.triangles.length / 256 % 256,
          m.triangles.length / 65536 % 256, m.triangles.length / 16777216 % 256] ∧
      (∀ (i : Nat) (t : Triangle), m.triangles[i]? = some t →
        ∃ normal v1 v2 v3, getTriangleNormal normalize m (i : Int) = .ok normal ∧
          vecGet m.vertices t.t0 = .ok v1 ∧ vecGet m.vertices t.t1 = .ok v2 ∧
          vecGet m.vertices t.t2 = .ok v3 ∧
          (buf.drop (84 + 50 * i)).take 50 = stlRecord floatBytes normal v1 v2 v3) ∧
      (m.triangles.length = 1 → buf.length = 134 ∧ (buf.drop 80).take 4 = [1, 0, 0, 0]) := by
  have hr : IndicesInRange m := fun t ht => (hI t ht).2
  have hb : ((intBytes (m.triangles.length : Int)).toList).length = 4 := rfl
  have hsize : (toInt32 (80 * 1 + 4 + (m.triangles.length : Int) * (12 * 4 + 2) : Int)) =
      ((80 + (4 + 50 * m.triangles.length) : Nat) : Int) := by
    rw [toInt32_eq _ (by omega) (by omega)]
    push_cast
    ring
  have hnum : toUInt32 m.triangles.length = m.triangles.length :=
    toUInt32_eq _ (by omega)
  have hcopy := memcpyAt_append (List.replicate 80 0)
    (List.replicate (4 + 50 * m.triangles.length) 0) (intBytes (m.triangles.length : Int)).toList
    (by rw [hb, List.length_replicate]; omega)
  rw [hb, List.drop_replicate] at hcopy
  have h4 : 4 + 50 * m.triangles.length - 4 = 50 * m.triangles.length := by omega
  rw [h4, List.length_replicate] at hcopy
  obtain ⟨body, hrun, hlen, hrec⟩ := stlTriangleLoop_spec floatBytes normalize m hn hr
    m.triangles 0 (List.replicate 80 0 ++ (intBytes (m.triangles.length : Int)).toList) rfl
  have hplen : (List.replicate 80 0 ++ (intBytes (m.triangles.length : Int)).toList).length
      = 84 := by
    rw [List.length_append, hb, List.length_replicate]
  have hbuf : writeMeshToSTL floatBytes normalize m =
      .ok (List.replicate 80 0 ++ (intBytes (m.triangles.length : Int)).toList ++ body) := by
    simp only [writeMeshToSTL, hsize, hnum, newCharArray_ok _ _ (Int.natCast_nonneg _),
      Int.toNat_ofNat, range_map_zero, ok_bind]
    rw [show List.replicate (80 + (4 + 50 * m.triangles.length)) (0 : Nat) =
      List.replicate 80 0 ++ List.replicate (4 + 50 * m.triangles.length) 0 from
      List.replicate_add _ _ _]
    have hc : memcpyAt (List.replicate 80 0 ++ List.replicate (4 + 50 * m.triangles.length) 0)
        80 (intBytes (m.triangles.length : Int)).toList =
        .ok (List.replicate 80 0 ++ (intBytes (m.triangles.length : Int)).toList ++
          List.replicate (50 * m.triangles.length) 0) := by
      simpa using hcopy
    simp only [hc, ok_bind]
    rw [hplen] at hrun
    exact hrun
  have htake4 : ((List.replicate 80 0 ++ (intBytes (m.triangles.length : Int)).toList ++
      body).drop 80).take 4 = (intBytes (m.triangles.length : Int)).toList := by
    rw [List.append_assoc, List.drop_left' (List.length_replicate _ _),
      List.take_left' hb]
  have hblen : (List.replicate 80 0 ++ (intBytes (m.triangles.length : Int)).toList ++
      body).length = 84 + 50 * m.triangles.length := by
    rw [List.length_append, hplen, hlen]
  refine ⟨_, hbuf, hblen, ?_, ?_, ?_, ?_⟩
  · intro k hk
    have hk' : k < (List.replicate 80 (0 : Nat)).length := by
      rw [List.length_replicate]; exact hk
    rw [List.append_assoc, List.getElem?_append_left hk', List.getElem?_eq_getElem hk',
      List.getElem_replicate]
  · rw [htake4, intBytes_natCast]
  · intro i t ht
    obtain ⟨normal, v1, v2, v3, h1, h2, h3, h4, h5⟩ := hrec i t ht
    rw [Nat.zero_add] at h1
    refine ⟨normal, v1, v2, v3, h1, h2, h3, h4, ?_⟩
    have e : 84 + 50 * i =
        (List.replicate 80 0 ++ (intBytes (m.triangles.length : Int)).toList).length +
          50 * i := by rw [hplen]
    rw [e, List.drop_append]
    exact h5
  · intro h1
    refine ⟨by rw [hblen, h1], ?_⟩
    rw [htake4, intBytes_natCast, h1]

/-- The theorem `writeMeshToSTL_layout` on a mesh of one triangle whose normals
are its vertex positions. -/
theorem writeMeshToSTL_layout_witness :
    I1 { exampleMeshB with normals := exampleMeshB.vertices } ∧
    ∃ buf, writeMeshToSTL (fun _ => ⟨0, 0, 128, 63⟩) (fun v => v)
        { exampleMeshB with normals := exampleMeshB.vertices } = .ok buf ∧
      buf.length = 84 + 50 * 1 ∧
      (∀ k, k < 80 → buf[k]? = some 0) ∧
      (buf.drop 80).take 4 = [1 % 256, 1 / 256 % 256, 1 / 65536 % 256, 1 / 16777216 % 256] ∧
      (∀ (i : Nat) (t : Triangle),
        ({ exampleMeshB with normals := exampleMeshB.vertices } : TriangleMesh).triangles[i]? =
          some t →
        ∃ normal v1 v2 v3,
          getTriangleNormal (fun v => v) { exampleMeshB with normals := exampleMeshB.vertices }
            (i : Int) = .ok normal ∧
          vecGet exampleMeshB.vertices t.t0 = .ok v1 ∧
          vecGet exampleMeshB.vertices t.t1 = .ok v2 ∧
          vecGet exampleMeshB.vertices t.t2 = .ok v3 ∧
          (buf.drop (84 + 50 * i)).take 50 =
            stlRecord (fun _ => ⟨0, 0, 128, 63⟩) normal v1 v2 v3) ∧
      ((1 : Nat) = 1 → buf.length = 134 ∧ (buf.drop 80).take 4 = [1, 0, 0, 0]) :=
  ⟨by decide,
    writeMeshToSTL_layout (fun _ => ⟨0, 0, 128, 63⟩) (fun v => v)
      { exampleMeshB with normals := exampleMeshB.vertices } (by decide) rfl (by decide)⟩

/-! ## Decimal digits -/

theorem numDigits_toDigitsCore : ∀ (n : Nat), 0 < n →
    ∃ k : Nat, 0 < k ∧
      (∀ (g : Nat) (c : Int), n + 1 ≤ g → numDigitsLoop g (n : Int) c = .ok (c + k)) ∧
      (∀ (f : Nat) (ds : List Char), n + 1 ≤ f →
        (Nat.toDigitsCore 10 f n ds).length = ds.length + k) := by
  intro n
  induction n using Nat.strong_induction_on with
  | _ n ih =>
    intro hn
    have hne : (n : Int) ≠ 0 := by omega
    have hdiv : (n : Int).tdiv 10 = ((n / 10 : Nat) : Int) := rfl
    by_cases h10 : n / 10 = 0
    · refine ⟨1, Nat.one_pos, ?_, ?_⟩
      · intro g c hg
        obtain ⟨g1, rfl⟩ : ∃ g1, g = g1 + 1 := ⟨g - 1, by omega⟩
        obtain ⟨g2, rfl⟩ : ∃ g2, g1 = g2 + 1 := ⟨g1 - 1, by omega⟩
        simp only [numDigitsLoop, hne, ne_eq, not_false_eq_true, if_true, hdiv, h10,
          Nat.cast_zero, not_true_eq_false, if_false]
        rfl
      · intro f ds hf
        obtain ⟨f1, rfl⟩ : ∃ f1, f = f1 + 1 := ⟨f - 1, by omega⟩
        simp only [Nat.toDigitsCore, h10, if_true, List.length_cons]
    · have hpos : 0 < n / 10 := Nat.pos_of_ne_zero h10
      have hlt : n / 10 < n := Nat.div_lt_self hn (by decide)
      obtain ⟨k, hk, hloop, hcore⟩ := ih (n / 10) hlt hpos
      refine ⟨k + 1, Nat.succ_pos _, ?_, ?_⟩
      · intro g c hg
        obtain ⟨g1, rfl⟩ : ∃ g1, g = g1 + 1 := ⟨g - 1, by omega⟩
        simp only [numDigitsLoop, hne, ne_eq, not_false_eq_true, if_true, hdiv]
        rw [hloop g1 (c + 1) (by omega)]
        push_cast
        congr 1
        omega
      · intro f ds hf
        obtain ⟨f1, rfl⟩ : ∃ f1, f = f1 + 1 := ⟨f - 1, by omega⟩
        simp only [Nat.toDigitsCore, h10, if_false]
        rw [hcore f1 _ (by omega), List.length_cons]
        omega

theorem decimal_length_pos (n : Nat) : 0 < (decimal n).length := by
  rcases Nat.eq_zero_or_pos n with h | h
  · subst h; decide
  · obtain ⟨k, hk, _, hcore⟩ := numDigits_toDigitsCore n h
    simp only [decimal, List.length_map, Nat.toDigits]
    rw [hcore (n + 1) [] (Nat.le_refl _)]
    simpa using hk

theorem numDigitsInInteger_eq (n : Nat) :
    _numDigitsInInteger (n : Int) = .ok ((decimal n).length : Int) := by
  rcases Nat.eq_zero_or_pos n with h | h
  · subst h; rfl
  · obtain ⟨k, _, hloop, hcore⟩ := numDigits_toDigitsCore n h
    have hne : (n : Int) ≠ 0 := by omega
    have hfuel : (n : Int).natAbs + 1 = n + 1 := by simp
    simp only [_numDigitsInInteger, hne, if_false, hfuel]
    rw [hloop (n + 1) 0 (Nat.le_refl _)]
    simp only [decimal, List.length_map, Nat.toDigits]
    rw [hcore (n + 1) [] (Nat.le_refl _)]
    simp

theorem decimal_length_le (n : Nat) (h : n < 10 ^ 9) : (decimal n).length ≤ 9 := by
  simp only [decimal, List.length_map, Nat.toDigits]
  exact Nat.toDigitsCore_length 10 (by decide) (n + 1) n 9 h (by decide)

theorem toDigitsCore_ne (x : Nat) (hx : x < 48 ∨ 57 < x) : ∀ (f n : Nat) (ds : List Char),
    (∀ c ∈ ds, c.toNat ≠ x) → ∀ c ∈ Nat.toDigitsCore 10 f n ds, c.toNat ≠ x := by
  intro f
  induction f with
  | zero =>
    intro n ds hds c hc
    exact hds c hc
  | succ f ih =>
    intro n ds hds c hc
    have hd : (Nat.digitChar (n % 10)).toNat ≠ x := by
      have hlt : n % 10 < 10 := Nat.mod_lt _ (by decide)
      generalize n % 10 = k at hlt
      interval_cases k <;> simp [Nat.digitChar] <;> omega
    have hds' : ∀ c ∈ Nat.digitChar (n % 10) :: ds, c.toNat ≠ x := by
      intro c hc
      rcases List.mem_cons.1 hc with rfl | hc
      · exact hd
      · exact hds c hc
    simp only [Nat.toDigitsCore] at hc
    split at hc
    · exact hds' c hc
    · exact ih _ _ hds' c hc

theorem decimal_ne (n x : Nat) (hx : x < 48 ∨ 57 < x) : x ∉ decimal n := by
  intro h
  simp only [decimal, List.mem_map, Nat.toDigits] at h
  obtain ⟨c, hc, rfl⟩ := h
  exact toDigitsCore_ne c.toNat hx (n + 1) n [] (fun c hc => by simp at hc) c hc rfl

theorem readBytes_snprintf10 (n : Nat) (h : n < 10 ^ 9) :
    readBytes (snprintf10 n) ((decimal n).length : Int) = .ok (decimal n) := by
  have hle := decimal_length_le n h
  have hs : snprintf10 n = decimal n ++ [0] := by
    unfold snprintf10
    rw [show List.map Char.toNat (Nat.toDigits 10 n) = decimal n from rfl,
      List.take_of_length_le hle]
  have h0 : (0 : Int) ≤ ((decimal n).length : Int) := Int.natCast_nonneg _
  have h1 : ((decimal n).length : Int) ≤ ((snprintf10 n).length : Int) := by
    rw [hs, List.length_append]
    push_cast
    omega
  simp only [readBytes, h0, h1, and_self, if_true, Int.toNat_ofNat]
  rw [hs, List.take_left' rfl]

/-! ## The loops of `writeMeshToPLY` -/

theorem faceRecord_length (t : Triangle) : (faceRecord t).length = 13 := rfl

theorem vertexRecord_length (floatBytes : ℚ → Bytes4) (v : Vec3) :
    (vertexRecord floatBytes v).length = 12 := by
  simp [vertexRecord, floatsBytes_length]

theorem colorVertexRecord_length (floatBytes : ℚ → Bytes4) (vc : Vec3 × Vec3) :
    (colorVertexRecord floatBytes vc).length = 15 := by
  simp [colorVertexRecord, floatsBytes_length]

theorem length_flatMap_of_const {α : Type} (f : α → List Nat) (k : Nat)
    (hf : ∀ a, (f a).length = k) : ∀ l : List α, (l.flatMap f).length = k * l.length := by
  intro l
  induction l with
  | nil => rfl
  | cons a l ih =>
    rw [List.flatMap_cons, List.length_append, hf, ih, List.length_cons]
    ring

theorem faceLoop_spec : ∀ (ts : List Triangle) (pre rest : List Nat) (offset : Int),
    offset = (pre.length : Int) → 13 * ts.length ≤ rest.length →
    faceLoop ts offset (pre ++ rest) =
      .ok (offset + 13 * (ts.length : Int),
        pre ++ ts.flatMap faceRecord ++ rest.drop (13 * ts.length)) := by
  intro ts
  induction ts with
  | nil =>
    intro pre rest offset _ _
    simp [faceLoop]
  | cons t ts ih =>
    intro pre rest offset ho hlen
    simp only [List.length_cons] at hlen
    have h1 := memcpyAt_append_of_eq pre rest [3] offset ho (by
      show 1 ≤ rest.length
      omega)
    have ho2 : offset + 1 = ((pre ++ [3]).length : Int) := by
      rw [ho, List.length_append]; rfl
    have h2 := memcpyAt_append_of_eq (pre ++ [3]) (rest.drop 1)
      ((intBytes t.t0).toList ++ (intBytes t.t1).toList ++ (intBytes t.t2).toList)
      (offset + 1) ho2 (by
        rw [List.length_drop]
        show 12 ≤ rest.length - 1
        omega)
    have ho3 : offset + 1 + 3 * 4 = ((pre ++ faceRecord t).length : Int) := by
      rw [ho, List.length_append, faceRecord_length]
      push_cast
      ring
    have hrest : 13 * ts.length ≤ ((rest.drop 1).drop 12).length := by
      rw [List.length_drop, List.length_drop]; omega
    have h3 := ih (pre ++ faceRecord t) ((rest.drop 1).drop 12) (offset + 1 + 3 * 4) ho3 hrest
    have e1 : (pre ++ [3]) ++
        ((intBytes t.t0).toList ++ (intBytes t.t1).toList ++ (intBytes t.t2).toList) =
        pre ++ faceRecord t := by
      simp [faceRecord]
    have e2 : ((intBytes t.t0).toList ++ (intBytes t.t1).toList ++
        (intBytes t.t2).toList).length = 12 := rfl
    simp only [faceLoop, h1, ok_bind, List.length_cons, List.length_nil, Nat.zero_add, h2, e1,
      e2, h3]
    congr 1
    refine Prod.ext ?_ ?_
    · show offset + 1 + 3 * 4 + 13 * (ts.length : Int) =
        offset + 13 * (((ts.length + 1 : Nat)) : Int)
      push_cast
      ring
    · show pre ++ faceRecord t ++ ts.flatMap faceRecord ++
          ((rest.drop 1).drop 12).drop (13 * ts.length) =
        pre ++ (t :: ts).flatMap faceRecord ++ rest.drop (13 * (ts.length + 1))
      rw [List.flatMap_cons, List.drop_drop, List.drop_drop]
      simp only [List.append_assoc]
      congr 4
      omega

theorem colorVertexLoop_spec (floatBytes : ℚ → Bytes4) :
    ∀ (vs cs : List Vec3) (pre rest : List Nat) (offset : Int),
    vs.length = cs.length → offset = (pre.length : Int) → 15 * vs.length ≤ rest.length →
    colorVertexLoop floatBytes vs cs offset (pre ++ rest) =
      .ok (offset + 15 * (vs.length : Int),
        pre ++ (vs.zip cs).flatMap (colorVertexRecord floatBytes) ++
          rest.drop (15 * vs.length)) := by
  intro vs
  induction vs with
  | nil =>
    intro cs pre rest offset _ _ _
    simp [colorVertexLoop]
  | cons v vs ih =>
    intro cs pre rest offset hvc ho hlen
    cases cs with
    | nil => simp at hvc
    | cons c cs =>
      simp only [List.length_cons] at hlen hvc
      have hf : (floatsBytes floatBytes [v.x, v.y, v.z]).length = 12 := by
        rw [floatsBytes_length]; rfl
      have h1 := memcpyAt_append_of_eq pre rest (floatsBytes floatBytes [v.x, v.y, v.z])
        offset ho (by rw [hf]; omega)
      have ho2 : offset + 3 * 4 =
          ((pre ++ floatsBytes floatBytes [v.x, v.y, v.z]).length : Int) := by
        rw [ho, List.length_append, hf]; push_cast; ring
      have h2 := memcpyAt_append_of_eq (pre ++ floatsBytes floatBytes [v.x, v.y, v.z])
        (rest.drop (floatsBytes floatBytes [v.x, v.y, v.z]).length)
        [ucharOfFloat (c.x / 1 * 255), ucharOfFloat (c.y / 1 * 255),
          ucharOfFloat (c.z / 1 * 255)]
        (offset + 3 * 4) ho2 (by
          rw [List.length_drop, hf]
          show 3 ≤ rest.length - 12
          omega)
      have e1 : (pre ++ floatsBytes floatBytes [v.x, v.y, v.z]) ++
          [ucharOfFloat (c.x / 1 * 255), ucharOfFloat (c.y / 1 * 255),
            ucharOfFloat (c.z / 1 * 255)] = pre ++ colorVertexRecord floatBytes (v, c) := by
        simp [colorVertexRecord]
      have ho3 : offset + 3 * 4 + 3 * 1 =
          ((pre ++ colorVertexRecord floatBytes (v, c)).length : Int) := by
        rw [ho, List.length_append, colorVertexRecord_length]; push_cast; ring
      have hrest : 15 * vs.length ≤
          ((rest.drop (floatsBytes floatBytes [v.x, v.y, v.z]).length).drop 3).length := by
        rw [List.length_drop, List.length_drop, hf]; omega
      have h3 := ih cs (pre ++ colorVertexRecord floatBytes (v, c))
        ((rest.drop (floatsBytes floatBytes [v.x, v.y, v.z]).length).drop 3)
        (offset + 3 * 4 + 3 * 1) (by omega) ho3 hrest
      have e3 : ([ucharOfFloat (c.x / 1 * 255), ucharOfFloat (c.y / 1 * 255),
          ucharOfFloat (c.z / 1 * 255)] : List Nat).length = 3 := rfl
      simp only [colorVertexLoop, h1, ok_bind, h2, e1, e3, h3]
      congr 1
      refine Prod.ext ?_ ?_
      · show offset + 3 * 4 + 3 * 1 + 15 * (vs.length : Int) =
          offset + 15 * (((vs.length + 1 : Nat)) : Int)
        push_cast
        ring
      · show pre ++ colorVertexRecord floatBytes (v, c) ++
            (vs.zip cs).flatMap (colorVertexRecord floatBytes) ++
            ((rest.drop (floatsBytes floatBytes [v.x, v.y, v.z]).length).drop 3).drop
              (15 * vs.length) =
          pre ++ ((v :: vs).zip (c :: cs)).flatMap (colorVertexRecord floatBytes) ++
            rest.drop (15 * (vs.length + 1))
        rw [List.zip_cons_cons, List.flatMap_cons, List.drop_drop, List.drop_drop, hf]
        simp only [List.append_assoc]
        congr 4
        omega

theorem floatsBytes_flatMap (floatBytes : ℚ → Bytes4) (vs : List Vec3) :
    floatsBytes floatBytes (vs.flatMap fun v => [v.x, v.y, v.z]) =
      vs.flatMap (vertexRecord floatBytes) := by
  induction vs with
  | nil => rfl
  | cons v vs ih =>
    simp only [List.flatMap_cons, vertexRecord]
    rw [← ih]
    simp [floatsBytes]

/-! ## `writeMeshToPLY` -/

theorem memcpyAt_step (pre U src : List Nat) (offset : Int) (ho : offset = (pre.length : Int))
    (h : pre.length + src.length ≤ U.length) :
    memcpyAt (pre ++ U.drop pre.length) offset src =
      .ok ((pre ++ src) ++ U.drop (pre ++ src).length) := by
  rw [memcpyAt_append_of_eq pre (U.drop pre.length) src offset ho
    (by rw [List.length_drop]; omega), List.drop_drop, List.length_append]

theorem header1_length : header1.length = 51 := by decide

theorem header2_length : header2.length = 65 := by decide

theorem header2color_length : header2color.length = 125 := rfl

theorem header3_length : header3.length = 49 := by decide

theorem writeMeshToPLY_plain (floatBytes : ℚ → Bytes4) (uninit : Nat → Nat) (m : TriangleMesh)
    (hV : m.vertices.length < 10 ^ 9) (hF : m.triangles.length < 10 ^ 9)
    (hc : m.vertices.length ≠ m.vertexcolors.length)
    (hS : 51 + (decimal m.vertices.length).length + 65 + (decimal m.triangles.length).length +
      49 + 12 * m.vertices.length + 13 * m.triangles.length < 2 ^ 31) :
    writeMeshToPLY floatBytes uninit m =
      .ok ((header1 ++ decimal m.vertices.length ++ header2 ++ decimal m.triangles.length ++
        header3) ++ (m.vertices.flatMap (vertexRecord floatBytes) ++
          m.triangles.flatMap faceRecord)) := by
  have hdV := numDigitsInInteger_eq m.vertices.length
  have hdF := numDigitsInInteger_eq m.triangles.length
  have hrV := readBytes_snprintf10 m.vertices.length hV
  have hrF := readBytes_snprintf10 m.triangles.length hF
  have hcol : decide (m.vertices.length = m.vertexcolors.length) = false := by
    simpa using hc
  have hvl := length_flatMap_of_const (vertexRecord floatBytes) 12
    (vertexRecord_length floatBytes) m.vertices
  have hfl := length_flatMap_of_const faceRecord 13 faceRecord_length m.triangles
  generalize hU : (List.range (51 + ((decimal m.vertices.length).length : Int) + 65 +
    ((decimal m.triangles.length).length : Int) + 49 + 3 * 4 * (m.vertices.length : Int) +
    (1 + 3 * 4) * (m.triangles.length : Int)).toNat).map uninit = U
  have hUlen : U.length = 51 + (decimal m.vertices.length).length + 65 +
      (decimal m.triangles.length).length + 49 + 12 * m.vertices.length +
      13 * m.triangles.length := by
    rw [← hU, List.length_map, List.length_range]
    omega
  have hiV : toInt32 (m.vertices.length : Int) = (m.vertices.length : Int) :=
    toInt32_eq _ (by omega) (by omega)
  have hiF : toInt32 (m.triangles.length : Int) = (m.triangles.length : Int) :=
    toInt32_eq _ (by omega) (by omega)
  have huV : toUInt32 m.vertices.length = m.vertices.length := toUInt32_eq _ (by omega)
  have huF : toUInt32 m.triangles.length = m.triangles.length := toUInt32_eq _ (by omega)
  have hnew : newCharArray (toInt32 (51 + ((decimal m.vertices.length).length : Int) + 65 +
      ((decimal m.triangles.length).length : Int) + 49 + 3 * 4 * (m.vertices.length : Int) +
      (1 + 3 * 4) * (m.triangles.length : Int))) uninit = .ok U := by
    rw [toInt32_eq _ (by omega) (by omega), newCharArray_ok _ _ (by omega), hU]
  have s1 := memcpyAt_step [] U header1 0 rfl (by
    rw [header1_length, hUlen]; simp only [List.length_nil]; omega)
  simp only [List.nil_append, List.length_nil, List.drop_zero] at s1
  have s2 := memcpyAt_step header1 U (decimal m.vertices.length) (0 + 51)
    (by rw [header1_length]; rfl) (by rw [header1_length, hUlen]; omega)
  have s3 := memcpyAt_step (header1 ++ decimal m.vertices.length) U header2
    (0 + 51 + ((decimal m.vertices.length).length : Int) * 1)
    (by rw [List.length_append, header1_length]; push_cast; ring)
    (by rw [List.length_append, header1_length, header2_length, hUlen]; omega)
  have s4 := memcpyAt_step (header1 ++ decimal m.vertices.length ++ header2) U
    (decimal m.triangles.length)
    (0 + 51 + ((decimal m.vertices.length).length : Int) * 1 + 65)
    (by rw [List.length_append, List.length_append, header1_length, header2_length]
        push_cast; ring)
    (by rw [List.length_append, List.length_append, header1_length, header2_length, hUlen]
        omega)
  have s5 := memcpyAt_step
    (header1 ++ decimal m.vertices.length ++ header2 ++ decimal m.triangles.length) U header3
    (0 + 51 + ((decimal m.vertices.length).length : Int) * 1 + 65 +
      ((decimal m.triangles.length).length : Int) * 1)
    (by rw [List.length_append, List.length_append, List.length_append, header1_length,
          header2_length]
        push_cast; ring)
    (by rw [List.length_append, List.length_append, List.length_append, header1_length,
          header2_length, header3_length, hUlen]
        omega)
  have hhl : (header1 ++ decimal m.vertices.length ++ header2 ++ decimal m.triangles.length ++
      header3).length = 51 + (decimal m.vertices.length).length + 65 +
        (decimal m.triangles.length).length + 49 := by
    simp only [List.length_append, header1_length, header2_length, header3_length]
  have s6 := memcpyAt_step
    (header1 ++ decimal m.vertices.length ++ header2 ++ decimal m.triangles.length ++ header3) U
    (floatsBytes floatBytes (m.vertices.flatMap fun v => [v.x, v.y, v.z]))
    (0 + 51 + ((decimal m.vertices.length).length : Int) * 1 + 65 +
      ((decimal m.triangles.length).length : Int) * 1 + 49)
    (by rw [hhl]; push_cast; ring)
    (by rw [hhl, floatsBytes_flatMap, hvl, hUlen]; omega)
  rw [floatsBytes_flatMap] at s6
  have s7 := faceLoop_spec m.triangles
    (header1 ++ decimal m.vertices.length ++ header2 ++ decimal m.triangles.length ++ header3 ++
      m.vertices.flatMap (vertexRecord floatBytes))
    (U.drop (header1 ++ decimal m.vertices.length ++ header2 ++ decimal m.triangles.length ++
      header3 ++ m.vertices.flatMap (vertexRecord floatBytes)).length)
    (0 + 51 + ((decimal m.vertices.length).length : Int) * 1 + 65 +
      ((decimal m.triangles.length).length : Int) * 1 + 49 + 3 * 4 * (m.vertices.length : Int))
    (by rw [List.length_append, hhl, hvl]; push_cast; ring)
    (by rw [List.length_drop, List.length_append, hhl, hvl, hUlen]; omega)
  have hend : (U.drop (header1 ++ decimal m.vertices.length ++ header2 ++
      decimal m.triangles.length ++ header3 ++
      m.vertices.flatMap (vertexRecord floatBytes)).length).drop (13 * m.triangles.length) =
      [] := by
    rw [List.drop_drop]
    apply List.drop_of_length_le
    rw [List.length_append, hhl, hvl, hUlen]
  rw [hend, List.append_nil] at s7
  simp only [writeMeshToPLY, hiV, hiF, huV, huF, hdV, hdF, ok_bind]
  simp only [hcol, Bool.false_eq_true, if_false]
  simp only [hnew, ok_bind, s1, hrV, s2, s3, hrF, s4, s5, pure_eq_ok, floatsBytes_flatMap, s6,
    s7]
  simp only [List.append_assoc]

theorem writeMeshToPLY_colored (floatBytes : ℚ → Bytes4) (uninit : Nat → Nat)
    (m : TriangleMesh) (hV : m.vertices.length < 10 ^ 9) (hF : m.triangles.length < 10 ^ 9)
    (hc : m.vertices.length = m.vertexcolors.length)
    (hS : 51 + (decimal m.vertices.length).length + 125 + (decimal m.triangles.length).length +
      49 + 15 * m.vertices.length + 13 * m.triangles.length < 2 ^ 31) :
    writeMeshToPLY floatBytes uninit m =
      .ok ((header1 ++ decimal m.vertices.length ++ header2color ++
        decimal m.triangles.length ++ header3) ++
        ((m.vertices.zip m.vertexcolors).flatMap (colorVertexRecord floatBytes) ++
          m.triangles.flatMap faceRecord)) := by
  have hdV := numDigitsInInteger_eq m.vertices.length
  have hdF := numDigitsInInteger_eq m.triangles.length
  have hrV := readBytes_snprintf10 m.vertices.length hV
  have hrF := readBytes_snprintf10 m.triangles.length hF
  have hcol : decide (m.vertices.length = m.vertexcolors.length) = true := by
    simpa using hc
  have hvl := length_flatMap_of_const (colorVertexRecord floatBytes) 15
    (colorVertexRecord_length floatBytes) (m.vertices.zip m.vertexcolors)
  rw [List.length_zip, ← hc, Nat.min_self] at hvl
  have hfl := length_flatMap_of_const faceRecord 13 faceRecord_length m.triangles
  generalize hU : (List.range (51 + ((decimal m.vertices.length).length : Int) + 125 +
    ((decimal m.triangles.length).length : Int) + 49 +
    3 * (4 * (m.vertices.length : Int) + 1 * (m.vertices.length : Int)) +
    (1 + 3 * 4) * (m.triangles.length : Int)).toNat).map uninit = U
  have hUlen : U.length = 51 + (decimal m.vertices.length).length + 125 +
      (decimal m.triangles.length).length + 49 + 15 * m.vertices.length +
      13 * m.triangles.length := by
    rw [← hU, List.length_map, List.length_range]
    omega
  have hiV : toInt32 (m.vertices.length : Int) = (m.vertices.length : Int) :=
    toInt32_eq _ (by omega) (by omega)
  have hiF : toInt32 (m.triangles.length : Int) = (m.triangles.length : Int) :=
    toInt32_eq _ (by omega) (by omega)
  have huV : toUInt32 m.vertices.length = m.vertices.length := toUInt32_eq _ (by omega)
  have huF : toUInt32 m.triangles.length = m.triangles.length := toUInt32_eq _ (by omega)
  have hnew : newCharArray (toInt32 (51 + ((decimal m.vertices.length).length : Int) + 125 +
      ((decimal m.triangles.length).length : Int) + 49 +
      3 * (4 * (m.vertices.length : Int) + 1 * (m.vertices.length : Int)) +
      (1 + 3 * 4) * (m.triangles.length : Int))) uninit = .ok U := by
    rw [toInt32_eq _ (by omega) (by omega), newCharArray_ok _ _ (by omega), hU]
  have s1 := memcpyAt_step [] U header1 0 rfl (by
    rw [header1_length, hUlen]; simp only [List.length_nil]; omega)
  simp only [List.nil_append, List.length_nil, List.drop_zero] at s1
  have s2 := memcpyAt_step header1 U (decimal m.vertices.length) (0 + 51)
    (by rw [header1_length]; rfl) (by rw [header1_length, hUlen]; omega)
  have s3 := memcpyAt_step (header1 ++ decimal m.vertices.length) U header2color
    (0 + 51 + ((decimal m.vertices.length).length : Int) * 1)
    (by rw [List.length_append, header1_length]; push_cast; ring)
    (by rw [List.length_append, header1_length, header2color_length, hUlen]; omega)
  have s4 := memcpyAt_step (header1 ++ decimal m.vertices.length ++ header2color) U
    (decimal m.triangles.length)
    (0 + 51 + ((decimal m.vertices.length).length : Int) * 1 + 125)
    (by rw [List.length_append, List.length_append, header1_length, header2color_length]
        push_cast; ring)
    (by rw [List.length_append, List.length_append, header1_length, header2color_length, hUlen]
        omega)
  have s5 := memcpyAt_step
    (header1 ++ decimal m.vertices.length ++ header2color ++ decimal m.triangles.length) U
    header3
    (0 + 51 + ((decimal m.vertices.length).length : Int) * 1 + 125 +
      ((decimal m.triangles.length).length : Int) * 1)
    (by rw [List.length_append, List.length_append, List.length_append, header1_length,
          header2color_length]
        push_cast; ring)
    (by rw [List.length_append, List.length_append, List.length_append, header1_length,
          header2color_length, header3_length, hUlen]
        omega)
  have hhl : (header1 ++ decimal m.vertices.length ++ header2color ++
      decimal m.triangles.length ++ header3).length = 51 + (decimal m.vertices.length).length +
        125 + (decimal m.triangles.length).length + 49 := by
    simp only [List.length_append, header1_length, header2color_length, header3_length]
  have s6 := colorVertexLoop_spec floatBytes m.vertices m.vertexcolors
    (header1 ++ decimal m.vertices.length ++ header2color ++ decimal m.triangles.length ++
      header3)
    (U.drop (header1 ++ decimal m.vertices.length ++ header2color ++
      decimal m.triangles.length ++ header3).length)
    (0 + 51 + ((decimal m.vertices.length).length : Int) * 1 + 125 +
      ((decimal m.triangles.length).length : Int) * 1 + 49)
    hc (by rw [hhl]; push_cast; ring)
    (by rw [List.length_drop, hhl, hUlen]; omega)
  rw [List.drop_drop] at s6
  have e6 : (header1 ++ decimal m.vertices.length ++ header2color ++
      decimal m.triangles.length ++ header3).length + 15 * m.vertices.length =
      (header1 ++ decimal m.vertices.length ++ header2color ++ decimal m.triangles.length ++
        header3 ++ (m.vertices.zip m.vertexcolors).flatMap (colorVertexRecord floatBytes)).length
      := by
    have h := List.length_append (header1 ++ decimal m.vertices.length ++ header2color ++
      decimal m.triangles.length ++ header3)
      ((m.vertices.zip m.vertexcolors).flatMap (colorVertexRecord floatBytes))
    rw [hvl] at h
    omega
  have s7 := faceLoop_spec m.triangles
    (header1 ++ decimal m.vertices.length ++ header2color ++ decimal m.triangles.length ++
      header3 ++ (m.vertices.zip m.vertexcolors).flatMap (colorVertexRecord floatBytes))
    (U.drop (header1 ++ decimal m.vertices.length ++ header2color ++
      decimal m.triangles.length ++ header3 ++
      (m.vertices.zip m.vertexcolors).flatMap (colorVertexRecord floatBytes)).length)
    (0 + 51 + ((decimal m.vertices.length).length : Int) * 1 + 125 +
      ((decimal m.triangles.length).length : Int) * 1 + 49 + 15 * (m.vertices.length : Int))
    (by rw [List.length_append, hhl, hvl]; push_cast; ring)
    (by rw [List.length_drop, List.length_append, hhl, hvl, hUlen]; omega)
  have hend : (U.drop (header1 ++ decimal m.vertices.length ++ header2color ++
      decimal m.triangles.length ++ header3 ++
      (m.vertices.zip m.vertexcolors).flatMap (colorVertexRecord floatBytes)).length).drop
        (13 * m.triangles.length) = [] := by
    rw [List.drop_drop]
    apply List.drop_of_length_le
    rw [List.length_append, hhl, hvl, hUlen]
  rw [hend, List.append_nil] at s7
  rw [e6] at s6
  simp only [writeMeshToPLY, hiV, hiF, huV, huF, hdV, hdF, ok_bind]
  simp only [hcol, if_true]
  simp only [hnew, ok_bind, s1, hrV, s2, s3, hrF, s4, s5, pure_eq_ok, s6, s7]
  simp only [List.append_assoc]

theorem not_occurs_of_not_mem (pat s : List Nat) (x : Nat) (hp : x ∈ pat) (hs : x ∉ s) :
    ¬ Occurs pat s := by
  rintro ⟨a, b, h⟩
  apply hs
  rw [h]
  simp [hp]

theorem manyVertices_length : exampleMeshManyVertices.vertices.length = 200000000 := by
  show (List.replicate 200000000 (⟨0, 0, 0⟩ : Vec3)).length = 200000000
  exact List.length_replicate _ _

theorem numDigitsInInteger_manyVertices :
    _numDigitsInInteger (toInt32 (200000000 : Nat)) = .ok 9 := by
  decide!

/-- C24, the claim as it stands fails: `exampleMeshManyVertices` has
`V = 200000000` vertices, no colors and no triangle, so `V` and `F` are below
`10^9`; the size `175 + 12 * V` of the file is `2400000175`, the `int binsize`
of line 309 is negative, and `writeMeshToPLY` ends in the exception of
`new char[binsize]` and writes no buffer. -/
theorem writeMeshToPLY_size_overflow :
    exampleMeshManyVertices.vertices.length = 200000000 ∧
    exampleMeshManyVertices.triangles.length = 0 ∧
    exampleMeshManyVertices.vertexcolors.length = 0 ∧
    toInt32 (51 + 9 + 65 + 1 + 49 + 3 * 4 * (200000000 : Int) + (1 + 3 * 4) * 0) =
      -1894967121 ∧
    writeMeshToPLY (fun _ => ⟨0, 0, 0, 0⟩) (fun _ => 0) exampleMeshManyVertices =
      .error .allocation := by
  refine ⟨manyVertices_length, rfl, rfl, by decide, ?_⟩
  have hcol : decide ((200000000 : Nat) = exampleMeshManyVertices.vertexcolors.length) = false :=
    rfl
  have hF : exampleMeshManyVertices.triangles.length = 0 := rfl
  have hd0 : _numDigitsInInteger (toInt32 ((0 : Nat) : Int)) = .ok 1 := by decide
  have hneg : newCharArray (toInt32 (51 + 9 + 65 + 1 + 49 + 3 * 4 * ((200000000 : Nat) : Int) +
      (1 + 3 * 4) * ((0 : Nat) : Int))) (fun _ => 0) = .error .allocation := by
    decide
  unfold writeMeshToPLY
  simp only [manyVertices_length, hcol, hF, numDigitsInInteger_manyVertices, hd0, ok_bind,
    Bool.false_eq_true, if_false, hneg, error_bind]

/-- C24, amended: for a mesh with `V` vertices and `F` triangles, both below
`10^9`, for which the size of the file, header and body, is below `2^31`, so
that it is a value of `int`, `writeMeshToPLY` returns a header followed by a
body.  When `V >= 1` and the mesh has no colors, the header contains
`element vertex <V>` and `element face <F>` with the decimal digits of `V` and
`F` before the line feed, does not contain the color lines and ends with
`end_header\n`, and the body holds `V` records of three `float`s and then `F`
records of the byte `3` and three `int`s, `12 * V + 13 * F` bytes in all.
When the color array has the length `V`, the header contains the color lines
and the body has `15 * V + 13 * F` bytes. -/
theorem writeMeshToPLY_layout (floatBytes : ℚ → Bytes4) (uninit : Nat → Nat)
    (m : TriangleMesh) (hV : m.vertices.length < 10 ^ 9) (hF : m.triangles.length < 10 ^ 9) :
    (1 ≤ m.vertices.length → m.vertexcolors.length = 0 →
      51 + (decimal m.vertices.length).length + 65 + (decimal m.triangles.length).length +
        49 + 12 * m.vertices.length + 13 * m.triangles.length < 2 ^ 31 →
      ∃ header body, writeMeshToPLY floatBytes uninit m = .ok (header ++ body) ∧
        header = header1 ++ decimal m.vertices.length ++ header2 ++
          decimal m.triangles.length ++ header3 ∧
        Occurs (vertexString ++ decimal m.vertices.length ++ [10]) header ∧
        Occurs (faceString ++ decimal m.triangles.length ++ [10]) header ∧
        ¬ Occurs colorString header ∧
        (∃ a, header = a ++ endHeaderString) ∧
        body = m.vertices.flatMap (vertexRecord floatBytes) ++
          m.triangles.flatMap faceRecord ∧
        (∀ v ∈ m.vertices, (vertexRecord floatBytes v).length = 12) ∧
        (∀ t ∈ m.triangles, (faceRecord t).length = 13) ∧
        body.length = 12 * m.vertices.length + 13 * m.triangles.length) ∧
    (m.vertexcolors.length = m.vertices.length →
      51 + (decimal m.vertices.length).length + 125 + (decimal m.triangles.length).length +
        49 + 15 * m.vertices.length + 13 * m.triangles.length < 2 ^ 31 →
      ∃ header body, writeMeshToPLY floatBytes uninit m = .ok (header ++ body) ∧
        header = header1 ++ decimal m.vertices.length ++ header2color ++
          decimal m.triangles.length ++ header3 ∧
        Occurs (vertexString ++ decimal m.vertices.length ++ [10]) header ∧
        Occurs (faceString ++ decimal m.triangles.length ++ [10]) header ∧
        Occurs colorString header ∧
        (∃ a, header = a ++ endHeaderString) ∧
        body = (m.vertices.zip m.vertexcolors).flatMap (colorVertexRecord floatBytes) ++
          m.triangles.flatMap faceRecord ∧
        body.length = 15 * m.vertices.length + 13 * m.triangles.length) := by
  have e1 : header1 = "ply\nformat binary_little_endian 1.0\n".toList.map Char.toNat ++
      vertexString := by decide
  have e2 : header2 = [10] ++
      ("property float x\nproperty float y\nproperty float z\n".toList.map Char.toNat ++
        faceString) := by decide
  have e2c : header2color = [10] ++
      ("property float x\nproperty float y\nproperty float z\n".toList.map Char.toNat ++
        colorString ++ faceString) := by decide
  have e3 : header3 = [10] ++
      ("property list uchar int vertex_index\n".toList.map Char.toNat ++ endHeaderString) := by
    decide
  constructor
  · intro h1 h0 hS
    have hc : m.vertices.length ≠ m.vertexcolors.length := by omega
    refine ⟨_, _, writeMeshToPLY_plain floatBytes uninit m hV hF hc hS, rfl, ?_, ?_, ?_, ?_, rfl,
      fun v _ => vertexRecord_length floatBytes v, fun t _ => faceRecord_length t, ?_⟩
    · refine ⟨"ply\nformat binary_little_endian 1.0\n".toList.map Char.toNat,
        ("property float x\nproperty float y\nproperty float z\n".toList.map Char.toNat ++
          faceString) ++ decimal m.triangles.length ++ header3, ?_⟩
      rw [e1, e2]
      simp only [List.append_assoc]
    · refine ⟨header1 ++ decimal m.vertices.length ++ ([10] ++
        "property float x\nproperty float y\nproperty float z\n".toList.map Char.toNat),
        "property list uchar int vertex_index\n".toList.map Char.toNat ++ endHeaderString, ?_⟩
      rw [e2, e3]
      simp only [List.append_assoc]
    · apply not_occurs_of_not_mem colorString _ 103 (by decide)
      simp only [List.mem_append, not_or]
      exact ⟨⟨⟨⟨by decide, decimal_ne _ 103 (Or.inr (by decide))⟩, by decide⟩,
        decimal_ne _ 103 (Or.inr (by decide))⟩, by decide⟩
    · refine ⟨header1 ++ decimal m.vertices.length ++ header2 ++ decimal m.triangles.length ++
        ([10] ++ "property list uchar int vertex_index\n".toList.map Char.toNat), ?_⟩
      rw [e3]
      simp only [List.append_assoc]
    · rw [List.length_append,
        length_flatMap_of_const (vertexRecord floatBytes) 12 (vertexRecord_length floatBytes),
        length_flatMap_of_const faceRecord 13 faceRecord_length]
  · intro hcl hS
    have hvl := length_flatMap_of_const (colorVertexRecord floatBytes) 15
      (colorVertexRecord_length floatBytes) (m.vertices.zip m.vertexcolors)
    rw [List.length_zip, hcl, Nat.min_self] at hvl
    refine ⟨_, _, writeMeshToPLY_colored floatBytes uninit m hV hF hcl.symm hS, rfl, ?_, ?_, ?_,
      ?_,
      rfl, ?_⟩
    · refine ⟨"ply\nformat binary_little_endian 1.0\n".toList.map Char.toNat,
        ("property float x\nproperty float y\nproperty float z\n".toList.map Char.toNat ++
          colorString ++ faceString) ++ decimal m.triangles.length ++ header3, ?_⟩
      rw [e1, e2c]
      simp only [List.append_assoc]
    · refine ⟨header1 ++ decimal m.vertices.length ++ ([10] ++
        ("property float x\nproperty float y\nproperty float z\n".toList.map Char.toNat ++
          colorString)),
        "property list uchar int vertex_index\n".toList.map Char.toNat ++ endHeaderString, ?_⟩
      rw [e2c, e3]
      simp only [List.append_assoc]
    · refine ⟨header1 ++ decimal m.vertices.length ++ ([10] ++
        "property float x\nproperty float y\nproperty float z\n".toList.map Char.toNat),
        faceString ++ decimal m.triangles.length ++ header3, ?_⟩
      rw [e2c]
      simp only [List.append_assoc]
    · refine ⟨header1 ++ decimal m.vertices.length ++ header2color ++
        decimal m.triangles.length ++
        ([10] ++ "property list uchar int vertex_index\n".toList.map Char.toNat), ?_⟩
      rw [e3]
      simp only [List.append_assoc]
    · rw [List.length_append, hvl,
        length_flatMap_of_const faceRecord 13 faceRecord_length]

/-- The theorem `writeMeshToPLY_layout` on a mesh of three vertices and one
triangle without colors. -/
theorem writeMeshToPLY_layout_witness :
    exampleMeshB.vertices.length < 10 ^ 9 ∧ exampleMeshB.triangles.length < 10 ^ 9 ∧
    1 ≤ exampleMeshB.vertices.length ∧ exampleMeshB.vertexcolors.length = 0 ∧
    51 + (decimal exampleMeshB.vertices.length).length + 65 +
      (decimal exampleMeshB.triangles.length).length + 49 +
      12 * exampleMeshB.vertices.length + 13 * exampleMeshB.triangles.length < 2 ^ 31 ∧
    ∃ header body,
      writeMeshToPLY (fun _ => ⟨0, 0, 128, 63⟩) (fun _ => 0) exampleMeshB =
        .ok (header ++ body) ∧
      header = header1 ++ decimal exampleMeshB.vertices.length ++ header2 ++
        decimal exampleMeshB.triangles.length ++ header3 ∧
      Occurs (vertexString ++ decimal exampleMeshB.vertices.length ++ [10]) header ∧
      Occurs (faceString ++ decimal exampleMeshB.triangles.length ++ [10]) header ∧
      ¬ Occurs colorString header ∧
      (∃ a, header = a ++ endHeaderString) ∧
      body = exampleMeshB.vertices.flatMap (vertexRecord (fun _ => ⟨0, 0, 128, 63⟩)) ++
        exampleMeshB.triangles.flatMap faceRecord ∧
      (∀ v ∈ exampleMeshB.vertices, (vertexRecord (fun _ => ⟨0, 0, 128, 63⟩) v).length = 12) ∧
      (∀ t ∈ exampleMeshB.triangles, (faceRecord t).length = 13) ∧
      body.length = 12 * exampleMeshB.vertices.length + 13 * exampleMeshB.triangles.length :=
  ⟨by decide, by decide, by decide, rfl, by decide,
    (writeMeshToPLY_layout (fun _ => ⟨0, 0, 128, 63⟩) (fun _ => 0) exampleMeshB
      (by decide) (by decide)).1 (by decide) rfl (by decide)⟩

/-! ## The search in a string -/

theorem startsWith_append (b : List Nat) : ∀ (pat s : List Nat),
    startsWith pat s = true → startsWith pat (s ++ b) = true := by
  intro pat
  induction pat with
  | nil => intro s _; rfl
  | cons p pat ih =>
    intro s h
    cases s with
    | nil => simp [startsWith] at h
    | cons c s =>
      simp only [startsWith, Bool.and_eq_true, decide_eq_true_eq] at h
      simp only [List.cons_append, startsWith, Bool.and_eq_true, decide_eq_true_eq]
      exact ⟨h.1, ih s h.2⟩

theorem startsWith_append_false (b : List Nat) : ∀ (pat s : List Nat),
    pat.length ≤ s.length → startsWith pat s = false → startsWith pat (s ++ b) = false := by
  intro pat
  induction pat with
  | nil => intro s _ h; simp [startsWith] at h
  | cons p pat ih =>
    intro s hl h
    cases s with
    | nil => simp at hl
    | cons c s =>
      simp only [List.length_cons] at hl
      simp only [List.cons_append, startsWith, Bool.and_eq_false_iff, decide_eq_false_iff_not]
        at h ⊢
      rcases h with h | h
      · exact Or.inl h
      · exact Or.inr (ih s (by omega) h)

theorem startsWith_length : ∀ (pat s : List Nat), startsWith pat s = true →
    pat.length ≤ s.length := by
  intro pat
  induction pat with
  | nil => intro s _; simp
  | cons p pat ih =>
    intro s h
    cases s with
    | nil => simp [startsWith] at h
    | cons c s =>
      simp only [startsWith, Bool.and_eq_true, decide_eq_true_eq] at h
      simp only [List.length_cons]
      have := ih s h.2
      omega

theorem findLoop_bound (pat : List Nat) : ∀ (s : List Nat) (i k : Nat),
    findLoop pat s i = some k → i ≤ k ∧ k - i + pat.length ≤ s.length := by
  intro s
  induction s with
  | nil =>
    intro i k h
    simp only [findLoop] at h
    split at h
    · rename_i hp
      simp only [Option.some.injEq] at h
      subst h hp
      simp
    · cases h
  | cons c s ih =>
    intro i k h
    simp only [findLoop] at h
    split at h
    · rename_i hs
      simp only [Option.some.injEq] at h
      subst h
      have := startsWith_length pat (c :: s) hs
      simp only [List.length_cons] at this ⊢
      omega
    · have := ih (i + 1) k h
      simp only [List.length_cons]
      omega

theorem findLoop_append (pat b : List Nat) (hp : pat ≠ []) : ∀ (s : List Nat) (i k : Nat),
    findLoop pat s i = some k → findLoop pat (s ++ b) i = some k := by
  intro s
  induction s with
  | nil =>
    intro i k h
    simp only [findLoop, hp, if_false] at h
    cases h
  | cons c s ih =>
    intro i k h
    have hb := findLoop_bound pat (c :: s) i k h
    simp only [findLoop] at h
    show (if startsWith pat (c :: (s ++ b)) = true then some i
      else findLoop pat (s ++ b) (i + 1)) = some k
    split at h
    · rename_i hs
      have : startsWith pat (c :: (s ++ b)) = true := startsWith_append b pat (c :: s) hs
      rw [if_pos this]
      exact h
    · rename_i hs
      have hs' : startsWith pat (c :: s) = false := by simpa using hs
      have : startsWith pat (c :: (s ++ b)) = false :=
        startsWith_append_false b pat (c :: s) (by omega) hs'
      rw [if_neg (by rw [this]; exact Bool.false_ne_true)]
      exact ih (i + 1) k h

theorem stringFind_append (pat s b : List Nat) (k : Nat) (hp : pat ≠ [])
    (h : stringFind s pat = some k) : stringFind (s ++ b) pat = some k :=
  findLoop_append pat b hp s 0 k h

/-! ## The stages of `loadPLY` -/

theorem endHeaderString_length : endHeaderString.length = 11 := by decide

theorem getPLYHeader_eq (uninit : Nat → Nat) (hdr rest : List Nat) (k : Nat)
    (hf : stringFind hdr endHeaderString = some k) (hk : k + 11 = hdr.length)
    (hl : hdr.length ≤ 2048) :
    _getPLYHeader uninit ⟨hdr ++ rest, 0, false⟩ =
      (if 2048 ≤ (hdr ++ rest).length then ⟨hdr ++ rest, 2048, false⟩
        else ⟨hdr ++ rest, (hdr ++ rest).length, true⟩, some hdr) := by
  have hne : endHeaderString ≠ [] := by decide
  have hseek : (IfStream.mk (hdr ++ rest) 0 false).seekg 0 = ⟨hdr ++ rest, 0, false⟩ := by
    simp [IfStream.seekg]
  have hfind : ∀ X, stringFind (hdr ++ X) endHeaderString = some k := fun X =>
    stringFind_append endHeaderString hdr X k hne hf
  have htake : ∀ X, (hdr ++ X).take (k + endHeaderString.length) = hdr := by
    intro X
    rw [endHeaderString_length, hk, List.take_left' rfl]
  by_cases hlong : 2048 ≤ (hdr ++ rest).length
  · have hcond : (2048 : Int) ≤ ((hdr ++ rest).length : Int) := by
      exact_mod_cast hlong
    have hread : (IfStream.mk (hdr ++ rest) 0 false).read 2048 =
        ((hdr ++ rest).take 2048, ⟨hdr ++ rest, 2048, false⟩) := by
      simp only [IfStream.read, Bool.false_eq_true, if_false, List.drop_zero, hcond, if_true]
      rfl
    have hsplit : (hdr ++ rest).take 2048 = hdr ++ rest.take (2048 - hdr.length) := by
      rw [List.take_append_eq_append_take, List.take_of_length_le hl]
    simp only [_getPLYHeader, hseek, hread, hsplit, List.append_assoc, hfind, htake, hlong,
      if_true]
  · have hcond : ¬ (2048 : Int) ≤ ((hdr ++ rest).length : Int) := by
      intro h
      exact hlong (by exact_mod_cast h)
    have hread : (IfStream.mk (hdr ++ rest) 0 false).read 2048 =
        (hdr ++ rest, ⟨hdr ++ rest, (hdr ++ rest).length, true⟩) := by
      simp only [IfStream.read, Bool.false_eq_true, if_false, List.drop_zero, hcond]
    simp only [_getPLYHeader, hseek, hread, List.append_assoc, hfind, htake, hlong, if_false]

theorem loadPLYVertexData_failed_stream (bytesFloat : Bytes4 → ℚ) (file : IfStream)
    (header : List Nat) (m : TriangleMesh) (N : Int) (hfail : file.failbit = true)
    (hN : _getNumVerticesInPLYHeader header = some N) (h0 : 0 < N) :
    _loadPLYVertexData bytesFloat file header m = .ok (false, file, m) := by
  have hne : N ≠ 0 := by omega
  have hseek : ∀ p, file.seekg p = file := by
    intro p; simp [IfStream.seekg, hfail]
  have hread : ∀ n, file.read n = ([], file) := by
    intro n; simp [IfStream.read, hfail]
  have hsize : ¬ N * (if _isVertexColorsEnabledInPLYHeader header = true then 3 * 4 + 3 * 1
      else 3 * 4) < 0 := by
    split
    · omega
    · omega
  simp only [_loadPLYVertexData, hN, hne, if_false, hseek, hsize, hread, hfail, if_true,
    pure_eq_ok]

theorem loadPLY_short_file (bytesFloat : Bytes4 → ℚ) (uninit : Nat → Nat)
    (hdr rest : List Nat) (m : TriangleMesh) (k : Nat) (N : Int)
    (hf : stringFind hdr endHeaderString = some k) (hk : k + 11 = hdr.length)
    (hshort : (hdr ++ rest).length < 2048)
    (hN : _getNumVerticesInPLYHeader hdr = some N) (h0 : 0 < N) :
    loadPLY bytesFloat uninit (some (hdr ++ rest)) m = .ok (false, clear m) := by
  have hl : hdr.length ≤ 2048 := by
    rw [List.length_append] at hshort; omega
  have hh := getPLYHeader_eq uninit hdr rest k hf hk hl
  rw [if_neg (by omega)] at hh
  have hv := loadPLYVertexData_failed_stream bytesFloat
    ⟨hdr ++ rest, (hdr ++ rest).length, true⟩ hdr (clear m) N rfl hN h0
  simp only [loadPLY, hh, hv, ok_bind, Bool.not_false, if_true, pure_eq_ok]

theorem loadPLYVertexData_good (bytesFloat : Bytes4 → ℚ) (hdr vdata tail : List Nat)
    (p : Nat) (m : TriangleMesh) (N : Int)
    (hN : _getNumVerticesInPLYHeader hdr = some N) (h0 : 0 < N)
    (hc : _isVertexColorsEnabledInPLYHeader hdr = false)
    (hv : vdata.length = 12 * N.toNat) :
    _loadPLYVertexData bytesFloat ⟨hdr ++ (vdata ++ tail), p, false⟩ hdr m =
      .ok (true, ⟨hdr ++ (vdata ++ tail), hdr.length + vdata.length, false⟩,
        { m with vertices := plyVertices bytesFloat 12 N.toNat vdata }) := by
  have hne : N ≠ 0 := by omega
  have hseek : (IfStream.mk (hdr ++ (vdata ++ tail)) p false).seekg (hdr.length : Int) =
      ⟨hdr ++ (vdata ++ tail), hdr.length, false⟩ := by
    simp [IfStream.seekg]
  have hsize : ¬ N * (3 * 4) < 0 := by omega
  have hn : (N * (3 * 4)).toNat = vdata.length := by omega
  have hle : N * (3 * 4) ≤ (((hdr ++ (vdata ++ tail)).drop hdr.length).length : Int) := by
    rw [List.drop_left' rfl, List.length_append]
    push_cast
    omega
  have hread : (IfStream.mk (hdr ++ (vdata ++ tail)) hdr.length false).read (N * (3 * 4)) =
      (vdata, ⟨hdr ++ (vdata ++ tail), hdr.length + vdata.length, false⟩) := by
    simp only [IfStream.read, Bool.false_eq_true, if_false, hle, if_true, hn]
    rw [List.drop_left' rfl, List.take_left' rfl]
  simp only [_loadPLYVertexData, hN, hne, if_false, hc, Bool.false_eq_true, hseek, hsize,
    hread, pure_eq_ok]

theorem loadPLYTriangleData_good (hdr vdata fdata tail : List Nat) (p : Nat)
    (m : TriangleMesh) (N M : Int)
    (hN : _getNumVerticesInPLYHeader hdr = some N) (h0 : 0 ≤ N)
    (hM : _getNumFacesInPLYHeader hdr = some M) (hM0 : 0 < M)
    (hc : _isVertexColorsEnabledInPLYHeader hdr = false)
    (hv : vdata.length = 12 * N.toNat) (hfd : fdata.length = 13 * M.toNat) :
    _loadPLYTriangleData ⟨hdr ++ (vdata ++ (fdata ++ tail)), p, false⟩ hdr m =
      .ok ((plyFaceLoop N M.toNat fdata m.triangles).1,
        { m with triangles := (plyFaceLoop N M.toNat fdata m.triangles).2 }) := by
  have hne : M ≠ 0 := by omega
  have hoff : (hdr.length : Int) + N * (3 * 4) = ((hdr.length + vdata.length : Nat) : Int) := by
    push_cast
    omega
  have hseek : (IfStream.mk (hdr ++ (vdata ++ (fdata ++ tail))) p false).seekg
      ((hdr.length + vdata.length : Nat) : Int) =
      ⟨hdr ++ (vdata ++ (fdata ++ tail)), hdr.length + vdata.length, false⟩ := by
    simp only [IfStream.seekg, Bool.false_eq_true, if_false, Int.natCast_nonneg, if_true,
      Int.toNat_ofNat]
  have hsize : ¬ M * (1 + 3 * 4) < 0 := by omega
  have hn : (M * (1 + 3 * 4)).toNat = fdata.length := by omega
  have hdrop : (hdr ++ (vdata ++ (fdata ++ tail))).drop (hdr.length + vdata.length) =
      fdata ++ tail := by
    rw [← List.append_assoc, List.drop_left' (by rw [List.length_append])]
  have hle : M * (1 + 3 * 4) ≤
      (((hdr ++ (vdata ++ (fdata ++ tail))).drop (hdr.length + vdata.length)).length : Int) := by
    rw [hdrop, List.length_append]
    push_cast
    omega
  have hread : (IfStream.mk (hdr ++ (vdata ++ (fdata ++ tail))) (hdr.length + vdata.length)
      false).read (M * (1 + 3 * 4)) =
      (fdata, ⟨hdr ++ (vdata ++ (fdata ++ tail)), hdr.length + vdata.length + fdata.length,
        false⟩) := by
    simp only [IfStream.read, Bool.false_eq_true, if_false, hle, if_true, hn]
    rw [hdrop, List.take_left' rfl]
  simp only [_loadPLYTriangleData, hN, hc, Bool.false_eq_true, if_false, hM, hne, hoff, hseek,
    hsize, hread, pure_eq_ok]

theorem loadPLY_long_file (bytesFloat : Bytes4 → ℚ) (uninit : Nat → Nat)
    (hdr vdata fdata tail : List Nat) (m : TriangleMesh) (k : Nat) (N M : Int)
    (hf : stringFind hdr endHeaderString = some k) (hk : k + 11 = hdr.length)
    (hl : hdr.length ≤ 2048) (hlong : 2048 ≤ (hdr ++ (vdata ++ (fdata ++ tail))).length)
    (hN : _getNumVerticesInPLYHeader hdr = some N) (h0 : 0 < N)
    (hM : _getNumFacesInPLYHeader hdr = some M) (hM0 : 0 < M)
    (hc : _isVertexColorsEnabledInPLYHeader hdr = false)
    (hv : vdata.length = 12 * N.toNat) (hfd : fdata.length = 13 * M.toNat) :
    loadPLY bytesFloat uninit (some (hdr ++ (vdata ++ (fdata ++ tail)))) m =
      .ok ((plyFaceLoop N M.toNat fdata []).1,
        ⟨plyVertices bytesFloat 12 N.toNat vdata, [], (plyFaceLoop N M.toNat fdata []).2, [], [],
          m._triangleAreas⟩) := by
  have hh := getPLYHeader_eq uninit hdr (vdata ++ (fdata ++ tail)) k hf hk hl
  rw [if_pos hlong] at hh
  have hvs := loadPLYVertexData_good bytesFloat hdr vdata (fdata ++ tail) 2048 (clear m) N hN h0
    hc hv
  have hts := loadPLYTriangleData_good hdr vdata fdata tail (hdr.length + vdata.length)
    { clear m with vertices := plyVertices bytesFloat 12 N.toNat vdata } N M hN (by omega) hM
    hM0 hc hv hfd
  simp only [loadPLY, hh, hvs, ok_bind, Bool.not_true, Bool.false_eq_true, if_false, hts]
  cases hres : (plyFaceLoop N M.toNat fdata
      ({ clear m with vertices := plyVertices bytesFloat 12 N.toNat vdata } :
        TriangleMesh).triangles).1 with
  | true =>
    have hres' : (plyFaceLoop N M.toNat fdata []).1 = true := hres
    simp only [hres', Bool.not_true, Bool.false_eq_true, if_false, pure_eq_ok]
    rfl
  | false =>
    have hres' : (plyFaceLoop N M.toNat fdata []).1 = false := hres
    simp only [hres', Bool.not_false, if_true, pure_eq_ok]
    rfl

theorem plyFaceLoop_inRange (N : Int) : ∀ (n : Nat) (faceData : List Nat)
    (triangles : List Triangle),
    (∀ t ∈ triangles, (0 ≤ t.t0 ∧ t.t0 < N) ∧ (0 ≤ t.t1 ∧ t.t1 < N) ∧ (0 ≤ t.t2 ∧ t.t2 < N)) →
    ∀ t ∈ (plyFaceLoop N n faceData triangles).2,
      (0 ≤ t.t0 ∧ t.t0 < N) ∧ (0 ≤ t.t1 ∧ t.t1 < N) ∧ (0 ≤ t.t2 ∧ t.t2 < N) := by
  intro n
  induction n with
  | zero =>
    intro faceData triangles h t ht
    exact h t ht
  | succ n ih =>
    intro faceData triangles h t ht
    rw [plyFaceLoop] at ht
    dsimp only at ht
    split at ht
    · exact h t ht
    · split at ht
      · exact h t ht
      · rename_i hr
        refine ih _ _ ?_ t ht
        intro s hs
        rcases List.mem_append.1 hs with hs | hs
        · exact h s hs
        · simp only [List.mem_singleton] at hs
          subst hs
          simp only [ge_iff_le] at hr
          dsimp only
          omega

theorem loadPLYVertexData_false (bytesFloat : Bytes4 → ℚ) (file : IfStream)
    (header : List Nat) (m : TriangleMesh) (file' : IfStream) (m' : TriangleMesh)
    (h : _loadPLYVertexData bytesFloat file header m = .ok (false, file', m')) : m' = m := by
  unfold _loadPLYVertexData at h
  cases hN : _getNumVerticesInPLYHeader header with
  | none =>
    simp only [hN, pure_eq_ok, Except.ok.injEq, Prod.mk.injEq] at h
    exact h.2.2.symm
  | some N =>
    simp only [hN] at h
    by_cases h0 : N = 0
    · simp [h0] at h
    · simp only [h0, if_false] at h
      cases hc : _isVertexColorsEnabledInPLYHeader header with
      | true =>
        simp only [hc, if_true] at h
        by_cases hneg : N * (3 * 4 + 3 * 1) < 0
        · simp only [hneg, if_true] at h
          cases h
        · simp only [hneg, if_false] at h
          by_cases hfb : ((file.seekg ↑header.length).read (N * (3 * 4 + 3 * 1))).2.failbit = true
          · simp only [hfb, if_true, pure_eq_ok, Except.ok.injEq, Prod.mk.injEq] at h
            exact h.2.2.symm
          · rw [if_neg hfb] at h
            simp at h
      | false =>
        simp only [hc, Bool.false_eq_true, if_false] at h
        by_cases hneg : N * (3 * 4) < 0
        · simp only [hneg, if_true] at h
          cases h
        · simp only [hneg, if_false] at h
          by_cases hfb : ((file.seekg ↑header.length).read (N * (3 * 4))).2.failbit = true
          · simp only [hfb, if_true, pure_eq_ok, Except.ok.injEq, Prod.mk.injEq] at h
            exact h.2.2.symm
          · rw [if_neg hfb] at h
            simp at h

theorem loadPLYVertexData_state (bytesFloat : Bytes4 → ℚ) (file : IfStream)
    (header : List Nat) (m : TriangleMesh) (b : Bool) (file' : IfStream) (m' : TriangleMesh)
    (h : _loadPLYVertexData bytesFloat file header m = .ok (b, file', m')) :
    m'.normals = m.normals ∧ m'.triangles = m.triangles := by
  unfold _loadPLYVertexData at h
  cases hN : _getNumVerticesInPLYHeader header with
  | none =>
    simp only [hN, pure_eq_ok, Except.ok.injEq, Prod.mk.injEq] at h
    obtain ⟨_, _, rfl⟩ := h
    exact ⟨rfl, rfl⟩
  | some N =>
    simp only [hN] at h
    by_cases h0 : N = 0
    · simp only [h0, if_true, pure_eq_ok, Except.ok.injEq, Prod.mk.injEq] at h
      obtain ⟨_, _, rfl⟩ := h
      exact ⟨rfl, rfl⟩
    · simp only [h0, if_false] at h
      cases hc : _isVertexColorsEnabledInPLYHeader header with
      | true =>
        simp only [hc, if_true] at h
        by_cases hneg : N * (3 * 4 + 3 * 1) < 0
        · simp only [hneg, if_true] at h
          cases h
        · simp only [hneg, if_false] at h
          by_cases hfb : ((file.seekg ↑header.length).read (N * (3 * 4 + 3 * 1))).2.failbit = true
          · simp only [hfb, if_true, pure_eq_ok, Except.ok.injEq, Prod.mk.injEq] at h
            obtain ⟨_, _, rfl⟩ := h
            exact ⟨rfl, rfl⟩
          · rw [if_neg hfb] at h
            simp only [pure_eq_ok, Except.ok.injEq, Prod.mk.injEq] at h
            obtain ⟨_, _, rfl⟩ := h
            exact ⟨rfl, rfl⟩
      | false =>
        simp only [hc, Bool.false_eq_true, if_false] at h
        by_cases hneg : N * (3 * 4) < 0
        · simp only [hneg, if_true] at h
          cases h
        · simp only [hneg, if_false] at h
          by_cases hfb : ((file.seekg ↑header.length).read (N * (3 * 4))).2.failbit = true
          · simp only [hfb, if_true, pure_eq_ok, Except.ok.injEq, Prod.mk.injEq] at h
            obtain ⟨_, _, rfl⟩ := h
            exact ⟨rfl, rfl⟩
          · rw [if_neg hfb] at h
            simp only [pure_eq_ok, Except.ok.injEq, Prod.mk.injEq] at h
            obtain ⟨_, _, rfl⟩ := h
            exact ⟨rfl, rfl⟩

theorem loadPLYTriangleData_state (file : IfStream) (header : List Nat) (m : TriangleMesh)
    (b : Bool) (m' : TriangleMesh) (h : _loadPLYTriangleData file header m = .ok (b, m')) :
    m'.vertices = m.vertices ∧ m'.vertexcolors = m.vertexcolors ∧ m'.normals = m.normals ∧
    ∀ N, _getNumVerticesInPLYHeader header = some N →
      (∀ t ∈ m.triangles,
        (0 ≤ t.t0 ∧ t.t0 < N) ∧ (0 ≤ t.t1 ∧ t.t1 < N) ∧ (0 ≤ t.t2 ∧ t.t2 < N)) →
      ∀ t ∈ m'.triangles,
        (0 ≤ t.t0 ∧ t.t0 < N) ∧ (0 ≤ t.t1 ∧ t.t1 < N) ∧ (0 ≤ t.t2 ∧ t.t2 < N) := by
  unfold _loadPLYTriangleData at h
  cases hN : _getNumVerticesInPLYHeader header with
  | none =>
    simp only [hN, pure_eq_ok, Except.ok.injEq, Prod.mk.injEq] at h
    obtain ⟨_, rfl⟩ := h
    exact ⟨rfl, rfl, rfl, fun N hN' => by cases hN'⟩
  | some N =>
    simp only [hN] at h
    cases hM : _getNumFacesInPLYHeader header with
    | none =>
      simp only [hM, pure_eq_ok, Except.ok.injEq, Prod.mk.injEq] at h
      obtain ⟨_, rfl⟩ := h
      exact ⟨rfl, rfl, rfl, fun N' _ ht => ht⟩
    | some M =>
      simp only [hM] at h
      by_cases h0 : M = 0
      · simp only [h0, if_true, pure_eq_ok, Except.ok.injEq, Prod.mk.injEq] at h
        obtain ⟨_, rfl⟩ := h
        exact ⟨rfl, rfl, rfl, fun N' _ ht => ht⟩
      · simp only [h0, if_false] at h
        generalize hvs : (if _isVertexColorsEnabledInPLYHeader header = true then
          (3 * 4 + 3 * 1 : Int) else 3 * 4) = vs at h
        by_cases hneg : M * (1 + 3 * 4) < 0
        · simp only [hneg, if_true] at h
          cases h
        · simp only [hneg, if_false] at h
          by_cases hfb : ((file.seekg (↑header.length + N * vs)).read
              (M * (1 + 3 * 4))).2.failbit = true
          · simp only [hfb, if_true, pure_eq_ok, Except.ok.injEq, Prod.mk.injEq] at h
            obtain ⟨_, rfl⟩ := h
            exact ⟨rfl, rfl, rfl, fun N' _ ht => ht⟩
          · simp only [hfb, if_false, pure_eq_ok, Except.ok.injEq, Prod.mk.injEq] at h
            obtain ⟨_, rfl⟩ := h
            refine ⟨rfl, rfl, rfl, ?_⟩
            intro N' hN' ht
            simp only [Option.some.injEq] at hN'
            subst hN'
            exact plyFaceLoop_inRange N _ _ _ ht

/-! ## The claims on `loadPLY` -/

theorem plyVertices_length (bytesFloat : Bytes4 → ℚ) (vertexSize : Nat) :
    ∀ (n : Nat) (vertexData : List Nat),
    (plyVertices bytesFloat vertexSize n vertexData).length = n := by
  intro n
  induction n with
  | zero => intro _; rfl
  | succ n ih =>
    intro vertexData
    simp only [plyVertices, List.length_cons, ih]

theorem plyHeaderOneFace_find : stringFind plyHeaderOneFace endHeaderString = some 156 := by
  decide

theorem plyHeaderOneFace_length : plyHeaderOneFace.length = 167 := rfl

theorem plyHeaderOneFace_vertices : _getNumVerticesInPLYHeader plyHeaderOneFace = some 3 := by
  decide

theorem plyHeaderOneFace_faces : _getNumFacesInPLYHeader plyHeaderOneFace = some 1 := by
  decide

theorem plyHeaderOneFace_colors :
    _isVertexColorsEnabledInPLYHeader plyHeaderOneFace = false := by
  decide

theorem loadPLY_oneFace (bytesFloat : Bytes4 → ℚ) (uninit : Nat → Nat) (m : TriangleMesh) :
    loadPLY bytesFloat uninit (some plyFileOneFace) m = .ok (false, clear m) :=
  loadPLY_short_file bytesFloat uninit plyHeaderOneFace _ m 156 3 plyHeaderOneFace_find rfl
    (by
      rw [List.length_append, plyHeaderOneFace_length]
      simp only [List.length_append, List.length_replicate, List.length_cons, List.length_nil]
      omega)
    plyHeaderOneFace_vertices (by decide)

/-- C25 at `exampleMeshB`, a mesh of three vertices and the triangle
`(0, 1, 2)`, whatever the bytes of a `float` are: `writeMeshToPLY` returns 216
bytes, and `loadPLY` returns `false` for them and leaves the mesh without
vertices and triangles.  The `read` of 2048 characters in `_getPLYHeader` finds
216 and sets `failbit`; the `seekg` and the `read` of `_loadPLYVertexData` then
do nothing. -/
theorem loadPLY_rejects_written_file :
    IndicesInRange exampleMeshB ∧
    ∀ (floatBytes : ℚ → Bytes4) (bytesFloat : Bytes4 → ℚ) (uninit uninit' : Nat → Nat)
      (m : TriangleMesh),
      ∃ bytes, writeMeshToPLY floatBytes uninit exampleMeshB = .ok bytes ∧
        bytes.length = 216 ∧
        loadPLY bytesFloat uninit' (some bytes) m = .ok (false, clear m) ∧
        (clear m).vertices = [] ∧ (clear m).triangles = [] := by
  refine ⟨by decide, ?_⟩
  intro floatBytes bytesFloat uninit uninit' m
  have hw := writeMeshToPLY_plain floatBytes uninit exampleMeshB (by decide) (by decide)
    (by decide) (by decide)
  have hblen : (exampleMeshB.vertices.flatMap (vertexRecord floatBytes) ++
      exampleMeshB.triangles.flatMap faceRecord).length = 49 := by
    rw [List.length_append,
      length_flatMap_of_const (vertexRecord floatBytes) 12 (vertexRecord_length floatBytes),
      length_flatMap_of_const faceRecord 13 faceRecord_length]
    rfl
  have hlen : (plyHeaderOneFace ++ (exampleMeshB.vertices.flatMap (vertexRecord floatBytes) ++
      exampleMeshB.triangles.flatMap faceRecord)).length = 216 := by
    rw [List.length_append, plyHeaderOneFace_length, hblen]
  refine ⟨plyHeaderOneFace ++ (exampleMeshB.vertices.flatMap (vertexRecord floatBytes) ++
    exampleMeshB.triangles.flatMap faceRecord), hw, hlen, ?_, rfl, rfl⟩
  exact loadPLY_short_file bytesFloat uninit' plyHeaderOneFace _ m 156 3
    plyHeaderOneFace_find rfl (by rw [hlen]; decide) plyHeaderOneFace_vertices (by decide)

/-- C26 at `plyFileOneFace`, a file of 216 bytes whose header declares three
vertices and one face and whose face record has the vertex count `3` and the
indices `0, 1, 2`: `loadPLY` returns `false`.  The same bytes followed by
bytes `0` up to the length 2048 are loaded, with three vertices and the
triangle `(0, 1, 2)`. -/
theorem loadPLY_rejects_short_valid_file :
    plyFileOneFace.length = 216 ∧
    _getNumVerticesInPLYHeader plyHeaderOneFace = some 3 ∧
    _getNumFacesInPLYHeader plyHeaderOneFace = some 1 ∧
    plyFaceLoop 3 1 [3, 0, 0, 0, 0, 1, 0, 0, 0, 2, 0, 0, 0] [] = (true, [⟨0, 1, 2⟩]) ∧
    (∀ (bytesFloat : Bytes4 → ℚ) (uninit : Nat → Nat) (m : TriangleMesh),
      loadPLY bytesFloat uninit (some plyFileOneFace) m = .ok (false, clear m)) ∧
    (∀ (bytesFloat : Bytes4 → ℚ) (uninit : Nat → Nat) (m : TriangleMesh),
      ∃ m', loadPLY bytesFloat uninit (some plyFileOneFacePadded) m = .ok (true, m') ∧
        m'.vertices.length = 3 ∧ m'.triangles = [⟨0, 1, 2⟩]) := by
  refine ⟨rfl, plyHeaderOneFace_vertices, plyHeaderOneFace_faces, by decide,
    loadPLY_oneFace, ?_⟩
  intro bytesFloat uninit m
  have h := loadPLY_long_file bytesFloat uninit plyHeaderOneFace (List.replicate 36 0)
    [3, 0, 0, 0, 0, 1, 0, 0, 0, 2, 0, 0, 0] (List.replicate 1832 0) m 156 3 1
    plyHeaderOneFace_find rfl (by rw [plyHeaderOneFace_length]; decide)
    (by
      rw [List.length_append, plyHeaderOneFace_length]
      simp only [List.length_append, List.length_replicate, List.length_cons, List.length_nil]
      omega)
    plyHeaderOneFace_vertices (by decide) plyHeaderOneFace_faces (by decide)
    plyHeaderOneFace_colors (by rw [List.length_replicate]; rfl) rfl
  have hloop : plyFaceLoop 3 (1 : Int).toNat [3, 0, 0, 0, 0, 1, 0, 0, 0, 2, 0, 0, 0] [] =
      (true, [⟨0, 1, 2⟩]) := by decide
  rw [hloop] at h
  exact ⟨_, h, plyVertices_length bytesFloat 12 _ _, rfl⟩

theorem plyHeaderTwoFaces_find : stringFind plyHeaderTwoFaces endHeaderString = some 156 := by
  decide

theorem plyHeaderTwoFaces_length : plyHeaderTwoFaces.length = 167 := rfl

theorem plyHeaderTwoFaces_vertices : _getNumVerticesInPLYHeader plyHeaderTwoFaces = some 3 := by
  decide

theorem plyHeaderTwoFaces_faces : _getNumFacesInPLYHeader plyHeaderTwoFaces = some 2 := by
  decide

theorem plyHeaderTwoFaces_colors :
    _isVertexColorsEnabledInPLYHeader plyHeaderTwoFaces = false := by
  decide

theorem loadPLY_badFace (bytesFloat : Bytes4 → ℚ) (uninit : Nat → Nat) (m : TriangleMesh) :
    ∃ m', loadPLY bytesFloat uninit (some plyFileBadFace) m = .ok (false, m') ∧
      m'.vertices.length = 3 ∧ m'.triangles = [⟨0, 1, 2⟩] := by
  have h := loadPLY_long_file bytesFloat uninit plyHeaderTwoFaces (List.replicate 36 0)
    [3, 0, 0, 0, 0, 1, 0, 0, 0, 2, 0, 0, 0, 4, 0, 0, 0, 0, 1, 0, 0, 0, 2, 0, 0, 0]
    (List.replicate 2000 0) m 156 3 2
    plyHeaderTwoFaces_find rfl (by rw [plyHeaderTwoFaces_length]; decide)
    (by
      rw [List.length_append, plyHeaderTwoFaces_length]
      simp only [List.length_append, List.length_replicate, List.length_cons, List.length_nil]
      omega)
    plyHeaderTwoFaces_vertices (by decide) plyHeaderTwoFaces_faces (by decide)
    plyHeaderTwoFaces_colors (by rw [List.length_replicate]; rfl) (by decide)
  have hloop : plyFaceLoop 3 (2 : Int).toNat
      [3, 0, 0, 0, 0, 1, 0, 0, 0, 2, 0, 0, 0, 4, 0, 0, 0, 0, 1, 0, 0, 0, 2, 0, 0, 0]
      [] = (false, [⟨0, 1, 2⟩]) := by decide
  rw [hloop] at h
  exact ⟨_, h, plyVertices_length bytesFloat 12 _ _, rfl⟩

/-- The mesh after a call of `loadPLY` that returns `false`: the normals are
empty, and either the mesh is the cleared mesh, with no vertices, colors and triangles,
or the vertex stage had returned `true`: then the vertices and colors of the
vertex stage are in the mesh and every triangle of the mesh has its indices in
`[0, N)` for the vertex count `N` of the header.  The mesh is the cleared mesh
whenever the file cannot be opened, the header has no end, or the vertex stage
does not return `true`. -/
theorem loadPLY_failure_state (bytesFloat : Bytes4 → ℚ) (uninit : Nat → Nat)
    (file : Option (List Nat)) (m m' : TriangleMesh)
    (h : loadPLY bytesFloat uninit file m = .ok (false, m')) :
    m'.normals = [] ∧
    (m' = clear m ∨
      ∃ bytes header v, file = some bytes ∧
        (_getPLYHeader uninit ⟨bytes, 0, false⟩).2 = some header ∧
        _loadPLYVertexData bytesFloat (_getPLYHeader uninit ⟨bytes, 0, false⟩).1 header
          (clear m) = .ok (true, v) ∧
        m'.vertices = v.2.vertices ∧ m'.vertexcolors = v.2.vertexcolors ∧
        ∀ N, _getNumVerticesInPLYHeader header = some N → ∀ t ∈ m'.triangles,
          (0 ≤ t.t0 ∧ t.t0 < N) ∧ (0 ≤ t.t1 ∧ t.t1 < N) ∧ (0 ≤ t.t2 ∧ t.t2 < N)) ∧
    (file = none → m' = clear m) ∧
    (∀ bytes, file = some bytes → (_getPLYHeader uninit ⟨bytes, 0, false⟩).2 = none →
      m' = clear m) ∧
    (∀ bytes header, file = some bytes →
      (_getPLYHeader uninit ⟨bytes, 0, false⟩).2 = some header →
      (∀ v, _loadPLYVertexData bytesFloat (_getPLYHeader uninit ⟨bytes, 0, false⟩).1 header
        (clear m) ≠ .ok (true, v)) → m' = clear m) := by
  have hclear : (clear m).normals = [] := rfl
  cases file with
  | none =>
    simp only [loadPLY, pure_eq_ok, Except.ok.injEq, Prod.mk.injEq, true_and] at h
    subst h
    refine ⟨rfl, Or.inl rfl, fun _ => rfl, ?_, ?_⟩
    · intro b hb
      cases hb
    · intro b hd hb
      cases hb
  | some bytes =>
    cases hh : (_getPLYHeader uninit ⟨bytes, 0, false⟩).2 with
    | none =>
      simp only [loadPLY, hh, pure_eq_ok, Except.ok.injEq, Prod.mk.injEq, true_and] at h
      subst h
      refine ⟨rfl, Or.inl rfl, ?_, fun _ _ _ => rfl, fun _ _ _ _ _ => rfl⟩
      intro hn
      cases hn
    | some header =>
      simp only [loadPLY, hh] at h
      cases hv : _loadPLYVertexData bytesFloat (_getPLYHeader uninit ⟨bytes, 0, false⟩).1
          header (clear m) with
      | error e =>
        rw [hv] at h
        cases h
      | ok v =>
        rw [hv] at h
        obtain ⟨b, file', mv⟩ := v
        cases b with
        | false =>
          simp only [ok_bind, Bool.not_false, if_true, pure_eq_ok, Except.ok.injEq,
            Prod.mk.injEq, true_and] at h
          have hmv := loadPLYVertexData_false bytesFloat _ header (clear m) file' mv hv
          subst h
          subst hmv
          refine ⟨rfl, Or.inl rfl, ?_, fun _ _ _ => rfl, fun _ _ _ _ _ => rfl⟩
          intro hn
          cases hn
        | true =>
          simp only [ok_bind, Bool.not_true, Bool.false_eq_true, if_false] at h
          cases ht : _loadPLYTriangleData file' header mv with
          | error e =>
            rw [ht] at h
            cases h
          | ok t =>
            rw [ht] at h
            obtain ⟨bt, mt⟩ := t
            cases bt with
            | true => simp at h
            | false =>
              simp only [ok_bind, Bool.not_false, if_true, pure_eq_ok, Except.ok.injEq,
                Prod.mk.injEq, true_and] at h
              subst h
              obtain ⟨h1, h2, h3, h4⟩ := loadPLYTriangleData_state file' header mv false mt ht
              obtain ⟨hvn, hvt⟩ := loadPLYVertexData_state bytesFloat _ header (clear m) true
                file' mv hv
              refine ⟨by rw [h3, hvn]; rfl, Or.inr ⟨bytes, header, (file', mv), rfl, hh, hv, h1,
                h2, ?_⟩, ?_, ?_, ?_⟩
              · intro N hN t ht'
                refine h4 N hN ?_ t ht'
                intro s hs
                rw [hvt] at hs
                cases hs
              · intro hn
                cases hn
              · intro b hb hnone
                cases hb
                rw [hh] at hnone
                cases hnone
              · intro b hd hb hsome hne
                cases hb
                rw [hh] at hsome
                cases hsome
                exact absurd hv (hne (file', mv))

/-- The theorem `loadPLY_failure_state` on the file `plyFileOneFace`, for which
`loadPLY` returns `false` in the vertex stage. -/
theorem loadPLY_failure_state_witness :
    loadPLY (fun _ => 0) (fun _ => 0) (some plyFileOneFace) exampleMeshA =
      .ok (false, clear exampleMeshA) ∧
    (clear exampleMeshA).normals = [] ∧
    (clear exampleMeshA = clear exampleMeshA ∨
      ∃ bytes header v, some plyFileOneFace = some bytes ∧
        (_getPLYHeader (fun _ => 0) ⟨bytes, 0, false⟩).2 = some header ∧
        _loadPLYVertexData (fun _ => 0) (_getPLYHeader (fun _ => 0) ⟨bytes, 0, false⟩).1 header
          (clear exampleMeshA) = .ok (true, v) ∧
        (clear exampleMeshA).vertices = v.2.vertices ∧
        (clear exampleMeshA).vertexcolors = v.2.vertexcolors ∧
        ∀ N, _getNumVerticesInPLYHeader header = some N → ∀ t ∈ (clear exampleMeshA).triangles,
          (0 ≤ t.t0 ∧ t.t0 < N) ∧ (0 ≤ t.t1 ∧ t.t1 < N) ∧ (0 ≤ t.t2 ∧ t.t2 < N)) ∧
    (some plyFileOneFace = none → clear exampleMeshA = clear exampleMeshA) ∧
    (∀ bytes, some plyFileOneFace = some bytes →
      (_getPLYHeader (fun _ => 0) ⟨bytes, 0, false⟩).2 = none →
      clear exampleMeshA = clear exampleMeshA) ∧
    (∀ bytes header, some plyFileOneFace = some bytes →
      (_getPLYHeader (fun _ => 0) ⟨bytes, 0, false⟩).2 = some header →
      (∀ v, _loadPLYVertexData (fun _ => 0) (_getPLYHeader (fun _ => 0) ⟨bytes, 0, false⟩).1
        header (clear exampleMeshA) ≠ .ok (true, v)) →
      clear exampleMeshA = clear exampleMeshA) :=
  ⟨loadPLY_oneFace (fun _ => 0) (fun _ => 0) exampleMeshA,
    loadPLY_failure_state (fun _ => 0) (fun _ => 0) (some plyFileOneFace) exampleMeshA
      (clear exampleMeshA) (loadPLY_oneFace (fun _ => 0) (fun _ => 0) exampleMeshA)⟩

/-- C27 at `plyFileBadFace`, whose second face record has the vertex count
`4`: `loadPLY` returns `false`, and the mesh holds the three vertices of the
file and the triangle of the first face record afterwards, where the claim
has three empty lists.  The other ways in which `loadPLY` returns `false`
leave the cleared mesh, for every file: the file that cannot be opened, the
header without an end, and the vertex stage that does not return `true`. -/
theorem loadPLY_failure_keeps_loaded_data :
    (∃ m', loadPLY (fun _ => 0) (fun _ => 0) (some plyFileBadFace) exampleMeshA =
        .ok (false, m') ∧
      m'.vertices.length = 3 ∧ m'.triangles = [⟨0, 1, 2⟩] ∧
      ¬ (m'.vertices = [] ∧ m'.vertexcolors = [] ∧ m'.triangles = [])) ∧
    (∀ (bytesFloat : Bytes4 → ℚ) (uninit : Nat → Nat) (file : Option (List Nat))
      (m m' : TriangleMesh), loadPLY bytesFloat uninit file m = .ok (false, m') →
      (file = none → m' = clear m) ∧
      (∀ bytes, file = some bytes → (_getPLYHeader uninit ⟨bytes, 0, false⟩).2 = none →
        m' = clear m) ∧
      (∀ bytes header, file = some bytes →
        (_getPLYHeader uninit ⟨bytes, 0, false⟩).2 = some header →
        (∀ v, _loadPLYVertexData bytesFloat (_getPLYHeader uninit ⟨bytes, 0, false⟩).1 header
          (clear m) ≠ .ok (true, v)) → m' = clear m)) := by
  constructor
  · obtain ⟨m', h, hv, ht⟩ := loadPLY_badFace (fun _ => 0) (fun _ => 0) exampleMeshA
    refine ⟨m', h, hv, ht, ?_⟩
    rintro ⟨_, _, h3⟩
    rw [ht] at h3
    cases h3
  · intro bytesFloat uninit file m m' h
    exact (loadPLY_failure_state bytesFloat uninit file m m' h).2.2

/-! ## The ray test: the vectors of triangle indices -/

theorem triangleAt_ok (m : TriangleMesh) (idx : Int)
    (h : 0 ≤ idx ∧ idx < (m.triangles.length : Int)) :
    vecGet m.triangles idx = .ok (triangleAt m idx) := by
  obtain ⟨t, ht, _⟩ := vecGet_ok m.triangles idx h.1 h.2
  simp only [triangleAt, ht]

theorem getTrianglePosition_ok (m : TriangleMesh) (hr : IndicesInRange m) (idx : Int)
    (h : 0 ≤ idx ∧ idx < (m.triangles.length : Int)) :
    ∃ tri, getTrianglePosition m idx = .ok tri := by
  have ht := triangleAt_ok m idx h
  have hmem : triangleAt m idx ∈ m.triangles := by
    rw [vecGet_eq_ok_iff] at ht
    exact List.mem_iff_getElem?.2 ⟨_, ht.2⟩
  obtain ⟨⟨a0, a1⟩, ⟨b0, b1⟩, ⟨c0, c1⟩⟩ := hr _ hmem
  obtain ⟨a, ha, _⟩ := vecGet_ok m.vertices _ a0 a1
  obtain ⟨b, hb, _⟩ := vecGet_ok m.vertices _ b0 b1
  obtain ⟨c, hc, _⟩ := vecGet_ok m.vertices _ c0 c1
  refine ⟨(a, b, c), ?_⟩
  have hsize : (triangleAt m idx).t0 < (m.vertices.length : Int) ∧
      (triangleAt m idx).t1 < (m.vertices.length : Int) ∧
      (triangleAt m idx).t2 < (m.vertices.length : Int) := ⟨a1, b1, c1⟩
  simp only [getTrianglePosition, h, and_self, if_true, ht, ok_bind, hsize, ha, hb, hc,
    pure_eq_ok]

theorem lineHit_of_position
    (lineIntersectsTriangle : Vec3 → Vec3 → Vec3 → Vec3 → Vec3 → Option (ℚ × ℚ))
    (m : TriangleMesh) (p dir : Vec3) (idx : Int) (tri : Vec3 × Vec3 × Vec3)
    (h : getTrianglePosition m idx = .ok tri) :
    lineHit lineIntersectsTriangle m p dir idx =
      lineIntersectsTriangle p dir tri.1 tri.2.1 tri.2.2 := by
  simp only [lineHit, h]

theorem isTriangleInVector_eq (m : TriangleMesh) (index : Int)
    (hv : 0 ≤ index ∧ index < (m.triangles.length : Int)) : ∀ tris : List Int,
    (∀ x ∈ tris, 0 ≤ x ∧ x < (m.triangles.length : Int)) →
    _isTriangleInVector m index tris =
      .ok (decide (triangleAt m index ∈ tris.map (triangleAt m))) := by
  intro tris
  induction tris with
  | nil => intro _; simp [_isTriangleInVector]
  | cons x tris ih =>
    intro h
    have hx := triangleAt_ok m x (h x (List.mem_cons_self _ _))
    have hi := triangleAt_ok m index hv
    have ih' := ih (fun y hy => h y (List.mem_cons_of_mem _ hy))
    by_cases heq : triangleAt m index = triangleAt m x
    · have he : _trianglesEqual (triangleAt m index) (triangleAt m x) = true :=
        (_trianglesEqual_iff _ _).2 heq
      have hd : decide (triangleAt m index ∈ (x :: tris).map (triangleAt m)) = true :=
        decide_eq_true (by rw [List.map_cons]; exact List.mem_cons.2 (Or.inl heq))
      rw [hd]
      simp only [_isTriangleInVector, hi, hx, ok_bind, he, if_true, pure_eq_ok]
    · have he : _trianglesEqual (triangleAt m index) (triangleAt m x) = false := by
        cases hb : _trianglesEqual (triangleAt m index) (triangleAt m x) with
        | false => rfl
        | true => exact absurd ((_trianglesEqual_iff _ _).1 hb) heq
      simp only [_isTriangleInVector, hi, hx, ok_bind, he, Bool.false_eq_true, if_false, ih',
        List.map_cons, List.mem_cons, heq, false_or]

theorem isIntInVector_eq (v : Int) : ∀ ints : List Int,
    _isIntInVector v ints = decide (v ∈ ints) := by
  intro ints
  induction ints with
  | nil => simp [_isIntInVector]
  | cons x ints ih =>
    by_cases h : x = v
    · simp [_isIntInVector, h]
    · have h' : ¬ v = x := fun e => h e.symm
      simp [_isIntInVector, h, ih, h']

theorem intersectingTrianglesLoop_spec
    (lineIntersectsTriangle : Vec3 → Vec3 → Vec3 → Vec3 → Vec3 → Option (ℚ × ℚ))
    (m : TriangleMesh) (dx : ℚ) (p dir : Vec3) (hr : IndicesInRange m) :
    ∀ (indices tris : List Int) (num : Int),
    (∀ idx ∈ indices, 0 ≤ idx ∧ idx < (m.triangles.length : Int)) →
    (∀ x ∈ tris, 0 ≤ x ∧ x < (m.triangles.length : Int)) →
    (∀ idx ∈ indices, ∀ uv, lineHit lineIntersectsTriangle m p dir idx = some uv →
      _isOnTriangleEdge dx uv.1 uv.2 = false) →
    (tris.map (triangleAt m)).Nodup →
    ∃ new, intersectingTrianglesLoop lineIntersectsTriangle m dx p dir indices tris num =
        .ok (num + (new.length : Int), tris ++ new, true) ∧
      (∀ x ∈ new, 0 ≤ x ∧ x < (m.triangles.length : Int)) ∧
      ((tris ++ new).map (triangleAt m)).Nodup ∧
      ∀ t, t ∈ (tris ++ new).map (triangleAt m) ↔
        t ∈ tris.map (triangleAt m) ∨
        t ∈ (indices.filter fun idx =>
          (lineHit lineIntersectsTriangle m p dir idx).isSome).map (triangleAt m) := by
  intro indices
  induction indices with
  | nil =>
    intro tris num _ _ _ hnd
    refine ⟨[], ?_, ?_, ?_, ?_⟩
    · simp [intersectingTrianglesLoop]
    · intro x hx
      cases hx
    · simpa using hnd
    · intro t
      simp
  | cons idx indices ih =>
    intro tris num hvi hvt hedge hnd
    have hvidx := hvi idx (List.mem_cons_self _ _)
    have hvi' : ∀ x ∈ indices, 0 ≤ x ∧ x < (m.triangles.length : Int) :=
      fun x hx => hvi x (List.mem_cons_of_mem _ hx)
    have hedge' : ∀ x ∈ indices, ∀ uv, lineHit lineIntersectsTriangle m p dir x = some uv →
        _isOnTriangleEdge dx uv.1 uv.2 = false :=
      fun x hx => hedge x (List.mem_cons_of_mem _ hx)
    obtain ⟨tri, htri⟩ := getTrianglePosition_ok m hr idx hvidx
    have hline := lineHit_of_position lineIntersectsTriangle m p dir idx tri htri
    cases hl : lineIntersectsTriangle p dir tri.1 tri.2.1 tri.2.2 with
    | none =>
      have hH : (lineHit lineIntersectsTriangle m p dir idx).isSome = false := by
        rw [hline, hl]; rfl
      obtain ⟨new, hrun, hvn, hnd', hmem⟩ := ih tris num hvi' hvt hedge' hnd
      refine ⟨new, ?_, hvn, hnd', ?_⟩
      · simp only [intersectingTrianglesLoop, htri, ok_bind, hl]
        exact hrun
      · intro t
        rw [hmem t, List.filter_cons]
        simp only [hH, Bool.false_eq_true, if_false]
    | some uv =>
      have hH : (lineHit lineIntersectsTriangle m p dir idx).isSome = true := by
        rw [hline, hl]; rfl
      have hne : _isOnTriangleEdge dx uv.1 uv.2 = false :=
        hedge idx (List.mem_cons_self _ _) uv (by rw [hline, hl])
      have hfound := isTriangleInVector_eq m idx hvidx tris hvt
      by_cases hin : triangleAt m idx ∈ tris.map (triangleAt m)
      · obtain ⟨new, hrun, hvn, hnd', hmem⟩ := ih tris num hvi' hvt hedge' hnd
        refine ⟨new, ?_, hvn, hnd', ?_⟩
        · simp only [intersectingTrianglesLoop, htri, ok_bind, hl, hne, Bool.false_eq_true,
            if_false, hfound, hin, decide_True, Bool.not_true]
          exact hrun
        · intro t
          rw [hmem t, List.filter_cons]
          simp only [hH, if_true, List.map_cons, List.mem_cons]
          constructor
          · rintro (h | h)
            · exact Or.inl h
            · exact Or.inr (Or.inr h)
          · rintro (h | h | h)
            · exact Or.inl h
            · subst h; exact Or.inl hin
            · exact Or.inr h
      · have hvt' : ∀ x ∈ tris ++ [idx], 0 ≤ x ∧ x < (m.triangles.length : Int) := by
          intro x hx
          rcases List.mem_append.1 hx with hx | hx
          · exact hvt x hx
          · simp only [List.mem_singleton] at hx
            subst hx
            exact hvidx
        have hnd1 : ((tris ++ [idx]).map (triangleAt m)).Nodup := by
          rw [List.map_append, List.map_singleton]
          exact List.Nodup.append hnd (List.nodup_singleton _)
            (by
              intro t ht hs
              simp only [List.mem_singleton] at hs
              subst hs
              exact hin ht)
        obtain ⟨new, hrun, hvn, hnd', hmem⟩ := ih (tris ++ [idx]) (num + 1) hvi' hvt' hedge' hnd1
        refine ⟨idx :: new, ?_, ?_, ?_, ?_⟩
        · simp only [intersectingTrianglesLoop, htri, ok_bind, hl, hne, Bool.false_eq_true,
            if_false, hfound, hin, decide_False, Bool.not_false, if_true]
          rw [hrun]
          congr 1
          refine Prod.ext ?_ (Prod.ext ?_ rfl)
          · show num + 1 + (new.length : Int) = num + ((new.length + 1 : Nat) : Int)
            push_cast
            ring
          · show tris ++ [idx] ++ new = tris ++ idx :: new
            simp
        · intro x hx
          rcases List.mem_cons.1 hx with rfl | hx
          · exact hvidx
          · exact hvn x hx
        · have e : tris ++ idx :: new = tris ++ [idx] ++ new := by simp
          rw [e]
          exact hnd'
        · intro t
          have e : tris ++ idx :: new = tris ++ [idx] ++ new := by simp
          rw [e, hmem t, List.filter_cons]
          simp only [hH, if_true, List.map_cons, List.mem_cons, List.map_append,
            List.map_nil, List.mem_append, List.not_mem_nil, or_false]
          tauto

theorem intersectingTrianglesLoop_fails
    (lineIntersectsTriangle : Vec3 → Vec3 → Vec3 → Vec3 → Vec3 → Option (ℚ × ℚ))
    (m : TriangleMesh) (dx : ℚ) (p dir : Vec3) (hr : IndicesInRange m) :
    ∀ (indices tris : List Int) (num : Int),
    (∀ idx ∈ indices, 0 ≤ idx ∧ idx < (m.triangles.length : Int)) →
    (∀ x ∈ tris, 0 ≤ x ∧ x < (m.triangles.length : Int)) →
    (∃ idx ∈ indices, ∃ uv, lineHit lineIntersectsTriangle m p dir idx = some uv ∧
      _isOnTriangleEdge dx uv.1 uv.2 = true) →
    ∃ tris', intersectingTrianglesLoop lineIntersectsTriangle m dx p dir indices tris num =
      .ok (0, tris', false) := by
  intro indices
  induction indices with
  | nil =>
    intro tris num _ _ h
    obtain ⟨idx, hidx, _⟩ := h
    cases hidx
  | cons idx indices ih =>
    intro tris num hvi hvt hex
    have hvidx := hvi idx (List.mem_cons_self _ _)
    have hvi' : ∀ x ∈ indices, 0 ≤ x ∧ x < (m.triangles.length : Int) :=
      fun x hx => hvi x (List.mem_cons_of_mem _ hx)
    obtain ⟨tri, htri⟩ := getTrianglePosition_ok m hr idx hvidx
    have hline := lineHit_of_position lineIntersectsTriangle m p dir idx tri htri
    cases hl : lineIntersectsTriangle p dir tri.1 tri.2.1 tri.2.2 with
    | none =>
      have hex' : ∃ x ∈ indices, ∃ uv, lineHit lineIntersectsTriangle m p dir x = some uv ∧
          _isOnTriangleEdge dx uv.1 uv.2 = true := by
        obtain ⟨x, hx, uv, h1, h2⟩ := hex
        rcases List.mem_cons.1 hx with rfl | hx
        · rw [hline, hl] at h1
          cases h1
        · exact ⟨x, hx, uv, h1, h2⟩
      obtain ⟨tris', hrun⟩ := ih tris num hvi' hvt hex'
      refine ⟨tris', ?_⟩
      simp only [intersectingTrianglesLoop, htri, ok_bind, hl]
      exact hrun
    | some uv =>
      cases he : _isOnTriangleEdge dx uv.1 uv.2 with
      | true =>
        refine ⟨tris, ?_⟩
        simp only [intersectingTrianglesLoop, htri, ok_bind, hl, he, if_true, pure_eq_ok]
      | false =>
        have hex' : ∃ x ∈ indices, ∃ uv, lineHit lineIntersectsTriangle m p dir x = some uv ∧
            _isOnTriangleEdge dx uv.1 uv.2 = true := by
          obtain ⟨x, hx, uv', h1, h2⟩ := hex
          rcases List.mem_cons.1 hx with rfl | hx
          · rw [hline, hl] at h1
            simp only [Option.some.injEq] at h1
            subst h1
            rw [he] at h2
            cases h2
          · exact ⟨x, hx, uv', h1, h2⟩
        have hfound := isTriangleInVector_eq m idx hvidx tris hvt
        by_cases hin : triangleAt m idx ∈ tris.map (triangleAt m)
        · obtain ⟨tris', hrun⟩ := ih tris num hvi' hvt hex'
          refine ⟨tris', ?_⟩
          simp only [intersectingTrianglesLoop, htri, ok_bind, hl, he, Bool.false_eq_true,
            if_false, hfound, hin, decide_True, Bool.not_true]
          exact hrun
        · have hvt' : ∀ x ∈ tris ++ [idx], 0 ≤ x ∧ x < (m.triangles.length : Int) := by
            intro x hx
            rcases List.mem_append.1 hx with hx | hx
            · exact hvt x hx
            · simp only [List.mem_singleton] at hx
              subst hx
              exact hvidx
          obtain ⟨tris', hrun⟩ := ih (tris ++ [idx]) (num + 1) hvi' hvt' hex'
          refine ⟨tris', ?_⟩
          simp only [intersectingTrianglesLoop, htri, ok_bind, hl, he, Bool.false_eq_true,
            if_false, hfound, hin, decide_False, Bool.not_false, if_true]
          exact hrun

theorem collectIntersectionsLoop_spec (m : TriangleMesh) :
    ∀ (intersections side all : List Int),
    (∀ idx ∈ intersections, 0 ≤ idx ∧ idx < (m.triangles.length : Int)) →
    (∀ x ∈ all, 0 ≤ x ∧ x < (m.triangles.length : Int)) →
    (all.map (triangleAt m)).Nodup →
    ∃ new, collectIntersectionsLoop m intersections side all = .ok (side ++ new, all ++ new) ∧
      (∀ x ∈ new, 0 ≤ x ∧ x < (m.triangles.length : Int)) ∧
      ((all ++ new).map (triangleAt m)).Nodup ∧
      ∀ t, t ∈ (all ++ new).map (triangleAt m) ↔
        t ∈ all.map (triangleAt m) ∨ t ∈ intersections.map (triangleAt m) := by
  intro intersections
  induction intersections with
  | nil =>
    intro side all _ _ hnd
    refine ⟨[], ?_, ?_, ?_, ?_⟩
    · simp [collectIntersectionsLoop]
    · intro x hx
      cases hx
    · simpa using hnd
    · intro t
      simp
  | cons idx intersections ih =>
    intro side all hvi hva hnd
    have hvidx := hvi idx (List.mem_cons_self _ _)
    have hvi' : ∀ x ∈ intersections, 0 ≤ x ∧ x < (m.triangles.length : Int) :=
      fun x hx => hvi x (List.mem_cons_of_mem _ hx)
    have hint := isIntInVector_eq idx all
    have hfound := isTriangleInVector_eq m idx hvidx all hva
    by_cases hin : triangleAt m idx ∈ all.map (triangleAt m)
    · obtain ⟨new, hrun, hvn, hnd', hmem⟩ := ih side all hvi' hva hnd
      refine ⟨new, ?_, hvn, hnd', ?_⟩
      · by_cases hidx : idx ∈ all
        · simp only [collectIntersectionsLoop, hint, hidx, decide_True, if_true]
          exact hrun
        · simp only [collectIntersectionsLoop, hint, hidx, decide_False, Bool.false_eq_true,
            if_false, hfound, hin, decide_True, ok_bind, Bool.not_true]
          exact hrun
      · intro t
        rw [hmem t]
        simp only [List.map_cons, List.mem_cons]
        constructor
        · rintro (h | h)
          · exact Or.inl h
          · exact Or.inr (Or.inr h)
        · rintro (h | h | h)
          · exact Or.inl h
          · subst h; exact Or.inl hin
          · exact Or.inr h
    · have hidx : idx ∉ all := fun h => hin (List.mem_map_of_mem _ h)
      have hva' : ∀ x ∈ all ++ [idx], 0 ≤ x ∧ x < (m.triangles.length : Int) := by
        intro x hx
        rcases List.mem_append.1 hx with hx | hx
        · exact hva x hx
        · simp only [List.mem_singleton] at hx
          subst hx
          exact hvidx
      have hnd1 : ((all ++ [idx]).map (triangleAt m)).Nodup := by
        rw [List.map_append, List.map_singleton]
        exact List.Nodup.append hnd (List.nodup_singleton _)
          (by
            intro t ht hs
            simp only [List.mem_singleton] at hs
            subst hs
            exact hin ht)
      obtain ⟨new, hrun, hvn, hnd', hmem⟩ := ih (side ++ [idx]) (all ++ [idx]) hvi' hva' hnd1
      have e1 : side ++ idx :: new = side ++ [idx] ++ new := by simp
      have e2 : all ++ idx :: new = all ++ [idx] ++ new := by simp
      refine ⟨idx :: new, ?_, ?_, ?_, ?_⟩
      · simp only [collectIntersectionsLoop, hint, hidx, decide_False, Bool.false_eq_true,
          if_false, hfound, hin, ok_bind, Bool.not_false, if_true]
        rw [hrun, e1, e2]
      · intro x hx
        rcases List.mem_cons.1 hx with rfl | hx
        · exact hvidx
        · exact hvn x hx
      · rw [e2]; exact hnd'
      · intro t
        rw [e2, hmem t]
        simp only [List.map_cons, List.mem_cons, List.map_append, List.map_nil,
          List.mem_append, List.not_mem_nil, or_false]
        tauto

/-! ## The ray test: the walk along the probe line -/

theorem hitTriangles_cons
    (lineIntersectsTriangle : Vec3 → Vec3 → Vec3 → Vec3 → Vec3 → Option (ℚ × ℚ))
    (m : TriangleMesh) (gs : MeshGrid) (p dir : Vec3) (c : GridIndex) (cells : List GridIndex) :
    hitTriangles lineIntersectsTriangle m gs p dir (c :: cells) =
      ((gs._triGrid.data c).filter fun idx =>
        (lineHit lineIntersectsTriangle m p dir idx).isSome).map (triangleAt m) ++
      hitTriangles lineIntersectsTriangle m gs p dir cells := by
  simp [hitTriangles]

theorem hitTriangles_append
    (lineIntersectsTriangle : Vec3 → Vec3 → Vec3 → Vec3 → Vec3 → Option (ℚ × ℚ))
    (m : TriangleMesh) (gs : MeshGrid) (p dir : Vec3) (a b : List GridIndex) :
    hitTriangles lineIntersectsTriangle m gs p dir (a ++ b) =
      hitTriangles lineIntersectsTriangle m gs p dir a ++
      hitTriangles lineIntersectsTriangle m gs p dir b := by
  simp [hitTriangles]

theorem edgeHit_cons
    (lineIntersectsTriangle : Vec3 → Vec3 → Vec3 → Vec3 → Vec3 → Option (ℚ × ℚ))
    (m : TriangleMesh) (gs : MeshGrid) (p dir : Vec3) (c : GridIndex) (cells : List GridIndex) :
    EdgeHit lineIntersectsTriangle m gs p dir (c :: cells) ↔
      (∃ idx ∈ gs._triGrid.data c, ∃ uv,
        lineHit lineIntersectsTriangle m p dir idx = some uv ∧
          _isOnTriangleEdge gs._dx uv.1 uv.2 = true) ∨
      EdgeHit lineIntersectsTriangle m gs p dir cells := by
  simp [EdgeHit]

theorem edgeHit_append
    (lineIntersectsTriangle : Vec3 → Vec3 → Vec3 → Vec3 → Vec3 → Option (ℚ × ℚ))
    (m : TriangleMesh) (gs : MeshGrid) (p dir : Vec3) (a b : List GridIndex) :
    EdgeHit lineIntersectsTriangle m gs p dir (a ++ b) ↔
      EdgeHit lineIntersectsTriangle m gs p dir a ∨
      EdgeHit lineIntersectsTriangle m gs p dir b := by
  simp only [EdgeHit, List.mem_append]
  constructor
  · rintro ⟨c, hc | hc, h⟩
    · exact Or.inl ⟨c, hc, h⟩
    · exact Or.inr ⟨c, hc, h⟩
  · rintro (⟨c, hc, h⟩ | ⟨c, hc, h⟩)
    · exact ⟨c, Or.inl hc, h⟩
    · exact ⟨c, Or.inr hc, h⟩

theorem getIntersectingTrianglesInCell_spec
    (lineIntersectsTriangle : Vec3 → Vec3 → Vec3 → Vec3 → Vec3 → Option (ℚ × ℚ))
    (m : TriangleMesh) (gs : MeshGrid) (p dir : Vec3) (hr : IndicesInRange m)
    (hsize : gs._triGrid.HasGridSize gs) (hvalid : TriGridValid m gs) (c : GridIndex)
    (hc : isGridIndexInRange c gs._gridi gs._gridj gs._gridk = true)
    (hne : ¬ ∃ idx ∈ gs._triGrid.data c, ∃ uv,
      lineHit lineIntersectsTriangle m p dir idx = some uv ∧
        _isOnTriangleEdge gs._dx uv.1 uv.2 = true) :
    ∃ n ints, _getIntersectingTrianglesInCell lineIntersectsTriangle m gs c p dir [] =
        .ok (n, ints, true) ∧
      (∀ x ∈ ints, 0 ≤ x ∧ x < (m.triangles.length : Int)) ∧
      ∀ t, t ∈ ints.map (triangleAt m) ↔
        t ∈ ((gs._triGrid.data c).filter fun idx =>
          (lineHit lineIntersectsTriangle m p dir idx).isSome).map (triangleAt m) := by
  have hget := gs._triGrid.get_ok c (hsize.cellInArray c hc)
  by_cases hlen : (gs._triGrid.data c).length = 0
  · have hnil : gs._triGrid.data c = [] := List.length_eq_zero.1 hlen
    refine ⟨0, [], ?_, ?_, ?_⟩
    · simp only [_getIntersectingTrianglesInCell, hget, ok_bind, hlen, if_true, pure_eq_ok]
    · intro x hx
      cases hx
    · intro t
      rw [hnil]
      simp
  · have hedge : ∀ idx ∈ gs._triGrid.data c, ∀ uv,
        lineHit lineIntersectsTriangle m p dir idx = some uv →
        _isOnTriangleEdge gs._dx uv.1 uv.2 = false := by
      intro idx hidx uv huv
      cases he : _isOnTriangleEdge gs._dx uv.1 uv.2 with
      | false => rfl
      | true => exact absurd ⟨idx, hidx, uv, huv, he⟩ hne
    obtain ⟨new, hrun, hvn, _, hmem⟩ := intersectingTrianglesLoop_spec lineIntersectsTriangle m
      gs._dx p dir hr (gs._triGrid.data c) [] 0 (hvalid c hc) (fun x hx => by cases hx) hedge
      (by simp)
    refine ⟨0 + (new.length : Int), [] ++ new, ?_, ?_, ?_⟩
    · simp only [_getIntersectingTrianglesInCell, hget, ok_bind, hlen, if_false]
      exact hrun
    · intro x hx
      exact hvn x (by simpa using hx)
    · intro t
      rw [hmem t]
      simp

theorem getIntersectingTrianglesInCell_fails
    (lineIntersectsTriangle : Vec3 → Vec3 → Vec3 → Vec3 → Vec3 → Option (ℚ × ℚ))
    (m : TriangleMesh) (gs : MeshGrid) (p dir : Vec3) (hr : IndicesInRange m)
    (hsize : gs._triGrid.HasGridSize gs) (hvalid : TriGridValid m gs) (c : GridIndex)
    (hc : isGridIndexInRange c gs._gridi gs._gridj gs._gridk = true)
    (he : ∃ idx ∈ gs._triGrid.data c, ∃ uv,
      lineHit lineIntersectsTriangle m p dir idx = some uv ∧
        _isOnTriangleEdge gs._dx uv.1 uv.2 = true) :
    ∃ tris', _getIntersectingTrianglesInCell lineIntersectsTriangle m gs c p dir [] =
      .ok (0, tris', false) := by
  have hget := gs._triGrid.get_ok c (hsize.cellInArray c hc)
  have hlen : ¬ (gs._triGrid.data c).length = 0 := by
    obtain ⟨idx, hidx, _⟩ := he
    intro h
    rw [List.length_eq_zero.1 h] at hidx
    cases hidx
  obtain ⟨tris', hrun⟩ := intersectingTrianglesLoop_fails lineIntersectsTriangle m gs._dx p dir
    hr (gs._triGrid.data c) [] 0 (hvalid c hc) (fun x hx => by cases hx) he
  refine ⟨tris', ?_⟩
  simp only [_getIntersectingTrianglesInCell, hget, ok_bind, hlen, if_false]
  exact hrun

theorem probeLoop_spec
    (lineIntersectsTriangle : Vec3 → Vec3 → Vec3 → Vec3 → Vec3 → Option (ℚ × ℚ))
    (m : TriangleMesh) (gs : MeshGrid) (p dir : Vec3) (di : Int) (hr : IndicesInRange m)
    (hsize : gs._triGrid.HasGridSize gs) (hvalid : TriGridValid m gs) :
    ∀ (k : Nat) (n : GridIndex) (fuel : Nat) (side all : List Int), k + 1 ≤ fuel →
    (∀ c ∈ lineCells di k n, isGridIndexInRange c gs._gridi gs._gridj gs._gridk = true) →
    isGridIndexInRange ⟨n.i + di * k, n.j, n.k⟩ gs._gridi gs._gridj gs._gridk = false →
    ¬ EdgeHit lineIntersectsTriangle m gs p dir (lineCells di k n) →
    (∀ x ∈ all, 0 ≤ x ∧ x < (m.triangles.length : Int)) →
    (all.map (triangleAt m)).Nodup →
    ∃ new, probeLoop lineIntersectsTriangle m gs p dir di fuel n side all =
        .ok (some (side ++ new, all ++ new)) ∧
      (∀ x ∈ new, 0 ≤ x ∧ x < (m.triangles.length : Int)) ∧
      ((all ++ new).map (triangleAt m)).Nodup ∧
      ∀ t, t ∈ (all ++ new).map (triangleAt m) ↔
        t ∈ all.map (triangleAt m) ∨
        t ∈ hitTriangles lineIntersectsTriangle m gs p dir (lineCells di k n) := by
  intro k
  induction k with
  | zero =>
    intro n fuel side all hf _ hout _ hva hnd
    obtain ⟨f, rfl⟩ : ∃ f, fuel = f + 1 := ⟨fuel - 1, by omega⟩
    have hn : isGridIndexInRange n gs._gridi gs._gridj gs._gridk = false := by
      have e : (⟨n.i + di * ((0 : Nat) : Int), n.j, n.k⟩ : GridIndex) = n := by
        cases n
        simp
      rw [e] at hout
      exact hout
    refine ⟨[], ?_, ?_, ?_, ?_⟩
    · simp only [probeLoop, hn, Bool.false_eq_true, if_false, pure_eq_ok, List.append_nil]
    · intro x hx
      cases hx
    · simpa using hnd
    · intro t
      simp [lineCells, hitTriangles]
  | succ k ih =>
    intro n fuel side all hf hin hout hne hva hnd
    obtain ⟨f, rfl⟩ : ∃ f, fuel = f + 1 := ⟨fuel - 1, by omega⟩
    have hn : isGridIndexInRange n gs._gridi gs._gridj gs._gridk = true :=
      hin n (by simp [lineCells])
    have hne' := hne
    rw [lineCells, edgeHit_cons] at hne'
    have hne1 := fun h => hne' (Or.inl h)
    have hne2 := fun h => hne' (Or.inr h)
    obtain ⟨cnt, ints, hcell, hvi, hmemi⟩ := getIntersectingTrianglesInCell_spec
      lineIntersectsTriangle m gs p dir hr hsize hvalid n hn hne1
    obtain ⟨new1, hcol, hvn1, hnd1, hmem1⟩ := collectIntersectionsLoop_spec m ints side all hvi
      hva hnd
    have hva1 : ∀ x ∈ all ++ new1, 0 ≤ x ∧ x < (m.triangles.length : Int) := by
      intro x hx
      rcases List.mem_append.1 hx with hx | hx
      · exact hva x hx
      · exact hvn1 x hx
    have hout' : isGridIndexInRange ⟨n.i + di + di * (k : Int), n.j, n.k⟩ gs._gridi gs._gridj
        gs._gridk = false := by
      have e : n.i + di + di * (k : Int) = n.i + di * ((k + 1 : Nat) : Int) := by
        push_cast
        ring
      rw [e]
      exact hout
    obtain ⟨new2, hrun, hvn2, hnd2, hmem2⟩ := ih ⟨n.i + di, n.j, n.k⟩ f (side ++ new1)
      (all ++ new1) (by omega)
      (fun c hc => hin c (by rw [lineCells]; exact List.mem_cons_of_mem _ hc))
      hout' hne2 hva1 hnd1
    refine ⟨new1 ++ new2, ?_, ?_, ?_, ?_⟩
    · simp only [probeLoop, hn, if_true, hcell, ok_bind, Bool.not_true, Bool.false_eq_true,
        if_false, hcol, hrun, List.append_assoc]
    · intro x hx
      rcases List.mem_append.1 hx with hx | hx
      · exact hvn1 x hx
      · exact hvn2 x hx
    · rw [← List.append_assoc]
      exact hnd2
    · intro t
      rw [← List.append_assoc, hmem2 t, hmem1 t, hmemi t, lineCells, hitTriangles_cons,
        List.mem_append]
      tauto

theorem probeLoop_fails
    (lineIntersectsTriangle : Vec3 → Vec3 → Vec3 → Vec3 → Vec3 → Option (ℚ × ℚ))
    (m : TriangleMesh) (gs : MeshGrid) (p dir : Vec3) (di : Int) (hr : IndicesInRange m)
    (hsize : gs._triGrid.HasGridSize gs) (hvalid : TriGridValid m gs) :
    ∀ (k : Nat) (n : GridIndex) (fuel : Nat) (side all : List Int), k + 1 ≤ fuel →
    (∀ c ∈ lineCells di k n, isGridIndexInRange c gs._gridi gs._gridj gs._gridk = true) →
    EdgeHit lineIntersectsTriangle m gs p dir (lineCells di k n) →
    (∀ x ∈ all, 0 ≤ x ∧ x < (m.triangles.length : Int)) →
    (all.map (triangleAt m)).Nodup →
    probeLoop lineIntersectsTriangle m gs p dir di fuel n side all = .ok none := by
  intro k
  induction k with
  | zero =>
    intro n fuel side all _ _ he _ _
    obtain ⟨c, hc, _⟩ := he
    cases hc
  | succ k ih =>
    intro n fuel side all hf hin he hva hnd
    obtain ⟨f, rfl⟩ : ∃ f, fuel = f + 1 := ⟨fuel - 1, by omega⟩
    have hn : isGridIndexInRange n gs._gridi gs._gridj gs._gridk = true :=
      hin n (by simp [lineCells])
    rw [lineCells, edgeHit_cons] at he
    by_cases h1 : ∃ idx ∈ gs._triGrid.data n, ∃ uv,
        lineHit lineIntersectsTriangle m p dir idx = some uv ∧
          _isOnTriangleEdge gs._dx uv.1 uv.2 = true
    · obtain ⟨tris', hcell⟩ := getIntersectingTrianglesInCell_fails lineIntersectsTriangle m gs
        p dir hr hsize hvalid n hn h1
      simp only [probeLoop, hn, if_true, hcell, ok_bind, Bool.not_false, pure_eq_ok]
    · have h2 : EdgeHit lineIntersectsTriangle m gs p dir (lineCells di k ⟨n.i + di, n.j, n.k⟩) := by
        rcases he with he | he
        · exact absurd he h1
        · exact he
      obtain ⟨cnt, ints, hcell, hvi, _⟩ := getIntersectingTrianglesInCell_spec
        lineIntersectsTriangle m gs p dir hr hsize hvalid n hn h1
      obtain ⟨new1, hcol, hvn1, hnd1, _⟩ := collectIntersectionsLoop_spec m ints side all hvi
        hva hnd
      have hva1 : ∀ x ∈ all ++ new1, 0 ≤ x ∧ x < (m.triangles.length : Int) := by
        intro x hx
        rcases List.mem_append.1 hx with hx | hx
        · exact hva x hx
        · exact hvn1 x hx
      have hrun := ih ⟨n.i + di, n.j, n.k⟩ f (side ++ new1) (all ++ new1) (by omega)
        (fun c hc => hin c (by rw [lineCells]; exact List.mem_cons_of_mem _ hc)) h2 hva1 hnd1
      simp only [probeLoop, hn, if_true, hcell, ok_bind, Bool.not_true, Bool.false_eq_true,
        if_false, hcol, hrun]

theorem mem_lineCells (di : Int) : ∀ (k : Nat) (n c : GridIndex),
    c ∈ lineCells di k n ↔ ∃ j : Nat, j < k ∧ c = ⟨n.i + di * j, n.j, n.k⟩ := by
  intro k
  induction k with
  | zero =>
    intro n c
    simp [lineCells]
  | succ k ih =>
    intro n c
    rw [lineCells, List.mem_cons, ih]
    constructor
    · rintro (h | ⟨j, hj, h⟩)
      · refine ⟨0, Nat.succ_pos _, ?_⟩
        rw [h]
        cases n
        simp
      · refine ⟨j + 1, by omega, ?_⟩
        rw [h]
        simp only [GridIndex.mk.injEq, and_true]
        push_cast
        ring
    · rintro ⟨j, hj, h⟩
      cases j with
      | zero =>
        left
        rw [h]
        cases n
        simp
      | succ j =>
        right
        refine ⟨j, by omega, ?_⟩
        rw [h]
        simp only [GridIndex.mk.injEq, and_true]
        push_cast
        ring

theorem mem_leftCells (g c : GridIndex) (h0 : 0 ≤ g.i) :
    c ∈ leftCells g ↔ c.j = g.j ∧ c.k = g.k ∧ 0 ≤ c.i ∧ c.i < g.i := by
  rw [leftCells, mem_lineCells]
  constructor
  · rintro ⟨j, hj, rfl⟩
    refine ⟨rfl, rfl, ?_, ?_⟩
    · show 0 ≤ g.i - 1 + -1 * (j : Int)
      omega
    · show g.i - 1 + -1 * (j : Int) < g.i
      omega
  · rintro ⟨h1, h2, h3, h4⟩
    refine ⟨(g.i - 1 - c.i).toNat, by omega, ?_⟩
    cases c
    simp only [GridIndex.mk.injEq] at h1 h2 h3 h4 ⊢
    refine ⟨by omega, h1, h2⟩

theorem mem_rightCells (gs : MeshGrid) (g c : GridIndex) :
    c ∈ rightCells gs g ↔ c.j = g.j ∧ c.k = g.k ∧ g.i < c.i ∧ c.i < gs._gridi := by
  rw [rightCells, mem_lineCells]
  constructor
  · rintro ⟨j, hj, rfl⟩
    refine ⟨rfl, rfl, ?_, ?_⟩
    · show g.i < g.i + 1 + 1 * (j : Int)
      omega
    · show g.i + 1 + 1 * (j : Int) < gs._gridi
      omega
  · rintro ⟨h1, h2, h3, h4⟩
    refine ⟨(c.i - g.i - 1).toNat, by omega, ?_⟩
    cases c
    simp only [GridIndex.mk.injEq] at h1 h2 h3 h4 ⊢
    refine ⟨by omega, h1, h2⟩

/-! ## The ray test: `_isCellInsideMesh` -/

theorem isOnTriangleEdge_iff (dx u v : ℚ) :
    _isOnTriangleEdge dx u v = true ↔
      |u| < 1 / 100000 * dx ∨ |v| < 1 / 100000 * dx ∨ |u + v - 1| < 1 / 100000 * dx := by
  unfold _isOnTriangleEdge
  by_cases h1 : |u| < 1 / 100000 * dx
  · simp [h1]
  · by_cases h2 : |v| < 1 / 100000 * dx ∨ |u + v - 1| < 1 / 100000 * dx
    · simp only [h1, h2, if_true, if_false, false_or]
    · simp only [h1, h2, if_false, false_or]
      simp

theorem leftCells_inRange (gs : MeshGrid) (g : GridIndex)
    (hg : isGridIndexInRange g gs._gridi gs._gridj gs._gridk = true) :
    ∀ c ∈ leftCells g, isGridIndexInRange c gs._gridi gs._gridj gs._gridk = true := by
  intro c hc
  rw [isGridIndexInRange_iff] at hg ⊢
  rw [mem_leftCells g c hg.1] at hc
  obtain ⟨h1, h2, h3, h4⟩ := hc
  rw [h1, h2]
  omega

theorem rightCells_inRange (gs : MeshGrid) (g : GridIndex)
    (hg : isGridIndexInRange g gs._gridi gs._gridj gs._gridk = true) :
    ∀ c ∈ rightCells gs g, isGridIndexInRange c gs._gridi gs._gridj gs._gridk = true := by
  intro c hc
  rw [isGridIndexInRange_iff] at hg ⊢
  rw [mem_rightCells] at hc
  obtain ⟨h1, h2, h3, h4⟩ := hc
  rw [h1, h2]
  omega

theorem leftEnd_outside (gs : MeshGrid) (g : GridIndex) (h0 : 0 ≤ g.i) :
    isGridIndexInRange ⟨g.i - 1 + -1 * ((g.i.toNat : Nat) : Int), g.j, g.k⟩ gs._gridi gs._gridj
      gs._gridk = false := by
  rw [Bool.eq_false_iff]
  intro h
  rw [isGridIndexInRange_iff] at h
  have := h.1
  simp only at this
  omega

theorem rightEnd_outside (gs : MeshGrid) (g : GridIndex) (h1 : g.i < gs._gridi) :
    isGridIndexInRange ⟨g.i + 1 + 1 * (((gs._gridi - g.i - 1).toNat : Nat) : Int), g.j, g.k⟩
      gs._gridi gs._gridj gs._gridk = false := by
  rw [Bool.eq_false_iff]
  intro h
  rw [isGridIndexInRange_iff] at h
  have := h.2.1
  simp only at this
  omega

theorem isCellInsideMesh_post
    (lineIntersectsTriangle : Vec3 → Vec3 → Vec3 → Vec3 → Vec3 → Option (ℚ × ℚ))
    (m : TriangleMesh) (gs : MeshGrid) (jitter : Vec3) (g : GridIndex)
    (hr : IndicesInRange m) (hsize : gs._triGrid.HasGridSize gs) (hvalid : TriGridValid m gs)
    (hg : isGridIndexInRange g gs._gridi gs._gridj gs._gridk = true)
    (hsurf : gs._triGrid.data g = [])
    (hne : ¬ EdgeHit lineIntersectsTriangle m gs (probePoint gs jitter g) ⟨1, 0, 0⟩
      (leftCells g ++ rightCells gs g)) :
    _isCellInsideMesh lineIntersectsTriangle m gs jitter g =
      if leftCount lineIntersectsTriangle m gs jitter g % 2 =
          rightCount lineIntersectsTriangle m gs jitter g % 2 then
        .ok (decide (leftCount lineIntersectsTriangle m gs jitter g % 2 = 1))
      else .error .assertion := by
  have hg' := (isGridIndexInRange_iff _ _ _ _).1 hg
  rw [edgeHit_append] at hne
  have hneL := fun h => hne (Or.inl h)
  have hneR := fun h => hne (Or.inr h)
  obtain ⟨newL, hrunL, hvL, hndL, hmemL⟩ := probeLoop_spec lineIntersectsTriangle m gs
    (probePoint gs jitter g) ⟨1, 0, 0⟩ (-1) hr hsize hvalid g.i.toNat ⟨g.i - 1, g.j, g.k⟩
    (gs._gridi.toNat + 1) [] [] (by omega) (leftCells_inRange gs g hg)
    (leftEnd_outside gs g hg'.1) hneL (fun x hx => by cases hx) List.nodup_nil
  rw [List.nil_append] at hrunL hndL
  simp only [List.nil_append, List.map_nil, List.not_mem_nil, false_or] at hmemL
  obtain ⟨newR, hrunR, hvR, hndR, hmemR⟩ := probeLoop_spec lineIntersectsTriangle m gs
    (probePoint gs jitter g) ⟨1, 0, 0⟩ 1 hr hsize hvalid (gs._gridi - g.i - 1).toNat
    ⟨g.i + 1, g.j, g.k⟩ (gs._gridi.toNat + 1) [] newL (by omega) (rightCells_inRange gs g hg)
    (rightEnd_outside gs g hg'.2.1) hneR hvL hndL
  rw [List.nil_append] at hrunR
  have hL : leftCount lineIntersectsTriangle m gs jitter g = newL.length := by
    have e : (hitTriangles lineIntersectsTriangle m gs (probePoint gs jitter g) ⟨1, 0, 0⟩
        (leftCells g)).toFinset = (newL.map (triangleAt m)).toFinset := by
      ext t
      rw [List.mem_toFinset, List.mem_toFinset, hmemL t]
      rfl
    rw [leftCount, e, List.toFinset_card_of_nodup hndL, List.length_map]
  have hR : rightCount lineIntersectsTriangle m gs jitter g = newR.length := by
    rw [List.map_append] at hndR
    have hdis := List.disjoint_of_nodup_append hndR
    have e : (hitTriangles lineIntersectsTriangle m gs (probePoint gs jitter g) ⟨1, 0, 0⟩
          (rightCells gs g)).toFinset \
        (hitTriangles lineIntersectsTriangle m gs (probePoint gs jitter g) ⟨1, 0, 0⟩
          (leftCells g)).toFinset = (newR.map (triangleAt m)).toFinset := by
      ext t
      rw [Finset.mem_sdiff, List.mem_toFinset, List.mem_toFinset, List.mem_toFinset]
      have h1 := hmemR t
      rw [List.map_append, List.mem_append] at h1
      have h2 := hmemL t
      constructor
      · rintro ⟨ha, hb⟩
        rcases h1.2 (Or.inr ha) with h | h
        · exact absurd (h2.1 h) hb
        · exact h
      · intro ha
        have hb : t ∉ newL.map (triangleAt m) := fun hb => hdis hb ha
        refine ⟨?_, fun hc => hb (h2.2 hc)⟩
        rcases h1.1 (Or.inr ha) with h | h
        · exact absurd h hb
        · exact h
    rw [rightCount, e, List.toFinset_card_of_nodup (List.nodup_append.1 hndR).2.1,
      List.length_map]
  rw [hL, hR]
  have hget := gs._triGrid.get_ok g (hsize.cellInArray g hg)
  unfold probePoint at hrunL hrunR
  simp only [_isCellInsideMesh, hg, if_true, hget, ok_bind, hsurf, List.length_nil, hrunL,
    hrunR, pure_eq_ok]

theorem isCellInsideMesh_fails
    (lineIntersectsTriangle : Vec3 → Vec3 → Vec3 → Vec3 → Vec3 → Option (ℚ × ℚ))
    (m : TriangleMesh) (gs : MeshGrid) (jitter : Vec3) (g : GridIndex)
    (hr : IndicesInRange m) (hsize : gs._triGrid.HasGridSize gs) (hvalid : TriGridValid m gs)
    (hg : isGridIndexInRange g gs._gridi gs._gridj gs._gridk = true)
    (hsurf : gs._triGrid.data g = [])
    (he : EdgeHit lineIntersectsTriangle m gs (probePoint gs jitter g) ⟨1, 0, 0⟩
      (leftCells g ++ rightCells gs g)) :
    _isCellInsideMesh lineIntersectsTriangle m gs jitter g = .ok false := by
  have hg' := (isGridIndexInRange_iff _ _ _ _).1 hg
  have hget := gs._triGrid.get_ok g (hsize.cellInArray g hg)
  rw [edgeHit_append] at he
  by_cases hL : EdgeHit lineIntersectsTriangle m gs (probePoint gs jitter g) ⟨1, 0, 0⟩
      (leftCells g)
  · have hrunL := probeLoop_fails lineIntersectsTriangle m gs (probePoint gs jitter g)
      ⟨1, 0, 0⟩ (-1) hr hsize hvalid g.i.toNat ⟨g.i - 1, g.j, g.k⟩ (gs._gridi.toNat + 1) [] []
      (by omega) (leftCells_inRange gs g hg) hL (fun x hx => by cases hx) List.nodup_nil
    unfold probePoint at hrunL
    simp only [_isCellInsideMesh, hg, if_true, hget, ok_bind, hsurf, List.length_nil, hrunL,
      pure_eq_ok]
  · have hR : EdgeHit lineIntersectsTriangle m gs (probePoint gs jitter g) ⟨1, 0, 0⟩
        (rightCells gs g) := by
      rcases he with he | he
      · exact absurd he hL
      · exact he
    obtain ⟨newL, hrunL, hvL, hndL, _⟩ := probeLoop_spec lineIntersectsTriangle m gs
      (probePoint gs jitter g) ⟨1, 0, 0⟩ (-1) hr hsize hvalid g.i.toNat ⟨g.i - 1, g.j, g.k⟩
      (gs._gridi.toNat + 1) [] [] (by omega) (leftCells_inRange gs g hg)
      (leftEnd_outside gs g hg'.1) hL (fun x hx => by cases hx) List.nodup_nil
    rw [List.nil_append] at hrunL hndL
    have hrunR := probeLoop_fails lineIntersectsTriangle m gs (probePoint gs jitter g)
      ⟨1, 0, 0⟩ 1 hr hsize hvalid (gs._gridi - g.i - 1).toNat ⟨g.i + 1, g.j, g.k⟩
      (gs._gridi.toNat + 1) [] newL (by omega) (rightCells_inRange gs g hg) hR hvL hndL
    unfold probePoint at hrunL hrunR
    simp only [_isCellInsideMesh, hg, if_true, hget, ok_bind, hsurf, List.length_nil, hrunL,
      hrunR, pure_eq_ok]

theorem hitInside_no_edge (m : TriangleMesh) (gs : MeshGrid) (p dir : Vec3)
    (cells : List GridIndex) (hdx : gs._dx = 1) : ¬ EdgeHit hitInside m gs p dir cells := by
  rintro ⟨c, _, idx, _, uv, h1, h2⟩
  have huv : uv = (1 / 3, 1 / 3) := by
    unfold lineHit at h1
    cases hp : getTrianglePosition m idx with
    | error e =>
      rw [hp] at h1
      cases h1
    | ok tri =>
      rw [hp] at h1
      simp only [hitInside, Option.some.injEq] at h1
      exact h1.symm
  rw [huv, hdx, isOnTriangleEdge_iff] at h2
  norm_num [abs_of_pos] at h2

theorem exampleProbeGrid_valid : TriGridValid exampleMeshTwoTriangles exampleProbeGrid := by
  intro c _ idx hidx
  simp only [exampleProbeGrid] at hidx
  split_ifs at hidx
  · rw [List.mem_singleton.1 hidx]
    decide
  · rw [List.mem_singleton.1 hidx]
    decide
  · cases hidx

theorem exampleProbeGridLeft_valid :
    TriGridValid exampleMeshTwoTriangles exampleProbeGridLeft := by
  intro c _ idx hidx
  simp only [exampleProbeGridLeft] at hidx
  split_ifs at hidx
  · rw [List.mem_singleton.1 hidx]
    decide
  · cases hidx

/-! ## C21 and C22: the parity rule and the hits on an edge -/

/-- C21, as the claim states it, fails: on the grid of three cells in a row
with one triangle registered in the cell `(0, 0, 0)`, which the probe line of
the cell `(1, 0, 0)` hits in its interior, no per-cell test fails and the
number of distinct triangles hit on the left is `1`, which is odd, but the
number on the right is `0`, so the assertion of line 1056 fails and the call
does not return `true`. -/
theorem isCellInsideMesh_parity_mismatch :
    IndicesInRange exampleMeshTwoTriangles ∧
    exampleProbeGridLeft._triGrid.HasGridSize exampleProbeGridLeft ∧
    TriGridValid exampleMeshTwoTriangles exampleProbeGridLeft ∧
    isGridIndexInRange ⟨1, 0, 0⟩ exampleProbeGridLeft._gridi exampleProbeGridLeft._gridj
      exampleProbeGridLeft._gridk = true ∧
    exampleProbeGridLeft._triGrid.data ⟨1, 0, 0⟩ = [] ∧
    ¬ EdgeHit hitInside exampleMeshTwoTriangles exampleProbeGridLeft
      (probePoint exampleProbeGridLeft ⟨0, 0, 0⟩ ⟨1, 0, 0⟩) ⟨1, 0, 0⟩
      (leftCells ⟨1, 0, 0⟩ ++ rightCells exampleProbeGridLeft ⟨1, 0, 0⟩) ∧
    leftCount hitInside exampleMeshTwoTriangles exampleProbeGridLeft ⟨0, 0, 0⟩ ⟨1, 0, 0⟩ = 1 ∧
    rightCount hitInside exampleMeshTwoTriangles exampleProbeGridLeft ⟨0, 0, 0⟩ ⟨1, 0, 0⟩ = 0 ∧
    _isCellInsideMesh hitInside exampleMeshTwoTriangles exampleProbeGridLeft ⟨0, 0, 0⟩
      ⟨1, 0, 0⟩ = .error .assertion ∧
    ¬ (_isCellInsideMesh hitInside exampleMeshTwoTriangles exampleProbeGridLeft ⟨0, 0, 0⟩
        ⟨1, 0, 0⟩ = .ok true ↔
      leftCount hitInside exampleMeshTwoTriangles exampleProbeGridLeft ⟨0, 0, 0⟩ ⟨1, 0, 0⟩ % 2
        = 1) := by
  have hL : leftCount hitInside exampleMeshTwoTriangles exampleProbeGridLeft ⟨0, 0, 0⟩
      ⟨1, 0, 0⟩ = 1 := by decide
  have hR : rightCount hitInside exampleMeshTwoTriangles exampleProbeGridLeft ⟨0, 0, 0⟩
      ⟨1, 0, 0⟩ = 0 := by decide
  have hne := hitInside_no_edge exampleMeshTwoTriangles exampleProbeGridLeft
    (probePoint exampleProbeGridLeft ⟨0, 0, 0⟩ ⟨1, 0, 0⟩) ⟨1, 0, 0⟩
    (leftCells ⟨1, 0, 0⟩ ++ rightCells exampleProbeGridLeft ⟨1, 0, 0⟩) rfl
  have hrun : _isCellInsideMesh hitInside exampleMeshTwoTriangles exampleProbeGridLeft
      ⟨0, 0, 0⟩ ⟨1, 0, 0⟩ = .error .assertion := by
    rw [isCellInsideMesh_post hitInside exampleMeshTwoTriangles exampleProbeGridLeft ⟨0, 0, 0⟩
      ⟨1, 0, 0⟩ (by decide) ⟨rfl, rfl, rfl⟩ exampleProbeGridLeft_valid (by decide) (by decide)
      hne, hL, hR]
    rfl
  refine ⟨by decide, ⟨rfl, rfl, rfl⟩, exampleProbeGridLeft_valid, by decide, by decide, hne,
    hL, hR, hrun, ?_⟩
  rw [hrun, hL]
  intro h
  have := h.2 (by decide)
  cases this

/-- C21, amended: for a cell `g` of the grid in which no triangle is
registered, when no triangle registered in a cell `(i, g.j, g.k)` with
`i ≠ g.i` is hit on an edge, `_isCellInsideMesh(g)` returns `true` iff the
number of distinct triangles hit in the cells with `i < g.i` is odd, provided
that this number and the number of distinct triangles hit in the cells with
`g.i < i` and not counted on the left have the same parity; when the two
parities differ, the assertion of line 1056 fails. -/
theorem isCellInsideMesh_parity
    (lineIntersectsTriangle : Vec3 → Vec3 → Vec3 → Vec3 → Vec3 → Option (ℚ × ℚ))
    (m : TriangleMesh) (gs : MeshGrid) (jitter : Vec3) (g : GridIndex)
    (hr : IndicesInRange m) (hsize : gs._triGrid.HasGridSize gs) (hvalid : TriGridValid m gs)
    (hg : isGridIndexInRange g gs._gridi gs._gridj gs._gridk = true)
    (hsurf : gs._triGrid.data g = [])
    (hne : ¬ EdgeHit lineIntersectsTriangle m gs (probePoint gs jitter g) ⟨1, 0, 0⟩
      (leftCells g ++ rightCells gs g)) :
    (leftCount lineIntersectsTriangle m gs jitter g % 2 =
        rightCount lineIntersectsTriangle m gs jitter g % 2 →
      (∃ b, _isCellInsideMesh lineIntersectsTriangle m gs jitter g = .ok b) ∧
      (_isCellInsideMesh lineIntersectsTriangle m gs jitter g = .ok true ↔
        leftCount lineIntersectsTriangle m gs jitter g % 2 = 1)) ∧
    (leftCount lineIntersectsTriangle m gs jitter g % 2 ≠
        rightCount lineIntersectsTriangle m gs jitter g % 2 →
      _isCellInsideMesh lineIntersectsTriangle m gs jitter g = .error .assertion) := by
  have hpost := isCellInsideMesh_post lineIntersectsTriangle m gs jitter g hr hsize hvalid hg
    hsurf hne
  constructor
  · intro h
    rw [if_pos h] at hpost
    refine ⟨⟨_, hpost⟩, ?_⟩
    rw [hpost]
    constructor
    · intro h1
      injection h1 with h1
      exact of_decide_eq_true h1
    · intro h1
      rw [decide_eq_true h1]
  · intro h
    rw [if_neg h] at hpost
    exact hpost

/-- The parity rule on the grid of three cells in a row with one triangle hit
on each side of the cell `(1, 0, 0)`: both counts are `1` and the call
returns `true`. -/
theorem isCellInsideMesh_parity_witness :
    leftCount hitInside exampleMeshTwoTriangles exampleProbeGrid ⟨0, 0, 0⟩ ⟨1, 0, 0⟩ = 1 ∧
    rightCount hitInside exampleMeshTwoTriangles exampleProbeGrid ⟨0, 0, 0⟩ ⟨1, 0, 0⟩ = 1 ∧
    _isCellInsideMesh hitInside exampleMeshTwoTriangles exampleProbeGrid ⟨0, 0, 0⟩ ⟨1, 0, 0⟩ =
      .ok true :=
  ⟨by decide, by decide,
    ((isCellInsideMesh_parity hitInside exampleMeshTwoTriangles exampleProbeGrid ⟨0, 0, 0⟩
      ⟨1, 0, 0⟩ (by decide) ⟨rfl, rfl, rfl⟩ exampleProbeGrid_valid (by decide) (by decide)
      (hitInside_no_edge exampleMeshTwoTriangles exampleProbeGrid _ _ _ rfl)).1
        (by decide)).2.2 (by decide)⟩

theorem enterTriangleLoop_mem (i : Int) :
    ∀ (cells : List GridIndex) (triGrid triGrid' : Array3d (List Int)),
    enterTriangleLoop i cells triGrid = .ok triGrid' →
    ∀ c idx, idx ∈ triGrid'.data c → idx ∈ triGrid.data c ∨ idx = i := by
  intro cells
  induction cells with
  | nil =>
    intro tg tg' h c idx hidx
    simp only [enterTriangleLoop] at h
    injection h with h
    subst h
    exact Or.inl hidx
  | cons g cells ih =>
    intro tg tg' h c idx hidx
    by_cases hg : isGridIndexInRange g tg.width tg.height tg.depth = true
    · simp only [enterTriangleLoop, tg.get_ok g hg, ok_bind, tg.set_ok g _ hg] at h
      rcases ih _ _ h c idx hidx with h1 | h1
      · simp only at h1
        by_cases e : c = g
        · rw [if_pos e, List.mem_append, List.mem_singleton] at h1
          rcases h1 with h1 | h1
          · left
            rw [e]
            exact h1
          · exact Or.inr h1
        · rw [if_neg e] at h1
          exact Or.inl h1
      · exact Or.inr h1
    · simp only [enterTriangleLoop, Array3d.get, hg, Bool.false_eq_true, if_false,
        error_bind] at h
      cases h

theorem triangleGridLoop_mem (tests : OverlapTests) (w h d : Int) :
    ∀ (ts : List Triangle) (i : Int) (triGrid triGrid' : Array3d (List Int)),
    triangleGridLoop tests w h d ts i triGrid = .ok triGrid' →
    ∀ c idx, idx ∈ triGrid'.data c →
      idx ∈ triGrid.data c ∨ (i ≤ idx ∧ idx < i + (ts.length : Int)) := by
  intro ts
  induction ts with
  | nil =>
    intro i tg tg' hrun c idx hidx
    simp only [triangleGridLoop] at hrun
    injection hrun with hrun
    subst hrun
    exact Or.inl hidx
  | cons t ts ih =>
    intro i tg tg' hrun c idx hidx
    simp only [triangleGridLoop] at hrun
    cases h1 : enterTriangleLoop i
        (_getTriangleGridCellOverlap tests t ⟨w, h, d, []⟩).indices tg with
    | error e =>
      rw [h1] at hrun
      cases hrun
    | ok tg1 =>
      rw [h1, ok_bind] at hrun
      rcases ih (i + 1) tg1 tg' hrun c idx hidx with h2 | h2
      · rcases enterTriangleLoop_mem i _ tg tg1 h1 c idx h2 with h3 | h3
        · exact Or.inl h3
        · right
          rw [List.length_cons]
          push_cast
          omega
      · right
        rw [List.length_cons]
        push_cast
        omega

theorem updateTriangleGrid_valid (tests : OverlapTests) (m : TriangleMesh) (gs gs' : MeshGrid)
    (h : _updateTriangleGrid tests m gs = .ok gs') : TriGridValid m gs' := by
  simp only [_updateTriangleGrid, _destroyTriangleGrid] at h
  cases h1 : triangleGridLoop tests gs._gridi gs._gridj gs._gridk m.triangles 0
      (Array3d.fill gs._gridi gs._gridj gs._gridk []) with
  | error e =>
    rw [h1] at h
    cases h
  | ok tg =>
    rw [h1] at h
    simp only [ok_bind, pure_eq_ok] at h
    injection h with h
    subst h
    intro c _ idx hidx
    rcases triangleGridLoop_mem tests _ _ _ m.triangles 0 _ tg h1 c idx hidx with h2 | h2
    · simp only [Array3d.fill] at h2
      cases h2
    · omega

/-! ## The flood fills of `getCellsInsideMesh` -/

theorem fillReach_mono (gs : MeshGrid) (A B : Array3d Bool)
    (hAB : ∀ c, A.data c = true → B.data c = true) (n x : GridIndex)
    (h : FillReach gs B n x) : FillReach gs A n x := by
  induction h with
  | start => exact FillReach.start
  | step a b _ hb hin hB ih =>
    refine FillReach.step a b ih hb hin ?_
    cases hA : A.data b with
    | false => rfl
    | true =>
      rw [hAB b hA] at hB
      cases hB

theorem fillClosed_floodfill (gs : MeshGrid) (G0 G G' : Array3d Bool) (n : GridIndex)
    (hcl : FillClosed gs G0 G)
    (hG' : ∀ c, G'.data c = true ↔ G.data c = true ∨ FillReach gs G n c) :
    FillClosed gs G0 G' := by
  intro x hx hGx hG0x y hy hyin
  rcases (hG' x).1 hGx with h | h
  · exact (hG' y).2 (Or.inl (hcl x hx h hG0x y hy hyin))
  · cases hGy : G.data y with
    | true => exact (hG' y).2 (Or.inl hGy)
    | false => exact (hG' y).2 (Or.inr (FillReach.step x y h hy hyin hGy))

theorem probeNeighboursLoop_post
    (lineIntersectsTriangle : Vec3 → Vec3 → Vec3 → Vec3 → Vec3 → Option (ℚ × ℚ))
    (jitter : Nat → Vec3) (m : TriangleMesh) (gs : MeshGrid) (G0 : Array3d Bool) :
    ∀ (ns : List GridIndex) (calls : Nat) (G : Array3d Bool) (r : Array3d Bool × Nat),
    G.HasGridSize gs → (∀ c, G0.data c = true → G.data c = true) →
    probeNeighboursLoop lineIntersectsTriangle jitter m gs ns calls G = .ok r →
    r.1.HasGridSize gs ∧ (∀ c, G.data c = true → r.1.data c = true) ∧
    (∀ x, r.1.data x = true → G.data x = true ∨
      ∃ n ∈ ns, ∃ c, isGridIndexInRange n gs._gridi gs._gridj gs._gridk = true ∧
        G0.data n = false ∧
        _isCellInsideMesh lineIntersectsTriangle m gs (jitter c) n = .ok true ∧
        FillReach gs G0 n x) ∧
    (FillClosed gs G0 G → FillClosed gs G0 r.1) := by
  intro ns
  induction ns with
  | nil =>
    intro calls G r hG _ hrun
    simp only [probeNeighboursLoop] at hrun
    injection hrun with hrun
    subst hrun
    exact ⟨hG, fun c h => h, fun x h => Or.inl h, fun h => h⟩
  | cons a ns ih =>
    intro calls G r hG hG0 hrun
    have hrec : ∀ calls', probeNeighboursLoop lineIntersectsTriangle jitter m gs ns calls' G =
        .ok r →
        r.1.HasGridSize gs ∧ (∀ c, G.data c = true → r.1.data c = true) ∧
        (∀ x, r.1.data x = true → G.data x = true ∨
          ∃ n ∈ a :: ns, ∃ c, isGridIndexInRange n gs._gridi gs._gridj gs._gridk = true ∧
            G0.data n = false ∧
            _isCellInsideMesh lineIntersectsTriangle m gs (jitter c) n = .ok true ∧
            FillReach gs G0 n x) ∧
        (FillClosed gs G0 G → FillClosed gs G0 r.1) := by
      intro calls' h
      obtain ⟨h1, h2, h3, h4⟩ := ih calls' G r hG hG0 h
      refine ⟨h1, h2, fun x hx => ?_, h4⟩
      rcases h3 x hx with h | ⟨n, hn, c, hc⟩
      · exact Or.inl h
      · exact Or.inr ⟨n, List.mem_cons_of_mem _ hn, c, hc⟩
    by_cases hin : isGridIndexInRange a gs._gridi gs._gridj gs._gridk = true
    · have hget := G.get_ok a (hG.cellInArray a hin)
      cases hGa : G.data a with
      | true =>
        simp only [probeNeighboursLoop, hin, if_true, hget, ok_bind, hGa, Bool.not_true,
          Bool.false_eq_true, if_false] at hrun
        exact hrec calls hrun
      | false =>
        simp only [probeNeighboursLoop, hin, if_true, hget, ok_bind, hGa, Bool.not_false]
          at hrun
        cases hray : _isCellInsideMesh lineIntersectsTriangle m gs (jitter calls) a with
        | error e =>
          rw [hray] at hrun
          cases hrun
        | ok inside =>
          rw [hray, ok_bind] at hrun
          cases inside with
          | false =>
            simp only [Bool.false_eq_true, if_false] at hrun
            exact hrec (calls + 1) hrun
          | true =>
            simp only [if_true] at hrun
            obtain ⟨G', hfill, hG', hiff⟩ := (floodfill_post gs G a hG hin).2 hGa
            rw [hfill, ok_bind, pure_eq_ok] at hrun
            injection hrun with hrun
            subst hrun
            refine ⟨hG', fun c hc => (hiff c).2 (Or.inl hc), fun x hx => ?_,
              fun hcl => fillClosed_floodfill gs G0 G G' a hcl hiff⟩
            rcases (hiff x).1 hx with h | h
            · exact Or.inl h
            · right
              refine ⟨a, List.mem_cons_self _ _, calls, hin, ?_, hray,
                fillReach_mono gs G0 G hG0 a x h⟩
              cases h0 : G0.data a with
              | false => rfl
              | true =>
                rw [hG0 a h0] at hGa
                cases hGa
    · simp only [probeNeighboursLoop, hin, Bool.false_eq_true, if_false] at hrun
      exact hrec calls hrun

theorem probeNeighboursLoop_head
    (lineIntersectsTriangle : Vec3 → Vec3 → Vec3 → Vec3 → Vec3 → Option (ℚ × ℚ))
    (jitter : Nat → Vec3) (m : TriangleMesh) (gs : MeshGrid)
    (a : GridIndex) (ns : List GridIndex) (calls : Nat) (G : Array3d Bool)
    (r : Array3d Bool × Nat) (hG : G.HasGridSize gs)
    (hin : isGridIndexInRange a gs._gridi gs._gridj gs._gridk = true)
    (hrun : probeNeighboursLoop lineIntersectsTriangle jitter m gs (a :: ns) calls G = .ok r) :
    r.1.data a = true ∨
      _isCellInsideMesh lineIntersectsTriangle m gs (jitter calls) a = .ok false := by
  have hget := G.get_ok a (hG.cellInArray a hin)
  cases hGa : G.data a with
  | true =>
    left
    exact (probeNeighboursLoop_post lineIntersectsTriangle jitter m gs G (a :: ns) calls G r hG
      (fun c h => h) hrun).2.1 a hGa
  | false =>
    simp only [probeNeighboursLoop, hin, if_true, hget, ok_bind, hGa, Bool.not_false] at hrun
    cases hray : _isCellInsideMesh lineIntersectsTriangle m gs (jitter calls) a with
    | error e =>
      rw [hray] at hrun
      cases hrun
    | ok inside =>
      rw [hray, ok_bind] at hrun
      cases inside with
      | false => exact Or.inr rfl
      | true =>
        left
        simp only [if_true] at hrun
        obtain ⟨G', hfill, _, hiff⟩ := (floodfill_post gs G a hG hin).2 hGa
        rw [hfill, ok_bind, pure_eq_ok] at hrun
        injection hrun with hrun
        subst hrun
        exact (hiff a).2 (Or.inr FillReach.start)

theorem probeNeighboursLoop_ok
    (lineIntersectsTriangle : Vec3 → Vec3 → Vec3 → Vec3 → Vec3 → Option (ℚ × ℚ))
    (jitter : Nat → Vec3) (m : TriangleMesh) (gs : MeshGrid) :
    ∀ (ns : List GridIndex) (calls : Nat) (G : Array3d Bool), G.HasGridSize gs →
    (∀ c n, isGridIndexInRange n gs._gridi gs._gridj gs._gridk = true → G.data n = false →
      ∃ b, _isCellInsideMesh lineIntersectsTriangle m gs (jitter c) n = .ok b) →
    ∃ r, probeNeighboursLoop lineIntersectsTriangle jitter m gs ns calls G = .ok r := by
  intro ns
  induction ns with
  | nil =>
    intro calls G _ _
    exact ⟨(G, calls), rfl⟩
  | cons a ns ih =>
    intro calls G hG hok
    by_cases hin : isGridIndexInRange a gs._gridi gs._gridj gs._gridk = true
    · have hget := G.get_ok a (hG.cellInArray a hin)
      cases hGa : G.data a with
      | true =>
        obtain ⟨r, hr⟩ := ih calls G hG hok
        refine ⟨r, ?_⟩
        simp only [probeNeighboursLoop, hin, if_true, hget, ok_bind, hGa, Bool.not_true,
          Bool.false_eq_true, if_false]
        exact hr
      | false =>
        obtain ⟨b, hb⟩ := hok calls a hin hGa
        cases b with
        | false =>
          obtain ⟨r, hr⟩ := ih (calls + 1) G hG hok
          refine ⟨r, ?_⟩
          simp only [probeNeighboursLoop, hin, if_true, hget, ok_bind, hGa, Bool.not_false, hb,
            Bool.false_eq_true, if_false]
          exact hr
        | true =>
          obtain ⟨G', hfill, _, _⟩ := (floodfill_post gs G a hG hin).2 hGa
          refine ⟨(G', calls + 1), ?_⟩
          simp only [probeNeighboursLoop, hin, if_true, hget, ok_bind, hGa, Bool.not_false, hb,
            hfill, pure_eq_ok]
    · obtain ⟨r, hr⟩ := ih calls G hG hok
      refine ⟨r, ?_⟩
      simp only [probeNeighboursLoop, hin, Bool.false_eq_true, if_false]
      exact hr

theorem probeSurfaceLoop_post
    (lineIntersectsTriangle : Vec3 → Vec3 → Vec3 → Vec3 → Vec3 → Option (ℚ × ℚ))
    (jitter : Nat → Vec3) (m : TriangleMesh) (gs : MeshGrid) (G0 : Array3d Bool) :
    ∀ (surface : List GridIndex) (calls : Nat) (G : Array3d Bool) (r : Array3d Bool × Nat),
    G.HasGridSize gs → (∀ c, G0.data c = true → G.data c = true) →
    probeSurfaceLoop lineIntersectsTriangle jitter m gs surface calls G = .ok r →
    r.1.HasGridSize gs ∧ (∀ c, G.data c = true → r.1.data c = true) ∧
    (∀ x, r.1.data x = true → G.data x = true ∨
      ∃ s ∈ surface, ∃ n ∈ getNeighbourGridIndices6 s, ∃ c,
        isGridIndexInRange n gs._gridi gs._gridj gs._gridk = true ∧ G0.data n = false ∧
        _isCellInsideMesh lineIntersectsTriangle m gs (jitter c) n = .ok true ∧
        FillReach gs G0 n x) ∧
    (FillClosed gs G0 G → FillClosed gs G0 r.1) ∧
    (∀ s ∈ surface, isGridIndexInRange ⟨s.i - 1, s.j, s.k⟩ gs._gridi gs._gridj gs._gridk = true →
      r.1.data ⟨s.i - 1, s.j, s.k⟩ = true ∨
      ∃ c, _isCellInsideMesh lineIntersectsTriangle m gs (jitter c) ⟨s.i - 1, s.j, s.k⟩ =
        .ok false) := by
  intro surface
  induction surface with
  | nil =>
    intro calls G r hG _ hrun
    simp only [probeSurfaceLoop] at hrun
    injection hrun with hrun
    subst hrun
    exact ⟨hG, fun c h => h, fun x h => Or.inl h, fun h => h, fun s hs => by cases hs⟩
  | cons a surface ih =>
    intro calls G r hG hG0 hrun
    simp only [probeSurfaceLoop] at hrun
    cases h1 : probeNeighboursLoop lineIntersectsTriangle jitter m gs
        (getNeighbourGridIndices6 a) calls G with
    | error e =>
      rw [h1] at hrun
      cases hrun
    | ok r1 =>
      rw [h1, ok_bind] at hrun
      obtain ⟨hs1, hm1, hu1, hc1⟩ := probeNeighboursLoop_post lineIntersectsTriangle jitter m gs
        G0 _ calls G r1 hG hG0 h1
      obtain ⟨hs2, hm2, hu2, hc2, hh2⟩ := ih r1.2 r1.1 r hs1 (fun c hc => hm1 c (hG0 c hc)) hrun
      refine ⟨hs2, fun c hc => hm2 c (hm1 c hc), fun x hx => ?_, fun hcl => hc2 (hc1 hcl),
        fun s hs hin => ?_⟩
      · rcases hu2 x hx with h | ⟨s, hs, n, hn, c, hc⟩
        · rcases hu1 x h with h | ⟨n, hn, c, hc⟩
          · exact Or.inl h
          · exact Or.inr ⟨a, List.mem_cons_self _ _, n, hn, c, hc⟩
        · exact Or.inr ⟨s, List.mem_cons_of_mem _ hs, n, hn, c, hc⟩
      · rcases List.mem_cons.1 hs with e | hs
        · subst e
          rcases probeNeighboursLoop_head lineIntersectsTriangle jitter m gs _ _ calls G r1 hG
            hin h1 with h | h
          · exact Or.inl (hm2 _ h)
          · exact Or.inr ⟨calls, h⟩
        · exact hh2 s hs hin

theorem probeSurfaceLoop_ok
    (lineIntersectsTriangle : Vec3 → Vec3 → Vec3 → Vec3 → Vec3 → Option (ℚ × ℚ))
    (jitter : Nat → Vec3) (m : TriangleMesh) (gs : MeshGrid) :
    ∀ (surface : List GridIndex) (calls : Nat) (G : Array3d Bool), G.HasGridSize gs →
    (∀ c n, isGridIndexInRange n gs._gridi gs._gridj gs._gridk = true → G.data n = false →
      ∃ b, _isCellInsideMesh lineIntersectsTriangle m gs (jitter c) n = .ok b) →
    ∃ r, probeSurfaceLoop lineIntersectsTriangle jitter m gs surface calls G = .ok r := by
  intro surface
  induction surface with
  | nil =>
    intro calls G _ _
    exact ⟨(G, calls), rfl⟩
  | cons a surface ih =>
    intro calls G hG hok
    obtain ⟨r1, h1⟩ := probeNeighboursLoop_ok lineIntersectsTriangle jitter m gs
      (getNeighbourGridIndices6 a) calls G hG hok
    obtain ⟨hs1, hm1, _, _⟩ := probeNeighboursLoop_post lineIntersectsTriangle jitter m gs
      G _ calls G r1 hG (fun c h => h) h1
    obtain ⟨r, hr⟩ := ih r1.2 r1.1 hs1 (fun c n hn hf => hok c n hn (by
      cases hGn : G.data n with
      | false => rfl
      | true =>
        rw [hm1 n hGn] at hf
        cases hf))
    refine ⟨r, ?_⟩
    simp only [probeSurfaceLoop, h1, ok_bind]
    exact hr

/-! ## The run of `getCellsInsideMesh` -/

theorem surfaceGrid_eq_true (gs : MeshGrid) (c : GridIndex) :
    (surfaceGrid gs).data c = true ↔
      isGridIndexInRange c gs._gridi gs._gridj gs._gridk = true ∧
        0 < (gs._triGrid.data c).length := by
  simp [surfaceGrid]

theorem surfaceGrid_eq_false (gs : MeshGrid) (c : GridIndex)
    (hc : isGridIndexInRange c gs._gridi gs._gridj gs._gridk = true) :
    (surfaceGrid gs).data c = false ↔ gs._triGrid.data c = [] := by
  simp [surfaceGrid, hc]

/-- What a call of `getCellsInsideMesh` on a grid without an axis of size `0`
does, when the overlap tests report cells of the grid only: the triangle grid
is built; a call that returns appends the cells of the scan that are `true`
in the final array, which holds the surface cells and, beyond them, only
cells that a flood fill reached from a probed neighbour; and the call returns
when no probe fails an assertion. -/
theorem getCellsInsideMesh_run (tests : OverlapTests)
    (lineIntersectsTriangle : Vec3 → Vec3 → Vec3 → Vec3 → Vec3 → Option (ℚ × ℚ))
    (jitter : Nat → Vec3) (m : TriangleMesh) (gs : MeshGrid) (cells : GridIndexVector)
    (hnz : gs._gridi ≠ 0 ∧ gs._gridj ≠ 0 ∧ gs._gridk ≠ 0)
    (hcells : cells.width = gs._gridi ∧ cells.height = gs._gridj ∧ cells.depth = gs._gridk)
    (hov : ∀ t ∈ m.triangles, ∀ g ∈ tests.getGridCellOverlap t,
      tests.isOverlappingTriangle g t = true →
      isGridIndexInRange g gs._gridi gs._gridj gs._gridk = true) :
    ∃ gs1 : MeshGrid,
      _updateTriangleGrid tests m gs = .ok gs1 ∧
      gs1._gridi = gs._gridi ∧ gs1._gridj = gs._gridj ∧ gs1._gridk = gs._gridk ∧
      gs1._dx = gs._dx ∧ gs1._triGrid.HasGridSize gs1 ∧
      (∀ t ∈ m.triangles, ∀ g ∈ tests.getGridCellOverlap t,
        tests.isOverlappingTriangle g t = true → 0 < (gs1._triGrid.data g).length) ∧
      (∀ r, getCellsInsideMesh tests lineIntersectsTriangle jitter m gs cells = .ok r →
        ∃ final : Array3d Bool,
          r = ({ cells with
              indices := cells.indices ++
                (gridScan gs._gridi gs._gridj gs._gridk).filter (fun g => final.data g) },
            _destroyTriangleGrid gs1) ∧
          (∀ c, (surfaceGrid gs1).data c = true → final.data c = true) ∧
          (∀ x, final.data x = true → (surfaceGrid gs1).data x = true ∨
            ∃ s n c, (surfaceGrid gs1).data s = true ∧ n ∈ getNeighbourGridIndices6 s ∧
              isGridIndexInRange n gs1._gridi gs1._gridj gs1._gridk = true ∧
              (surfaceGrid gs1).data n = false ∧
              _isCellInsideMesh lineIntersectsTriangle m gs1 (jitter c) n = .ok true ∧
              FillReach gs1 (surfaceGrid gs1) n x) ∧
          FillClosed gs1 (surfaceGrid gs1) final ∧
          (∀ s, (surfaceGrid gs1).data s = true →
            isGridIndexInRange ⟨s.i - 1, s.j, s.k⟩ gs1._gridi gs1._gridj gs1._gridk = true →
            final.data ⟨s.i - 1, s.j, s.k⟩ = true ∨
            ∃ c, _isCellInsideMesh lineIntersectsTriangle m gs1 (jitter c)
              ⟨s.i - 1, s.j, s.k⟩ = .ok false)) ∧
      (RayTestReturns lineIntersectsTriangle jitter m gs1 →
        ∃ r, getCellsInsideMesh tests lineIntersectsTriangle jitter m gs cells = .ok r) := by
  obtain ⟨triGrid, hupd, htg, hpos⟩ := updateTriangleGrid_spec tests m gs hov
  obtain ⟨w, h, d, dat⟩ := triGrid
  obtain ⟨hw, hh, hd⟩ := htg
  simp only at hw hh hd
  subst hw hh hd
  have hscan : ∀ g ∈ gridScan gs._gridi gs._gridj gs._gridk,
      isGridIndexInRange g gs._gridi gs._gridj gs._gridk = true :=
    fun g hg => (mem_gridScan g _ _ _).1 hg
  have hsurf := surfaceCellsLoop_spec (Array3d.mk gs._gridi gs._gridj gs._gridk dat)
    (gridScan gs._gridi gs._gridj gs._gridk) ⟨gs._gridi, gs._gridj, gs._gridk, []⟩ hscan
  simp only [List.nil_append] at hsurf
  have hsurfmem : ∀ s, s ∈ (gridScan gs._gridi gs._gridj gs._gridk).filter
      (fun g => decide (0 < (dat g).length)) ↔
      isGridIndexInRange s gs._gridi gs._gridj gs._gridk = true ∧ 0 < (dat s).length := by
    intro s
    rw [List.mem_filter, mem_gridScan]
    simp
  obtain ⟨G0, hmark, hG0, hG0mem⟩ := markSurfaceLoop_spec gs
    ((gridScan gs._gridi gs._gridj gs._gridk).filter (fun g => decide (0 < (dat g).length)))
    (Array3d.fill gs._gridi gs._gridj gs._gridk false) ⟨rfl, rfl, rfl⟩
    (fun g hg => ((hsurfmem g).1 hg).1)
  have hG0iff : ∀ c, G0.data c = true ↔
      (surfaceGrid { gs with _triGrid := Array3d.mk gs._gridi gs._gridj gs._gridk dat }).data c
        = true := by
    intro c
    rw [hG0mem c, surfaceGrid_eq_true, hsurfmem]
    simp [Array3d.fill]
  have hz : ¬ (gs._gridi = 0 ∨ gs._gridj = 0 ∨ gs._gridk = 0) := by
    rintro (h | h | h)
    · exact hnz.1 h
    · exact hnz.2.1 h
    · exact hnz.2.2 h
  have hG0' : G0.HasGridSize
      { gs with _triGrid := Array3d.mk gs._gridi gs._gridj gs._gridk dat } := hG0
  refine ⟨{ gs with _triGrid := Array3d.mk gs._gridi gs._gridj gs._gridk dat }, hupd, rfl, rfl,
    rfl, rfl, ⟨rfl, rfl, rfl⟩, hpos, ?_, ?_⟩
  · intro r hrun
    simp only [getCellsInsideMesh, hz, if_false, hcells, and_self, if_true, hupd, ok_bind,
      _getSurfaceCells, hsurf, hmark] at hrun
    generalize hp : probeSurfaceLoop _ _ _ _ _ _ _ = pr at hrun
    cases pr with
    | error e => cases hrun
    | ok r1 =>
      obtain ⟨hs1, hm1, hu1, hc1, hh1⟩ := probeSurfaceLoop_post lineIntersectsTriangle jitter m
        { gs with _triGrid := Array3d.mk gs._gridi gs._gridj gs._gridk dat }
        (surfaceGrid { gs with _triGrid := Array3d.mk gs._gridi gs._gridj gs._gridk dat })
        _ 0 G0 r1 hG0' (fun c hc => (hG0iff c).2 hc) hp
      have hcollect := collectInsideLoop_spec r1.1 (gridScan gs._gridi gs._gridj gs._gridk)
        cells (by
          intro g hg
          rw [hs1.1, hs1.2.1, hs1.2.2]
          exact hscan g hg)
      simp only [ok_bind, hcollect, pure_eq_ok] at hrun
      injection hrun with hrun
      refine ⟨r1.1, hrun.symm, fun c hc => hm1 c ((hG0iff c).2 hc), fun x hx => ?_, ?_,
        fun s hs hin => ?_⟩
      · rcases hu1 x hx with h | ⟨s, hs, n, hn, c, h1, h2, h3, h4⟩
        · exact Or.inl ((hG0iff x).1 h)
        · refine Or.inr ⟨s, n, c, ?_, hn, h1, h2, h3, h4⟩
          rw [surfaceGrid_eq_true]
          exact (hsurfmem s).1 hs
      · apply hc1
        intro x _ hx hx0
        rw [(hG0iff x).1 hx] at hx0
        cases hx0
      · refine hh1 s ?_ hin
        rw [surfaceGrid_eq_true] at hs
        exact (hsurfmem s).2 hs
  · intro hok
    obtain ⟨r1, hp⟩ := probeSurfaceLoop_ok lineIntersectsTriangle jitter m
      { gs with _triGrid := Array3d.mk gs._gridi gs._gridj gs._gridk dat }
      ((gridScan gs._gridi gs._gridj gs._gridk).filter (fun g => decide (0 < (dat g).length)))
      0 G0 hG0' (by
        intro c n hn hGn
        refine hok c n hn ?_
        have h1 : ¬ (isGridIndexInRange n gs._gridi gs._gridj gs._gridk = true ∧
            0 < (dat n).length) := by
          intro h2
          have h3 := (hG0mem n).2 (Or.inr ((hsurfmem n).2 h2))
          rw [hGn] at h3
          cases h3
        have h4 : ¬ 0 < (dat n).length := fun h5 => h1 ⟨hn, h5⟩
        have h6 : (dat n).length = 0 := by omega
        exact List.eq_nil_of_length_eq_zero h6)
    obtain ⟨hs1, _, _, _, _⟩ := probeSurfaceLoop_post lineIntersectsTriangle jitter m
      { gs with _triGrid := Array3d.mk gs._gridi gs._gridj gs._gridk dat } G0
      _ 0 G0 r1 hG0' (fun c hc => hc) hp
    have hcollect := collectInsideLoop_spec r1.1 (gridScan gs._gridi gs._gridj gs._gridk)
      cells (by
        intro g hg
        rw [hs1.1, hs1.2.1, hs1.2.2]
        exact hscan g hg)
    have hrun : getCellsInsideMesh tests lineIntersectsTriangle jitter m gs cells =
        .ok ({ cells with
            indices := cells.indices ++
              (gridScan gs._gridi gs._gridj gs._gridk).filter (fun g => r1.1.data g) },
          _destroyTriangleGrid
            { gs with _triGrid := Array3d.mk gs._gridi gs._gridj gs._gridk dat }) := by
      simp only [getCellsInsideMesh, hz, if_false, hcells, and_self, if_true, hupd, ok_bind,
        _getSurfaceCells, hsurf, hmark, hp, hcollect, pure_eq_ok]
    exact ⟨_, hrun⟩

/-! ## The ray test along a row of cells without triangles -/

theorem mem_hitTriangles
    (lineIntersectsTriangle : Vec3 → Vec3 → Vec3 → Vec3 → Vec3 → Option (ℚ × ℚ))
    (m : TriangleMesh) (gs : MeshGrid) (p dir : Vec3) (cells : List GridIndex) (t : Triangle) :
    t ∈ hitTriangles lineIntersectsTriangle m gs p dir cells ↔
      ∃ c ∈ cells, ∃ idx ∈ gs._triGrid.data c,
        (lineHit lineIntersectsTriangle m p dir idx).isSome = true ∧ triangleAt m idx = t := by
  simp only [hitTriangles, List.mem_flatMap, List.mem_map, List.mem_filter]
  constructor
  · rintro ⟨c, hc, idx, ⟨hidx, hhit⟩, rfl⟩
    exact ⟨c, hc, idx, hidx, hhit, rfl⟩
  · rintro ⟨c, hc, idx, hidx, hhit, rfl⟩
    exact ⟨c, hc, idx, ⟨hidx, hhit⟩, rfl⟩

theorem hitTriangles_congr
    (lineIntersectsTriangle : Vec3 → Vec3 → Vec3 → Vec3 → Vec3 → Option (ℚ × ℚ))
    (m : TriangleMesh) (gs : MeshGrid) (p q dir : Vec3) (A B : List GridIndex)
    (hpq : ∀ idx, lineHit lineIntersectsTriangle m p dir idx =
      lineHit lineIntersectsTriangle m q dir idx)
    (hAB : ∀ c, gs._triGrid.data c ≠ [] → (c ∈ A ↔ c ∈ B)) :
    (hitTriangles lineIntersectsTriangle m gs p dir A).toFinset =
      (hitTriangles lineIntersectsTriangle m gs q dir B).toFinset := by
  ext t
  rw [List.mem_toFinset, List.mem_toFinset, mem_hitTriangles, mem_hitTriangles]
  constructor
  · rintro ⟨c, hc, idx, hidx, hh, ht⟩
    exact ⟨c, (hAB c (List.ne_nil_of_mem hidx)).1 hc, idx, hidx, by rw [← hpq idx]; exact hh, ht⟩
  · rintro ⟨c, hc, idx, hidx, hh, ht⟩
    exact ⟨c, (hAB c (List.ne_nil_of_mem hidx)).2 hc, idx, hidx, by rw [hpq idx]; exact hh, ht⟩

theorem edgeHit_congr
    (lineIntersectsTriangle : Vec3 → Vec3 → Vec3 → Vec3 → Vec3 → Option (ℚ × ℚ))
    (m : TriangleMesh) (gs : MeshGrid) (p q dir : Vec3) (A B : List GridIndex)
    (hpq : ∀ idx, lineHit lineIntersectsTriangle m p dir idx =
      lineHit lineIntersectsTriangle m q dir idx)
    (hAB : ∀ c, gs._triGrid.data c ≠ [] → (c ∈ A ↔ c ∈ B)) :
    EdgeHit lineIntersectsTriangle m gs p dir A ↔ EdgeHit lineIntersectsTriangle m gs q dir B := by
  constructor
  · rintro ⟨c, hc, idx, hidx, uv, h1, h2⟩
    exact ⟨c, (hAB c (List.ne_nil_of_mem hidx)).1 hc, idx, hidx, uv, by rw [← hpq idx]; exact h1,
      h2⟩
  · rintro ⟨c, hc, idx, hidx, uv, h1, h2⟩
    exact ⟨c, (hAB c (List.ne_nil_of_mem hidx)).2 hc, idx, hidx, uv, by rw [hpq idx]; exact h1,
      h2⟩

theorem lineHit_row
    (lineIntersectsTriangle : Vec3 → Vec3 → Vec3 → Vec3 → Vec3 → Option (ℚ × ℚ))
    (hline : LineAlongI lineIntersectsTriangle)
    (m : TriangleMesh) (gs : MeshGrid) (jv : Vec3) (a b : GridIndex)
    (hj : a.j = b.j) (hk : a.k = b.k) (idx : Int) :
    lineHit lineIntersectsTriangle m (probePoint gs jv a) ⟨1, 0, 0⟩ idx =
      lineHit lineIntersectsTriangle m (probePoint gs jv b) ⟨1, 0, 0⟩ idx := by
  unfold lineHit
  cases getTrianglePosition m idx with
  | error e => rfl
  | ok tri =>
    simp only
    apply hline
    · simp only [probePoint, GridIndexToPosition, Vec3.add, hj]
    · simp only [probePoint, GridIndexToPosition, Vec3.add, hk]

/-- Two cells of one row of the grid with no triangle in them and in the
cells between them have the same probe line, so `_isCellInsideMesh` returns
the same for both, for the same jitter. -/
theorem isCellInsideMesh_row
    (lineIntersectsTriangle : Vec3 → Vec3 → Vec3 → Vec3 → Vec3 → Option (ℚ × ℚ))
    (hline : LineAlongI lineIntersectsTriangle)
    (m : TriangleMesh) (gs : MeshGrid) (jv : Vec3) (a b : GridIndex)
    (hr : IndicesInRange m) (hsize : gs._triGrid.HasGridSize gs) (hvalid : TriGridValid m gs)
    (ha : isGridIndexInRange a gs._gridi gs._gridj gs._gridk = true)
    (hb : isGridIndexInRange b gs._gridi gs._gridj gs._gridk = true)
    (hj : a.j = b.j) (hk : a.k = b.k) (hab : a.i ≤ b.i)
    (hempty : ∀ x : GridIndex, x.j = a.j → x.k = a.k → a.i ≤ x.i → x.i ≤ b.i →
      gs._triGrid.data x = []) :
    _isCellInsideMesh lineIntersectsTriangle m gs jv a =
      _isCellInsideMesh lineIntersectsTriangle m gs jv b := by
  have ha' := (isGridIndexInRange_iff _ _ _ _).1 ha
  have hb' := (isGridIndexInRange_iff _ _ _ _).1 hb
  have hea : gs._triGrid.data a = [] := hempty a rfl rfl (le_refl _) hab
  have heb : gs._triGrid.data b = [] := hempty b hj.symm hk.symm hab (le_refl _)
  have hpq := lineHit_row lineIntersectsTriangle hline m gs jv a b hj hk
  have hL : ∀ c, gs._triGrid.data c ≠ [] → (c ∈ leftCells a ↔ c ∈ leftCells b) := by
    intro c hc
    rw [mem_leftCells a c ha'.1, mem_leftCells b c hb'.1]
    constructor
    · rintro ⟨h1, h2, h3, h4⟩
      exact ⟨h1.trans hj, h2.trans hk, h3, by omega⟩
    · rintro ⟨h1, h2, h3, h4⟩
      refine ⟨h1.trans hj.symm, h2.trans hk.symm, h3, ?_⟩
      by_contra hlt
      exact hc (hempty c (h1.trans hj.symm) (h2.trans hk.symm) (by omega) (by omega))
  have hR : ∀ c, gs._triGrid.data c ≠ [] → (c ∈ rightCells gs a ↔ c ∈ rightCells gs b) := by
    intro c hc
    rw [mem_rightCells, mem_rightCells]
    constructor
    · rintro ⟨h1, h2, h3, h4⟩
      refine ⟨h1.trans hj, h2.trans hk, ?_, h4⟩
      by_contra hlt
      exact hc (hempty c h1 h2 (by omega) (by omega))
    · rintro ⟨h1, h2, h3, h4⟩
      exact ⟨h1.trans hj.symm, h2.trans hk.symm, by omega, h4⟩
  have hLR : ∀ c, gs._triGrid.data c ≠ [] →
      (c ∈ leftCells a ++ rightCells gs a ↔ c ∈ leftCells b ++ rightCells gs b) := by
    intro c hc
    rw [List.mem_append, List.mem_append, hL c hc, hR c hc]
  have hedge := edgeHit_congr lineIntersectsTriangle m gs _ _ ⟨1, 0, 0⟩ _ _ hpq hLR
  have hleft : leftCount lineIntersectsTriangle m gs jv a =
      leftCount lineIntersectsTriangle m gs jv b := by
    unfold leftCount
    rw [hitTriangles_congr lineIntersectsTriangle m gs _ _ ⟨1, 0, 0⟩ _ _ hpq hL]
  have hright : rightCount lineIntersectsTriangle m gs jv a =
      rightCount lineIntersectsTriangle m gs jv b := by
    unfold rightCount
    rw [hitTriangles_congr lineIntersectsTriangle m gs _ _ ⟨1, 0, 0⟩ _ _ hpq hL,
      hitTriangles_congr lineIntersectsTriangle m gs _ _ ⟨1, 0, 0⟩ _ _ hpq hR]
  by_cases he : EdgeHit lineIntersectsTriangle m gs (probePoint gs jv a) ⟨1, 0, 0⟩
      (leftCells a ++ rightCells gs a)
  · rw [isCellInsideMesh_fails lineIntersectsTriangle m gs jv a hr hsize hvalid ha hea he,
      isCellInsideMesh_fails lineIntersectsTriangle m gs jv b hr hsize hvalid hb heb
        (hedge.1 he)]
  · rw [isCellInsideMesh_post lineIntersectsTriangle m gs jv a hr hsize hvalid ha hea he,
      isCellInsideMesh_post lineIntersectsTriangle m gs jv b hr hsize hvalid hb heb
        (fun h => he (hedge.2 h)), hleft, hright]

/-- A cell that `_isCellInsideMesh` reports as inside has a cell with a
triangle to its right in its row. -/
theorem inside_has_surface_right
    (lineIntersectsTriangle : Vec3 → Vec3 → Vec3 → Vec3 → Vec3 → Option (ℚ × ℚ))
    (m : TriangleMesh) (gs : MeshGrid) (jv : Vec3) (n : GridIndex)
    (hr : IndicesInRange m) (hsize : gs._triGrid.HasGridSize gs) (hvalid : TriGridValid m gs)
    (hn : isGridIndexInRange n gs._gridi gs._gridj gs._gridk = true)
    (hen : gs._triGrid.data n = [])
    (hray : _isCellInsideMesh lineIntersectsTriangle m gs jv n = .ok true) :
    ∃ h : GridIndex, h.j = n.j ∧ h.k = n.k ∧ n.i < h.i ∧ h.i < gs._gridi ∧
      gs._triGrid.data h ≠ [] := by
  by_cases he : EdgeHit lineIntersectsTriangle m gs (probePoint gs jv n) ⟨1, 0, 0⟩
      (leftCells n ++ rightCells gs n)
  · rw [isCellInsideMesh_fails lineIntersectsTriangle m gs jv n hr hsize hvalid hn hen he]
      at hray
    cases hray
  · rw [isCellInsideMesh_post lineIntersectsTriangle m gs jv n hr hsize hvalid hn hen he]
      at hray
    split_ifs at hray with hpar
    injection hray with hray
    have hodd : leftCount lineIntersectsTriangle m gs jv n % 2 = 1 := by simpa using hray
    have hpos : 0 < rightCount lineIntersectsTriangle m gs jv n := by omega
    unfold rightCount at hpos
    obtain ⟨t, ht⟩ := Finset.card_pos.1 hpos
    rw [Finset.mem_sdiff, List.mem_toFinset, mem_hitTriangles] at ht
    obtain ⟨⟨c, hc, idx, hidx, _, _⟩, _⟩ := ht
    rw [mem_rightCells] at hc
    exact ⟨c, hc.1, hc.2.1, hc.2.2.1, hc.2.2.2, List.ne_nil_of_mem hidx⟩

/-- The nearest cell with a triangle to the right of a cell, when there is
one: all cells of the row from the cell up to it are without a triangle. -/
theorem nearest_surface_right (gs : MeshGrid) (n : GridIndex)
    (hen : gs._triGrid.data n = [])
    (hex : ∃ h : GridIndex, h.j = n.j ∧ h.k = n.k ∧ n.i < h.i ∧ h.i < gs._gridi ∧
      gs._triGrid.data h ≠ []) :
    ∃ h : GridIndex, h.j = n.j ∧ h.k = n.k ∧ n.i < h.i ∧ h.i < gs._gridi ∧
      gs._triGrid.data h ≠ [] ∧
      ∀ x : GridIndex, x.j = n.j → x.k = n.k → n.i ≤ x.i → x.i < h.i →
        gs._triGrid.data x = [] := by
  classical
  have hex' : ∃ d : Nat, gs._triGrid.data ⟨n.i + (d : Int), n.j, n.k⟩ ≠ [] ∧
      n.i + (d : Int) < gs._gridi := by
    obtain ⟨h, h1, h2, h3, h4, h5⟩ := hex
    refine ⟨(h.i - n.i).toNat, ?_, ?_⟩
    · have e : (⟨n.i + ((h.i - n.i).toNat : Int), n.j, n.k⟩ : GridIndex) = h := by
        cases h
        simp only [GridIndex.mk.injEq] at h1 h2 h3 ⊢
        refine ⟨by omega, h1.symm, h2.symm⟩
      rw [e]
      exact h5
    · omega
  obtain ⟨hd1, hd2⟩ := Nat.find_spec hex'
  have hd0 : 0 < Nat.find hex' := by
    rcases Nat.eq_zero_or_pos (Nat.find hex') with h0 | h0
    · exfalso
      rw [h0] at hd1
      apply hd1
      have e : (⟨n.i + ((0 : Nat) : Int), n.j, n.k⟩ : GridIndex) = n := by
        cases n
        simp
      rw [e]
      exact hen
    · exact h0
  refine ⟨⟨n.i + (Nat.find hex' : Int), n.j, n.k⟩, rfl, rfl, ?_, hd2, hd1, ?_⟩
  · show n.i < n.i + (Nat.find hex' : Int)
    omega
  · intro x hx1 hx2 hx3 hx4
    have hx4' : x.i < n.i + (Nat.find hex' : Int) := hx4
    have hlt : (x.i - n.i).toNat < Nat.find hex' := by omega
    have hnot := Nat.find_min hex' hlt
    have e : (⟨n.i + ((x.i - n.i).toNat : Int), n.j, n.k⟩ : GridIndex) = x := by
      cases x
      simp only [GridIndex.mk.injEq] at hx1 hx2 hx3 ⊢
      refine ⟨by omega, hx1.symm, hx2.symm⟩
    rw [e] at hnot
    by_contra hne
    exact hnot ⟨hne, by omega⟩

/-- The cells of a row from `c` down to `n`, all without a triangle, are
`true` in a closed array in which `c` is `true`. -/
theorem fillClosed_row (gs : MeshGrid) (final : Array3d Bool)
    (hcl : FillClosed gs (surfaceGrid gs) final) (n : GridIndex)
    (hn : isGridIndexInRange n gs._gridi gs._gridj gs._gridk = true) :
    ∀ (d : Nat), n.i + (d : Int) < gs._gridi →
      (∀ x : GridIndex, x.j = n.j → x.k = n.k → n.i ≤ x.i → x.i ≤ n.i + (d : Int) →
        gs._triGrid.data x = []) →
      final.data ⟨n.i + (d : Int), n.j, n.k⟩ = true → final.data n = true := by
  have hn' := (isGridIndexInRange_iff _ _ _ _).1 hn
  intro d
  induction d with
  | zero =>
    intro _ _ h
    have e : (⟨n.i + ((0 : Nat) : Int), n.j, n.k⟩ : GridIndex) = n := by
      cases n
      simp
    rw [e] at h
    exact h
  | succ d ih =>
    intro hlt hempty h
    apply ih (by push_cast at hlt; omega)
      (fun x h1 h2 h3 h4 => hempty x h1 h2 h3 (by push_cast; omega))
    have hx : isGridIndexInRange ⟨n.i + ((d + 1 : Nat) : Int), n.j, n.k⟩ gs._gridi gs._gridj
        gs._gridk = true := by
      rw [isGridIndexInRange_iff]
      simp only
      push_cast at hlt ⊢
      omega
    have hy : isGridIndexInRange ⟨n.i + (d : Int), n.j, n.k⟩ gs._gridi gs._gridj
        gs._gridk = true := by
      rw [isGridIndexInRange_iff]
      simp only
      push_cast at hlt
      omega
    have hx0 : (surfaceGrid gs).data ⟨n.i + ((d + 1 : Nat) : Int), n.j, n.k⟩ = false := by
      rw [surfaceGrid_eq_false gs _ hx]
      exact hempty _ rfl rfl (by simp only; omega) (le_refl _)
    refine hcl _ hx h hx0 ⟨n.i + (d : Int), n.j, n.k⟩ ?_ hy
    have e : (⟨n.i + (d : Int), n.j, n.k⟩ : GridIndex) =
        ⟨n.i + ((d + 1 : Nat) : Int) - 1, n.j, n.k⟩ := by
      simp only [GridIndex.mk.injEq, and_true]
      push_cast
      omega
    rw [e]
    simp [getNeighbourGridIndices6]

/-- With a ray test that is a fixed predicate on the cells and an
intersection test that depends on the probe line only, every cell of the grid
without a triangle that the ray test reports as inside is `true` in an array
that is closed under the flood fill and in which the cell to the left of
every surface cell is `true` or was reported as not inside. -/
theorem inside_cell_marked
    (lineIntersectsTriangle : Vec3 → Vec3 → Vec3 → Vec3 → Vec3 → Option (ℚ × ℚ))
    (jitter : Nat → Vec3) (m : TriangleMesh) (gs : MeshGrid) (inside : GridIndex → Bool)
    (final : Array3d Bool)
    (hline : LineAlongI lineIntersectsTriangle)
    (hP : RayTestIs lineIntersectsTriangle jitter m gs inside)
    (hr : IndicesInRange m) (hsize : gs._triGrid.HasGridSize gs) (hvalid : TriGridValid m gs)
    (hcl : FillClosed gs (surfaceGrid gs) final)
    (hhead : ∀ s, (surfaceGrid gs).data s = true →
      isGridIndexInRange ⟨s.i - 1, s.j, s.k⟩ gs._gridi gs._gridj gs._gridk = true →
      final.data ⟨s.i - 1, s.j, s.k⟩ = true ∨
      ∃ c, _isCellInsideMesh lineIntersectsTriangle m gs (jitter c) ⟨s.i - 1, s.j, s.k⟩ =
        .ok false)
    (n : GridIndex) (hn : isGridIndexInRange n gs._gridi gs._gridj gs._gridk = true)
    (hen : gs._triGrid.data n = []) (hin : inside n = true) :
    final.data n = true := by
  have hn' := (isGridIndexInRange_iff _ _ _ _).1 hn
  have hray0 : _isCellInsideMesh lineIntersectsTriangle m gs (jitter 0) n = .ok true := by
    rw [hP 0 n hn hen, hin]
  obtain ⟨h, h1, h2, h3, h4, h5, h6⟩ := nearest_surface_right gs n hen
    (inside_has_surface_right lineIntersectsTriangle m gs (jitter 0) n hr hsize hvalid hn hen
      hray0)
  have hhin : isGridIndexInRange h gs._gridi gs._gridj gs._gridk = true := by
    rw [isGridIndexInRange_iff]
    rw [h1, h2]
    omega
  have hc0in : isGridIndexInRange ⟨h.i - 1, h.j, h.k⟩ gs._gridi gs._gridj gs._gridk = true := by
    rw [isGridIndexInRange_iff]
    simp only
    rw [h1, h2]
    omega
  have hsurf : (surfaceGrid gs).data h = true := by
    rw [surfaceGrid_eq_true]
    exact ⟨hhin, List.length_pos.2 h5⟩
  have hempty : ∀ x : GridIndex, x.j = n.j → x.k = n.k → n.i ≤ x.i → x.i ≤ h.i - 1 →
      gs._triGrid.data x = [] := fun x hx1 hx2 hx3 hx4 => h6 x hx1 hx2 hx3 (by omega)
  have hrow : ∀ c, _isCellInsideMesh lineIntersectsTriangle m gs (jitter c)
      ⟨h.i - 1, h.j, h.k⟩ = .ok true := by
    intro c
    rw [← isCellInsideMesh_row lineIntersectsTriangle hline m gs (jitter c) n
      ⟨h.i - 1, h.j, h.k⟩ hr hsize hvalid hn hc0in h1.symm h2.symm (by simp only; omega)
      (fun x hx1 hx2 hx3 hx4 => hempty x hx1 hx2 hx3 hx4), hP c n hn hen, hin]
  have hfin : final.data ⟨h.i - 1, h.j, h.k⟩ = true := by
    rcases hhead h hsurf hc0in with hf | ⟨c, hc⟩
    · exact hf
    · rw [hrow c] at hc
      cases hc
  have e : (⟨h.i - 1, h.j, h.k⟩ : GridIndex) =
      ⟨n.i + ((h.i - 1 - n.i).toNat : Int), n.j, n.k⟩ := by
    simp only [GridIndex.mk.injEq]
    refine ⟨by omega, h1, h2⟩
  rw [e] at hfin
  exact fillClosed_row gs final hcl n hn (h.i - 1 - n.i).toNat (by omega)
    (fun x hx1 hx2 hx3 hx4 => hempty x hx1 hx2 hx3 (by omega)) hfin

/-! ## C19 and C20: the cells that `getCellsInsideMesh` appends -/

theorem fillClosed_reach (gs : MeshGrid) (final : Array3d Bool)
    (hcl : FillClosed gs (surfaceGrid gs) final) (n : GridIndex)
    (hn : isGridIndexInRange n gs._gridi gs._gridj gs._gridk = true)
    (hn0 : (surfaceGrid gs).data n = false) (hfn : final.data n = true) (x : GridIndex)
    (h : FillReach gs (surfaceGrid gs) n x) :
    final.data x = true ∧ isGridIndexInRange x gs._gridi gs._gridj gs._gridk = true ∧
      (surfaceGrid gs).data x = false := by
  induction h with
  | start => exact ⟨hfn, hn, hn0⟩
  | step a b _ hb hbin hb0 ih =>
    exact ⟨hcl a ih.2.1 ih.1 ih.2.2 b hb hbin, hbin, hb0⟩

/-- The cells that `getCellsInsideMesh` appends when the ray test is a fixed
predicate on the cells and the intersection test depends on the probe line
only: the surface cells and the cells that are connected, through cells of
the grid that are not surface cells, to a neighbour of a surface cell that
the ray test reports as inside; among them is every cell of the grid without
a triangle that the ray test reports as inside. -/
theorem getCellsInsideMesh_marks (tests : OverlapTests)
    (lineIntersectsTriangle : Vec3 → Vec3 → Vec3 → Vec3 → Vec3 → Option (ℚ × ℚ))
    (jitter : Nat → Vec3) (m : TriangleMesh) (gs : MeshGrid) (cells : GridIndexVector)
    (inside : GridIndex → Bool)
    (hnz : gs._gridi ≠ 0 ∧ gs._gridj ≠ 0 ∧ gs._gridk ≠ 0)
    (hcells : cells.width = gs._gridi ∧ cells.height = gs._gridj ∧ cells.depth = gs._gridk)
    (hov : ∀ t ∈ m.triangles, ∀ g ∈ tests.getGridCellOverlap t,
      tests.isOverlappingTriangle g t = true →
      isGridIndexInRange g gs._gridi gs._gridj gs._gridk = true)
    (hr : IndicesInRange m) (hline : LineAlongI lineIntersectsTriangle)
    (hP : ∀ gs1, _updateTriangleGrid tests m gs = .ok gs1 →
      RayTestIs lineIntersectsTriangle jitter m gs1 inside) :
    ∃ (gs1 : MeshGrid) (appended : List GridIndex) (gs' : MeshGrid),
      _updateTriangleGrid tests m gs = .ok gs1 ∧
      getCellsInsideMesh tests lineIntersectsTriangle jitter m gs cells =
        .ok ({ cells with indices := cells.indices ++ appended }, gs') ∧
      (∀ x, x ∈ appended ↔
        isGridIndexInRange x gs._gridi gs._gridj gs._gridk = true ∧
          (0 < (gs1._triGrid.data x).length ∨ FilledFrom gs1 (fun n => inside n = true) x)) ∧
      (∀ n, isGridIndexInRange n gs._gridi gs._gridj gs._gridk = true →
        (gs1._triGrid.data n).length = 0 → inside n = true → n ∈ appended) := by
  obtain ⟨gs1, hupd, hi, hj, hk, _, hsize, _, hpost, hret⟩ :=
    getCellsInsideMesh_run tests lineIntersectsTriangle jitter m gs cells hnz hcells hov
  have hP1 := hP gs1 hupd
  have hvalid := updateTriangleGrid_valid tests m gs gs1 hupd
  obtain ⟨r, hrun⟩ := hret (fun c n hn hen => ⟨inside n, hP1 c n hn hen⟩)
  obtain ⟨final, hr1, hsurf, hupper, hcl, hhead⟩ := hpost r hrun
  have hinside : ∀ n, isGridIndexInRange n gs._gridi gs._gridj gs._gridk = true →
      (gs1._triGrid.data n).length = 0 → inside n = true → final.data n = true := by
    intro n hn hlen hin
    rw [← hi, ← hj, ← hk] at hn
    exact inside_cell_marked lineIntersectsTriangle jitter m gs1 inside final hline hP1 hr hsize
      hvalid hcl hhead n hn (List.eq_nil_of_length_eq_zero hlen) hin
  refine ⟨gs1, (gridScan gs._gridi gs._gridj gs._gridk).filter (fun g => final.data g),
    _destroyTriangleGrid gs1, hupd, ?_, ?_, ?_⟩
  · rw [hrun, hr1]
  · intro x
    rw [List.mem_filter, mem_gridScan]
    constructor
    · rintro ⟨hx, hfx⟩
      refine ⟨hx, ?_⟩
      rcases hupper x hfx with h | ⟨s, n, c, h1, h2, h3, h4, h5, h6⟩
      · exact Or.inl ((surfaceGrid_eq_true gs1 x).1 h).2
      · right
        refine ⟨s, n, h1, h2, h3, h4, ?_, h6⟩
        have hen := (surfaceGrid_eq_false gs1 n h3).1 h4
        have := hP1 c n h3 hen
        rw [h5] at this
        injection this with this
        exact this.symm
    · rintro ⟨hx, h | ⟨s, n, h1, h2, h3, h4, h5, h6⟩⟩
      · refine ⟨hx, hsurf x ?_⟩
        rw [surfaceGrid_eq_true, hi, hj, hk]
        exact ⟨hx, h⟩
      · refine ⟨hx, ?_⟩
        have hen := (surfaceGrid_eq_false gs1 n h3).1 h4
        have hfn : final.data n = true := by
          apply hinside n (by rw [← hi, ← hj, ← hk]; exact h3) _ h5
          rw [hen]
          rfl
        exact (fillClosed_reach gs1 final hcl n h3 h4 hfn x h6).1
  · intro n hn hlen hin
    rw [List.mem_filter, mem_gridScan]
    exact ⟨hn, hinside n hn hlen hin⟩

theorem hitInside_lineAlongI : LineAlongI hitInside := fun _ _ _ _ _ _ _ => rfl

theorem exampleWall_update :
    _updateTriangleGrid exampleWallTests exampleMeshTwoTriangles exampleWallGrid =
      .ok exampleWallGridBuilt := rfl

theorem exampleWall_rayTest (gs1 : MeshGrid)
    (h : _updateTriangleGrid exampleWallTests exampleMeshTwoTriangles exampleWallGrid =
      .ok gs1) :
    RayTestIs hitInside exampleJitter exampleMeshTwoTriangles gs1 betweenWalls := by
  rw [exampleWall_update] at h
  injection h with h
  subst h
  have key : ∀ n ∈ gridScan 5 2 2, exampleWallGridBuilt._triGrid.data n = [] →
      _isCellInsideMesh hitInside exampleMeshTwoTriangles exampleWallGridBuilt ⟨0, 0, 0⟩ n =
        .ok (betweenWalls n) := by
    decide!
  intro c n hn hen
  exact key n ((mem_gridScan n 5 2 2).2 hn) hen

theorem exampleWall_overlap :
    ∀ t ∈ exampleMeshTwoTriangles.triangles, ∀ g ∈ exampleWallTests.getGridCellOverlap t,
      exampleWallTests.isOverlappingTriangle g t = true →
      isGridIndexInRange g exampleWallGrid._gridi exampleWallGrid._gridj
        exampleWallGrid._gridk = true := by
  decide

theorem exampleWall_output :
    (getCellsInsideMesh exampleWallTests hitInside exampleJitter exampleMeshTwoTriangles
        exampleWallGrid ⟨5, 2, 2, []⟩ >>= fun r => pure r.1.indices) =
      .ok [⟨1, 0, 0⟩, ⟨2, 0, 0⟩, ⟨3, 0, 0⟩, ⟨1, 1, 0⟩, ⟨2, 1, 0⟩, ⟨3, 1, 0⟩,
        ⟨1, 0, 1⟩, ⟨2, 0, 1⟩, ⟨3, 0, 1⟩, ⟨1, 1, 1⟩, ⟨2, 1, 1⟩, ⟨3, 1, 1⟩] := by
  decide!

/-- C20, the claim as it stands fails: for the unit cube on the grid of the one
cell that covers it, the cell `(0, 0, 0)` holds all twelve triangles after
`_updateTriangleGrid`, so it is a surface cell, and it is the output of
`getCellsInsideMesh`, whatever the intersection test and the jitter are: no
neighbour of the cell is a cell of the grid, and `_isCellInsideMesh` is not
called. -/
theorem getCellsInsideMesh_outputs_surface_cell :
    (_updateTriangleGrid unitCellTests unitCubeMesh unitCellGrid >>= fun gs =>
      gs._triGrid.get ⟨0, 0, 0⟩) = .ok [0, 1, 2, 3, 4, 5, 6, 7, 8, 9, 10, 11] ∧
    (_updateTriangleGrid unitCellTests unitCubeMesh unitCellGrid >>= fun gs =>
      _getSurfaceCells gs ⟨1, 1, 1, []⟩) = .ok ⟨1, 1, 1, [⟨0, 0, 0⟩]⟩ ∧
    ∀ (lineIntersectsTriangle : Vec3 → Vec3 → Vec3 → Vec3 → Vec3 → Option (ℚ × ℚ))
      (jitter : Nat → Vec3),
      (getCellsInsideMesh unitCellTests lineIntersectsTriangle jitter unitCubeMesh unitCellGrid
        ⟨1, 1, 1, []⟩ >>= fun r => pure r.1.indices) = .ok [⟨0, 0, 0⟩] := by
  refine ⟨by decide, by decide, fun p j => ?_⟩
  rfl

/-- C20, amended.  On a grid without an axis of size `0`, with overlap tests
that report cells of the grid only, every call of `getCellsInsideMesh` that
returns has appended cells of the grid only, every surface cell among them,
and beyond the surface cells only cells that a flood fill reached from a
neighbour of a surface cell that a call of the ray test reported as inside.
With a ray test that is a fixed predicate `inside` on the cells and an
intersection test that depends on the probe line only, the call returns and
the appended cells are exactly the surface cells and the cells that are
connected, through cells of the grid that are not surface cells, to a
neighbour of a surface cell that is a cell of the grid, not a surface cell and
reported as inside.  For the unit cube on the grid of the one cell that
covers it the output is that cell, a surface cell. -/
theorem getCellsInsideMesh_output_cells :
    (∀ (tests : OverlapTests)
      (lineIntersectsTriangle : Vec3 → Vec3 → Vec3 → Vec3 → Vec3 → Option (ℚ × ℚ))
      (jitter : Nat → Vec3) (m : TriangleMesh) (gs : MeshGrid) (cells : GridIndexVector),
      (gs._gridi ≠ 0 ∧ gs._gridj ≠ 0 ∧ gs._gridk ≠ 0) →
      (cells.width = gs._gridi ∧ cells.height = gs._gridj ∧ cells.depth = gs._gridk) →
      (∀ t ∈ m.triangles, ∀ g ∈ tests.getGridCellOverlap t,
        tests.isOverlappingTriangle g t = true →
        isGridIndexInRange g gs._gridi gs._gridj gs._gridk = true) →
      ∃ gs1 : MeshGrid, _updateTriangleGrid tests m gs = .ok gs1 ∧
        (∀ r, getCellsInsideMesh tests lineIntersectsTriangle jitter m gs cells = .ok r →
          ∃ appended : List GridIndex,
            r.1 = { cells with indices := cells.indices ++ appended } ∧
            (∀ t ∈ m.triangles, ∀ g ∈ tests.getGridCellOverlap t,
              tests.isOverlappingTriangle g t = true → g ∈ appended) ∧
            (∀ s, isGridIndexInRange s gs._gridi gs._gridj gs._gridk = true →
              0 < (gs1._triGrid.data s).length → s ∈ appended) ∧
            (∀ x ∈ appended, isGridIndexInRange x gs._gridi gs._gridj gs._gridk = true ∧
              (0 < (gs1._triGrid.data x).length ∨
                FilledFrom gs1 (fun n => ∃ c, _isCellInsideMesh lineIntersectsTriangle m gs1
                  (jitter c) n = .ok true) x))) ∧
        ∀ inside : GridIndex → Bool, IndicesInRange m → LineAlongI lineIntersectsTriangle →
          RayTestIs lineIntersectsTriangle jitter m gs1 inside →
          ∃ (appended : List GridIndex) (gs' : MeshGrid),
            getCellsInsideMesh tests lineIntersectsTriangle jitter m gs cells =
              .ok ({ cells with indices := cells.indices ++ appended }, gs') ∧
            ∀ x, x ∈ appended ↔
              isGridIndexInRange x gs._gridi gs._gridj gs._gridk = true ∧
                (0 < (gs1._triGrid.data x).length ∨
                  FilledFrom gs1 (fun n => inside n = true) x)) ∧
    (∀ (lineIntersectsTriangle : Vec3 → Vec3 → Vec3 → Vec3 → Vec3 → Option (ℚ × ℚ))
      (jitter : Nat → Vec3),
      (getCellsInsideMesh unitCellTests lineIntersectsTriangle jitter unitCubeMesh unitCellGrid
        ⟨1, 1, 1, []⟩ >>= fun r => pure r.1.indices) = .ok [⟨0, 0, 0⟩]) := by
  refine ⟨?_, fun p j => rfl⟩
  intro tests lineIntersectsTriangle jitter m gs cells hnz hcells hov
  obtain ⟨gs1, hupd, hi, hj, hk, _, _, hpos, hpost, _⟩ :=
    getCellsInsideMesh_run tests lineIntersectsTriangle jitter m gs cells hnz hcells hov
  refine ⟨gs1, hupd, ?_, ?_⟩
  · intro r hrun
    obtain ⟨final, hr1, hsurf, hupper, _, _⟩ := hpost r hrun
    have hmem : ∀ s, isGridIndexInRange s gs._gridi gs._gridj gs._gridk = true →
        0 < (gs1._triGrid.data s).length →
        s ∈ (gridScan gs._gridi gs._gridj gs._gridk).filter (fun g => final.data g) := by
      intro s hs hlen
      rw [List.mem_filter, mem_gridScan]
      refine ⟨hs, hsurf s ?_⟩
      rw [surfaceGrid_eq_true, hi, hj, hk]
      exact ⟨hs, hlen⟩
    refine ⟨(gridScan gs._gridi gs._gridj gs._gridk).filter (fun g => final.data g), ?_, ?_,
      hmem, ?_⟩
    · rw [hr1]
    · intro t ht g hg hgt
      exact hmem g (hov t ht g hg hgt) (hpos t ht g hg hgt)
    · intro x hx
      rw [List.mem_filter, mem_gridScan] at hx
      refine ⟨hx.1, ?_⟩
      rcases hupper x hx.2 with h | ⟨s, n, c, h1, h2, h3, h4, h5, h6⟩
      · exact Or.inl ((surfaceGrid_eq_true gs1 x).1 h).2
      · exact Or.inr ⟨s, n, h1, h2, h3, h4, ⟨c, h5⟩, h6⟩
  · intro inside hr hline hP
    obtain ⟨gs2, appended, gs', hupd2, hrun, hiff, _⟩ :=
      getCellsInsideMesh_marks tests lineIntersectsTriangle jitter m gs cells inside hnz hcells
        hov hr hline (fun g hg => by
          rw [hupd] at hg
          injection hg with hg
          subst hg
          exact hP)
    rw [hupd] at hupd2
    injection hupd2 with hupd2
    subst hupd2
    exact ⟨appended, gs', hrun, hiff⟩

/-- The general part of `getCellsInsideMesh_output_cells` on the grid of
`5 x 2 x 2` cells with a wall of surface cells at `i = 1` and one at `i = 3`,
where the ray test reports the cells with `i = 2` as inside: the appended
cells are the twelve cells with `i = 1, 2, 3`, the surface cells and the
cells between them, and none of the cells with `i = 0` or `i = 4`. -/
theorem getCellsInsideMesh_output_cells_witness :
    (exampleWallGrid._gridi ≠ 0 ∧ exampleWallGrid._gridj ≠ 0 ∧ exampleWallGrid._gridk ≠ 0) ∧
    (getCellsInsideMesh exampleWallTests hitInside exampleJitter exampleMeshTwoTriangles
        exampleWallGrid ⟨5, 2, 2, []⟩ >>= fun r => pure r.1.indices) =
      .ok [⟨1, 0, 0⟩, ⟨2, 0, 0⟩, ⟨3, 0, 0⟩, ⟨1, 1, 0⟩, ⟨2, 1, 0⟩, ⟨3, 1, 0⟩,
        ⟨1, 0, 1⟩, ⟨2, 0, 1⟩, ⟨3, 0, 1⟩, ⟨1, 1, 1⟩, ⟨2, 1, 1⟩, ⟨3, 1, 1⟩] ∧
    ∃ gs1 : MeshGrid,
      _updateTriangleGrid exampleWallTests exampleMeshTwoTriangles exampleWallGrid =
        .ok gs1 ∧
      ∃ (appended : List GridIndex) (gs' : MeshGrid),
        getCellsInsideMesh exampleWallTests hitInside exampleJitter exampleMeshTwoTriangles
          exampleWallGrid ⟨5, 2, 2, []⟩ =
          .ok ({ (⟨5, 2, 2, []⟩ : GridIndexVector) with
            indices := (⟨5, 2, 2, []⟩ : GridIndexVector).indices ++ appended }, gs') ∧
        ∀ x, x ∈ appended ↔
          isGridIndexInRange x exampleWallGrid._gridi exampleWallGrid._gridj
              exampleWallGrid._gridk = true ∧
            (0 < (gs1._triGrid.data x).length ∨
              FilledFrom gs1 (fun n => betweenWalls n = true) x) := by
  refine ⟨by decide, exampleWall_output, ?_⟩
  obtain ⟨gs1, hupd, _, hexact⟩ := getCellsInsideMesh_output_cells.1 exampleWallTests
    hitInside exampleJitter exampleMeshTwoTriangles exampleWallGrid ⟨5, 2, 2, []⟩ (by decide)
    ⟨rfl, rfl, rfl⟩ exampleWall_overlap
  exact ⟨gs1, hupd, hexact betweenWalls (by decide) hitInside_lineAlongI
    (exampleWall_rayTest gs1 hupd)⟩

/-! ## C35: the signed volume of a triangle -/

theorem dot_cross_det (p1 p2 p3 : Vec3) :
    p1.dot (p2.cross p3) =
      Matrix.det !![p1.x, p1.y, p1.z; p2.x, p2.y, p2.z; p3.x, p3.y, p3.z] := by
  rw [Matrix.det_fin_three]
  simp only [Vec3.dot, Vec3.cross, Matrix.of_apply, Matrix.cons_val', Matrix.cons_val_zero,
    Matrix.cons_val_one, Matrix.cons_val_two, Matrix.empty_val', Matrix.cons_val_fin_one,
    Matrix.head_cons, Matrix.head_fin_const, Matrix.tail_cons]
  ring

theorem roundToFormat_neg (p : Nat) (emin emax : Int) (q : ℚ) :
    roundToFormat p emin emax (-q) = (roundToFormat p emin emax q).map fun x => -x := by
  have hnum : (-q).num = -q.num := Rat.num_neg_eq_neg_num q
  have hden : (-q).den = q.den := Rat.den_neg_eq_den q
  unfold roundToFormat
  simp only [hnum, hden, Int.natAbs_neg]
  by_cases h0 : q.num.natAbs = 0
  · simp [h0]
  · simp only [h0, if_false]
    have hq : q.num ≠ 0 := fun h => h0 (by simp [h])
    split_ifs <;> first | rfl | (exfalso; omega) | simp

theorem mulFloat_exact (a b c : ℚ) (h : ExactProduct a b c) :
    mulFloat (mulFloat (some a) (some b)) (some c) = some (a * b * c) := by
  simp only [mulFloat, Option.some_bind, h.1, h.2]

theorem signedVolumeOf_exact (p1 p2 p3 : Vec3) (hex : ExactVolumeTerms p1 p2 p3) :
    signedVolumeOf p1 p2 p3 = roundDouble (oneSixth * p1.dot (p2.cross p3)) := by
  obtain ⟨e1, e2, e3, e4, e5, e6, s1, s2, s3, s4, s5⟩ := hex
  have hd : p1.dot (p2.cross p3) =
      -(p3.x * p2.y * p1.z) + p2.x * p3.y * p1.z + p3.x * p1.y * p2.z -
        p1.x * p3.y * p2.z - p2.x * p1.y * p3.z + p1.x * p2.y * p3.z := by
    simp only [Vec3.dot, Vec3.cross]
    ring
  rw [hd]
  simp only [signedVolumeOf, mulFloat_exact _ _ _ e1, mulFloat_exact _ _ _ e2,
    mulFloat_exact _ _ _ e3, mulFloat_exact _ _ _ e4, mulFloat_exact _ _ _ e5,
    mulFloat_exact _ _ _ e6, divDouble_one_six, negDouble, Option.map_some', addDouble,
    subDouble, mulDouble, Option.some_bind, s1, s2, s3, s4, s5]

theorem roundDouble_neg (q : ℚ) : roundDouble (-q) = negDouble (roundDouble q) :=
  roundToFormat_neg 53 (-1022) 1023 q

/-- C35, the claim as it stands fails.  For the first triangle of
`exampleMeshWindings` one sixth of the determinant is `11/6`, and
`_getSignedTriangleVolume` returns another number, a `double`.  For the
triangle of `exampleMeshShifted`, near `(1000, 1000, 1000)`, one sixth of the
determinant is `500/3` and the method returns a number above `170`.  For the
triangle of `exampleMeshFarVertex` one sixth of the determinant is `1/6`; the
method returns the `double` nearest to `1/6` for the winding `(0, 1, 2)` and
`0` for the two cyclic rotations, and of the three windings with two indices
swapped two have the negated value and one has `0`. -/
theorem getSignedTriangleVolume_rounds :
    (1 / 6 : ℚ) * (Vec3.mk 1 2 3).dot ((Vec3.mk 0 1 4).cross (Vec3.mk 2 0 1)) = 11 / 6 ∧
    _getSignedTriangleVolume exampleMeshWindings 0 =
      .ok (some (8256599316845909 / 4503599627370496)) ∧
    (8256599316845909 / 4503599627370496 : ℚ) ≠ 11 / 6 ∧
    (1 / 6 : ℚ) * (Vec3.mk 1000 1000 1000).dot
      ((Vec3.mk 1001 1000 1000).cross (Vec3.mk 1000 1001 1000)) = 500 / 3 ∧
    _getSignedTriangleVolume exampleMeshShifted 0 =
      .ok (some (6004799503160661 / 35184372088832)) ∧
    (170 : ℚ) < 6004799503160661 / 35184372088832 ∧
    (1 / 6 : ℚ) * (Vec3.mk 1 0 1152921504606846976).dot
      ((Vec3.mk 1 1 0).cross (Vec3.mk 1 1 1)) = 1 / 6 ∧
    _getSignedTriangleVolume exampleMeshFarVertex 0 = .ok (some oneSixth) ∧
    _getSignedTriangleVolume exampleMeshFarVertex 1 = .ok (some 0) ∧
    _getSignedTriangleVolume exampleMeshFarVertex 2 = .ok (some 0) ∧
    _getSignedTriangleVolume exampleMeshFarVertex 3 = .ok (some (-oneSixth)) ∧
    _getSignedTriangleVolume exampleMeshFarVertex 4 = .ok (some (-oneSixth)) ∧
    _getSignedTriangleVolume exampleMeshFarVertex 5 = .ok (some 0) := by
  refine ⟨by decide!, by decide!, by decide!, by decide!, by decide!, by decide!, by decide!,
    by decide!, by decide!, by decide!, by decide!, by decide!, by decide!⟩

/-- C35, amended: for a triangle with the corners `p1`, `p2`, `p3` such that
none of the products in `float` and none of the sums in `double` of lines
1258-1265 rounds, `_getSignedTriangleVolume` returns the `double` nearest to
`c * dot(p1, cross(p2, p3))`, where `c` is the `double` nearest to `1/6`, and
`dot(p1, cross(p2, p3))` is the determinant of the matrix with the rows `p1`,
`p2`, `p3`.  A triangle with the same indices rotated cyclically, for whose
order of the corners the products and sums do not round either, has the same
value, and such a triangle with two of the indices swapped has the negated
value. -/
theorem getSignedTriangleVolume_det (m : TriangleMesh) (tidx : Int) (t : Triangle)
    (p1 p2 p3 : Vec3) (ht : vecGet m.triangles tidx = .ok t)
    (h1 : vecGet m.vertices t.t0 = .ok p1) (h2 : vecGet m.vertices t.t1 = .ok p2)
    (h3 : vecGet m.vertices t.t2 = .ok p3) (hex : ExactVolumeTerms p1 p2 p3) :
    _getSignedTriangleVolume m tidx = .ok (roundDouble (oneSixth * p1.dot (p2.cross p3))) ∧
    roundDouble (1 / 6) = some oneSixth ∧
    p1.dot (p2.cross p3) =
      Matrix.det !![p1.x, p1.y, p1.z; p2.x, p2.y, p2.z; p3.x, p3.y, p3.z] ∧
    ∀ (j : Int) (s : Triangle), vecGet m.triangles j = .ok s →
      ((s = ⟨t.t1, t.t2, t.t0⟩ ∧ ExactVolumeTerms p2 p3 p1 ∨
          s = ⟨t.t2, t.t0, t.t1⟩ ∧ ExactVolumeTerms p3 p1 p2) →
        _getSignedTriangleVolume m j =
          .ok (roundDouble (oneSixth * p1.dot (p2.cross p3)))) ∧
      ((s = ⟨t.t1, t.t0, t.t2⟩ ∧ ExactVolumeTerms p2 p1 p3 ∨
          s = ⟨t.t0, t.t2, t.t1⟩ ∧ ExactVolumeTerms p1 p3 p2 ∨
          s = ⟨t.t2, t.t1, t.t0⟩ ∧ ExactVolumeTerms p3 p2 p1) →
        _getSignedTriangleVolume m j =
          .ok (negDouble (roundDouble (oneSixth * p1.dot (p2.cross p3))))) := by
  have hrot1 : p2.dot (p3.cross p1) = p1.dot (p2.cross p3) := by
    simp only [Vec3.dot, Vec3.cross]
    ring
  have hrot2 : p3.dot (p1.cross p2) = p1.dot (p2.cross p3) := by
    simp only [Vec3.dot, Vec3.cross]
    ring
  have hsw1 : oneSixth * p2.dot (p1.cross p3) = -(oneSixth * p1.dot (p2.cross p3)) := by
    simp only [Vec3.dot, Vec3.cross]
    ring
  have hsw2 : oneSixth * p1.dot (p3.cross p2) = -(oneSixth * p1.dot (p2.cross p3)) := by
    simp only [Vec3.dot, Vec3.cross]
    ring
  have hsw3 : oneSixth * p3.dot (p2.cross p1) = -(oneSixth * p1.dot (p2.cross p3)) := by
    simp only [Vec3.dot, Vec3.cross]
    ring
  refine ⟨?_, by decide!, dot_cross_det p1 p2 p3, ?_⟩
  · rw [signedVolume_eq m tidx t p1 p2 p3 ht h1 h2 h3, signedVolumeOf_exact p1 p2 p3 hex]
  · intro j s hs
    constructor
    · rintro (⟨e, hx⟩ | ⟨e, hx⟩)
      · subst e
        rw [signedVolume_eq m j _ p2 p3 p1 hs h2 h3 h1, signedVolumeOf_exact _ _ _ hx, hrot1]
      · subst e
        rw [signedVolume_eq m j _ p3 p1 p2 hs h3 h1 h2, signedVolumeOf_exact _ _ _ hx, hrot2]
    · rintro (⟨e, hx⟩ | ⟨e, hx⟩ | ⟨e, hx⟩)
      · subst e
        rw [signedVolume_eq m j _ p2 p1 p3 hs h2 h1 h3, signedVolumeOf_exact _ _ _ hx, hsw1,
          roundDouble_neg]
      · subst e
        rw [signedVolume_eq m j _ p1 p3 p2 hs h1 h3 h2, signedVolumeOf_exact _ _ _ hx, hsw2,
          roundDouble_neg]
      · subst e
        rw [signedVolume_eq m j _ p3 p2 p1 hs h3 h2 h1, signedVolumeOf_exact _ _ _ hx, hsw3,
          roundDouble_neg]

theorem exampleMeshWindings_exact :
    ExactVolumeTerms ⟨1, 2, 3⟩ ⟨0, 1, 4⟩ ⟨2, 0, 1⟩ ∧
    ExactVolumeTerms ⟨0, 1, 4⟩ ⟨2, 0, 1⟩ ⟨1, 2, 3⟩ ∧
    ExactVolumeTerms ⟨2, 0, 1⟩ ⟨1, 2, 3⟩ ⟨0, 1, 4⟩ ∧
    ExactVolumeTerms ⟨0, 1, 4⟩ ⟨1, 2, 3⟩ ⟨2, 0, 1⟩ ∧
    ExactVolumeTerms ⟨1, 2, 3⟩ ⟨2, 0, 1⟩ ⟨0, 1, 4⟩ ∧
    ExactVolumeTerms ⟨2, 0, 1⟩ ⟨0, 1, 4⟩ ⟨1, 2, 3⟩ := by
  refine ⟨?_, ?_, ?_, ?_, ?_, ?_⟩ <;>
  · unfold ExactVolumeTerms ExactProduct
    refine ⟨⟨?_, ?_⟩, ⟨?_, ?_⟩, ⟨?_, ?_⟩, ⟨?_, ?_⟩, ⟨?_, ?_⟩, ⟨?_, ?_⟩, ?_, ?_, ?_, ?_, ?_⟩ <;>
      decide!

/-- The signed volumes of the six windings of `exampleMeshWindings`, whose
products and sums do not round: the `double` nearest to `c * 11` with `c` the
`double` nearest to `1/6` for the winding `(0, 1, 2)` and its rotations, and
the negated value for the others. -/
theorem getSignedTriangleVolume_det_witness :
    ExactVolumeTerms ⟨1, 2, 3⟩ ⟨0, 1, 4⟩ ⟨2, 0, 1⟩ ∧
    (Vec3.mk 1 2 3).dot ((Vec3.mk 0 1 4).cross (Vec3.mk 2 0 1)) = 11 ∧
    roundDouble (oneSixth * 11) = some (8256599316845909 / 4503599627370496) ∧
    _getSignedTriangleVolume exampleMeshWindings 0 = .ok (roundDouble (oneSixth * 11)) ∧
    _getSignedTriangleVolume exampleMeshWindings 1 = .ok (roundDouble (oneSixth * 11)) ∧
    _getSignedTriangleVolume exampleMeshWindings 2 = .ok (roundDouble (oneSixth * 11)) ∧
    _getSignedTriangleVolume exampleMeshWindings 3 =
      .ok (negDouble (roundDouble (oneSixth * 11))) ∧
    _getSignedTriangleVolume exampleMeshWindings 4 =
      .ok (negDouble (roundDouble (oneSixth * 11))) ∧
    _getSignedTriangleVolume exampleMeshWindings 5 =
      .ok (negDouble (roundDouble (oneSixth * 11))) := by
  have h := getSignedTriangleVolume_det exampleMeshWindings 0 ⟨0, 1, 2⟩ ⟨1, 2, 3⟩ ⟨0, 1, 4⟩
    ⟨2, 0, 1⟩ rfl rfl rfl rfl exampleMeshWindings_exact.1
  have e : (Vec3.mk 1 2 3).dot ((Vec3.mk 0 1 4).cross (Vec3.mk 2 0 1)) = 11 := by
    simp only [Vec3.dot, Vec3.cross]
    norm_num
  rw [e] at h
  have hx := exampleMeshWindings_exact
  exact ⟨hx.1, e, by decide!, h.1,
    (h.2.2.2 1 ⟨1, 2, 0⟩ rfl).1 (Or.inl ⟨rfl, hx.2.1⟩),
    (h.2.2.2 2 ⟨2, 0, 1⟩ rfl).1 (Or.inr ⟨rfl, hx.2.2.1⟩),
    (h.2.2.2 3 ⟨1, 0, 2⟩ rfl).2 (Or.inl ⟨rfl, hx.2.2.2.1⟩),
    (h.2.2.2 4 ⟨0, 2, 1⟩ rfl).2 (Or.inr (Or.inl ⟨rfl, hx.2.2.2.2.1⟩)),
    (h.2.2.2 5 ⟨2, 1, 0⟩ rfl).2 (Or.inr (Or.inr ⟨rfl, hx.2.2.2.2.2⟩))⟩

/-! ## C38: the cells that `getCellsInsideMesh` appends -/

theorem gridScan_pairwise (w h d : Int) : (gridScan w h d).Pairwise scanBefore := by
  unfold gridScan
  rw [List.pairwise_flatMap]
  constructor
  · intro k _
    rw [List.pairwise_flatMap]
    constructor
    · intro j _
      rw [List.pairwise_map]
      refine List.Pairwise.imp ?_ (List.pairwise_lt_range _)
      intro a b hab
      exact Or.inr ⟨rfl, Or.inr ⟨rfl, Int.ofNat_lt.2 hab⟩⟩
    · refine List.Pairwise.imp ?_ (List.pairwise_lt_range _)
      intro a b hab x hx y hy
      obtain ⟨i1, _, rfl⟩ := List.mem_map.1 hx
      obtain ⟨i2, _, rfl⟩ := List.mem_map.1 hy
      exact Or.inr ⟨rfl, Or.inl (Int.ofNat_lt.2 hab)⟩
  · refine List.Pairwise.imp ?_ (List.pairwise_lt_range _)
    intro a b hab x hx y hy
    obtain ⟨j1, _, hx⟩ := List.mem_flatMap.1 hx
    obtain ⟨i1, _, rfl⟩ := List.mem_map.1 hx
    obtain ⟨j2, _, hy⟩ := List.mem_flatMap.1 hy
    obtain ⟨i2, _, rfl⟩ := List.mem_map.1 hy
    exact Or.inl (Int.ofNat_lt.2 hab)

theorem scanBefore_ne (a b : GridIndex) (h : scanBefore a b) : a ≠ b := by
  rintro rfl
  rcases h with h | ⟨_, h | ⟨_, h⟩⟩ <;> omega

/-- C38: when a size of the grid is `0`, `getCellsInsideMesh` returns the
vector as it was.  On a grid with three positive sizes, with overlap tests
that report cells of the grid only, every call that returns has appended
cells that contain every cell of the grid whose triangle list is not empty,
hold no cell twice, and are in the order of the scan: of two appended cells
the one with the smaller `k` comes first, then the one with the smaller `j`,
then the one with the smaller `i`.  The call returns when no call of
`_isCellInsideMesh` fails an assertion. -/
theorem getCellsInsideMesh_scan_order (tests : OverlapTests)
    (lineIntersectsTriangle : Vec3 → Vec3 → Vec3 → Vec3 → Vec3 → Option (ℚ × ℚ))
    (jitter : Nat → Vec3) (m : TriangleMesh) (gs : MeshGrid) (cells : GridIndexVector) :
    ((gs._gridi = 0 ∨ gs._gridj = 0 ∨ gs._gridk = 0) →
      getCellsInsideMesh tests lineIntersectsTriangle jitter m gs cells = .ok (cells, gs)) ∧
    ((0 < gs._gridi ∧ 0 < gs._gridj ∧ 0 < gs._gridk) →
      (cells.width = gs._gridi ∧ cells.height = gs._gridj ∧ cells.depth = gs._gridk) →
      (∀ t ∈ m.triangles, ∀ g ∈ tests.getGridCellOverlap t,
        tests.isOverlappingTriangle g t = true →
        isGridIndexInRange g gs._gridi gs._gridj gs._gridk = true) →
      ∃ gs1 : MeshGrid, _updateTriangleGrid tests m gs = .ok gs1 ∧
        (∀ r, getCellsInsideMesh tests lineIntersectsTriangle jitter m gs cells = .ok r →
          ∃ appended : List GridIndex,
            r.1 = { cells with indices := cells.indices ++ appended } ∧
            (∀ s, isGridIndexInRange s gs._gridi gs._gridj gs._gridk = true →
              0 < (gs1._triGrid.data s).length → s ∈ appended) ∧
            appended.Nodup ∧
            appended.Pairwise scanBefore ∧
            appended.Sublist (gridScan gs._gridi gs._gridj gs._gridk)) ∧
        (RayTestReturns lineIntersectsTriangle jitter m gs1 →
          ∃ r, getCellsInsideMesh tests lineIntersectsTriangle jitter m gs cells = .ok r)) := by
  constructor
  · intro hz
    simp only [getCellsInsideMesh, hz, if_true, pure_eq_ok]
  · intro hpos hcells hov
    obtain ⟨gs1, hupd, hi, hj, hk, _, _, _, hpost, hret⟩ :=
      getCellsInsideMesh_run tests lineIntersectsTriangle jitter m gs cells
        ⟨by omega, by omega, by omega⟩ hcells hov
    refine ⟨gs1, hupd, ?_, hret⟩
    intro r hrun
    obtain ⟨final, hr1, hsurf, _, _, _⟩ := hpost r hrun
    have hsub : ((gridScan gs._gridi gs._gridj gs._gridk).filter (fun g => final.data g)).Sublist
        (gridScan gs._gridi gs._gridj gs._gridk) := List.filter_sublist _
    have hpw := (gridScan_pairwise gs._gridi gs._gridj gs._gridk).sublist hsub
    refine ⟨_, by rw [hr1], ?_, ?_, hpw, hsub⟩
    · intro s hs hlen
      refine List.mem_filter.2 ⟨(mem_gridScan s _ _ _).2 hs, hsurf s ?_⟩
      rw [surfaceGrid_eq_true, hi, hj, hk]
      exact ⟨hs, hlen⟩
    · exact List.Pairwise.imp (fun {a b} hab => scanBefore_ne a b hab) hpw

/-- The theorem `getCellsInsideMesh_scan_order` on the grid of `5 x 2 x 2`
cells with a wall of surface cells at `i = 1` and one at `i = 3`: no call of
`_isCellInsideMesh` fails, the call returns, and it appends twelve cells, the
eight surface cells among them, in the order of the scan. -/
theorem getCellsInsideMesh_scan_order_witness :
    (0 < exampleWallGrid._gridi ∧ 0 < exampleWallGrid._gridj ∧ 0 < exampleWallGrid._gridk) ∧
    RayTestReturns hitInside exampleJitter exampleMeshTwoTriangles exampleWallGridBuilt ∧
    (getCellsInsideMesh exampleWallTests hitInside exampleJitter exampleMeshTwoTriangles
        exampleWallGrid ⟨5, 2, 2, []⟩ >>= fun r => pure r.1.indices) =
      .ok [⟨1, 0, 0⟩, ⟨2, 0, 0⟩, ⟨3, 0, 0⟩, ⟨1, 1, 0⟩, ⟨2, 1, 0⟩, ⟨3, 1, 0⟩,
        ⟨1, 0, 1⟩, ⟨2, 0, 1⟩, ⟨3, 0, 1⟩, ⟨1, 1, 1⟩, ⟨2, 1, 1⟩, ⟨3, 1, 1⟩] ∧
    ∃ gs1 : MeshGrid,
      _updateTriangleGrid exampleWallTests exampleMeshTwoTriangles exampleWallGrid =
        .ok gs1 ∧
      (∀ r, getCellsInsideMesh exampleWallTests hitInside exampleJitter
          exampleMeshTwoTriangles exampleWallGrid ⟨5, 2, 2, []⟩ = .ok r →
        ∃ appended : List GridIndex,
          r.1 = { (⟨5, 2, 2, []⟩ : GridIndexVector) with
            indices := (⟨5, 2, 2, []⟩ : GridIndexVector).indices ++ appended } ∧
          (∀ s, isGridIndexInRange s exampleWallGrid._gridi exampleWallGrid._gridj
              exampleWallGrid._gridk = true →
            0 < (gs1._triGrid.data s).length → s ∈ appended) ∧
          appended.Nodup ∧
          appended.Pairwise scanBefore ∧
          appended.Sublist
            (gridScan exampleWallGrid._gridi exampleWallGrid._gridj exampleWallGrid._gridk)) ∧
      (RayTestReturns hitInside exampleJitter exampleMeshTwoTriangles gs1 →
        ∃ r, getCellsInsideMesh exampleWallTests hitInside exampleJitter
          exampleMeshTwoTriangles exampleWallGrid ⟨5, 2, 2, []⟩ = .ok r) :=
  ⟨by decide,
    fun c n hn hen => ⟨betweenWalls n, exampleWall_rayTest _ exampleWall_update c n hn hen⟩,
    exampleWall_output,
    (getCellsInsideMesh_scan_order exampleWallTests hitInside exampleJitter
      exampleMeshTwoTriangles exampleWallGrid ⟨5, 2, 2, []⟩).2 (by decide) ⟨rfl, rfl, rfl⟩
      exampleWall_overlap⟩

/-! ## C32: the pair search of `removeDuplicateVertices` -/

theorem closestRefLoop_mem (vertices : List Vec3) (i : Int) (h0 : 0 ≤ i)
    (h1 : i < vertices.length) :
    ∀ (query : List Int) (mindist : Option ℚ) (closestRef : Int),
    (∀ id ∈ query, 0 ≤ id ∧ id < (vertices.length : Int)) →
    ∃ r, closestRefLoop vertices i query mindist closestRef = .ok r ∧
      (r ∈ query ∨ (r = closestRef ∧ (mindist = none → query = []))) := by
  intro query
  induction query with
  | nil =>
    intro mindist closestRef _
    exact ⟨closestRef, rfl, Or.inr ⟨rfl, fun _ => rfl⟩⟩
  | cons id query ih =>
    intro mindist closestRef hq
    obtain ⟨a, ha, _⟩ := vecGet_ok vertices i h0 h1
    obtain ⟨b, hb, _⟩ := vecGet_ok vertices id (hq id (List.mem_cons_self _ _)).1
      (hq id (List.mem_cons_self _ _)).2
    have hq' : ∀ x ∈ query, 0 ≤ x ∧ x < (vertices.length : Int) :=
      fun x hx => hq x (List.mem_cons_of_mem _ hx)
    cases mindist with
    | none =>
      obtain ⟨r, hr, hmem⟩ := ih (some (a.sub b).lengthsq) id hq'
      refine ⟨r, ?_, Or.inl ?_⟩
      · simp only [closestRefLoop, ha, hb, ok_bind]
        exact hr
      · rcases hmem with h | ⟨h, _⟩
        · exact List.mem_cons_of_mem _ h
        · rw [h]
          exact List.mem_cons_self _ _
    | some d =>
      by_cases hlt : (a.sub b).lengthsq < d
      · obtain ⟨r, hr, hmem⟩ := ih (some (a.sub b).lengthsq) id hq'
        refine ⟨r, ?_, Or.inl ?_⟩
        · simp only [closestRefLoop, ha, hb, ok_bind, hlt, if_true]
          exact hr
        · rcases hmem with h | ⟨h, _⟩
          · exact List.mem_cons_of_mem _ h
          · rw [h]
            exact List.mem_cons_self _ _
      · obtain ⟨r, hr, hmem⟩ := ih (some d) closestRef hq'
        refine ⟨r, ?_, ?_⟩
        · simp only [closestRefLoop, ha, hb, ok_bind, hlt, if_false]
          exact hr
        · rcases hmem with h | ⟨h, _⟩
          · exact Or.inl (List.mem_cons_of_mem _ h)
          · exact Or.inr ⟨h, fun hn => by cases hn⟩

theorem vecGet_set_true (v : List Bool) (c x : Int) (h : vecGet v x = .ok true) :
    vecGet (v.set c.toNat true) x = .ok true := by
  rw [vecGet_eq_ok_iff] at h ⊢
  refine ⟨h.1, ?_⟩
  rw [List.getElem?_set]
  by_cases e : c.toNat = x.toNat
  · rw [if_pos e]
    have hlt : x.toNat < v.length := by
      by_contra hc
      rw [List.getElem?_eq_none (Nat.le_of_not_lt hc)] at h
      cases h.2
    rw [e, if_pos hlt]
  · rw [if_neg e]
    exact h.2

theorem vecGet_set_self (v : List Bool) (c : Int) (h0 : 0 ≤ c) (h1 : c < v.length) :
    vecGet (v.set c.toNat true) c = .ok true := by
  rw [vecGet_eq_ok_iff]
  refine ⟨h0, ?_⟩
  have hlt : c.toNat < v.length := (Int.toNat_lt h0).2 h1
  rw [List.getElem?_set]
  simp [hlt]

theorem selfPairsLoop_spec (query : List Vec3 → Int → ℚ → List Int) (defaultRef : Int)
    (vertices : List Vec3) (eps : ℚ)
    (hq : ∀ i : Int, 0 ≤ i → i < vertices.length → ∀ id ∈ query vertices i eps,
      0 ≤ id ∧ id < (vertices.length : Int) ∧ id ≠ i) :
    ∀ (k : Nat) (i : Int) (isPaired : List Bool) (pairs : List (Int × Int)),
    isPaired.length = vertices.length → 0 ≤ i → i + k = vertices.length →
    (∀ p ∈ pairs, p.1 < p.2) → pairs.Nodup →
    (∀ p ∈ pairs, (p.1 < i ∧ vecGet isPaired p.2 = .ok true) ∨
      (p.2 < i ∧ vecGet isPaired p.1 = .ok true)) →
    ∃ pairs', selfPairsLoop query defaultRef vertices eps k i isPaired pairs = .ok pairs' ∧
      (∀ p ∈ pairs', p.1 < p.2) ∧ pairs'.Nodup := by
  intro k
  induction k with
  | zero =>
    intro i isPaired pairs _ _ _ hlt hnd _
    exact ⟨pairs, rfl, hlt, hnd⟩
  | succ k ih =>
    intro i isPaired pairs hlen hi hik hlt hnd hinv
    have hin : i < (isPaired.length : Int) := by
      rw [hlen]
      push_cast at hik
      omega
    have hik' : i + 1 + (k : Int) = vertices.length := by
      push_cast at hik
      omega
    have hweak : ∀ p ∈ pairs, (p.1 < i + 1 ∧ vecGet isPaired p.2 = .ok true) ∨
        (p.2 < i + 1 ∧ vecGet isPaired p.1 = .ok true) := by
      intro p hp
      rcases hinv p hp with ⟨h1, h2⟩ | ⟨h1, h2⟩
      · exact Or.inl ⟨by omega, h2⟩
      · exact Or.inr ⟨by omega, h2⟩
    rcases vecGet_bool_cases isPaired i hi hin with hb | hb
    · obtain ⟨pairs', hrun, hres⟩ := ih (i + 1) isPaired pairs hlen (by omega) hik' hlt hnd hweak
      refine ⟨pairs', ?_, hres⟩
      simp only [selfPairsLoop, hb, ok_bind, if_true]
      exact hrun
    · by_cases hq0 : (query vertices i eps).length = 0
      · obtain ⟨pairs', hrun, hres⟩ := ih (i + 1) isPaired pairs hlen (by omega) hik' hlt hnd
          hweak
        refine ⟨pairs', ?_, hres⟩
        simp only [selfPairsLoop, hb, ok_bind, Bool.false_eq_true, if_false, hq0, if_true]
        exact hrun
      · have hiv : i < (vertices.length : Int) := by
          rw [← hlen]
          exact hin
        have hqi := hq i hi hiv
        have hclosest : ∃ c, ((query vertices i eps).length = 1 →
              vecGet (query vertices i eps) 0 = .ok c) ∧
            (¬ (query vertices i eps).length = 1 →
              closestRefLoop vertices i (query vertices i eps) none defaultRef = .ok c) ∧
            c ∈ query vertices i eps := by
          by_cases hq1 : (query vertices i eps).length = 1
          · obtain ⟨c, hc, _⟩ := vecGet_ok (query vertices i eps) 0 (le_refl _)
              (by rw [hq1]; decide)
            exact ⟨c, fun _ => hc, fun h => absurd hq1 h, vecGet_mem _ _ _ hc⟩
          · obtain ⟨r, hr, hmem⟩ := closestRefLoop_mem vertices i hi hiv (query vertices i eps)
              none defaultRef (fun id hid => ⟨(hqi id hid).1, (hqi id hid).2.1⟩)
            refine ⟨r, fun h => absurd h hq1, fun _ => hr, ?_⟩
            rcases hmem with h | ⟨_, h⟩
            · exact h
            · exact absurd (by rw [h rfl]; rfl) hq0
        obtain ⟨c, hc1, hc2, hcq⟩ := hclosest
        obtain ⟨c0, c1, cne⟩ := hqi c hcq
        have hset : vecSet isPaired c true = .ok (isPaired.set c.toNat true) :=
          vecSet_ok isPaired c true c0 (by rw [hlen]; exact c1)
        have hself : vecGet (isPaired.set c.toNat true) c = .ok true :=
          vecGet_set_self isPaired c c0 (by rw [hlen]; exact c1)
        have hnew : (if c < i then (c, i) else (i, c)) ∉ pairs := by
          intro hmem
          rcases hinv _ hmem with ⟨h1, h2⟩ | ⟨h1, h2⟩
          · by_cases hci : c < i
            · rw [if_pos hci] at h1 h2
              rw [hb] at h2
              cases h2
            · rw [if_neg hci] at h1
              exact absurd h1 (lt_irrefl _)
          · by_cases hci : c < i
            · rw [if_pos hci] at h1
              exact absurd h1 (lt_irrefl _)
            · rw [if_neg hci] at h1 h2
              rw [hb] at h2
              cases h2
        obtain ⟨pairs', hrun, hres⟩ := ih (i + 1) (isPaired.set c.toNat true)
          (pairs ++ [if c < i then (c, i) else (i, c)]) (by simpa using hlen) (by omega) hik'
          (by
            intro p hp
            rcases List.mem_append.1 hp with hp | hp
            · exact hlt p hp
            · rw [List.mem_singleton.1 hp]
              by_cases hci : c < i
              · rw [if_pos hci]
                exact hci
              · rw [if_neg hci]
                show i < c
                omega)
          (by
            rw [List.nodup_append]
            refine ⟨hnd, List.nodup_singleton _, ?_⟩
            intro p hp hp'
            rw [List.mem_singleton.1 hp'] at hp
            exact hnew hp)
          (by
            intro p hp
            rcases List.mem_append.1 hp with hp | hp
            · rcases hweak p hp with ⟨h1, h2⟩ | ⟨h1, h2⟩
              · exact Or.inl ⟨h1, vecGet_set_true _ _ _ h2⟩
              · exact Or.inr ⟨h1, vecGet_set_true _ _ _ h2⟩
            · rw [List.mem_singleton.1 hp]
              by_cases hci : c < i
              · rw [if_pos hci]
                exact Or.inr ⟨by show i < i + 1; omega, hself⟩
              · rw [if_neg hci]
                exact Or.inl ⟨by show i < i + 1; omega, hself⟩)
        refine ⟨pairs', ?_, hres⟩
        by_cases hq1 : (query vertices i eps).length = 1
        · simp only [selfPairsLoop, hb, ok_bind, Bool.false_eq_true, if_false, hq0, hq1, if_true,
            hc1 hq1, hset]
          exact hrun
        · simp only [selfPairsLoop, hb, ok_bind, Bool.false_eq_true, if_false, hq0, hq1,
            hc2 hq1, hset]
          exact hrun

theorem stdSort_pairs_perm (l : List (Int × Int)) :
    (stdSort sortVertexPairByFirstIndex l).Perm l :=
  List.perm_insertionSort _ l

theorem stdSort_pairs_sorted (l : List (Int × Int)) :
    List.Pairwise (fun p q => p.1 ≤ q.1) (stdSort sortVertexPairByFirstIndex l) := by
  haveI : IsTotal (Int × Int) (fun a b => sortVertexPairByFirstIndex b a = false) :=
    ⟨fun a b => by
      simp only [sortVertexPairByFirstIndex, decide_eq_false_iff_not, not_lt]
      exact le_total _ _⟩
  haveI : IsTrans (Int × Int) (fun a b => sortVertexPairByFirstIndex b a = false) :=
    ⟨fun a b c hab hbc => by
      simp only [sortVertexPairByFirstIndex, decide_eq_false_iff_not, not_lt] at *
      exact le_trans hab hbc⟩
  have := List.sorted_insertionSort (fun a b => sortVertexPairByFirstIndex b a = false) l
  refine List.Pairwise.imp ?_ this
  intro a b hab
  simpa only [sortVertexPairByFirstIndex, decide_eq_false_iff_not, not_lt] using hab

theorem sphereQueryRef_spec (gridpoints : List Vec3) (i : Int) (r : ℚ) :
    ∀ id ∈ sphereQueryRef gridpoints i r, 0 ≤ id ∧ id < (gridpoints.length : Int) ∧ id ≠ i := by
  intro id hid
  unfold sphereQueryRef at hid
  cases hv : vecGet gridpoints i with
  | error e =>
    rw [hv] at hid
    cases hid
  | ok v =>
    rw [hv] at hid
    simp only [List.mem_filter, decide_eq_true_eq] at hid
    obtain ⟨hmem, hne⟩ := hid
    simp only [sphereQuery, List.mem_map, List.mem_filter, List.mem_range] at hmem
    obtain ⟨j, ⟨hj, _⟩, rfl⟩ := hmem
    exact ⟨Int.ofNat_nonneg _, Int.ofNat_lt.2 hj, hne⟩

/-- C32: when the query of the spatial point grid for the stored point `i`
returns `id`s of stored points other than `i`, the pair search of
`removeDuplicateVertices`, started on an empty vector, returns, and in the
vector it returns every pair `(a, b)` has `a < b`, no pair occurs twice, and
the first indices do not decrease.  The first two properties hold for every
order of the pairs, so they do not depend on the order in which `std::sort`
leaves pairs with the same first index. -/
theorem findDuplicateVertexPairsSelf_sorted
    (queryPointReferencesInsideSphere : List Vec3 → Int → ℚ → List Int) (defaultRef : Int)
    (m : TriangleMesh)
    (hq : ∀ i : Int, 0 ≤ i → i < m.vertices.length →
      ∀ id ∈ queryPointReferencesInsideSphere m.vertices i (1 / 100000),
        0 ≤ id ∧ id < (m.vertices.length : Int) ∧ id ≠ i) :
    ∃ vertexPairs, _findDuplicateVertexPairsSelf queryPointReferencesInsideSphere defaultRef
        m [] = .ok vertexPairs ∧
      (∀ p ∈ vertexPairs, p.1 < p.2) ∧ vertexPairs.Nodup ∧
      vertexPairs.Pairwise (fun p q => p.1 ≤ q.1) ∧
      ∀ l : List (Int × Int), l.Perm vertexPairs → (∀ p ∈ l, p.1 < p.2) ∧ l.Nodup := by
  obtain ⟨pairs, hrun, hlt, hnd⟩ := selfPairsLoop_spec queryPointReferencesInsideSphere
    defaultRef m.vertices (1 / 100000) hq m.vertices.length 0
    (List.replicate m.vertices.length false) [] (by simp) (le_refl _) (by simp)
    (fun p hp => by cases hp) List.nodup_nil (fun p hp => by cases hp)
  have hperm := stdSort_pairs_perm pairs
  have hlt' : ∀ p ∈ stdSort sortVertexPairByFirstIndex pairs, p.1 < p.2 :=
    fun p hp => hlt p (hperm.mem_iff.1 hp)
  have hnd' : (stdSort sortVertexPairByFirstIndex pairs).Nodup := hperm.nodup_iff.2 hnd
  refine ⟨stdSort sortVertexPairByFirstIndex pairs, ?_, hlt', hnd', stdSort_pairs_sorted pairs,
    ?_⟩
  · simp only [_findDuplicateVertexPairsSelf, hrun, ok_bind, pure_eq_ok]
  · intro l hl
    exact ⟨fun p hp => hlt' p (hl.mem_iff.1 hp), hl.nodup_iff.2 hnd'⟩

/-- The pair search on `exampleMeshTripled` with the query of the points
within the distance `eps` of a stored point, that point left out. -/
theorem findDuplicateVertexPairsSelf_sorted_witness :
    ∃ vertexPairs, _findDuplicateVertexPairsSelf sphereQueryRef 0 exampleMeshTripled [] =
        .ok vertexPairs ∧
      (∀ p ∈ vertexPairs, p.1 < p.2) ∧ vertexPairs.Nodup ∧
      vertexPairs.Pairwise (fun p q => p.1 ≤ q.1) ∧
      ∀ l : List (Int × Int), l.Perm vertexPairs → (∀ p ∈ l, p.1 < p.2) ∧ l.Nodup :=
  findDuplicateVertexPairsSelf_sorted sphereQueryRef 0 exampleMeshTripled
    (fun i _ _ => sphereQueryRef_spec exampleMeshTripled.vertices i (1 / 100000))

/-! ## C33: the search for the end of the header -/

theorem startsWith_iff : ∀ (pat s : List Nat), startsWith pat s = true ↔ ∃ b, s = pat ++ b := by
  intro pat
  induction pat with
  | nil =>
    intro s
    simp [startsWith]
  | cons p pat ih =>
    intro s
    cases s with
    | nil => simp [startsWith]
    | cons c s =>
      simp only [startsWith, Bool.and_eq_true, decide_eq_true_eq, ih, List.cons_append,
        List.cons.injEq]
      constructor
      · rintro ⟨rfl, b, rfl⟩
        exact ⟨b, rfl, rfl⟩
      · rintro ⟨b, rfl, rfl⟩
        exact ⟨rfl, b, rfl⟩

theorem occurs_cons (pat : List Nat) (c : Nat) (s : List Nat) :
    Occurs pat (c :: s) ↔ startsWith pat (c :: s) = true ∨ Occurs pat s := by
  rw [startsWith_iff]
  constructor
  · rintro ⟨a, b, h⟩
    cases a with
    | nil => exact Or.inl ⟨b, by simpa using h⟩
    | cons x a =>
      simp only [List.cons_append, List.cons.injEq] at h
      exact Or.inr ⟨a, b, h.2⟩
  · rintro (⟨b, h⟩ | ⟨a, b, h⟩)
    · exact ⟨[], b, by simpa using h⟩
    · exact ⟨c :: a, b, by simp [h]⟩

theorem occurs_nil_iff (pat : List Nat) : Occurs pat [] ↔ pat = [] := by
  constructor
  · rintro ⟨a, b, h⟩
    have := congrArg List.length h
    simp only [List.length_nil, List.length_append] at this
    exact List.length_eq_zero.1 (by omega)
  · rintro rfl
    exact ⟨[], [], rfl⟩

theorem occurs_length (pat s : List Nat) (h : Occurs pat s) : pat.length ≤ s.length := by
  obtain ⟨a, b, rfl⟩ := h
  simp only [List.length_append]
  omega

theorem occurs_take (pat s : List Nat) (n : Nat) (h : Occurs pat (s.take n)) : Occurs pat s := by
  obtain ⟨a, b, hab⟩ := h
  refine ⟨a, b ++ s.drop n, ?_⟩
  rw [← List.append_assoc, ← hab, List.take_append_drop]

theorem findLoop_none (pat : List Nat) : ∀ (s : List Nat) (i : Nat),
    findLoop pat s i = none ↔ ¬ Occurs pat s := by
  intro s
  induction s with
  | nil =>
    intro i
    rw [occurs_nil_iff]
    simp only [findLoop]
    split <;> simp [*]
  | cons c s ih =>
    intro i
    rw [occurs_cons]
    simp only [findLoop]
    by_cases hs : startsWith pat (c :: s) = true
    · simp [hs]
    · rw [if_neg hs, ih (i + 1)]
      simp [hs]

theorem findLoop_first (pat : List Nat) (hp : pat ≠ []) : ∀ (s : List Nat) (i k : Nat),
    findLoop pat s i = some k →
      i ≤ k ∧ s.take (k - i + pat.length) = s.take (k - i) ++ pat ∧
        ¬ Occurs pat (s.take (k - i + pat.length - 1)) := by
  intro s
  induction s with
  | nil =>
    intro i k h
    simp only [findLoop, hp, if_false] at h
    cases h
  | cons c s ih =>
    intro i k h
    have hlen : 0 < pat.length := List.length_pos.2 hp
    simp only [findLoop] at h
    by_cases hs : startsWith pat (c :: s) = true
    · rw [if_pos hs] at h
      simp only [Option.some.injEq] at h
      subst h
      obtain ⟨b, hb⟩ := (startsWith_iff _ _).1 hs
      refine ⟨le_refl _, ?_, ?_⟩
      · rw [Nat.sub_self, Nat.zero_add, List.take_zero, List.nil_append, hb,
          List.take_left' rfl]
      · intro ho
        have := occurs_length _ _ ho
        rw [List.length_take] at this
        omega
    · rw [if_neg hs] at h
      obtain ⟨h1, h2, h3⟩ := ih (i + 1) k h
      obtain ⟨j, rfl⟩ : ∃ j, k = i + 1 + j := ⟨k - (i + 1), by omega⟩
      have e1 : i + 1 + j - (i + 1) = j := by omega
      have e2 : i + 1 + j - i = j + 1 := by omega
      rw [e1] at h2 h3
      rw [e2]
      refine ⟨by omega, ?_, ?_⟩
      · have e3 : j + 1 + pat.length = (j + pat.length) + 1 := by omega
        rw [e3, List.take_succ_cons, List.take_succ_cons, h2, List.cons_append]
      · have e4 : j + 1 + pat.length - 1 = (j + pat.length - 1) + 1 := by omega
        rw [e4, List.take_succ_cons, occurs_cons]
        rintro (hst | ho)
        · obtain ⟨b, hb⟩ := (startsWith_iff _ _).1 hst
          apply hs
          rw [startsWith_iff]
          refine ⟨b ++ s.drop (j + pat.length - 1), ?_⟩
          rw [← List.append_assoc, ← hb, List.cons_append, List.take_append_drop]
        · exact h3 ho

theorem stringFind_none (s pat : List Nat) : stringFind s pat = none ↔ ¬ Occurs pat s :=
  findLoop_none pat s 0

theorem stringFind_first (s pat : List Nat) (k : Nat) (hp : pat ≠ [])
    (h : stringFind s pat = some k) : FirstOccurrenceAt pat s k := by
  have := findLoop_first pat hp s 0 k h
  simpa [FirstOccurrenceAt] using this.2

theorem stringFind_isSome (s pat : List Nat) : (stringFind s pat).isSome = true ↔ Occurs pat s := by
  cases h : stringFind s pat with
  | none =>
    simp only [Option.isSome_none, Bool.false_eq_true, false_iff]
    exact (stringFind_none s pat).1 h
  | some k =>
    simp only [Option.isSome_some, true_iff]
    by_contra hc
    rw [(stringFind_none s pat).2 hc] at h
    cases h

theorem firstOccurrenceAt_length (pat s : List Nat) (k : Nat) (hp : pat ≠ [])
    (h : FirstOccurrenceAt pat s k) : k + pat.length ≤ s.length := by
  have hlen : 0 < pat.length := List.length_pos.2 hp
  have := congrArg List.length h.1
  simp only [List.length_take, List.length_append] at this
  omega

theorem getPLYHeader_buffer (uninit : Nat → Nat) (bytes : List Nat) :
    _getPLYHeader uninit ⟨bytes, 0, false⟩ =
      (if 2048 ≤ bytes.length then ⟨bytes, 2048, false⟩ else ⟨bytes, bytes.length, true⟩,
        (stringFind (bytes.take 2048 ++ ((List.range 2048).map uninit).drop bytes.length)
          endHeaderString).map fun k =>
            (bytes.take 2048 ++ ((List.range 2048).map uninit).drop bytes.length).take
              (k + 11)) := by
  have hseek : (IfStream.mk bytes 0 false).seekg 0 = ⟨bytes, 0, false⟩ := by
    simp [IfStream.seekg]
  by_cases hlong : 2048 ≤ bytes.length
  · have hcond : (2048 : Int) ≤ (bytes.length : Int) := by exact_mod_cast hlong
    have hread : (IfStream.mk bytes 0 false).read 2048 =
        (bytes.take 2048, ⟨bytes, 2048, false⟩) := by
      simp only [IfStream.read, Bool.false_eq_true, if_false, List.drop_zero, hcond, if_true]
      rfl
    have hd : ((List.range 2048).map uninit).drop bytes.length = [] := by
      apply List.drop_eq_nil_of_le
      simpa using hlong
    have hd' : ((List.range 2048).map uninit).drop (bytes.take 2048).length = [] := by
      apply List.drop_eq_nil_of_le
      simp only [List.length_map, List.length_range, List.length_take]
      omega
    simp only [_getPLYHeader, hseek, hread, hd, hd', hlong, if_true, endHeaderString_length]
    cases stringFind (bytes.take 2048 ++ []) endHeaderString <;> rfl
  · have hcond : ¬ (2048 : Int) ≤ (bytes.length : Int) := by
      intro h
      exact hlong (by exact_mod_cast h)
    have hread : (IfStream.mk bytes 0 false).read 2048 =
        (bytes, ⟨bytes, bytes.length, true⟩) := by
      simp only [IfStream.read, Bool.false_eq_true, if_false, List.drop_zero, hcond]
    have ht : bytes.take 2048 = bytes := List.take_of_length_le (by omega)
    simp only [_getPLYHeader, hseek, hread, hlong, if_false, endHeaderString_length, ht]
    cases stringFind (bytes ++ ((List.range 2048).map uninit).drop bytes.length)
      endHeaderString <;> rfl

set_option maxRecDepth 8000 in
theorem staleHeaderBuffer_prefix :
    (List.range 167).map staleHeaderBuffer = plyHeaderOneFace := by
  decide

theorem staleHeaderBuffer_eq : ∃ X, (List.range 2048).map staleHeaderBuffer =
    plyHeaderOneFace ++ X := by
  refine ⟨(List.range 1881).map fun (i : Nat) => staleHeaderBuffer (167 + i), ?_⟩
  rw [show (2048 : Nat) = 167 + 1881 from rfl, List.range_add, List.map_append,
    staleHeaderBuffer_prefix, List.map_map]
  rfl

theorem endHeaderString_ne : endHeaderString ≠ [] := by decide

theorem getPLYHeader_found (uninit : Nat → Nat) (bytes : List Nat)
    (h : Occurs endHeaderString (bytes.take 2048)) :
    ∃ k, FirstOccurrenceAt endHeaderString bytes k ∧ k + 11 ≤ 2048 ∧
      (_getPLYHeader uninit ⟨bytes, 0, false⟩).2 = some (bytes.take (k + 11)) := by
  obtain ⟨k, hk⟩ := Option.isSome_iff_exists.1 ((stringFind_isSome _ _).2 h)
  have hfirst := stringFind_first _ _ k endHeaderString_ne hk
  have hlen := firstOccurrenceAt_length _ _ k endHeaderString_ne hfirst
  rw [endHeaderString_length] at hlen
  have hle : k + 11 ≤ 2048 := by
    rw [List.length_take] at hlen
    omega
  have e1 : (bytes.take 2048).take (k + 11) = bytes.take (k + 11) := by
    rw [List.take_take, Nat.min_eq_left hle]
  have e2 : (bytes.take 2048).take k = bytes.take k := by
    rw [List.take_take, Nat.min_eq_left (by omega)]
  have e3 : (bytes.take 2048).take (k + 11 - 1) = bytes.take (k + 11 - 1) := by
    rw [List.take_take, Nat.min_eq_left (by omega)]
  refine ⟨k, ?_, hle, ?_⟩
  · obtain ⟨f1, f2⟩ := hfirst
    rw [endHeaderString_length] at f1 f2
    rw [e1, e2] at f1
    rw [e3] at f2
    refine ⟨?_, ?_⟩
    · rw [endHeaderString_length]
      exact f1
    · rw [endHeaderString_length]
      exact f2
  · rw [getPLYHeader_buffer]
    simp only [stringFind_append endHeaderString _ _ k endHeaderString_ne hk, Option.map_some']
    rw [List.take_append_of_le_length (by rw [List.length_take] at hlen ⊢; omega), e1]

theorem getPLYHeader_not_found (uninit : Nat → Nat) (bytes : List Nat)
    (hlong : 2048 ≤ bytes.length) (h : ¬ Occurs endHeaderString (bytes.take 2048)) :
    (_getPLYHeader uninit ⟨bytes, 0, false⟩).2 = none := by
  have hd : ((List.range 2048).map uninit).drop bytes.length = [] := by
    apply List.drop_eq_nil_of_le
    simpa using hlong
  rw [getPLYHeader_buffer, hd, List.append_nil, (stringFind_none _ _).2 h]
  rfl

theorem loadPLY_no_header (bytesFloat : Bytes4 → ℚ) (uninit : Nat → Nat) (bytes : List Nat)
    (m : TriangleMesh) (h : (_getPLYHeader uninit ⟨bytes, 0, false⟩).2 = none) :
    loadPLY bytesFloat uninit (some bytes) m = .ok (false, clear m) := by
  simp only [loadPLY, h, pure_eq_ok]

/-- C33 on an empty file when the array `headerBufferChars` still holds the
header of a file that was read before: the file has no `end_header\n`, and
`_getPLYHeader` returns `true` with that header, because the search runs over
all 2048 characters of the array and not over the characters that `read` has
stored.  For the other inputs the claim holds: when `end_header\n` occurs in
the first 2048 bytes of the file, `_getPLYHeader` returns the bytes of the
file up to the end of the first occurrence, which is the position that
`_loadPLYVertexData` seeks; when the file has at least 2048 bytes and
`end_header\n` does not occur in the first 2048, `_getPLYHeader` and `loadPLY`
return `false`, as they do when the first occurrence ends after byte 2048. -/
theorem getPLYHeader_searches_stale_buffer :
    (¬ Occurs endHeaderString (([] : List Nat).take 2048) ∧
      (_getPLYHeader staleHeaderBuffer ⟨[], 0, false⟩).2 = some plyHeaderOneFace) ∧
    (∀ (uninit : Nat → Nat) (bytes : List Nat), Occurs endHeaderString (bytes.take 2048) →
      ∃ k, FirstOccurrenceAt endHeaderString bytes k ∧ k + 11 ≤ 2048 ∧
        (_getPLYHeader uninit ⟨bytes, 0, false⟩).2 = some (bytes.take (k + 11)) ∧
        (bytes.take (k + 11)).length = k + 11) ∧
    (∀ (uninit : Nat → Nat) (bytes : List Nat), 2048 ≤ bytes.length →
      ¬ Occurs endHeaderString (bytes.take 2048) →
      (_getPLYHeader uninit ⟨bytes, 0, false⟩).2 = none ∧
      ∀ (bytesFloat : Bytes4 → ℚ) (m : TriangleMesh),
        loadPLY bytesFloat uninit (some bytes) m = .ok (false, clear m)) ∧
    (∀ (uninit : Nat → Nat) (bytes : List Nat) (k : Nat),
      FirstOccurrenceAt endHeaderString bytes k → 2048 < k + 11 →
      ∀ (bytesFloat : Bytes4 → ℚ) (m : TriangleMesh),
        loadPLY bytesFloat uninit (some bytes) m = .ok (false, clear m)) := by
  refine ⟨⟨?_, ?_⟩, ?_, ?_, ?_⟩
  · rw [List.take_nil, occurs_nil_iff]
    exact endHeaderString_ne
  · obtain ⟨X, hX⟩ := staleHeaderBuffer_eq
    rw [getPLYHeader_buffer]
    simp only [List.take_nil, List.nil_append, List.length_nil, List.drop_zero, hX,
      stringFind_append endHeaderString _ X 156 endHeaderString_ne plyHeaderOneFace_find,
      Option.map_some']
    rw [List.take_left' (by rw [plyHeaderOneFace_length])]
  · intro uninit bytes h
    obtain ⟨k, hfirst, hle, hrun⟩ := getPLYHeader_found uninit bytes h
    have hlen := firstOccurrenceAt_length _ _ k endHeaderString_ne hfirst
    rw [endHeaderString_length] at hlen
    exact ⟨k, hfirst, hle, hrun, by rw [List.length_take]; omega⟩
  · intro uninit bytes hlong h
    have hnone := getPLYHeader_not_found uninit bytes hlong h
    exact ⟨hnone, fun bytesFloat m => loadPLY_no_header bytesFloat uninit bytes m hnone⟩
  · intro uninit bytes k hfirst hk bytesFloat m
    have hlen := firstOccurrenceAt_length _ _ k endHeaderString_ne hfirst
    rw [endHeaderString_length] at hlen
    have hno : ¬ Occurs endHeaderString (bytes.take 2048) := by
      intro ho
      apply hfirst.2
      rw [endHeaderString_length]
      have e : bytes.take 2048 = (bytes.take (k + 11 - 1)).take 2048 := by
        rw [List.take_take, Nat.min_eq_left (by omega)]
      rw [e] at ho
      exact occurs_take _ _ _ ho
    exact loadPLY_no_header bytesFloat uninit bytes m
      (getPLYHeader_not_found uninit bytes (by omega) hno)

/-! ## C34: `loadOBJ` and the normals of the file -/

theorem objLoop_eq (offset : Vec3) (scale : ℚ) : ∀ (file : List ObjStatement)
    (tv tn : List Vec3) (tt : List Triangle),
    objLoop offset scale file tv tn tt =
      if facesRead file = true then
        some (tv ++ objVertices offset scale file, tn ++ objNormals file,
          tt ++ objTriangles file)
      else none := by
  intro file
  induction file with
  | nil =>
    intro tv tn tt
    simp [objLoop, facesRead, objVertices, objNormals, objTriangles]
  | cons s file ih =>
    intro tv tn tt
    cases s with
    | v vertex =>
      simp only [objLoop, ih, facesRead, objVertices, objNormals, objTriangles,
        List.append_assoc, List.singleton_append]
    | vn normal =>
      simp only [objLoop, ih, facesRead, objVertices, objNormals, objTriangles,
        List.append_assoc, List.singleton_append]
    | f vertexIndex =>
      cases vertexIndex with
      | none => simp [objLoop, facesRead]
      | some vi =>
        simp only [objLoop, ih, facesRead, objVertices, objNormals, objTriangles,
          List.append_assoc, List.singleton_append]
    | other =>
      simp only [objLoop, ih, facesRead, objVertices, objNormals, objTriangles]

theorem withoutNormals_cons (s : ObjStatement) (file : List ObjStatement) :
    withoutNormals (s :: file) =
      if s.isNormal = true then withoutNormals file else s :: withoutNormals file := by
  cases h : s.isNormal <;> simp [withoutNormals, List.filter_cons, h]

theorem facesRead_withoutNormals : ∀ file : List ObjStatement,
    facesRead (withoutNormals file) = facesRead file := by
  intro file
  induction file with
  | nil => rfl
  | cons s file ih =>
    rw [withoutNormals_cons]
    cases s with
    | v vertex => simp [ObjStatement.isNormal, facesRead, ih]
    | vn normal => simp [ObjStatement.isNormal, facesRead, ih]
    | f vertexIndex =>
      cases vertexIndex with
      | none => simp [ObjStatement.isNormal, facesRead]
      | some vi => simp [ObjStatement.isNormal, facesRead, ih]
    | other => simp [ObjStatement.isNormal, facesRead, ih]

theorem objVertices_withoutNormals (offset : Vec3) (scale : ℚ) : ∀ file : List ObjStatement,
    objVertices offset scale (withoutNormals file) = objVertices offset scale file := by
  intro file
  induction file with
  | nil => rfl
  | cons s file ih =>
    rw [withoutNormals_cons]
    cases s with
    | v vertex => simp [ObjStatement.isNormal, objVertices, ih]
    | vn normal => simp [ObjStatement.isNormal, objVertices, ih]
    | f vertexIndex => simp [ObjStatement.isNormal, objVertices, ih]
    | other => simp [ObjStatement.isNormal, objVertices, ih]

theorem objTriangles_withoutNormals : ∀ file : List ObjStatement,
    objTriangles (withoutNormals file) = objTriangles file := by
  intro file
  induction file with
  | nil => rfl
  | cons s file ih =>
    rw [withoutNormals_cons]
    cases s with
    | v vertex => simp [ObjStatement.isNormal, objTriangles, ih]
    | vn normal => simp [ObjStatement.isNormal, objTriangles, ih]
    | f vertexIndex =>
      cases vertexIndex with
      | none => simp [ObjStatement.isNormal, objTriangles, ih]
      | some vi => simp [ObjStatement.isNormal, objTriangles, ih]
    | other => simp [ObjStatement.isNormal, objTriangles, ih]

theorem objMesh_vertices (last : Triangle) (offset : Vec3) (scale : ℚ)
    (file : List ObjStatement) (m : TriangleMesh) :
    (objMesh last offset scale file m).vertices = objVertices offset scale file ∧
    (objMesh last offset scale file m).normals = [] := ⟨rfl, rfl⟩

theorem loadOBJ_eq (normalize : Vec3 → Vec3) (last : Triangle) (file : List ObjStatement)
    (offset : Vec3) (scale : ℚ) (m : TriangleMesh) :
    loadOBJ normalize last (some file) offset scale m =
      if facesRead file = true then
        if objVertices offset scale file = [] then
          .ok (true, objMesh last offset scale file m)
        else
          updateVertexNormals normalize (objMesh last offset scale file m) >>= fun m' =>
            pure (true, m')
      else .ok (false, clear m) := by
  by_cases hf : facesRead file = true
  · rw [if_pos hf]
    have hloop := objLoop_eq offset scale file [] [] []
    rw [if_pos hf] at hloop
    simp only [List.nil_append] at hloop
    by_cases hv : objVertices offset scale file = []
    · rw [if_pos hv]
      simp only [loadOBJ, hloop, removeDuplicateTriangles, clear, List.nil_append, hv,
        List.length_nil, if_true, pure_eq_ok, objMesh, List.append_nil]
    · rw [if_neg hv]
      have hne : ¬ (0 = (objVertices offset scale file).length) := by
        intro h0
        exact hv (List.length_eq_zero.1 h0.symm)
      simp only [loadOBJ, hloop, removeDuplicateTriangles, clear, List.nil_append,
        List.length_nil, hne, if_false, objMesh]
  · rw [if_neg hf]
    have hloop := objLoop_eq offset scale file [] [] []
    rw [if_neg hf] at hloop
    simp only [loadOBJ, hloop, pure_eq_ok]

/-- C34: two OBJ files with the same statements apart from the `vn` lines give
the same result of `loadOBJ`, the value returned and the mesh.  When
`loadOBJ` returns `true` for a file with at least one `v` line, the mesh is
the one that `updateVertexNormals` computes from the vertices and triangles of
the file, and for a file without a `v` line there are no normals: the normals
of the `vn` lines are not stored, whatever their number. -/
theorem loadOBJ_ignores_normals (normalize : Vec3 → Vec3) (last : Triangle)
    (file file' : List ObjStatement) (offset : Vec3) (scale : ℚ) (m : TriangleMesh)
    (h : withoutNormals file = withoutNormals file') :
    loadOBJ normalize last (some file) offset scale m =
      loadOBJ normalize last (some file') offset scale m ∧
    ∀ m', loadOBJ normalize last (some file) offset scale m = .ok (true, m') →
      m'.vertices = objVertices offset scale file ∧
      (objVertices offset scale file ≠ [] →
        updateVertexNormals normalize (objMesh last offset scale file m) = .ok m') ∧
      (objVertices offset scale file = [] → m'.normals = []) := by
  have hf : facesRead file = facesRead file' := by
    rw [← facesRead_withoutNormals file, h, facesRead_withoutNormals]
  have hv : objVertices offset scale file = objVertices offset scale file' := by
    rw [← objVertices_withoutNormals offset scale file, h, objVertices_withoutNormals]
  have ht : objTriangles file = objTriangles file' := by
    rw [← objTriangles_withoutNormals file, h, objTriangles_withoutNormals]
  have hm : objMesh last offset scale file m = objMesh last offset scale file' m := by
    simp only [objMesh, hv, ht]
  constructor
  · rw [loadOBJ_eq, loadOBJ_eq, hf, hv, hm]
  · intro m' hrun
    rw [loadOBJ_eq] at hrun
    by_cases hfr : facesRead file = true
    · rw [if_pos hfr] at hrun
      by_cases hve : objVertices offset scale file = []
      · rw [if_pos hve] at hrun
        have e : objMesh last offset scale file m = m' := by
          have := Except.ok.inj hrun
          exact (Prod.mk.inj this).2
        subst e
        exact ⟨rfl, fun hne => absurd hve hne, fun _ => rfl⟩
      · rw [if_neg hve] at hrun
        cases hup : updateVertexNormals normalize (objMesh last offset scale file m) with
        | error e =>
          rw [hup] at hrun
          cases hrun
        | ok m1 =>
          rw [hup] at hrun
          have e : m1 = m' := by
            have := Except.ok.inj hrun
            exact (Prod.mk.inj this).2
          subst e
          refine ⟨?_, fun _ => rfl, fun he => absurd he hve⟩
          simp only [updateVertexNormals, _updateVertexTriangles] at hup
          cases h1 : vertexTrianglesLoop (objMesh last offset scale file m).triangles 0
              (List.replicate (objMesh last offset scale file m).vertices.length []) with
          | error e =>
            simp [h1] at hup
          | ok vt =>
            simp only [h1, ok_bind, pure_eq_ok] at hup
            cases h2 : faceNormalsLoop normalize (objMesh last offset scale file m).vertices
                (objMesh last offset scale file m).triangles with
            | error e =>
              simp [h2] at hup
            | ok fn =>
              simp only [h2, ok_bind] at hup
              cases h3 : vertexNormalsLoop normalize fn vt with
              | error e =>
                simp [h3] at hup
              | ok ns =>
                simp only [h3, ok_bind] at hup
                have := Except.ok.inj hup
                rw [← this]
                rfl
    · rw [if_neg hfr] at hrun
      have := Except.ok.inj hrun
      have := (Prod.mk.inj this).1
      cases this

/-- The files `exampleObjFile`, with one normal for each vertex, and
`exampleObjFileOtherNormals`, with one other normal: `loadOBJ` returns the
same for both. -/
theorem loadOBJ_ignores_normals_witness :
    withoutNormals exampleObjFile = withoutNormals exampleObjFileOtherNormals ∧
    (objNormals exampleObjFile).length = (objVertices ⟨0, 0, 0⟩ 1 exampleObjFile).length ∧
    loadOBJ id ⟨0, 0, 0⟩ (some exampleObjFile) ⟨0, 0, 0⟩ 1 exampleMeshA =
      loadOBJ id ⟨0, 0, 0⟩ (some exampleObjFileOtherNormals) ⟨0, 0, 0⟩ 1 exampleMeshA :=
  ⟨rfl, rfl,
    (loadOBJ_ignores_normals id ⟨0, 0, 0⟩ exampleObjFile exampleObjFileOtherNormals ⟨0, 0, 0⟩ 1
      exampleMeshA rfl).1⟩

/-! ## The area cache -/

theorem currentTriangleArea_eq (length : Vec3 → ℚ) (m : TriangleMesh) (tidx : Int)
    (t : Triangle) (p0 p1 p2 : Vec3) (ht : vecGet m.triangles tidx = .ok t)
    (h0 : vecGet m.vertices t.t0 = .ok p0) (h1 : vecGet m.vertices t.t1 = .ok p1)
    (h2 : vecGet m.vertices t.t2 = .ok p2) :
    currentTriangleArea length m tidx =
      .ok (1 / 2 * length ((p1.sub p0).cross (p2.sub p0))) := by
  obtain ⟨r0, r1⟩ := vecGet_ok_range _ _ _ ht
  have hno : ¬ tidx < ((([] : List ℚ).length : Nat) : Int) := by
    simp only [List.length_nil, Nat.cast_zero]
    omega
  simp only [currentTriangleArea, getTriangleArea, clearTriangleAreas, r0, r1, and_self, if_true,
    hno, if_false, ht, h0, h1, h2, ok_bind, pure_eq_ok]

theorem currentTriangleArea_ok (length : Vec3 → ℚ) (m : TriangleMesh) (h : IndicesInRange m)
    (tidx : Int) (r0 : 0 ≤ tidx) (r1 : tidx < m.triangles.length) :
    ∃ (t : Triangle) (p0 p1 p2 : Vec3), vecGet m.triangles tidx = .ok t ∧
      vecGet m.vertices t.t0 = .ok p0 ∧ vecGet m.vertices t.t1 = .ok p1 ∧
      vecGet m.vertices t.t2 = .ok p2 ∧
      currentTriangleArea length m tidx =
        .ok (1 / 2 * length ((p1.sub p0).cross (p2.sub p0))) := by
  obtain ⟨t, ht, _⟩ := vecGet_ok m.triangles tidx r0 r1
  obtain ⟨⟨a0, a1⟩, ⟨b0, b1⟩, ⟨c0, c1⟩⟩ := h t (vecGet_mem _ _ _ ht)
  obtain ⟨p0, h0, _⟩ := vecGet_ok m.vertices t.t0 a0 a1
  obtain ⟨p1, h1, _⟩ := vecGet_ok m.vertices t.t1 b0 b1
  obtain ⟨p2, h2, _⟩ := vecGet_ok m.vertices t.t2 c0 c1
  exact ⟨t, p0, p1, p2, ht, h0, h1, h2, currentTriangleArea_eq length m tidx t p0 p1 p2 ht h0 h1 h2⟩

theorem getTriangleArea_cached (length : Vec3 → ℚ) (m : TriangleMesh) (tidx : Int)
    (r0 : 0 ≤ tidx) (r1 : tidx < m.triangles.length) (r2 : tidx < m._triangleAreas.length) :
    getTriangleArea length m tidx = vecGet m._triangleAreas tidx := by
  simp only [getTriangleArea, r0, r1, and_self, if_true, r2]

theorem getTriangleArea_uncached (length : Vec3 → ℚ) (m : TriangleMesh) (tidx : Int)
    (r0 : 0 ≤ tidx) (r2 : ¬ tidx < m._triangleAreas.length) :
    getTriangleArea length m tidx = currentTriangleArea length m tidx := by
  have hno : ¬ tidx < ((([] : List ℚ).length : Nat) : Int) := by
    simp only [List.length_nil, Nat.cast_zero]
    omega
  simp only [currentTriangleArea, getTriangleArea, clearTriangleAreas, r2, if_false, hno]

theorem currentTriangleArea_congr (length : Vec3 → ℚ) (m m' : TriangleMesh)
    (hv : m'.vertices = m.vertices) (ht : m'.triangles = m.triangles) (tidx : Int) :
    currentTriangleArea length m' tidx = currentTriangleArea length m tidx := by
  simp only [currentTriangleArea, getTriangleArea, clearTriangleAreas, hv, ht]

theorem triangleAreasLoop_spec (length : Vec3 → ℚ) : ∀ (k : Nat) (i : Int) (m : TriangleMesh),
    IndicesInRange m → (m._triangleAreas.length : Int) = i → i + k = m.triangles.length →
    ∃ areas, triangleAreasLoop length k i m =
        .ok { m with _triangleAreas := m._triangleAreas ++ areas } ∧
      areas.length = k ∧
      ∀ j : Nat, j < k → ∃ area, areas[j]? = some area ∧
        currentTriangleArea length m (i + j) = .ok area := by
  intro k
  induction k with
  | zero =>
    intro i m _ _ _
    refine ⟨[], ?_, rfl, fun j hj => absurd hj (Nat.not_lt_zero _)⟩
    simp only [triangleAreasLoop, List.append_nil]
  | succ k ih =>
    intro i m hin hlen hik
    have r0 : 0 ≤ i := by rw [← hlen]; exact Int.ofNat_nonneg _
    have r1 : i < m.triangles.length := by push_cast at hik; omega
    obtain ⟨t, p0, p1, p2, _, _, _, _, harea⟩ := currentTriangleArea_ok length m hin i r0 r1
    have hget : getTriangleArea length m i =
        .ok (1 / 2 * length ((p1.sub p0).cross (p2.sub p0))) := by
      rw [getTriangleArea_uncached length m i r0 (by omega)]
      exact harea
    obtain ⟨areas, hrun, hl, hmem⟩ := ih (i + 1)
      { m with _triangleAreas :=
        m._triangleAreas ++ [1 / 2 * length ((p1.sub p0).cross (p2.sub p0))] }
      hin (by simp only [List.length_append, List.length_singleton]; push_cast; omega)
      (by
        show i + 1 + (k : Int) = m.triangles.length
        push_cast at hik
        omega)
    refine ⟨(1 / 2 * length ((p1.sub p0).cross (p2.sub p0))) :: areas, ?_, by simp [hl], ?_⟩
    · simp only [triangleAreasLoop, hget, ok_bind]
      rw [hrun]
      simp
    · intro j hj
      cases j with
      | zero =>
        refine ⟨1 / 2 * length ((p1.sub p0).cross (p2.sub p0)), by simp, ?_⟩
        simpa using harea
      | succ j =>
        obtain ⟨a, ha, hc⟩ := hmem j (by omega)
        refine ⟨a, by simpa using ha, ?_⟩
        have e : i + ((j + 1 : Nat) : Int) = i + 1 + (j : Int) := by push_cast; ring
        rw [e]
        exact hc

theorem updateTriangleAreas_spec (length : Vec3 → ℚ) (m : TriangleMesh)
    (h : IndicesInRange m) :
    ∃ areas, updateTriangleAreas length m = .ok { m with _triangleAreas := areas } ∧
      AreasCached length { m with _triangleAreas := areas } := by
  obtain ⟨areas, hrun, hl, hmem⟩ := triangleAreasLoop_spec length m.triangles.length 0
    { m with _triangleAreas := [] } h rfl (by simp)
  refine ⟨areas, ?_, hl, ?_⟩
  · simp only [updateTriangleAreas, hrun, List.nil_append]
  · intro tidx r0 r1
    obtain ⟨a, ha, hc⟩ := hmem tidx.toNat ((Int.toNat_lt r0).2 r1)
    refine ⟨a, (vecGet_eq_ok_iff _ _ _).2 ⟨r0, ha⟩, ?_⟩
    rw [Int.toNat_of_nonneg r0, zero_add] at hc
    exact hc

theorem areasCurrent_of_cached (length : Vec3 → ℚ) (m : TriangleMesh)
    (h : AreasCached length m) : AreasCurrent length m := by
  intro tidx r0 r1
  obtain ⟨a, ha, hc⟩ := h.2 tidx r0 r1
  refine ⟨a, ?_, hc⟩
  rw [getTriangleArea_cached length m tidx r0 r1 (by rw [h.1]; exact r1)]
  exact ha

theorem vecGet_append_left {α : Type} (A B : List α) (i : Int) (p : α)
    (h : vecGet A i = .ok p) : vecGet (A ++ B) i = .ok p := by
  obtain ⟨r0, r1⟩ := vecGet_ok_range _ _ _ h
  rw [vecGet_eq_ok_iff] at h ⊢
  refine ⟨h.1, ?_⟩
  rw [List.getElem?_append_left ((Int.toNat_lt r0).2 r1)]
  exact h.2

theorem keepValidLoop_length : ∀ (ts : List Triangle) (invs : List Bool),
    (keepValidLoop ts invs).length ≤ ts.length := by
  intro ts
  induction ts with
  | nil =>
    intro invs
    cases invs <;> simp [keepValidLoop]
  | cons t ts ih =>
    intro invs
    cases invs with
    | nil => simp [keepValidLoop]
    | cons inv invs =>
      have := ih invs
      cases inv
      · simp only [keepValidLoop, Bool.not_false, if_true, List.length_cons]
        omega
      · simp only [keepValidLoop, Bool.not_true, Bool.false_eq_true, if_false,
          List.length_cons]
        omega

theorem uniqueLoop_length : ∀ (l : List Triangle) (last : Triangle),
    (uniqueLoop l last).length ≤ l.length := by
  intro l
  induction l with
  | nil => intro last; simp [uniqueLoop]
  | cons x xs ih =>
    intro last
    have := ih x
    cases hx : _trianglesEqual x last
    · simp only [uniqueLoop, hx, Bool.false_eq_true, if_false, List.length_cons]
      omega
    · simp only [uniqueLoop, hx, if_true, List.length_cons]
      omega

theorem removeTriangles_frame (m m' : TriangleMesh) (R : List Int)
    (h : removeTriangles m R = .ok m') :
    m'._triangleAreas = m._triangleAreas ∧ m'._vertexTriangles = m._vertexTriangles ∧
      m'.vertices = m.vertices ∧ m'.triangles.length ≤ m.triangles.length := by
  unfold removeTriangles at h
  cases hm : markInvalidLoop R (List.replicate m.triangles.length false) with
  | error e =>
    rw [hm] at h
    cases h
  | ok inv =>
    rw [hm] at h
    simp only [ok_bind, pure_eq_ok] at h
    have e := Except.ok.inj h
    subst e
    exact ⟨rfl, rfl, rfl, keepValidLoop_length _ _⟩

theorem updateVertexNormals_frame (normalize : Vec3 → Vec3) (m m' : TriangleMesh)
    (h : updateVertexNormals normalize m = .ok m') :
    m'._triangleAreas = m._triangleAreas ∧ m'.vertices = m.vertices ∧
      m'.triangles = m.triangles ∧ VertexTrianglesCurrent m' := by
  simp only [updateVertexNormals, _updateVertexTriangles] at h
  cases h1 : vertexTrianglesLoop m.triangles 0 (List.replicate m.vertices.length []) with
  | error e => simp [h1] at h
  | ok vt =>
    simp only [h1, ok_bind, pure_eq_ok] at h
    cases h2 : faceNormalsLoop normalize m.vertices m.triangles with
    | error e => simp [h2] at h
    | ok fn =>
      simp only [h2, ok_bind] at h
      cases h3 : vertexNormalsLoop normalize fn vt with
      | error e => simp [h3] at h
      | ok ns =>
        simp only [h3, ok_bind] at h
        have e := Except.ok.inj h
        subst e
        refine ⟨rfl, rfl, rfl, ?_⟩
        simp only [VertexTrianglesCurrent, _updateVertexTriangles, h1, ok_bind, pure_eq_ok]

theorem removeExtraneousVertices_frame (normalize : Vec3 → Vec3) (m m' : TriangleMesh)
    (h : removeExtraneousVertices normalize m = .ok m') :
    m'._triangleAreas = m._triangleAreas ∧ (m' = m ∨ VertexTrianglesCurrent m') := by
  unfold removeExtraneousVertices at h
  cases h1 : markUsedLoop m.triangles (List.replicate m.vertices.length true) with
  | error e =>
    rw [h1] at h
    cases h
  | ok u =>
    rw [h1] at h
    simp only [ok_bind] at h
    by_cases hc : countUnused u = 0
    · rw [if_pos hc] at h
      have e := Except.ok.inj h
      subst e
      exact ⟨rfl, Or.inl rfl⟩
    · rw [if_neg hc] at h
      cases h2 : compactLoop m.vertices m.vertexcolors
          (decide (m.vertices.length = m.vertexcolors.length)) u 0
          { newVertexList := []
            newVertexColorList := []
            indexTranslationTable := List.replicate m.vertices.length (-1)
            vidx := 0 } with
      | error e =>
        rw [h2] at h
        cases h
      | ok s =>
        rw [h2] at h
        simp only [ok_bind] at h
        cases h3 : translateLoop s.indexTranslationTable m.triangles with
        | error e =>
          rw [h3] at h
          cases h
        | ok tris =>
          rw [h3] at h
          simp only [ok_bind] at h
          obtain ⟨f1, _, _, f4⟩ := updateVertexNormals_frame normalize _ m' h
          exact ⟨f1, Or.inr f4⟩

/-! ## C31: the caches after a change of the lists -/

theorem caches_after_update (length : Vec3 → ℚ) (m0 m1 m : TriangleMesh)
    (hin : IndicesInRange m0) (hV : updateVertexTriangles m0 = .ok m1)
    (hA : updateTriangleAreas length m1 = .ok m) :
    IndicesInRange m ∧ VertexTrianglesCurrent m ∧ AreasCached length m := by
  obtain ⟨vt, hvt, _, _⟩ := updateVertexTriangles_spec m0 hin
  rw [hV] at hvt
  have e1 := Except.ok.inj hvt
  subst e1
  have hin1 : IndicesInRange { m0 with _vertexTriangles := vt } := hin
  obtain ⟨areas, hareas, hc⟩ := updateTriangleAreas_spec length _ hin1
  rw [hA] at hareas
  have e2 := Except.ok.inj hareas
  subst e2
  refine ⟨hin, ?_, hc⟩
  have hrun : vertexTrianglesLoop m0.triangles 0 (List.replicate m0.vertices.length []) =
      .ok vt := by
    simp only [updateVertexTriangles, _updateVertexTriangles] at hV
    cases h1 : vertexTrianglesLoop m0.triangles 0 (List.replicate m0.vertices.length []) with
    | error e => simp [h1] at hV
    | ok vt' =>
      simp only [h1, ok_bind, pure_eq_ok] at hV
      have := Except.ok.inj hV
      have := congrArg TriangleMesh._vertexTriangles this
      simp only at this
      rw [this]
  simp only [VertexTrianglesCurrent, _updateVertexTriangles, hrun, ok_bind, pure_eq_ok]

theorem areasCurrent_removeExtraneousVertices (length : Vec3 → ℚ) (normalize : Vec3 → Vec3)
    (m : TriangleMesh) (hin : IndicesInRange m) (hc : AreasCached length m) :
    ∃ m', removeExtraneousVertices normalize m = .ok m' ∧ AreasCurrent length m' ∧
      (m' = m ∨ VertexTrianglesCurrent m') := by
  obtain ⟨m', hm', hv, _, ht, _, hin', _⟩ := removeExtraneousVertices_post normalize m hin
  obtain ⟨hareas, hvt⟩ := removeExtraneousVertices_frame normalize m m' hm'
  refine ⟨m', hm', ?_, hvt⟩
  intro tidx r0 r1
  have hlen : m'.triangles.length = m.triangles.length := by rw [ht, List.length_map]
  have r1' : tidx < (m.triangles.length : Int) := by rw [← hlen]; exact r1
  obtain ⟨a, ha, hcur⟩ := hc.2 tidx r0 r1'
  refine ⟨a, ?_, ?_⟩
  · rw [getTriangleArea_cached length m' tidx r0 r1 (by rw [hareas, hc.1]; exact r1'), hareas]
    exact ha
  · obtain ⟨t, htri, htri'⟩ := vecGet_ok m.triangles tidx r0 r1'
    have htm : t ∈ m.triangles := vecGet_mem _ _ _ htri
    have htri2 : vecGet m'.triangles tidx = .ok (rankTriangle (unusedFlags m) t) := by
      rw [vecGet_eq_ok_iff]
      refine ⟨r0, ?_⟩
      rw [ht, List.getElem?_map, htri']
      rfl
    obtain ⟨a0, a1, a2⟩ := corner_used m hin t htm 0
    obtain ⟨b0, b1, b2⟩ := corner_used m hin t htm 1
    obtain ⟨c0, c1, c2⟩ := corner_used m hin t htm 2
    obtain ⟨p0, hp0, hq0⟩ := vecGet_keepUsed (unusedFlags m) m.vertices (t.tri 0)
      (unusedFlags_length m).symm a0 a1 a2
    obtain ⟨p1, hp1, hq1⟩ := vecGet_keepUsed (unusedFlags m) m.vertices (t.tri 1)
      (unusedFlags_length m).symm b0 b1 b2
    obtain ⟨p2, hp2, hq2⟩ := vecGet_keepUsed (unusedFlags m) m.vertices (t.tri 2)
      (unusedFlags_length m).symm c0 c1 c2
    rw [← hv] at hq0 hq1 hq2
    have e := currentTriangleArea_eq length m tidx t p0 p1 p2 htri hp0 hp1 hp2
    rw [hcur] at e
    rw [currentTriangleArea_eq length m' tidx (rankTriangle (unusedFlags m) t) p0 p1 p2 htri2
      hq0 hq1 hq2]
    exact e.symm

theorem areasCurrent_append (length : Vec3 → ℚ) (m mesh : TriangleMesh)
    (hin : IndicesInRange m) (hmesh : IndicesInRange mesh) (hc : AreasCached length m) :
    AreasCurrent length (append m mesh) := by
  intro tidx r0 r1
  by_cases hlt : tidx < (m.triangles.length : Int)
  · obtain ⟨a, ha, hcur⟩ := hc.2 tidx r0 hlt
    refine ⟨a, ?_, ?_⟩
    · rw [getTriangleArea_cached length (append m mesh) tidx r0 r1
        (by show tidx < (m._triangleAreas.length : Int); rw [hc.1]; exact hlt)]
      exact ha
    · obtain ⟨t, p0, p1, p2, htri, hp0, hp1, hp2, harea⟩ :=
        currentTriangleArea_ok length m hin tidx r0 hlt
      rw [hcur] at harea
      rw [currentTriangleArea_eq length (append m mesh) tidx t p0 p1 p2
        (vecGet_append_left _ _ _ _ htri) (vecGet_append_left _ _ _ _ hp0)
        (vecGet_append_left _ _ _ _ hp1) (vecGet_append_left _ _ _ _ hp2)]
      exact harea.symm
  · obtain ⟨t, p0, p1, p2, _, _, _, _, harea⟩ :=
      currentTriangleArea_ok length (append m mesh) (append_inRange m mesh hin hmesh) tidx r0 r1
    refine ⟨_, ?_, harea⟩
    rw [getTriangleArea_uncached length (append m mesh) tidx r0
      (by show ¬ tidx < (m._triangleAreas.length : Int); rw [hc.1]; exact hlt)]
    exact harea

theorem getTriangleArea_stale (length : Vec3 → ℚ) (m m' : TriangleMesh)
    (hc : AreasCached length m) (hareas : m'._triangleAreas = m._triangleAreas)
    (hlen : m'.triangles.length ≤ m.triangles.length) :
    ∀ tidx : Int, 0 ≤ tidx → tidx < m'.triangles.length →
      ∃ area, getTriangleArea length m' tidx = .ok area ∧
        currentTriangleArea length m tidx = .ok area := by
  intro tidx r0 r1
  have r1' : tidx < (m.triangles.length : Int) := by omega
  obtain ⟨a, ha, hcur⟩ := hc.2 tidx r0 r1'
  refine ⟨a, ?_, hcur⟩
  rw [getTriangleArea_cached length m' tidx r0 r1 (by rw [hareas, hc.1]; exact r1'), hareas]
  exact ha

theorem exampleMeshTwoAreas_update :
    updateVertexTriangles exampleMeshTwoAreas =
      .ok { exampleMeshTwoAreas with _vertexTriangles := [[0, 1], [0], [0], [1], [1]] } ∧
    updateTriangleAreas axisLength
      { exampleMeshTwoAreas with _vertexTriangles := [[0, 1], [0], [0], [1], [1]] } =
      .ok exampleMeshTwoAreasCached := by
  constructor
  · decide
  · have h0 : currentTriangleArea axisLength
        { exampleMeshTwoAreas with _vertexTriangles := [[0, 1], [0], [0], [1], [1]] } 0 =
        .ok (1 / 2) := by
      rw [currentTriangleArea_eq axisLength
        { exampleMeshTwoAreas with _vertexTriangles := [[0, 1], [0], [0], [1], [1]] }
        0 ⟨0, 1, 2⟩ ⟨0, 0, 0⟩ ⟨1, 0, 0⟩ ⟨0, 1, 0⟩ rfl rfl rfl rfl]
      simp only [axisLength, Vec3.sub, Vec3.cross]
      norm_num
    have h1 : currentTriangleArea axisLength
        { exampleMeshTwoAreas with _vertexTriangles := [[0, 1], [0], [0], [1], [1]] } 1 =
        .ok 2 := by
      rw [currentTriangleArea_eq axisLength
        { exampleMeshTwoAreas with _vertexTriangles := [[0, 1], [0], [0], [1], [1]] }
        1 ⟨0, 3, 4⟩ ⟨0, 0, 0⟩ ⟨2, 0, 0⟩ ⟨0, 2, 0⟩ rfl rfl rfl rfl]
      simp only [axisLength, Vec3.sub, Vec3.cross]
      norm_num
    have g0 : getTriangleArea axisLength
        { exampleMeshTwoAreas with
          _vertexTriangles := [[0, 1], [0], [0], [1], [1]], _triangleAreas := [] } 0 =
        .ok (1 / 2) := by
      rw [getTriangleArea_uncached _ _ 0 (le_refl _) (by decide)]
      exact h0
    have g1 : getTriangleArea axisLength
        { exampleMeshTwoAreas with
          _vertexTriangles := [[0, 1], [0], [0], [1], [1]], _triangleAreas := [1 / 2] } 1 =
        .ok 2 := by
      rw [getTriangleArea_uncached _ _ 1 (by decide) (by decide)]
      exact h1
    show triangleAreasLoop axisLength 2 0
      { exampleMeshTwoAreas with
        _vertexTriangles := [[0, 1], [0], [0], [1], [1]], _triangleAreas := [] } = _
    rw [triangleAreasLoop, g0]
    simp only [ok_bind]
    show triangleAreasLoop axisLength 1 1
      { exampleMeshTwoAreas with
        _vertexTriangles := [[0, 1], [0], [0], [1], [1]], _triangleAreas := [1 / 2] } = _
    rw [triangleAreasLoop, g1]
    rfl

/-- C31, the claim as it stands fails: on `exampleMeshTwoAreas`, a mesh of two
triangles of the areas `1/2` and `2`, after `updateVertexTriangles` and
`updateTriangleAreas` the call `removeTriangles` for triangle `0` leaves both
caches as they were.  The triangle that is left, now triangle `0`, has the
area `2`, and `getTriangleArea(0)` returns `1/2`, the area of the triangle
that was removed; the vertex triangle cache still lists the two triangles,
where `_updateVertexTriangles` finds one. -/
theorem removeTriangles_keeps_stale_caches :
    updateVertexTriangles exampleMeshTwoAreas =
      .ok { exampleMeshTwoAreas with _vertexTriangles := [[0, 1], [0], [0], [1], [1]] } ∧
    updateTriangleAreas axisLength
      { exampleMeshTwoAreas with _vertexTriangles := [[0, 1], [0], [0], [1], [1]] } =
      .ok exampleMeshTwoAreasCached ∧
    removeTriangles exampleMeshTwoAreasCached [0] = .ok exampleMeshTwoAreasRemoved ∧
    exampleMeshTwoAreasRemoved._triangleAreas = [1 / 2, 2] ∧
    exampleMeshTwoAreasRemoved._vertexTriangles = [[0, 1], [0], [0], [1], [1]] ∧
    getTriangleArea axisLength exampleMeshTwoAreasRemoved 0 = .ok (1 / 2) ∧
    currentTriangleArea axisLength exampleMeshTwoAreasRemoved 0 = .ok 2 ∧
    ¬ AreasCurrent axisLength exampleMeshTwoAreasRemoved ∧
    _updateVertexTriangles exampleMeshTwoAreasRemoved =
      .ok { exampleMeshTwoAreasRemoved with _vertexTriangles := [[0], [], [], [0], [0]] } ∧
    ¬ VertexTrianglesCurrent exampleMeshTwoAreasRemoved := by
  have hg : getTriangleArea axisLength exampleMeshTwoAreasRemoved 0 = .ok (1 / 2) := by
    rw [getTriangleArea_cached _ _ 0 (le_refl _) (by decide) (by decide)]
    rfl
  have hc : currentTriangleArea axisLength exampleMeshTwoAreasRemoved 0 = .ok 2 := by
    rw [currentTriangleArea_eq axisLength exampleMeshTwoAreasRemoved 0 ⟨0, 3, 4⟩ ⟨0, 0, 0⟩
      ⟨2, 0, 0⟩ ⟨0, 2, 0⟩ rfl rfl rfl rfl]
    simp only [axisLength, Vec3.sub, Vec3.cross]
    norm_num
  have hu : _updateVertexTriangles exampleMeshTwoAreasRemoved =
      .ok { exampleMeshTwoAreasRemoved with _vertexTriangles := [[0], [], [], [0], [0]] } :=
    rfl
  refine ⟨exampleMeshTwoAreas_update.1, exampleMeshTwoAreas_update.2, rfl, rfl, rfl, hg,
    hc, ?_, hu, ?_⟩
  · intro h
    obtain ⟨a, h1, h2⟩ := h 0 (le_refl _) (by decide)
    rw [hg] at h1
    rw [hc] at h2
    have e1 := Except.ok.inj h1
    have e2 := Except.ok.inj h2
    rw [← e1] at e2
    norm_num at e2
  · intro h
    unfold VertexTrianglesCurrent at h
    rw [hu] at h
    have := congrArg TriangleMesh._vertexTriangles (Except.ok.inj h)
    revert this
    decide

/-- C31, amended: on a mesh with indices in range after `updateVertexTriangles`
and `updateTriangleAreas`:
after `clear` the vertex triangle cache is empty and there is no triangle;
after `removeExtraneousVertices` the vertex triangle cache is what
`_updateVertexTriangles` computes, or the mesh is as it was, and
`getTriangleArea(t)` returns the area of the triangle `t` of the mesh;
after `append` of a mesh with indices in range `getTriangleArea(t)` returns
the area of the triangle `t` of the mesh, and the vertex triangle cache is as
it was;
`removeTriangles` and `removeDuplicateTriangles` leave both caches as they
were, and after them `getTriangleArea(t)` returns the area that the triangle
`t` had before the call. -/
theorem caches_after_mutation (length : Vec3 → ℚ) (normalize : Vec3 → Vec3)
    (m0 m1 m : TriangleMesh) (hin : IndicesInRange m0)
    (hV : updateVertexTriangles m0 = .ok m1) (hA : updateTriangleAreas length m1 = .ok m) :
    (VertexTrianglesCurrent m ∧ AreasCurrent length m) ∧
    ((clear m)._vertexTriangles = [] ∧ (clear m).triangles = [] ∧
      AreasCurrent length (clear m)) ∧
    (∃ m', removeExtraneousVertices normalize m = .ok m' ∧ AreasCurrent length m' ∧
      VertexTrianglesCurrent m') ∧
    (∀ mesh : TriangleMesh, IndicesInRange mesh →
      AreasCurrent length (append m mesh) ∧
      (append m mesh)._vertexTriangles = m._vertexTriangles) ∧
    (∀ (removalTriangles : List Int) (m' : TriangleMesh),
      removeTriangles m removalTriangles = .ok m' →
      m'._triangleAreas = m._triangleAreas ∧ m'._vertexTriangles = m._vertexTriangles ∧
      ∀ tidx : Int, 0 ≤ tidx → tidx < m'.triangles.length →
        ∃ area, getTriangleArea length m' tidx = .ok area ∧
          currentTriangleArea length m tidx = .ok area) ∧
    (∀ last : Triangle,
      (removeDuplicateTriangles last m)._triangleAreas = m._triangleAreas ∧
      (removeDuplicateTriangles last m)._vertexTriangles = m._vertexTriangles ∧
      ∀ tidx : Int, 0 ≤ tidx → tidx < (removeDuplicateTriangles last m).triangles.length →
        ∃ area, getTriangleArea length (removeDuplicateTriangles last m) tidx = .ok area ∧
          currentTriangleArea length m tidx = .ok area) := by
  obtain ⟨hinm, hvt, hc⟩ := caches_after_update length m0 m1 m hin hV hA
  refine ⟨⟨hvt, areasCurrent_of_cached length m hc⟩, ⟨rfl, rfl, ?_⟩, ?_, ?_, ?_, ?_⟩
  · intro tidx r0 r1
    have : tidx < 0 := r1
    omega
  · obtain ⟨m', hm', hcur, hv⟩ := areasCurrent_removeExtraneousVertices length normalize m hinm hc
    refine ⟨m', hm', hcur, ?_⟩
    rcases hv with e | hv
    · rw [e]
      exact hvt
    · exact hv
  · intro mesh hmesh
    exact ⟨areasCurrent_append length m mesh hinm hmesh hc, rfl⟩
  · intro R m' hrun
    obtain ⟨f1, f2, _, f4⟩ := removeTriangles_frame m m' R hrun
    exact ⟨f1, f2, getTriangleArea_stale length m m' hc f1 f4⟩
  · intro last
    refine ⟨rfl, rfl, getTriangleArea_stale length m _ hc rfl ?_⟩
    show (uniqueLoop (stdSort triangleSort m.triangles) last).length ≤ m.triangles.length
    have h1 := uniqueLoop_length (stdSort triangleSort m.triangles) last
    have h2 := (stdSort_perm m.triangles).length_eq
    omega

/-- The amended claim on `exampleMeshTwoAreas`. -/
theorem caches_after_mutation_witness :
    IndicesInRange exampleMeshTwoAreas ∧
    ∃ m', removeExtraneousVertices id exampleMeshTwoAreasCached = .ok m' ∧
      AreasCurrent axisLength m' ∧ VertexTrianglesCurrent m' :=
  ⟨by decide,
    (caches_after_mutation axisLength id exampleMeshTwoAreas _ exampleMeshTwoAreasCached
      (by decide) exampleMeshTwoAreas_update.1 exampleMeshTwoAreas_update.2).2.2.1⟩

/-! ## The polyhedron search: what a polyhedron contains -/

theorem visitNeighbours_added (n : Nat) : ∀ (ns queue : List Int) (v : List Bool) (L : List Int),
    v.length = n → VisitedExactly v L → (∀ x ∈ ns, 0 ≤ x ∧ x < (n : Int)) →
    ∃ (added : List Int) (v' : List Bool),
      visitNeighbours ns queue v = .ok (added ++ queue, v') ∧ v'.length = n ∧
      VisitedExactly v' (added ++ L) ∧ (∀ x ∈ ns, x ∈ added ++ L) ∧ (∀ x ∈ added, x ∈ ns) := by
  intro ns
  induction ns with
  | nil =>
    intro queue v L hl hv _
    exact ⟨[], v, rfl, hl, hv, fun x hx => by simp at hx, fun x hx => by simp at hx⟩
  | cons a ns ih =>
    intro queue v L hl hv hns
    obtain ⟨a0, a1⟩ := hns a (List.mem_cons_self _ _)
    have hns' : ∀ x ∈ ns, 0 ≤ x ∧ x < (n : Int) := fun x hx => hns x (List.mem_cons_of_mem _ hx)
    rcases vecGet_bool_cases v a a0 (by rw [hl]; exact a1) with hb | hb
    · obtain ⟨added, v', hrun, hl', hv', hmem, hsub⟩ := ih queue v L hl hv hns'
      refine ⟨added, v', ?_, hl', hv', ?_, fun x hx => List.mem_cons_of_mem _ (hsub x hx)⟩
      · simp only [visitNeighbours, hb, ok_bind, Bool.not_true, Bool.false_eq_true, if_false]
        exact hrun
      · intro x hx
        rcases List.mem_cons.1 hx with e | hx
        · rw [e]
          exact List.mem_append_right _ ((hv.2 a).1 hb)
        · exact hmem x hx
    · obtain ⟨hset, hv1⟩ := hv.set a hb
      obtain ⟨added, v', hrun, hl', hv', hmem, hsub⟩ :=
        ih (a :: queue) (v.set a.toNat true) (a :: L) (by simpa using hl) hv1 hns'
      refine ⟨added ++ [a], v', ?_, hl', ?_, ?_, ?_⟩
      · simp only [visitNeighbours, hb, ok_bind, Bool.not_false, if_true, hset]
        rw [hrun]
        simp
      · simpa using hv'
      · intro x hx
        rcases List.mem_cons.1 hx with e | hx
        · rw [e]; simp
        · simpa using hmem x hx
      · intro x hx
        rcases List.mem_append.1 hx with hx | hx
        · exact List.mem_cons_of_mem _ (hsub x hx)
        · rw [List.mem_singleton.1 hx]
          exact List.mem_cons_self _ _

theorem polyhedronLoop_reach (m : TriangleMesh) (n : Nat) (hN : NeighboursInRange m n)
    (D0 : List Int) (s : Int) :
    ∀ (fuel : Nat) (queue : List Int) (v : List Bool) (polyhedron D : List Int),
    v.length = n → VisitedExactly v (queue ++ D) → n + 1 ≤ fuel + D.length →
    (∀ x ∈ D0, x ∈ D) → (∀ x ∈ queue, ReachAvoiding m D0 s x) →
    ∃ (v' : List Bool) (new : List Int),
      polyhedronLoop m fuel queue v polyhedron = .ok (v', polyhedron ++ new) ∧ v'.length = n ∧
      VisitedExactly v' (new ++ D) ∧ (∀ x ∈ queue, x ∈ new) ∧
      (∀ x ∈ new, ∀ y, FaceNeighbour m x y → y ∈ new ++ D) ∧
      (∀ x ∈ new, ReachAvoiding m D0 s x) := by
  intro fuel
  induction fuel with
  | zero =>
    intro queue v polyhedron D hl hv hf _ _
    have := hv.length_le
    simp only [List.length_append] at this
    cases queue with
    | nil =>
      have hD : D.length ≤ n := by simpa [hl] using this
      omega
    | cons t q => simp only [List.length_cons] at this; omega
  | succ fuel ih =>
    intro queue v polyhedron D hl hv hf hD0 hreach
    cases queue with
    | nil =>
      exact ⟨v, [], by simp [polyhedronLoop], hl, by simpa using hv,
        fun x hx => by simp at hx, fun x hx => by simp at hx, fun x hx => by simp at hx⟩
    | cons t q =>
      obtain ⟨t0, t1⟩ := hv.inRange t (by simp)
      obtain ⟨ns, hns, hnsr⟩ := hN t t0 (by rw [← hl]; exact t1)
      obtain ⟨added, v1, hrun, hl1, hv1, hmem, hsub⟩ :=
        visitNeighbours_added n ns q v ((t :: q) ++ D) hl hv hnsr
      have hperm : (added ++ ((t :: q) ++ D)).Perm ((added ++ q) ++ (t :: D)) := by
        have h1 : (added ++ ((t :: q) ++ D)) = added ++ (t :: (q ++ D)) := by simp
        have h2 : ((added ++ q) ++ (t :: D)) = added ++ (q ++ t :: D) := by simp
        rw [h1, h2]
        exact List.Perm.append_left _ List.perm_middle.symm
      have hv2 := hv1.perm hperm
      have hlen := hv2.length_le
      have hdisj : ∀ y ∈ added, y ∉ D := by
        intro y hy hyD
        have hnd := hv1.1
        rw [List.nodup_append] at hnd
        exact hnd.2.2 hy (List.mem_append_right _ hyD)
      have hreach' : ∀ x ∈ added ++ q, ReachAvoiding m D0 s x := by
        intro x hx
        rcases List.mem_append.1 hx with hx | hx
        · refine ReachAvoiding.step (hreach t (List.mem_cons_self _ _)) ⟨ns, hns, hsub x hx⟩ ?_
          intro hxD
          exact hdisj x hx (hD0 x hxD)
        · exact hreach x (List.mem_cons_of_mem _ hx)
      obtain ⟨v', new, hrec, hl', hv', hq, hclosed, hr⟩ :=
        ih (added ++ q) v1 (polyhedron ++ [t]) (t :: D) hl1 hv2
          (by simp only [List.length_cons]; omega)
          (fun x hx => List.mem_cons_of_mem _ (hD0 x hx)) hreach'
      refine ⟨v', t :: new, ?_, hl', hv'.perm List.perm_middle, ?_, ?_, ?_⟩
      · simp only [polyhedronLoop, hns, ok_bind, hrun]
        rw [hrec]
        simp
      · intro x hx
        rcases List.mem_cons.1 hx with e | hx
        · rw [e]; exact List.mem_cons_self _ _
        · exact List.mem_cons_of_mem _ (hq x (List.mem_append_right _ hx))
      · intro x hx y hy
        rcases List.mem_cons.1 hx with e | hx
        · subst e
          obtain ⟨ns', hns', hy'⟩ := hy
          rw [hns] at hns'
          have e := Except.ok.inj hns'
          subst e
          have := hmem y hy'
          simp only [List.mem_append, List.mem_cons] at this ⊢
          rcases this with h | (h | h) | h
          · exact Or.inl (Or.inr (hq y (List.mem_append_left _ h)))
          · exact Or.inl (Or.inl h)
          · exact Or.inl (Or.inr (hq y (List.mem_append_right _ h)))
          · exact Or.inr h
        · have := hclosed x hx y hy
          simp only [List.mem_append, List.mem_cons] at this ⊢
          rcases this with h | h | h
          · exact Or.inl (Or.inr h)
          · exact Or.inl (Or.inl h)
          · exact Or.inr h
      · intro x hx
        rcases List.mem_cons.1 hx with e | hx
        · rw [e]
          exact hreach t (List.mem_cons_self _ _)
        · exact hr x hx

theorem getPolyhedronFromTriangle_reach (m : TriangleMesh) (n : Nat)
    (hN : NeighboursInRange m n) (tidx : Int) (v : List Bool) (polyhedron D : List Int)
    (hl : v.length = n) (hv : VisitedExactly v D) (ht : vecGet v tidx = .ok false) :
    ∃ (v' : List Bool) (new : List Int),
      _getPolyhedronFromTriangle m tidx v polyhedron = .ok (v', polyhedron ++ new) ∧
      v'.length = n ∧ VisitedExactly v' (new ++ D) ∧ tidx ∈ new ∧
      (∀ x ∈ new, ∀ y, FaceNeighbour m x y → y ∈ new ++ D) ∧
      (∀ x, x ∈ new ↔ ReachAvoiding m D tidx x) := by
  obtain ⟨hset, hv1⟩ := hv.set tidx ht
  have htD : tidx ∉ D := by
    intro h
    have := (hv.2 tidx).2 h
    rw [ht] at this
    cases this
  obtain ⟨v', new, hrun, hl', hv', hq, hclosed, hr⟩ :=
    polyhedronLoop_reach m n hN D tidx (v.length + 1) [tidx] (v.set tidx.toNat true) polyhedron D
      (by simpa using hl) (by simpa using hv1) (by omega) (fun x hx => hx)
      (fun x hx => by
        rw [List.mem_singleton.1 hx]
        exact ReachAvoiding.start htD)
  have htn : tidx ∈ new := hq tidx (by simp)
  refine ⟨v', new, ?_, hl', hv', htn, hclosed, fun x => ⟨hr x, fun h => ?_⟩⟩
  · simp only [_getPolyhedronFromTriangle, ht, ok_bind, Bool.false_eq_true, if_false, hset]
    exact hrun
  · induction h with
    | start _ => exact htn
    | step _ hxy hyD ih =>
      rcases List.mem_append.1 (hclosed _ ih _ hxy) with h | h
      · exact h
      · exact absurd h hyD

theorem polyhedraLoop_mutual (m : TriangleMesh) (n : Nat) (hN : NeighboursInRange m n) :
    ∀ (k : Nat) (i : Int) (v : List Bool) (polyList : List (List Int)) (D : List Int),
    v.length = n → VisitedExactly v D → 0 ≤ i → i + k = n →
    (∀ x : Int, 0 ≤ x → x < i → x ∈ D) →
    (∀ x ∈ D, ∀ y, FaceNeighbour m x y → y ∈ D) →
    ∃ (news : List (List Int)),
      polyhedraLoop m k i v polyList = .ok (polyList ++ news) ∧
      ∀ p ∈ news, ∀ x ∈ p, ∀ y, FaceNeighbour m x y → FaceNeighbour m y x → y ∈ p := by
  intro k
  induction k with
  | zero =>
    intro i v polyList D _ _ _ _ _ _
    exact ⟨[], by simp [polyhedraLoop], fun p hp => by simp at hp⟩
  | succ k ih =>
    intro i v polyList D hl hv hi hik hD hclosedD
    have hin : i < v.length := by rw [hl]; push_cast at hik; omega
    rcases vecGet_bool_cases v i hi hin with hb | hb
    · obtain ⟨news, hrun, hmut⟩ :=
        ih (i + 1) v polyList D hl hv (by omega) (by push_cast at hik ⊢; omega)
          (fun x x0 x1 => by
            by_cases e : x = i
            · rw [e]; exact (hv.2 i).1 hb
            · exact hD x x0 (by omega)) hclosedD
      refine ⟨news, ?_, hmut⟩
      simp only [polyhedraLoop, hb, ok_bind, Bool.not_true, Bool.false_eq_true, if_false]
      exact hrun
    · obtain ⟨v1, new, hrun1, hl1, hv1, hmem, hclosed, _⟩ :=
        getPolyhedronFromTriangle_reach m n hN i v [] D hl hv hb
      obtain ⟨news, hrun, hmut⟩ :=
        ih (i + 1) v1 (polyList ++ [new]) (new ++ D) hl1 hv1 (by omega)
          (by push_cast at hik ⊢; omega)
          (fun x x0 x1 => by
            by_cases e : x = i
            · rw [e]; exact List.mem_append_left _ hmem
            · exact List.mem_append_right _ (hD x x0 (by omega)))
          (fun x hx y hy => by
            rcases List.mem_append.1 hx with hx | hx
            · exact hclosed x hx y hy
            · exact List.mem_append_right _ (hclosedD x hx y hy))
      refine ⟨new :: news, ?_, ?_⟩
      · simp only [polyhedraLoop, hb, ok_bind, Bool.not_false, if_true, hrun1, List.nil_append]
        rw [hrun]
        simp
      · intro p hp x hx y hxy hyx
        rcases List.mem_cons.1 hp with e | hp
        · subst e
          rcases List.mem_append.1 (hclosed x hx y hxy) with h | h
          · exact h
          · have hxD := hclosedD y h x hyx
            have hnd := hv1.1
            rw [List.nodup_append] at hnd
            exact absurd hxD (hnd.2.2 hx)
        · exact hmut p hp x hx y hxy hyx

/-! ## C36: triangles with a common edge -/

theorem faceNeighbour_iff (m : TriangleMesh) (h : IndicesInRange m) (vt : List (List Int))
    (hvt : updateVertexTriangles m = .ok { m with _vertexTriangles := vt })
    (x : Int) (tx : Triangle) (hx : vecGet m.triangles x = .ok tx) (y : Int) :
    FaceNeighbour { m with _vertexTriangles := vt } x y ↔
      ∃ ty, vecGet m.triangles y = .ok ty ∧ (tx.t1 ∈ ty.corners ∨ tx.t2 ∈ ty.corners) := by
  obtain ⟨ns, hns, hmem⟩ := getFaceNeighbours_mem m h vt hvt x tx hx
  constructor
  · rintro ⟨ns', hns', hy⟩
    rw [hns] at hns'
    have e := Except.ok.inj hns'
    subst e
    obtain ⟨ty, hty, hc⟩ := (hmem y).1 hy
    refine ⟨ty, hty, ?_⟩
    simp only [Triangle.corners, List.mem_cons, List.mem_singleton, List.not_mem_nil, or_false]
    exact hc
  · rintro ⟨ty, hty, hc⟩
    refine ⟨ns, hns, (hmem y).2 ⟨ty, hty, ?_⟩⟩
    simpa only [Triangle.corners, List.mem_cons, List.mem_singleton, List.not_mem_nil,
      or_false] using hc

theorem sharesEdge_corner (s t : Triangle) (h : SharesEdge s t) :
    s.t1 ∈ t.corners ∨ s.t2 ∈ t.corners := by
  obtain ⟨a, b, hab, has, hbs, hat, hbt⟩ := h
  simp only [Triangle.corners, List.mem_cons, List.mem_singleton, List.not_mem_nil, or_false]
    at has hbs hat hbt ⊢
  rcases has with rfl | rfl | rfl
  · rcases hbs with rfl | rfl | rfl
    · exact absurd rfl hab
    · exact Or.inl hbt
    · exact Or.inr hbt
  · exact Or.inl hat
  · exact Or.inr hat

theorem sharesEdge_symm (s t : Triangle) (h : SharesEdge s t) : SharesEdge t s := by
  obtain ⟨a, b, hab, has, hbs, hat, hbt⟩ := h
  exact ⟨a, b, hab, hat, hbt, has, hbs⟩

/-- C36: on a mesh that satisfies I1, two triangles with at least two vertex
indices in common are in the same polyhedron of `_getPolyhedra`, wherever the
common indices stand in the two triangles and in whatever order the triangles
are stored. -/
theorem getPolyhedra_joins_edge_neighbours (m : TriangleMesh) (hI : I1 m) (i j : Int)
    (ti tj : Triangle) (hi : vecGet m.triangles i = .ok ti)
    (hj : vecGet m.triangles j = .ok tj) (hshare : SharesEdge ti tj) :
    ∃ (m' : TriangleMesh) (polyList : List (List Int)),
      _getPolyhedra m [] = .ok (m', polyList) ∧ ∃ p ∈ polyList, i ∈ p ∧ j ∈ p := by
  have hin : IndicesInRange m := fun t ht => (hI t ht).2
  obtain ⟨vt, polyList, hvt, hloop, hrun, _, hmem, _⟩ := getPolyhedra_post m hin
  have hN := neighboursInRange_of_update m hin vt hvt
  obtain ⟨news, hloop', hmut⟩ :=
    polyhedraLoop_mutual { m with _vertexTriangles := vt } m.triangles.length hN
      m.triangles.length 0 (List.replicate m.triangles.length false) [] []
      (by simp) (visitedExactly_replicate _) (le_refl _) (by simp)
      (fun x x0 x1 => by omega) (fun x hx => by cases hx)
  rw [hloop, List.nil_append] at hloop'
  have e := Except.ok.inj hloop'
  subst e
  refine ⟨_, polyList, hrun, ?_⟩
  have hiP : i ∈ polyList.flatten := (hmem i).2 (vecGet_ok_range _ _ _ hi)
  obtain ⟨p, hp, hip⟩ := List.mem_flatten.1 hiP
  refine ⟨p, hp, hip, hmut p hp i hip j ?_ ?_⟩
  · exact (faceNeighbour_iff m hin vt hvt i ti hi j).2 ⟨tj, hj, sharesEdge_corner ti tj hshare⟩
  · exact (faceNeighbour_iff m hin vt hvt j tj hj i).2
      ⟨ti, hi, sharesEdge_corner tj ti (sharesEdge_symm ti tj hshare)⟩

/-- The triangles `0` and `1` of `exampleMeshEdge` have the vertices `0` and
`1` in common, the first of them as the first index of both triangles, and are
in one polyhedron. -/
theorem getPolyhedra_joins_edge_neighbours_witness :
    I1 exampleMeshEdge ∧ SharesEdge ⟨0, 1, 2⟩ ⟨0, 3, 1⟩ ∧
    ∃ (m' : TriangleMesh) (polyList : List (List Int)),
      _getPolyhedra exampleMeshEdge [] = .ok (m', polyList) ∧
        ∃ p ∈ polyList, (0 : Int) ∈ p ∧ (1 : Int) ∈ p :=
  ⟨by decide, ⟨0, 1, by decide, by decide, by decide, by decide, by decide⟩,
    getPolyhedra_joins_edge_neighbours exampleMeshEdge (by decide) 0 1 ⟨0, 1, 2⟩ ⟨0, 3, 1⟩ rfl rfl
      ⟨0, 1, by decide, by decide, by decide, by decide, by decide⟩⟩

/-! ## Two searches on corresponding meshes -/

theorem nodup_getElem?_inj {α : Type} : ∀ (l : List α), l.Nodup → ∀ (a b : Nat) (x : α),
    l[a]? = some x → l[b]? = some x → a = b := by
  intro l
  induction l with
  | nil =>
    intro _ a b x ha _
    simp at ha
  | cons c l ih =>
    intro hnd a b x ha hb
    rw [List.nodup_cons] at hnd
    cases a with
    | zero =>
      cases b with
      | zero => rfl
      | succ b =>
        simp only [List.getElem?_cons_zero, Option.some.injEq] at ha
        simp only [List.getElem?_cons_succ] at hb
        subst ha
        exact absurd (List.mem_iff_getElem?.2 ⟨b, hb⟩) hnd.1
    | succ a =>
      cases b with
      | zero =>
        simp only [List.getElem?_cons_zero, Option.some.injEq] at hb
        simp only [List.getElem?_cons_succ] at ha
        subst hb
        exact absurd (List.mem_iff_getElem?.2 ⟨a, ha⟩) hnd.1
      | succ b =>
        simp only [List.getElem?_cons_succ] at ha hb
        rw [ih hnd.2 a b x ha hb]

theorem vecGet_inj {α : Type} (l : List α) (hnd : l.Nodup) (a b : Int) (x : α)
    (ha : vecGet l a = .ok x) (hb : vecGet l b = .ok x) : a = b := by
  rw [vecGet_eq_ok_iff] at ha hb
  have := nodup_getElem?_inj l hnd a.toNat b.toNat x ha.2 hb.2
  omega

theorem vecGet_of_mem {α : Type} (l : List α) (x : α) (h : x ∈ l) :
    ∃ a : Int, vecGet l a = .ok x := by
  obtain ⟨j, hj⟩ := List.mem_iff_getElem?.1 h
  exact ⟨(j : Int), vecGet_natCast l j x hj⟩

theorem vecGet_fun {α : Type} (l : List α) (a : Int) (x y : α) (hx : vecGet l a = .ok x)
    (hy : vecGet l a = .ok y) : x = y := by
  rw [hx] at hy
  exact Except.ok.inj hy

theorem faceNeighbour_dom (m : TriangleMesh) (x y : Int) (h : FaceNeighbour m x y) :
    0 ≤ x ∧ x < (m.triangles.length : Int) := by
  obtain ⟨ns, hns, _⟩ := h
  unfold getFaceNeighbours at hns
  by_cases hc : 0 ≤ x ∧ x < (m.triangles.length : Int)
  · exact hc
  · rw [if_neg hc] at hns
    cases hns

theorem reach_sim (M M' : TriangleMesh) (n' : Nat) (surv : List Int)
    (hsurvlen : surv.length = n')
    (hE : ∀ x' y' x y : Int, vecGet surv x' = .ok x → vecGet surv y' = .ok y →
      (FaceNeighbour M' x' y' ↔ FaceNeighbour M x y))
    (hdom' : ∀ x' y' : Int, FaceNeighbour M' x' y' → 0 ≤ x' ∧ x' < (n' : Int))
    (hnodup : surv.Nodup)
    (D D' : List Int) (i i' : Int) (hi : vecGet surv i' = .ok i)
    (hlink : ∀ x' x : Int, vecGet surv x' = .ok x → (x' ∈ D' ↔ x ∈ D))
    (hnew : ∀ x, ReachAvoiding M D i x → x ∈ surv) :
    ∀ x' x : Int, vecGet surv x' = .ok x →
      (ReachAvoiding M' D' i' x' ↔ ReachAvoiding M D i x) := by
  intro x' x hx
  constructor
  · intro h
    induction h generalizing x with
    | start hs =>
      have e := vecGet_fun _ _ _ _ hi hx
      subst e
      exact ReachAvoiding.start (fun hD => hs ((hlink _ _ hi).2 hD))
    | step hy hyz hz ih =>
      rename_i y' z'
      obtain ⟨y0, y1⟩ := hdom' _ _ hyz
      obtain ⟨y, hy', _⟩ := vecGet_ok surv y' y0 (by rw [hsurvlen]; exact y1)
      exact ReachAvoiding.step (ih y hy') ((hE _ _ _ _ hy' hx).1 hyz)
        (fun hD => hz ((hlink _ _ hx).2 hD))
  · intro h
    induction h generalizing x' with
    | start hs =>
      have e := vecGet_inj surv hnodup _ _ _ hi hx
      subst e
      exact ReachAvoiding.start (fun hD => hs ((hlink _ _ hi).1 hD))
    | step hy hyz hz ih =>
      rename_i y z
      obtain ⟨y', hy'⟩ := vecGet_of_mem surv y (hnew y hy)
      exact ReachAvoiding.step (ih y' hy') ((hE _ _ _ _ hy' hx).2 hyz)
        (fun hD => hz ((hlink _ _ hx).1 hD))

theorem polyhedraLoop_sim (M M' : TriangleMesh) (n n' : Nat) (R surv : List Int)
    (hN : NeighboursInRange M n) (hN' : NeighboursInRange M' n')
    (hsurvlen : surv.length = n')
    (hE : ∀ x' y' x y : Int, vecGet surv x' = .ok x → vecGet surv y' = .ok y →
      (FaceNeighbour M' x' y' ↔ FaceNeighbour M x y))
    (hdom' : ∀ x' y' : Int, FaceNeighbour M' x' y' → 0 ≤ x' ∧ x' < (n' : Int))
    (hsurvR : ∀ x ∈ surv, x ∉ R)
    (hsurvall : ∀ x : Int, 0 ≤ x → x < n → x ∉ R → x ∈ surv)
    (hnodup : surv.Nodup) :
    ∀ (k : Nat) (i : Int) (v : List Bool) (polyList : List (List Int)) (D : List Int)
      (news : List (List Int)) (survDone : List Int) (v' : List Bool)
      (polyList' : List (List Int)) (D' : List Int),
    v.length = n → VisitedExactly v D → 0 ≤ i → i + k = n →
    (∀ x : Int, 0 ≤ x → x < i → x ∈ D) →
    polyhedraLoop M k i v polyList = .ok (polyList ++ news) →
    (∀ p ∈ news, (∀ x ∈ p, x ∈ R) ∨ (∀ x ∈ p, x ∉ R)) →
    surv = survDone ++ keptPositions R k i →
    v'.length = n' → VisitedExactly v' D' →
    (∀ x' : Int, 0 ≤ x' → x' < survDone.length → x' ∈ D') →
    (∀ x' x : Int, vecGet surv x' = .ok x → (x' ∈ D' ↔ x ∈ D)) →
    ∃ news', polyhedraLoop M' (keptPositions R k i).length survDone.length v' polyList' =
        .ok (polyList' ++ news') ∧
      List.Forall₂ (fun p p' => ∀ x' x : Int, vecGet surv x' = .ok x → (x' ∈ p' ↔ x ∈ p))
        (news.filter fun p => p.all fun x => decide (x ∉ R)) news' := by
  intro k
  induction k with
  | zero =>
    intro i v polyList D news survDone v' polyList' D' _ _ _ _ _ hold _ _ _ _ _ _
    simp only [polyhedraLoop] at hold
    have e := Except.ok.inj hold
    have hnews : news = [] := by
      have := congrArg List.length e
      simp only [List.length_append] at this
      exact List.length_eq_zero.1 (by omega)
    subst hnews
    refine ⟨[], ?_, ?_⟩
    · simp [keptPositions, polyhedraLoop]
    · simp
  | succ k ih =>
    intro i v polyList D news survDone v' polyList' D' hl hv hi hik hD hold hgood hsurv hl' hv'
      hD' hlink
    have hin : i < v.length := by rw [hl]; push_cast at hik; omega
    have hik' : i + 1 + (k : Int) = n := by push_cast at hik ⊢; omega
    rcases vecGet_bool_cases v i hi hin with hb | hb
    · -- the triangle `i` is visited already
      simp only [polyhedraLoop, hb, ok_bind, Bool.not_true, Bool.false_eq_true, if_false] at hold
      have hD1 : ∀ x : Int, 0 ≤ x → x < i + 1 → x ∈ D := by
        intro x x0 x1
        by_cases e : x = i
        · rw [e]; exact (hv.2 i).1 hb
        · exact hD x x0 (by omega)
      by_cases hiR : i ∈ R
      · have hk : keptPositions R (k + 1) i = keptPositions R k (i + 1) := by
          simp only [keptPositions, hiR, if_true]
        rw [hk] at hsurv ⊢
        exact ih (i + 1) v polyList D news survDone v' polyList' D' hl hv (by omega) hik' hD1
          hold hgood hsurv hl' hv' hD' hlink
      · have hk : keptPositions R (k + 1) i = i :: keptPositions R k (i + 1) := by
          simp only [keptPositions, hiR, if_false]
        rw [hk] at hsurv ⊢
        have hcorr : vecGet surv (survDone.length : Int) = .ok i := by
          rw [hsurv]
          exact vecGet_split survDone i _
        have hiD' : (survDone.length : Int) ∈ D' := (hlink _ _ hcorr).2 ((hv.2 i).1 hb)
        have hb' : vecGet v' (survDone.length : Int) = .ok true := (hv'.2 _).2 hiD'
        have hsurv2 : surv = (survDone ++ [i]) ++ keptPositions R k (i + 1) := by
          rw [hsurv]
          simp
        have hD1' : ∀ x' : Int, 0 ≤ x' → x' < ((survDone ++ [i]).length : Int) → x' ∈ D' := by
          intro x' x0 x1
          simp only [List.length_append, List.length_singleton, Nat.cast_add, Nat.cast_one] at x1
          by_cases e : x' = (survDone.length : Int)
          · rw [e]; exact hiD'
          · exact hD' x' x0 (by omega)
        obtain ⟨news', hrun, hf⟩ := ih (i + 1) v polyList D news (survDone ++ [i]) v' polyList'
          D' hl hv (by omega) hik' hD1 hold hgood hsurv2 hl' hv' hD1' hlink
        refine ⟨news', ?_, hf⟩
        simp only [List.length_cons, polyhedraLoop, hb', ok_bind, Bool.not_true,
          Bool.false_eq_true, if_false]
        have e : ((survDone ++ [i]).length : Int) = (survDone.length : Int) + 1 := by
          simp
        rw [e] at hrun
        exact hrun
    · -- the triangle `i` starts a polyhedron
      obtain ⟨v1, new, hrun1, hl1, hv1, hmem, hclosed, hreach⟩ :=
        getPolyhedronFromTriangle_reach M n hN i v [] D hl hv hb
      simp only [polyhedraLoop, hb, ok_bind, Bool.not_false, if_true, hrun1,
        List.nil_append] at hold
      have hD1 : ∀ x : Int, 0 ≤ x → x < i + 1 → x ∈ new ++ D := by
        intro x x0 x1
        by_cases e : x = i
        · rw [e]; exact List.mem_append_left _ hmem
        · exact List.mem_append_right _ (hD x x0 (by omega))
      obtain ⟨news1, _, hrest, _⟩ := polyhedraLoop_spec M n hN k (i + 1) v1 (polyList ++ [new])
        (new ++ D) hl1 hv1 (by omega) hik' hD1
      have hnews : news = new :: news1 := by
        rw [hrest] at hold
        have e := Except.ok.inj hold
        rw [List.append_assoc] at e
        exact (List.append_cancel_left e).symm
      subst hnews
      have hgood1 : ∀ p ∈ news1, (∀ x ∈ p, x ∈ R) ∨ (∀ x ∈ p, x ∉ R) :=
        fun p hp => hgood p (List.mem_cons_of_mem _ hp)
      have hnewrange : ∀ x ∈ new, 0 ≤ x ∧ x < (n : Int) := by
        intro x hx
        have := hv1.inRange x (List.mem_append_left _ hx)
        rw [hl1] at this
        exact this
      by_cases hiR : i ∈ R
      · have hnewR : ∀ x ∈ new, x ∈ R := by
          rcases hgood new (List.mem_cons_self _ _) with h | h
          · exact h
          · exact absurd hiR (h i hmem)
        have hk : keptPositions R (k + 1) i = keptPositions R k (i + 1) := by
          simp only [keptPositions, hiR, if_true]
        rw [hk] at hsurv ⊢
        have hfilter : ((new :: news1).filter fun p => p.all fun x => decide (x ∉ R)) =
            news1.filter fun p => p.all fun x => decide (x ∉ R) := by
          rw [List.filter_cons_of_neg]
          simp only [List.all_eq_true, decide_eq_true_eq, not_forall]
          exact ⟨i, hmem, fun h => h hiR⟩
        rw [hfilter]
        have hlink1 : ∀ x' x : Int, vecGet surv x' = .ok x → (x' ∈ D' ↔ x ∈ new ++ D) := by
          intro x' x hx
          rw [hlink x' x hx, List.mem_append]
          constructor
          · exact fun h => Or.inr h
          · rintro (h | h)
            · exact absurd (hnewR x h) (hsurvR x (vecGet_mem _ _ _ hx))
            · exact h
        exact ih (i + 1) v1 (polyList ++ [new]) (new ++ D) news1 survDone v' polyList' D' hl1
          hv1 (by omega) hik' hD1 hrest hgood1 hsurv hl' hv' hD' hlink1
      · have hnewR : ∀ x ∈ new, x ∉ R := by
          rcases hgood new (List.mem_cons_self _ _) with h | h
          · exact absurd (h i hmem) hiR
          · exact h
        have hk : keptPositions R (k + 1) i = i :: keptPositions R k (i + 1) := by
          simp only [keptPositions, hiR, if_false]
        rw [hk] at hsurv ⊢
        have hfilter : ((new :: news1).filter fun p => p.all fun x => decide (x ∉ R)) =
            new :: news1.filter fun p => p.all fun x => decide (x ∉ R) := by
          rw [List.filter_cons_of_pos]
          simp only [List.all_eq_true, decide_eq_true_eq]
          exact hnewR
        rw [hfilter]
        have hcorr : vecGet surv (survDone.length : Int) = .ok i := by
          rw [hsurv]
          exact vecGet_split survDone i _
        have hiD : i ∉ D := by
          intro h
          have := (hv.2 i).2 h
          rw [hb] at this
          cases this
        have hiD' : (survDone.length : Int) ∉ D' := fun h => hiD ((hlink _ _ hcorr).1 h)
        obtain ⟨c0, c1⟩ := vecGet_ok_range _ _ _ hcorr
        have hb' : vecGet v' (survDone.length : Int) = .ok false := by
          rcases vecGet_bool_cases v' _ c0 (by rw [hl', ← hsurvlen]; exact c1) with h | h
          · exact absurd ((hv'.2 _).1 h) hiD'
          · exact h
        obtain ⟨v1', new', hrun1', hl1', hv1', hmem', _, hreach'⟩ :=
          getPolyhedronFromTriangle_reach M' n' hN' (survDone.length : Int) v' [] D' hl' hv' hb'
        have hpair : ∀ x' x : Int, vecGet surv x' = .ok x → (x' ∈ new' ↔ x ∈ new) := by
          intro x' x hx
          rw [hreach' x', hreach x]
          exact reach_sim M M' n' surv hsurvlen hE hdom' hnodup D D' i
            (survDone.length : Int) hcorr hlink
            (fun y hy => by
              have hyn := (hreach y).2 hy
              obtain ⟨y0, y1⟩ := hnewrange y hyn
              exact hsurvall y y0 y1 (hnewR y hyn)) x' x hx
        have hsurv2 : surv = (survDone ++ [i]) ++ keptPositions R k (i + 1) := by
          rw [hsurv]
          simp
        have hD1' : ∀ x' : Int, 0 ≤ x' → x' < ((survDone ++ [i]).length : Int) →
            x' ∈ new' ++ D' := by
          intro x' x0 x1
          simp only [List.length_append, List.length_singleton, Nat.cast_add, Nat.cast_one] at x1
          by_cases e : x' = (survDone.length : Int)
          · rw [e]; exact List.mem_append_left _ hmem'
          · exact List.mem_append_right _ (hD' x' x0 (by omega))
        have hlink1 : ∀ x' x : Int, vecGet surv x' = .ok x →
            (x' ∈ new' ++ D' ↔ x ∈ new ++ D) := by
          intro x' x hx
          rw [List.mem_append, List.mem_append, hpair x' x hx, hlink x' x hx]
        obtain ⟨news', hrun, hf⟩ := ih (i + 1) v1 (polyList ++ [new]) (new ++ D) news1
          (survDone ++ [i]) v1' (polyList' ++ [new']) (new' ++ D') hl1 hv1 (by omega) hik' hD1
          hrest hgood1 hsurv2 hl1' hv1' hD1' hlink1
        refine ⟨new' :: news', ?_, List.Forall₂.cons hpair hf⟩
        simp only [List.length_cons, polyhedraLoop, hb', ok_bind, Bool.not_false, if_true,
          hrun1', List.nil_append]
        have e : ((survDone ++ [i]).length : Int) = (survDone.length : Int) + 1 := by
          simp
        rw [e] at hrun
        rw [hrun]
        simp

/-! ## The triangles that `removeTriangles` keeps -/

theorem mem_keptPositions (R : List Int) : ∀ (k : Nat) (i x : Int),
    x ∈ keptPositions R k i ↔ i ≤ x ∧ x < i + k ∧ x ∉ R := by
  intro k
  induction k with
  | zero =>
    intro i x
    simp only [keptPositions, List.not_mem_nil, Nat.cast_zero, add_zero, false_iff]
    omega
  | succ k ih =>
    intro i x
    by_cases hi : i ∈ R
    · simp only [keptPositions, hi, if_true, ih]
      push_cast
      constructor
      · rintro ⟨h1, h2, h3⟩
        exact ⟨by omega, by omega, h3⟩
      · rintro ⟨h1, h2, h3⟩
        have : x ≠ i := fun e => h3 (e ▸ hi)
        exact ⟨by omega, by omega, h3⟩
    · simp only [keptPositions, hi, if_false, List.mem_cons, ih]
      push_cast
      constructor
      · rintro (rfl | ⟨h1, h2, h3⟩)
        · exact ⟨le_refl _, by omega, hi⟩
        · exact ⟨by omega, by omega, h3⟩
      · rintro ⟨h1, h2, h3⟩
        by_cases e : x = i
        · exact Or.inl e
        · exact Or.inr ⟨by omega, by omega, h3⟩

theorem keptPositions_nodup (R : List Int) : ∀ (k : Nat) (i : Int),
    (keptPositions R k i).Nodup := by
  intro k
  induction k with
  | zero => intro i; simp [keptPositions]
  | succ k ih =>
    intro i
    by_cases hi : i ∈ R
    · simp only [keptPositions, hi, if_true]
      exact ih (i + 1)
    · simp only [keptPositions, hi, if_false, List.nodup_cons]
      refine ⟨?_, ih (i + 1)⟩
      rw [mem_keptPositions]
      omega

theorem dropPositions_getElem? {α : Type} (R : List Int) : ∀ (l : List α) (i : Int) (j : Nat)
    (x : Int), (keptPositions R l.length i)[j]? = some x →
    ∃ a, i ≤ x ∧ l[(x - i).toNat]? = some a ∧ (dropPositions R l i)[j]? = some a := by
  intro l
  induction l with
  | nil =>
    intro i j x h
    simp [keptPositions] at h
  | cons a l ih =>
    intro i j x h
    by_cases hi : i ∈ R
    · simp only [List.length_cons, keptPositions, hi, if_true] at h
      obtain ⟨b, h1, h2, h3⟩ := ih (i + 1) j x h
      refine ⟨b, by omega, ?_, ?_⟩
      · have e : (x - i).toNat = (x - (i + 1)).toNat + 1 := by omega
        rw [e, List.getElem?_cons_succ]
        exact h2
      · simp only [dropPositions, hi, if_true]
        exact h3
    · simp only [List.length_cons, keptPositions, hi, if_false] at h
      cases j with
      | zero =>
        simp only [List.getElem?_cons_zero, Option.some.injEq] at h
        subst h
        refine ⟨a, le_refl _, by simp, ?_⟩
        simp only [dropPositions, hi, if_false, List.getElem?_cons_zero]
      | succ j =>
        simp only [List.getElem?_cons_succ] at h
        obtain ⟨b, h1, h2, h3⟩ := ih (i + 1) j x h
        refine ⟨b, by omega, ?_, ?_⟩
        · have e : (x - i).toNat = (x - (i + 1)).toNat + 1 := by omega
          rw [e, List.getElem?_cons_succ]
          exact h2
        · simp only [dropPositions, hi, if_false, List.getElem?_cons_succ]
          exact h3

theorem dropPositions_length {α : Type} (R : List Int) : ∀ (l : List α) (i : Int),
    (dropPositions R l i).length = (keptPositions R l.length i).length := by
  intro l
  induction l with
  | nil => intro i; rfl
  | cons a l ih =>
    intro i
    by_cases hi : i ∈ R
    · simp only [dropPositions, List.length_cons, keptPositions, hi, if_true]
      exact ih (i + 1)
    · simp only [dropPositions, List.length_cons, keptPositions, hi, if_false]
      rw [ih (i + 1)]

theorem vecGet_dropPositions {α : Type} (R : List Int) (l : List α) (x' x : Int)
    (h : vecGet (keptPositions R l.length 0) x' = .ok x) :
    ∃ a, vecGet l x = .ok a ∧ vecGet (dropPositions R l 0) x' = .ok a := by
  rw [vecGet_eq_ok_iff] at h
  obtain ⟨a, h1, h2, h3⟩ := dropPositions_getElem? R l 0 x'.toNat x h.2
  rw [sub_zero] at h2
  exact ⟨a, (vecGet_eq_ok_iff _ _ _).2 ⟨h1, h2⟩, (vecGet_eq_ok_iff _ _ _).2 ⟨h.1, h3⟩⟩

/-- The face neighbours after triangles are removed and the vertices are
renamed by `f`: the triangles `x'` and `y'` of the new mesh are face
neighbours when the triangles `x` and `y` of the old mesh are, for the old
indices `x` and `y` of the two triangles. -/
theorem faceNeighbour_corr (m m' : TriangleMesh) (hin : IndicesInRange m)
    (hin' : IndicesInRange m') (vt vt' : List (List Int))
    (hvt : updateVertexTriangles m = .ok { m with _vertexTriangles := vt })
    (hvt' : updateVertexTriangles m' = .ok { m' with _vertexTriangles := vt' })
    (R : List Int) (f : Int → Int)
    (hts : m'.triangles =
      (dropPositions R m.triangles 0).map fun t => (⟨f t.t0, f t.t1, f t.t2⟩ : Triangle))
    (hf : ∀ t ∈ dropPositions R m.triangles 0, ∀ s ∈ dropPositions R m.triangles 0,
      ∀ a ∈ t.corners, ∀ b ∈ s.corners, f a = f b → a = b) :
    ∀ x' y' x y : Int, vecGet (keptPositions R m.triangles.length 0) x' = .ok x →
      vecGet (keptPositions R m.triangles.length 0) y' = .ok y →
      (FaceNeighbour { m' with _vertexTriangles := vt' } x' y' ↔
        FaceNeighbour { m with _vertexTriangles := vt } x y) := by
  intro x' y' x y hx hy
  obtain ⟨tx, htx, htx2⟩ := vecGet_dropPositions R m.triangles x' x hx
  obtain ⟨ty, hty, hty2⟩ := vecGet_dropPositions R m.triangles y' y hy
  have hmap : ∀ (z : Int) (t : Triangle), vecGet (dropPositions R m.triangles 0) z = .ok t →
      vecGet m'.triangles z = .ok ⟨f t.t0, f t.t1, f t.t2⟩ := by
    intro z t hz
    rw [vecGet_eq_ok_iff] at hz ⊢
    refine ⟨hz.1, ?_⟩
    rw [hts, List.getElem?_map, hz.2]
    rfl
  have htx' := hmap x' tx htx2
  have hty' := hmap y' ty hty2
  have hxm := vecGet_mem _ _ _ htx2
  have hym := vecGet_mem _ _ _ hty2
  rw [faceNeighbour_iff m' hin' vt' hvt' x' _ htx' y', faceNeighbour_iff m hin vt hvt x tx htx y]
  have hc1 : tx.t1 ∈ tx.corners := by simp [Triangle.corners]
  have hc2 : tx.t2 ∈ tx.corners := by simp [Triangle.corners]
  have key : ∀ a ∈ tx.corners,
      (f a ∈ (⟨f ty.t0, f ty.t1, f ty.t2⟩ : Triangle).corners ↔ a ∈ ty.corners) := by
    intro a ha
    simp only [Triangle.corners, List.mem_cons, List.mem_singleton, List.not_mem_nil, or_false]
    constructor
    · rintro (h | h | h)
      · exact Or.inl (hf tx hxm ty hym a ha ty.t0 (by simp [Triangle.corners]) h)
      · exact Or.inr (Or.inl (hf tx hxm ty hym a ha ty.t1 (by simp [Triangle.corners]) h))
      · exact Or.inr (Or.inr (hf tx hxm ty hym a ha ty.t2 (by simp [Triangle.corners]) h))
    · rintro (h | h | h)
      · exact Or.inl (by rw [h])
      · exact Or.inr (Or.inl (by rw [h]))
      · exact Or.inr (Or.inr (by rw [h]))
  constructor
  · rintro ⟨ty', hty'', hc⟩
    have e := vecGet_fun _ _ _ _ hty' hty''
    subst e
    refine ⟨ty, hty, ?_⟩
    rcases hc with hc | hc
    · exact Or.inl ((key tx.t1 hc1).1 hc)
    · exact Or.inr ((key tx.t2 hc2).1 hc)
  · rintro ⟨ty0, hty0, hc⟩
    have e := vecGet_fun _ _ _ _ hty hty0
    subst e
    refine ⟨_, hty', ?_⟩
    rcases hc with hc | hc
    · exact Or.inl ((key tx.t1 hc1).2 hc)
    · exact Or.inr ((key tx.t2 hc2).2 hc)

/-! ## C37: the polyhedra after `removeMinimumTriangleCountPolyhedra` -/

theorem eq_of_mem_of_nodup_flatten {α : Type} : ∀ (L : List (List α)), L.flatten.Nodup →
    ∀ (P p : List α) (x : α), P ∈ L → p ∈ L → x ∈ P → x ∈ p → P = p := by
  intro L
  induction L with
  | nil =>
    intro _ P p x hP
    cases hP
  | cons q L ih =>
    intro hnd P p x hP hp hxP hxp
    simp only [List.flatten_cons, List.nodup_append] at hnd
    rcases List.mem_cons.1 hP with e1 | hP1
    · rcases List.mem_cons.1 hp with e2 | hp1
      · rw [e1, e2]
      · rw [e1] at hxP
        exact absurd (List.mem_flatten.2 ⟨p, hp1, hxp⟩) (hnd.2.2 hxP)
    · rcases List.mem_cons.1 hp with e2 | hp1
      · rw [e2] at hxp
        exact absurd (List.mem_flatten.2 ⟨P, hP1, hxP⟩) (hnd.2.2 hxp)
      · exact ih hnd.2.1 P p x hP1 hp1 hxP hxp

theorem polyhedra_all_or_nothing (count : Int) (polyList : List (List Int))
    (hnd : polyList.flatten.Nodup) :
    ∀ p ∈ polyList, (∀ x ∈ p, x ∈ smallPolyhedraTriangles count polyList) ∨
      (∀ x ∈ p, x ∉ smallPolyhedraTriangles count polyList) := by
  intro p hp
  by_cases hsmall : (p.length : Int) ≤ count
  · exact Or.inl fun x hx => (mem_smallPolyhedraTriangles count polyList x).2 ⟨p, hp, hsmall, hx⟩
  · refine Or.inr fun x hx hxR => ?_
    obtain ⟨P, hP, hPs, hxP⟩ := (mem_smallPolyhedraTriangles count polyList x).1 hxR
    have e := eq_of_mem_of_nodup_flatten polyList hnd P p x hP hp hxP hx
    subst e
    exact hsmall hPs

theorem filter_survive_eq (count : Int) (polyList : List (List Int))
    (hnd : polyList.flatten.Nodup) (hne : ∀ p ∈ polyList, p ≠ []) :
    (polyList.filter fun p => p.all fun x =>
      decide (x ∉ smallPolyhedraTriangles count polyList)) =
    polyList.filter fun p => decide (count < (p.length : Int)) := by
  apply List.filter_congr
  intro p hp
  by_cases hsmall : (p.length : Int) ≤ count
  · have h1 : decide (count < (p.length : Int)) = false := by
      simp only [decide_eq_false_iff_not, not_lt]
      exact hsmall
    rw [h1]
    obtain ⟨x, hx⟩ := List.exists_mem_of_ne_nil p (hne p hp)
    have hxR := (mem_smallPolyhedraTriangles count polyList x).2 ⟨p, hp, hsmall, hx⟩
    rw [Bool.eq_false_iff]
    intro hall
    simp only [List.all_eq_true, decide_eq_true_eq] at hall
    exact hall x hx hxR
  · have h1 : decide (count < (p.length : Int)) = true := by
      simp only [decide_eq_true_eq]
      omega
    rw [h1]
    simp only [List.all_eq_true, decide_eq_true_eq]
    rcases polyhedra_all_or_nothing count polyList hnd p hp with h | h
    · obtain ⟨x, hx⟩ := List.exists_mem_of_ne_nil p (hne p hp)
      obtain ⟨P, hP, hPs, hxP⟩ := (mem_smallPolyhedraTriangles count polyList x).1 (h x hx)
      have e := eq_of_mem_of_nodup_flatten polyList hnd P p x hP hp hxP hx
      subst e
      exact absurd hPs hsmall
    · exact h

theorem forall₂_right_mem {α β : Type} (r : α → β → Prop) : ∀ (l : List α) (l' : List β),
    List.Forall₂ r l l' → ∀ b ∈ l', ∃ a ∈ l, r a b := by
  intro l l' h
  induction h with
  | nil =>
    intro b hb
    cases hb
  | cons hab _ ih =>
    intro b hb
    rcases List.mem_cons.1 hb with e | hb
    · subst e
      exact ⟨_, List.mem_cons_self _ _, hab⟩
    · obtain ⟨a, ha, hr⟩ := ih b hb
      exact ⟨a, List.mem_cons_of_mem _ ha, hr⟩

theorem forall₂_with_mem {α β : Type} (r : α → β → Prop) : ∀ (l : List α) (l' : List β),
    List.Forall₂ r l l' → List.Forall₂ (fun a b => r a b ∧ a ∈ l ∧ b ∈ l') l l' := by
  intro l l' h
  induction h with
  | nil => exact List.Forall₂.nil
  | cons hab _ ih =>
    refine List.Forall₂.cons ⟨hab, List.mem_cons_self _ _, List.mem_cons_self _ _⟩ ?_
    exact List.Forall₂.imp
      (fun {a b} h => ⟨h.1, List.mem_cons_of_mem _ h.2.1, List.mem_cons_of_mem _ h.2.2⟩) ih

theorem corr_length (surv p p' : List Int) (hsurv : surv.Nodup) (hp : p.Nodup)
    (hp' : p'.Nodup) (hps : ∀ x ∈ p, x ∈ surv)
    (hpr : ∀ x' ∈ p', 0 ≤ x' ∧ x' < (surv.length : Int))
    (hpair : ∀ x' x : Int, vecGet surv x' = .ok x → (x' ∈ p' ↔ x ∈ p)) :
    p'.length = p.length := by
  have hg : ∀ x' ∈ p', vecGet surv x' = .ok (surv.getD x'.toNat 0) := by
    intro x' hx'
    obtain ⟨a, ha, ha'⟩ := vecGet_ok surv x' (hpr x' hx').1 (hpr x' hx').2
    rw [ha]
    congr 1
    rw [List.getD_eq_getElem?_getD, ha']
    rfl
  have hnd : (p'.map fun x' => surv.getD x'.toNat 0).Nodup := by
    apply List.Nodup.map_on _ hp'
    intro a ha b hb hab
    have h1 := hg a ha
    have h2 := hg b hb
    rw [← hab] at h2
    exact vecGet_inj surv hsurv a b _ h1 h2
  have hperm : (p'.map fun x' => surv.getD x'.toNat 0).Perm p := by
    rw [List.perm_ext_iff_of_nodup hnd hp]
    intro a
    constructor
    · intro ha
      obtain ⟨x', hx', rfl⟩ := List.mem_map.1 ha
      exact (hpair x' _ (hg x' hx')).1 hx'
    · intro ha
      obtain ⟨x', hx'⟩ := vecGet_of_mem surv a (hps a ha)
      have hx'p := (hpair x' a hx').2 ha
      refine List.mem_map.2 ⟨x', hx'p, ?_⟩
      exact (vecGet_fun _ _ _ _ hx' (hg x' hx'p)).symm
  have := hperm.length_eq
  simpa using this

theorem getPolyhedra_clear (m : TriangleMesh) (polyList : List (List Int)) :
    _getPolyhedra { m with _vertexTriangles := [] } polyList = _getPolyhedra m polyList := rfl

/-- The mesh that `removeMinimumTriangleCountPolyhedra` returns: the triangles
that are kept, with their vertices renamed by an injective `f`. -/
theorem removeMinimumTriangleCountPolyhedra_shape (normalize : Vec3 → Vec3) (m : TriangleMesh)
    (hin : IndicesInRange m) (count : Int) (hc : 0 < count) (polyList : List (List Int))
    (hrun : _getPolyhedra m [] = .ok ({ m with _vertexTriangles := [] }, polyList))
    (hmem : ∀ x : Int, x ∈ polyList.flatten ↔ 0 ≤ x ∧ x < (m.triangles.length : Int)) :
    ∃ (m' : TriangleMesh) (f : Int → Int),
      removeMinimumTriangleCountPolyhedra normalize m count = .ok m' ∧
      IndicesInRange m' ∧
      m'.triangles = (dropPositions (smallPolyhedraTriangles count polyList) m.triangles 0).map
        (fun t => (⟨f t.t0, f t.t1, f t.t2⟩ : Triangle)) ∧
      ∀ t ∈ dropPositions (smallPolyhedraTriangles count polyList) m.triangles 0,
        ∀ s ∈ dropPositions (smallPolyhedraTriangles count polyList) m.triangles 0,
        ∀ a ∈ t.corners, ∀ b ∈ s.corners, f a = f b → a = b := by
  have hnc : ¬ count ≤ 0 := by omega
  have hR := collectSmallPolyhedra_eq count polyList []
  simp only [List.nil_append] at hR
  by_cases hnil : smallPolyhedraTriangles count polyList = []
  · refine ⟨{ m with _vertexTriangles := [] }, id, ?_, hin, ?_, fun _ _ _ _ a _ b _ h => h⟩
    · simp only [removeMinimumTriangleCountPolyhedra, hnc, if_false, hrun, ok_bind, hR, hnil,
        List.length_nil, if_true, pure_eq_ok]
    · rw [hnil, dropPositions_nil]
      show m.triangles = _
      simp
  · have hRin : ∀ r ∈ smallPolyhedraTriangles count polyList,
        0 ≤ r ∧ r < (({ m with _vertexTriangles := [] } : TriangleMesh).triangles.length : Int) := by
      intro r hr
      obtain ⟨P, hP, _, hrP⟩ := (mem_smallPolyhedraTriangles count polyList r).1 hr
      exact (hmem r).1 (List.mem_flatten.2 ⟨P, hP, hrP⟩)
    have hrem := removeTriangles_eq { m with _vertexTriangles := [] }
      (smallPolyhedraTriangles count polyList) hRin
    have hin2 : IndicesInRange
        { ({ m with _vertexTriangles := [] } : TriangleMesh) with
          triangles := dropPositions (smallPolyhedraTriangles count polyList)
            ({ m with _vertexTriangles := [] } : TriangleMesh).triangles 0 } := by
      intro t ht
      exact hin t ((dropPositions_sublist _ _ _).subset ht)
    obtain ⟨m', hm', _, _, ht, _, hin', _⟩ := removeExtraneousVertices_post normalize _ hin2
    refine ⟨m', fun a => (rank (unusedFlags
      { ({ m with _vertexTriangles := [] } : TriangleMesh) with
        triangles := dropPositions (smallPolyhedraTriangles count polyList)
          ({ m with _vertexTriangles := [] } : TriangleMesh).triangles 0 }) a.toNat : Int),
      ?_, hin', ?_, ?_⟩
    · have hlen : ¬ (smallPolyhedraTriangles count polyList).length = 0 := by
        intro h0
        exact hnil (List.length_eq_zero.1 h0)
      simp only [removeMinimumTriangleCountPolyhedra, hnc, if_false, hrun, ok_bind, hR, hlen,
        hrem]
      exact hm'
    · rw [ht]
      rfl
    · intro t htm s hsm a ha b hb hab
      have hcorner : ∀ (u : Triangle), u ∈ dropPositions (smallPolyhedraTriangles count polyList)
          m.triangles 0 → ∀ c ∈ u.corners, 0 ≤ c ∧ (unusedFlags
            { ({ m with _vertexTriangles := [] } : TriangleMesh) with
              triangles := dropPositions (smallPolyhedraTriangles count polyList)
                ({ m with _vertexTriangles := [] } : TriangleMesh).triangles 0 })[c.toNat]? =
            some false := by
        intro u hu c hc
        obtain ⟨h0, h1, h2⟩ := corners_used _ hin2 u hu
        simp only [Triangle.corners, List.mem_cons, List.mem_singleton, List.not_mem_nil,
          or_false] at hc
        rcases hc with rfl | rfl | rfl
        · exact h0
        · exact h1
        · exact h2
      obtain ⟨a0, a1⟩ := hcorner t htm a ha
      obtain ⟨b0, b1⟩ := hcorner s hsm b hb
      have := rank_injective _ a.toNat b.toNat a1 b1 (Int.ofNat_inj.1 hab)
      omega

theorem getPolyhedra_after_removal (normalize : Vec3 → Vec3) (m : TriangleMesh) (hI : I1 m)
    (count : Int) (hc : 0 < count) :
    ∃ (polyList : List (List Int)) (m' : TriangleMesh) (polyList' : List (List Int)),
      _getPolyhedra m [] = .ok ({ m with _vertexTriangles := [] }, polyList) ∧
      removeMinimumTriangleCountPolyhedra normalize m count = .ok m' ∧
      IndicesInRange m' ∧
      _getPolyhedra m' [] = .ok ({ m' with _vertexTriangles := [] }, polyList') ∧
      (keptPositions (smallPolyhedraTriangles count polyList) m.triangles.length 0).length =
        m'.triangles.length ∧
      List.Forall₂
        (fun p p' => p'.length = p.length ∧ ∀ x' x : Int,
          vecGet (keptPositions (smallPolyhedraTriangles count polyList) m.triangles.length 0)
            x' = .ok x → (x' ∈ p' ↔ x ∈ p))
        (polyList.filter fun p => decide (count < (p.length : Int))) polyList' := by
  have hin : IndicesInRange m := fun t ht => (hI t ht).2
  obtain ⟨vt, polyList, hvt, hloop, hrun, hnd, hmem, hne⟩ := getPolyhedra_post m hin
  obtain ⟨m', f, hm', hin', hts, hf⟩ :=
    removeMinimumTriangleCountPolyhedra_shape normalize m hin count hc polyList hrun hmem
  obtain ⟨vt', polyList', hvt', hloop', hrun', hnd', hmem', hne'⟩ := getPolyhedra_post m' hin'
  have hN := neighboursInRange_of_update m hin vt hvt
  have hN' := neighboursInRange_of_update m' hin' vt' hvt'
  have hsurvlen : (keptPositions (smallPolyhedraTriangles count polyList)
      m.triangles.length 0).length = m'.triangles.length := by
    rw [hts, List.length_map, dropPositions_length]
  have hE := faceNeighbour_corr m m' hin hin' vt vt' hvt hvt'
    (smallPolyhedraTriangles count polyList) f hts hf
  obtain ⟨news', hsim, hf2⟩ := polyhedraLoop_sim { m with _vertexTriangles := vt }
    { m' with _vertexTriangles := vt' } m.triangles.length m'.triangles.length
    (smallPolyhedraTriangles count polyList)
    (keptPositions (smallPolyhedraTriangles count polyList) m.triangles.length 0)
    hN hN' hsurvlen hE
    (fun x' y' h => faceNeighbour_dom { m' with _vertexTriangles := vt' } x' y' h)
    (fun x hx => ((mem_keptPositions _ _ _ _).1 hx).2.2)
    (fun x x0 x1 hx => (mem_keptPositions _ _ _ _).2 ⟨x0, by omega, hx⟩)
    (keptPositions_nodup _ _ _)
    m.triangles.length 0 (List.replicate m.triangles.length false) [] [] polyList []
    (List.replicate m'.triangles.length false) [] []
    (by simp) (visitedExactly_replicate _) (le_refl _) (by simp) (fun x x0 x1 => by omega)
    (by rw [List.nil_append]; exact hloop)
    (polyhedra_all_or_nothing count polyList hnd)
    (by rw [List.nil_append])
    (by simp) (visitedExactly_replicate _)
    (fun x' x0 x1 => by
      simp only [List.length_nil, Nat.cast_zero] at x1
      omega)
    (fun x' x _ => by simp)
  rw [hsurvlen, List.nil_append] at hsim
  simp only [List.length_nil, Nat.cast_zero] at hsim
  rw [hloop'] at hsim
  have e := Except.ok.inj hsim
  subst e
  rw [filter_survive_eq count polyList hnd hne] at hf2
  refine ⟨polyList, m', polyList', hrun, hm', hin', hrun', hsurvlen, ?_⟩
  refine List.Forall₂.imp ?_ (forall₂_with_mem _ _ _ hf2)
  intro p p' h
  obtain ⟨hpair, hp, hp'⟩ := h
  refine ⟨?_, hpair⟩
  have hpP : p ∈ polyList := (List.mem_filter.1 hp).1
  have hbig : count < (p.length : Int) := by
    simpa using (List.mem_filter.1 hp).2
  apply corr_length _ p p' (keptPositions_nodup _ _ _)
    (nodup_of_nodup_flatten polyList hnd p hpP)
    (nodup_of_nodup_flatten polyList' hnd' p' hp') ?_ ?_ hpair
  · intro x hx
    obtain ⟨x0, x1⟩ := (hmem x).1 (List.mem_flatten.2 ⟨p, hpP, hx⟩)
    refine (mem_keptPositions _ _ _ _).2 ⟨x0, by omega, fun hxR => ?_⟩
    rcases polyhedra_all_or_nothing count polyList hnd p hpP with h | h
    · obtain ⟨P, hP, hPs, hxP⟩ := (mem_smallPolyhedraTriangles count polyList x).1 hxR
      have e := eq_of_mem_of_nodup_flatten polyList hnd P p x hP hpP hxP hx
      rw [e] at hPs
      omega
    · exact h x hx hxR
  · intro x' hx'
    rw [hsurvlen]
    exact (hmem' x').1 (List.mem_flatten.2 ⟨p', hp', hx'⟩)

/-- C37: on a mesh that satisfies I1 and for `count > 0`,
`removeMinimumTriangleCountPolyhedra(count)` returns, and `_getPolyhedra` on
the mesh it returns finds the polyhedra of the old mesh with more than `count`
triangles, in their old order and each with the new indices of its triangles:
the new polyhedron has as many triangles as the old one, and the triangle `x'`
of the new mesh is in it when the triangle `x` of the old mesh that became
`x'` is in the old one.  Every polyhedron of the new mesh has more than
`count` triangles, and a second call with the same `count` removes nothing: it
returns the mesh with the vertices, normals, colors, triangles and triangle
areas as they are and with the same polyhedra; the vertex triangle cache is
empty after it, as every call of `_getPolyhedra` leaves it. -/
theorem removeMinimumTriangleCountPolyhedra_components (normalize : Vec3 → Vec3)
    (m : TriangleMesh) (hI : I1 m) (count : Int) (hc : 0 < count) :
    ∃ (m1 : TriangleMesh) (polyList : List (List Int)) (m' m1' : TriangleMesh)
      (polyList' : List (List Int)),
      _getPolyhedra m [] = .ok (m1, polyList) ∧
      removeMinimumTriangleCountPolyhedra normalize m count = .ok m' ∧
      _getPolyhedra m' [] = .ok (m1', polyList') ∧
      (∀ p' ∈ polyList', count < (p'.length : Int)) ∧
      (keptPositions (smallPolyhedraTriangles count polyList) m.triangles.length 0).length =
        m'.triangles.length ∧
      List.Forall₂
        (fun p p' => p'.length = p.length ∧ ∀ x' x : Int,
          vecGet (keptPositions (smallPolyhedraTriangles count polyList) m.triangles.length 0)
            x' = .ok x → (x' ∈ p' ↔ x ∈ p))
        (polyList.filter fun p => decide (count < (p.length : Int))) polyList' ∧
      removeMinimumTriangleCountPolyhedra normalize m' count = .ok (clearVertexTriangles m') ∧
      (clearVertexTriangles m').vertices = m'.vertices ∧
      (clearVertexTriangles m').normals = m'.normals ∧
      (clearVertexTriangles m').vertexcolors = m'.vertexcolors ∧
      (clearVertexTriangles m').triangles = m'.triangles ∧
      (clearVertexTriangles m')._triangleAreas = m'._triangleAreas ∧
      _getPolyhedra (clearVertexTriangles m') [] = .ok (m1', polyList') := by
  obtain ⟨polyList, m', polyList', hrun, hm', hin', hrun', hlen, hf⟩ :=
    getPolyhedra_after_removal normalize m hI count hc
  have hbig : ∀ p' ∈ polyList', count < (p'.length : Int) := by
    intro p' hp'
    obtain ⟨p, hp, hl, _⟩ := forall₂_right_mem _ _ _ hf p' hp'
    have : count < (p.length : Int) := by simpa using (List.mem_filter.1 hp).2
    rw [hl]
    exact this
  refine ⟨_, polyList, m', _, polyList', hrun, hm', hrun', hbig, hlen, hf, ?_, rfl, rfl, rfl,
    rfl, rfl, hrun'⟩
  have hnc : ¬ count ≤ 0 := by omega
  have hR := collectSmallPolyhedra_eq count polyList' []
  simp only [List.nil_append] at hR
  have hnil : smallPolyhedraTriangles count polyList' = [] := by
    rw [List.eq_nil_iff_forall_not_mem]
    intro x hx
    obtain ⟨P, hP, hPs, _⟩ := (mem_smallPolyhedraTriangles count polyList' x).1 hx
    have := hbig P hP
    omega
  simp only [removeMinimumTriangleCountPolyhedra, hnc, if_false, hrun', ok_bind, hR, hnil,
    List.length_nil, if_true, pure_eq_ok]
  rfl

/-- The polyhedra of `exampleMeshFan` after the polyhedra of one triangle are
removed. -/
theorem removeMinimumTriangleCountPolyhedra_components_witness :
    I1 exampleMeshFan ∧
    ∃ (m1 : TriangleMesh) (polyList : List (List Int)) (m' m1' : TriangleMesh)
      (polyList' : List (List Int)),
      _getPolyhedra exampleMeshFan [] = .ok (m1, polyList) ∧
      removeMinimumTriangleCountPolyhedra id exampleMeshFan 1 = .ok m' ∧
      _getPolyhedra m' [] = .ok (m1', polyList') ∧
      (∀ p' ∈ polyList', (1 : Int) < (p'.length : Int)) ∧
      (keptPositions (smallPolyhedraTriangles 1 polyList)
        exampleMeshFan.triangles.length 0).length = m'.triangles.length ∧
      List.Forall₂
        (fun p p' => p'.length = p.length ∧ ∀ x' x : Int,
          vecGet (keptPositions (smallPolyhedraTriangles 1 polyList)
            exampleMeshFan.triangles.length 0) x' = .ok x → (x' ∈ p' ↔ x ∈ p))
        (polyList.filter fun p => decide ((1 : Int) < (p.length : Int))) polyList' ∧
      removeMinimumTriangleCountPolyhedra id m' 1 = .ok (clearVertexTriangles m') ∧
      (clearVertexTriangles m').vertices = m'.vertices ∧
      (clearVertexTriangles m').normals = m'.normals ∧
      (clearVertexTriangles m').vertexcolors = m'.vertexcolors ∧
      (clearVertexTriangles m').triangles = m'.triangles ∧
      (clearVertexTriangles m')._triangleAreas = m'._triangleAreas ∧
      _getPolyhedra (clearVertexTriangles m') [] = .ok (m1', polyList') :=
  ⟨by decide, removeMinimumTriangleCountPolyhedra_components id exampleMeshFan (by decide) 1
    (by decide)⟩

end GridFluidSim3D
